import Mathlib

/-!
Marvell CN10K ML poll-mode driver: device arguments and firmware bring-up

A shallow embedding of `drivers/ml/cnxk/cn10k_ml_dev.c`.

* C `int` and `uint64_t` values are `Int` and `Nat`; where the C arithmetic
  wraps, the wrap is written out (`% 2 ^ 64`).
* A `char *` is an `Option String`; `none` is the null pointer.
* `goto exit` is the `Except.error` arm of a block: it carries the state the
  function leaves behind.
* Functions of other libraries that the driver calls (kvargs, the C library,
  the ROC hardware layer, the EAL) are modelled next to their first use and
  say so in their doc comment.
-/

namespace Cn10kMl

/-! ## errno values (Linux, asm-generic/errno-base.h and errno.h) -/

def EINVAL : Int := 22
def ENOMEM : Int := 12
def ETIME : Int := 62

/-! ## Device argument names and defaults (lines 20-36) -/

def CN10K_ML_FW_PATH : String := "fw_path"
def CN10K_ML_FW_ENABLE_DPE_WARNINGS : String := "enable_dpe_warnings"
def CN10K_ML_FW_REPORT_DPE_WARNINGS : String := "report_dpe_warnings"
def CN10K_ML_DEV_CACHE_MODEL_DATA : String := "cache_model_data"
def CN10K_ML_OCM_ALLOC_MODE : String := "ocm_alloc_mode"
def CN10K_ML_DEV_HW_QUEUE_LOCK : String := "hw_queue_lock"
def CN10K_ML_FW_POLL_MEM : String := "poll_mem"
def CN10K_ML_OCM_PAGE_SIZE : String := "ocm_page_size"

def CN10K_ML_FW_PATH_DEFAULT : String := "/lib/firmware/mlip-fw.bin"
def CN10K_ML_FW_ENABLE_DPE_WARNINGS_DEFAULT : Int := 1
def CN10K_ML_FW_REPORT_DPE_WARNINGS_DEFAULT : Int := 0
def CN10K_ML_DEV_CACHE_MODEL_DATA_DEFAULT : Int := 1
def CN10K_ML_OCM_ALLOC_MODE_DEFAULT : String := "lowest"
def CN10K_ML_DEV_HW_QUEUE_LOCK_DEFAULT : Int := 1
def CN10K_ML_FW_POLL_MEM_DEFAULT : String := "ddr"
def CN10K_ML_OCM_PAGE_SIZE_DEFAULT : Int := 16384

/-! ## Firmware macros (lines 38-49) -/

def FW_MEMZONE_NAME : String := "ml_cn10k_fw_mz"
def FW_STACK_BUFFER_SIZE : Nat := 0x40000
def FW_DEBUG_BUFFER_SIZE : Nat := 2 * 0x20000
def FW_EXCEPTION_BUFFER_SIZE : Nat := 0x400
def FW_LINKER_OFFSET : Nat := 0x80000
def FW_WAIT_CYCLES : Nat := 100

/-- The C macro `BIT(n)`. -/
def BIT (n : Nat) : Nat := 1 <<< n

def FW_ENABLE_DPE_WARNING_BITMASK : Nat := BIT 0
def FW_REPORT_DPE_WARNING_BITMASK : Nat := BIT 1
def FW_USE_DDR_POLL_ADDR_FP : Nat := BIT 2

/-- The table `valid_args` (lines 51-59), without its terminating NULL. -/
def valid_args : List String :=
  [CN10K_ML_FW_PATH,
   CN10K_ML_FW_ENABLE_DPE_WARNINGS,
   CN10K_ML_FW_REPORT_DPE_WARNINGS,
   CN10K_ML_DEV_CACHE_MODEL_DATA,
   CN10K_ML_OCM_ALLOC_MODE,
   CN10K_ML_DEV_HW_QUEUE_LOCK,
   CN10K_ML_FW_POLL_MEM,
   CN10K_ML_OCM_PAGE_SIZE]

/-- Supported OCM page sizes: 1KB, 2KB, 4KB, 8KB and 16KB (line 62). -/
def valid_ocm_page_size : List Int := [1024, 2048, 4096, 8192, 16384]

/-! ## C library functions used by the argument handlers -/

/-- C library `isspace` in the "C" locale: space, `\t`, `\n`, `\v`, `\f`, `\r`. -/
def isspace (c : Char) : Bool :=
  c.toNat = 32 || (9 ≤ c.toNat && c.toNat ≤ 13)

/-- C library `isdigit`. -/
def isdigit (c : Char) : Bool :=
  48 ≤ c.toNat && c.toNat ≤ 57

/-- The digit loop of `strtol` in base 10: the value of the longest prefix of
decimal digits, accumulated onto `acc`. -/
def strtol_digits : List Char → Nat → Nat
  | [], acc => acc
  | c :: cs, acc =>
    if isdigit c then strtol_digits cs (10 * acc + (c.toNat - 48)) else acc

def LONG_MAX : Int := 2 ^ 63 - 1
def LONG_MIN : Int := -(2 ^ 63)

/-- C library `strtol(nptr, NULL, 10)` on an LP64 target: leading white space
is skipped, one optional sign is read, then the longest run of decimal digits;
no digits give 0; a value out of range is clamped to `LONG_MIN`/`LONG_MAX`. -/
def strtol (nptr : String) : Int :=
  match nptr.toList.dropWhile isspace with
  | '-' :: cs => max LONG_MIN (-(strtol_digits cs 0 : Int))
  | '+' :: cs => min LONG_MAX (strtol_digits cs 0 : Int)
  | cs => min LONG_MAX (strtol_digits cs 0 : Int)

/-- Conversion of a `long` to `int` (two's complement, 32 bits). -/
def long_to_int (x : Int) : Int := (x + 2 ^ 31) % 2 ^ 32 - 2 ^ 31

/-- C library `atoi`, which is `(int)strtol(nptr, NULL, 10)`. It reports no
error: a string without a leading integer converts to 0. -/
def atoi (nptr : String) : Int := long_to_int (strtol nptr)

/-- C library `strcmp`, of which the driver only tests the result against 0:
zero exactly when the two strings are equal, else the sign of the
lexicographic order. A null first argument (undefined in C) compares unequal. -/
def strcmp (s1 : Option String) (s2 : String) : Int :=
  match s1 with
  | none => -1
  | some a => if a = s2 then 0 else if a < s2 then -1 else 1

/-! ## The kvargs library (lib/kvargs, not part of the driver file) -/

/-- A parsed argument list: the `key=value` pairs of `devargs->args`, in the
order they were written. -/
abbrev rte_kvargs := List (String × String)

/-- Modelled from the spec: `rte_kvargs_parse` of lib/kvargs is not in the
driver file. The spec gives the resolver "a set of key=value string
arguments and a table of recognized keys" and says that "unrecognized keys in
a non-empty argument set fail immediately (parse-level rejection)": the
result is the list itself when every key is in `valid_keys`, and NULL
(`none`) otherwise. -/
def rte_kvargs_parse (args : rte_kvargs) (valid_keys : List String) : Option rte_kvargs :=
  if args.all (fun p => valid_keys.contains p.1) then some args else none

/-- Modelled from the spec: `rte_kvargs_count` of lib/kvargs is not in the
driver file. It is the number of entries of the list whose key is
`key_match`; the spec's "each key may appear at most once; if present more
than once ..." is about this number. -/
def rte_kvargs_count (kvlist : rte_kvargs) (key_match : String) : Nat :=
  match kvlist with
  | [] => 0
  | p :: rest =>
    if p.1 = key_match then rte_kvargs_count rest key_match + 1
    else rte_kvargs_count rest key_match

/-- Modelled from the spec: `rte_kvargs_process` of lib/kvargs is not in the
driver file. It calls `handler` on every entry whose key is `key_match`, in
list order, threading the object `extra_args` points to; it stops with -1 at
the first call that returns a negative value and returns 0 otherwise. -/
def rte_kvargs_process {σ : Type} (kvlist : rte_kvargs) (key_match : String)
    (handler : String → String → σ → Int × σ) (extra_args : σ) : Int × σ :=
  match kvlist with
  | [] => (0, extra_args)
  | p :: rest =>
    if p.1 = key_match then
      let r := handler p.1 p.2 extra_args
      if r.1 < 0 then (-1, r.2)
      else rte_kvargs_process rest key_match handler r.2
    else rte_kvargs_process rest key_match handler extra_args

/-! ## Device structures (the fields of cn10k_ml_dev.h this file uses) -/

/-- The fields of `struct cn10k_ml_fw` set from the device arguments, and the
two pointers `cn10k_ml_fw_load` sets: `req` and `data` (addresses, 0 for
NULL). -/
structure cn10k_ml_fw where
  path : Option String
  enable_dpe_warnings : Int
  report_dpe_warnings : Int
  poll_mem : Option String
  data : Nat
  req : Nat
deriving DecidableEq, Repr

structure cn10k_ml_ocm where
  alloc_mode : Option String
deriving DecidableEq, Repr

structure cn10k_ml_dev where
  fw : cn10k_ml_fw
  cache_model_data : Int
  ocm : cn10k_ml_ocm
  hw_queue_lock : Int
  ocm_page_size : Int
deriving DecidableEq, Repr

/-! ## Argument handlers (lines 67-93) -/

/-- Function `parse_string_arg` (lines 67-79). `extra_args` is the `char *` variable the
caller passes the address of, which is never NULL; `strdup` is taken to
succeed, so the -ENOMEM arm is not reached. -/
def parse_string_arg (_key : String) (value : Option String) (extra_args : Option String) :
    Int × Option String :=
  match value with
  | none => (-EINVAL, extra_args)
  | some v => (0, some v)

/-- Function `parse_integer_arg` (lines 81-93): `*i = atoi(value)`, negative is refused
after the store. -/
def parse_integer_arg (_key : String) (value : String) (_i : Int) : Int × Int :=
  let i := atoi value
  if i < 0 then (-EINVAL, i) else (0, i)

/-! ## `cn10k_mldev_parse_devargs` (lines 95-326) -/

/-- The local variables of `cn10k_mldev_parse_devargs` (lines 98-112), with the
device structure it writes through `mldev`. -/
structure devargs_state where
  enable_dpe_warnings_set : Bool
  report_dpe_warnings_set : Bool
  cache_model_data_set : Bool
  ocm_alloc_mode_set : Bool
  hw_queue_lock_set : Bool
  ocm_page_size_set : Bool
  ocm_alloc_mode : Option String
  poll_mem_set : Bool
  fw_path_set : Bool
  poll_mem : Option String
  fw_path : Option String
  ret : Int
  mldev : cn10k_ml_dev
deriving DecidableEq, Repr

/-- The initial values of the locals (lines 98-110). -/
def devargs_state.init (mldev : cn10k_ml_dev) : devargs_state :=
  { enable_dpe_warnings_set := false
    report_dpe_warnings_set := false
    cache_model_data_set := false
    ocm_alloc_mode_set := false
    hw_queue_lock_set := false
    ocm_page_size_set := false
    ocm_alloc_mode := none
    poll_mem_set := false
    fw_path_set := false
    poll_mem := none
    fw_path := none
    ret := 0
    mldev := mldev }

/-- Lines 123-131. -/
def process_fw_path (kvlist : rte_kvargs) (s : devargs_state) :
    Except devargs_state devargs_state :=
  if rte_kvargs_count kvlist CN10K_ML_FW_PATH = 1 then
    let r := rte_kvargs_process kvlist CN10K_ML_FW_PATH
      (fun k v => parse_string_arg k (some v)) s.fw_path
    if r.1 < 0 then .error { s with fw_path := r.2, ret := -EINVAL }
    else .ok { s with fw_path := r.2, ret := r.1, fw_path_set := true }
  else .ok s

/-- Lines 133-143. -/
def process_enable_dpe_warnings (kvlist : rte_kvargs) (s : devargs_state) :
    Except devargs_state devargs_state :=
  if rte_kvargs_count kvlist CN10K_ML_FW_ENABLE_DPE_WARNINGS = 1 then
    let r := rte_kvargs_process kvlist CN10K_ML_FW_ENABLE_DPE_WARNINGS
      parse_integer_arg s.mldev.fw.enable_dpe_warnings
    let mldev := { s.mldev with fw := { s.mldev.fw with enable_dpe_warnings := r.2 } }
    if r.1 < 0 then .error { s with mldev := mldev, ret := -EINVAL }
    else .ok { s with mldev := mldev, ret := r.1, enable_dpe_warnings_set := true }
  else .ok s

/-- Lines 145-155. -/
def process_report_dpe_warnings (kvlist : rte_kvargs) (s : devargs_state) :
    Except devargs_state devargs_state :=
  if rte_kvargs_count kvlist CN10K_ML_FW_REPORT_DPE_WARNINGS = 1 then
    let r := rte_kvargs_process kvlist CN10K_ML_FW_REPORT_DPE_WARNINGS
      parse_integer_arg s.mldev.fw.report_dpe_warnings
    let mldev := { s.mldev with fw := { s.mldev.fw with report_dpe_warnings := r.2 } }
    if r.1 < 0 then .error { s with mldev := mldev, ret := -EINVAL }
    else .ok { s with mldev := mldev, ret := r.1, report_dpe_warnings_set := true }
  else .ok s

/-- Lines 157-167. -/
def process_cache_model_data (kvlist : rte_kvargs) (s : devargs_state) :
    Except devargs_state devargs_state :=
  if rte_kvargs_count kvlist CN10K_ML_DEV_CACHE_MODEL_DATA = 1 then
    let r := rte_kvargs_process kvlist CN10K_ML_DEV_CACHE_MODEL_DATA
      parse_integer_arg s.mldev.cache_model_data
    let mldev := { s.mldev with cache_model_data := r.2 }
    if r.1 < 0 then .error { s with mldev := mldev, ret := -EINVAL }
    else .ok { s with mldev := mldev, ret := r.1, cache_model_data_set := true }
  else .ok s

/-- Lines 169-178. -/
def process_ocm_alloc_mode (kvlist : rte_kvargs) (s : devargs_state) :
    Except devargs_state devargs_state :=
  if rte_kvargs_count kvlist CN10K_ML_OCM_ALLOC_MODE = 1 then
    let r := rte_kvargs_process kvlist CN10K_ML_OCM_ALLOC_MODE
      (fun k v => parse_string_arg k (some v)) s.ocm_alloc_mode
    if r.1 < 0 then .error { s with ocm_alloc_mode := r.2, ret := -EINVAL }
    else .ok { s with ocm_alloc_mode := r.2, ret := r.1, ocm_alloc_mode_set := true }
  else .ok s

/-- Lines 180-190. -/
def process_hw_queue_lock (kvlist : rte_kvargs) (s : devargs_state) :
    Except devargs_state devargs_state :=
  if rte_kvargs_count kvlist CN10K_ML_DEV_HW_QUEUE_LOCK = 1 then
    let r := rte_kvargs_process kvlist CN10K_ML_DEV_HW_QUEUE_LOCK
      parse_integer_arg s.mldev.hw_queue_lock
    let mldev := { s.mldev with hw_queue_lock := r.2 }
    if r.1 < 0 then .error { s with mldev := mldev, ret := -EINVAL }
    else .ok { s with mldev := mldev, ret := r.1, hw_queue_lock_set := true }
  else .ok s

/-- Lines 192-201. -/
def process_poll_mem (kvlist : rte_kvargs) (s : devargs_state) :
    Except devargs_state devargs_state :=
  if rte_kvargs_count kvlist CN10K_ML_FW_POLL_MEM = 1 then
    let r := rte_kvargs_process kvlist CN10K_ML_FW_POLL_MEM
      (fun k v => parse_string_arg k (some v)) s.poll_mem
    if r.1 < 0 then .error { s with poll_mem := r.2, ret := -EINVAL }
    else .ok { s with poll_mem := r.2, ret := r.1, poll_mem_set := true }
  else .ok s

/-- Lines 203-212. -/
def process_ocm_page_size (kvlist : rte_kvargs) (s : devargs_state) :
    Except devargs_state devargs_state :=
  if rte_kvargs_count kvlist CN10K_ML_OCM_PAGE_SIZE = 1 then
    let r := rte_kvargs_process kvlist CN10K_ML_OCM_PAGE_SIZE
      parse_integer_arg s.mldev.ocm_page_size
    let mldev := { s.mldev with ocm_page_size := r.2 }
    if r.1 < 0 then .error { s with mldev := mldev, ret := -EINVAL }
    else .ok { s with mldev := mldev, ret := r.1, ocm_page_size_set := true }
  else .ok s

/-- Lines 123-212: the eight keys are processed in this order; the first
handler failure leaves through `exit`. -/
def process_devargs (kvlist : rte_kvargs) (s : devargs_state) :
    Except devargs_state devargs_state :=
  process_fw_path kvlist s >>= process_enable_dpe_warnings kvlist
    >>= process_report_dpe_warnings kvlist >>= process_cache_model_data kvlist
    >>= process_ocm_alloc_mode kvlist >>= process_hw_queue_lock kvlist
    >>= process_poll_mem kvlist >>= process_ocm_page_size kvlist

/-- Lines 215-219. -/
def check_fw_path (s : devargs_state) : Except devargs_state devargs_state :=
  if !s.fw_path_set then
    .ok { s with mldev := { s.mldev with fw := { s.mldev.fw with
      path := some CN10K_ML_FW_PATH_DEFAULT } } }
  else
    .ok { s with mldev := { s.mldev with fw := { s.mldev.fw with path := s.fw_path } } }

/-- Lines 221-231. -/
def check_enable_dpe_warnings (s : devargs_state) : Except devargs_state devargs_state :=
  if !s.enable_dpe_warnings_set then
    .ok { s with mldev := { s.mldev with fw := { s.mldev.fw with
      enable_dpe_warnings := CN10K_ML_FW_ENABLE_DPE_WARNINGS_DEFAULT } } }
  else if s.mldev.fw.enable_dpe_warnings < 0 ∨ s.mldev.fw.enable_dpe_warnings > 1 then
    .error { s with ret := -EINVAL }
  else .ok s

/-- Lines 233-243. -/
def check_report_dpe_warnings (s : devargs_state) : Except devargs_state devargs_state :=
  if !s.report_dpe_warnings_set then
    .ok { s with mldev := { s.mldev with fw := { s.mldev.fw with
      report_dpe_warnings := CN10K_ML_FW_REPORT_DPE_WARNINGS_DEFAULT } } }
  else if s.mldev.fw.report_dpe_warnings < 0 ∨ s.mldev.fw.report_dpe_warnings > 1 then
    .error { s with ret := -EINVAL }
  else .ok s

/-- Lines 245-255. -/
def check_cache_model_data (s : devargs_state) : Except devargs_state devargs_state :=
  if !s.cache_model_data_set then
    .ok { s with mldev := { s.mldev with
      cache_model_data := CN10K_ML_DEV_CACHE_MODEL_DATA_DEFAULT } }
  else if s.mldev.cache_model_data < 0 ∨ s.mldev.cache_model_data > 1 then
    .error { s with ret := -EINVAL }
  else .ok s

/-- Lines 257-269. -/
def check_ocm_alloc_mode (s : devargs_state) : Except devargs_state devargs_state :=
  if !s.ocm_alloc_mode_set then
    .ok { s with mldev := { s.mldev with
      ocm := { s.mldev.ocm with alloc_mode := some CN10K_ML_OCM_ALLOC_MODE_DEFAULT } } }
  else if ¬(strcmp s.ocm_alloc_mode "lowest" = 0 ∨ strcmp s.ocm_alloc_mode "largest" = 0) then
    .error { s with ret := -EINVAL }
  else
    .ok { s with mldev := { s.mldev with
      ocm := { s.mldev.ocm with alloc_mode := s.ocm_alloc_mode } } }

/-- Lines 271-281. -/
def check_hw_queue_lock (s : devargs_state) : Except devargs_state devargs_state :=
  if !s.hw_queue_lock_set then
    .ok { s with mldev := { s.mldev with
      hw_queue_lock := CN10K_ML_DEV_HW_QUEUE_LOCK_DEFAULT } }
  else if s.mldev.hw_queue_lock < 0 ∨ s.mldev.hw_queue_lock > 1 then
    .error { s with ret := -EINVAL }
  else .ok s

/-- Lines 283-293. -/
def check_poll_mem (s : devargs_state) : Except devargs_state devargs_state :=
  if !s.poll_mem_set then
    .ok { s with mldev := { s.mldev with fw := { s.mldev.fw with
      poll_mem := some CN10K_ML_FW_POLL_MEM_DEFAULT } } }
  else if ¬(strcmp s.poll_mem "ddr" = 0 ∨ strcmp s.poll_mem "register" = 0) then
    .error { s with ret := -EINVAL }
  else
    .ok { s with mldev := { s.mldev with fw := { s.mldev.fw with poll_mem := s.poll_mem } } }

/-- The search loop of lines 305-311 over `valid_ocm_page_size`: `found`. -/
def ocm_page_size_found (ocm_page_size : Int) : List Int → Bool
  | [] => false
  | v :: rest => if ocm_page_size = v then true else ocm_page_size_found ocm_page_size rest

/-- Lines 295-319. -/
def check_ocm_page_size (s : devargs_state) : Except devargs_state devargs_state :=
  if !s.ocm_page_size_set then
    .ok { s with mldev := { s.mldev with ocm_page_size := CN10K_ML_OCM_PAGE_SIZE_DEFAULT } }
  else if s.mldev.ocm_page_size < 0 then
    .error { s with ret := -EINVAL }
  else if !ocm_page_size_found s.mldev.ocm_page_size valid_ocm_page_size then
    .error { s with ret := -EINVAL }
  else .ok s

/-- Lines 214-319, the label `check_args`: defaults and range checks, in this
order; the first failed check leaves through `exit`. -/
def check_args (s : devargs_state) : Except devargs_state devargs_state :=
  check_fw_path s >>= check_enable_dpe_warnings >>= check_report_dpe_warnings
    >>= check_cache_model_data >>= check_ocm_alloc_mode >>= check_hw_queue_lock
    >>= check_poll_mem >>= check_ocm_page_size

/-- The label `exit` (lines 321-325): the function returns `ret`; the device
structure keeps what was written to it. -/
def devargs_exit (r : Except devargs_state devargs_state) : Int × cn10k_ml_dev :=
  match r with
  | .ok s => (s.ret, s.mldev)
  | .error s => (s.ret, s.mldev)

/-- Function `cn10k_mldev_parse_devargs` (lines 95-326). `devargs` is `none` for a NULL
pointer and otherwise holds the pairs of `devargs->args`. The result is the
return value and the device structure after the call. -/
def cn10k_mldev_parse_devargs (devargs : Option rte_kvargs) (mldev : cn10k_ml_dev) :
    Int × cn10k_ml_dev :=
  match devargs with
  | none => devargs_exit (check_args (devargs_state.init mldev))
  | some args =>
    match rte_kvargs_parse args valid_args with
    | none => (-EINVAL, mldev)
    | some kvlist =>
      devargs_exit (process_devargs kvlist (devargs_state.init mldev) >>= check_args)

/-- A device structure as `rte_ml_dev_pmd_create` hands it over: zeroed. -/
def mldev_zero : cn10k_ml_dev :=
  { fw := { path := none, enable_dpe_warnings := 0, report_dpe_warnings := 0,
            poll_mem := none, data := 0, req := 0 }
    cache_model_data := 0
    ocm := { alloc_mode := none }
    hw_queue_lock := 0
    ocm_page_size := 0 }

/-! ## `cn10k_ml_fw_flags_get` (lines 443-460) -/

/-- Bitwise complement of a `uint64_t`. -/
def not64 (m : Nat) : Nat := (2 ^ 64 - 1) ^^^ m

/-- Function `cn10k_ml_fw_flags_get` (lines 443-460). The two warning fields are C
`int`s tested for non-zero. -/
def cn10k_ml_fw_flags_get (fw : cn10k_ml_fw) : Nat :=
  let flags : Nat := 0x0
  let flags := if fw.enable_dpe_warnings ≠ 0 then flags ||| FW_ENABLE_DPE_WARNING_BITMASK else flags
  let flags := if fw.report_dpe_warnings ≠ 0 then flags ||| FW_REPORT_DPE_WARNING_BITMASK else flags
  if strcmp fw.poll_mem "ddr" = 0 then flags ||| FW_USE_DDR_POLL_ADDR_FP
  else if strcmp fw.poll_mem "register" = 0 then flags &&& not64 FW_USE_DDR_POLL_ADDR_FP
  else flags

/-! ## The hardware layer the firmware loader runs on

The ROC layer (`roc_ml_*`, `roc_env_*`), the EAL (`plt_memzone_*`,
`rte_firmware_read`, `plt_tsc_*`) and the headers `roc_ml.h`,
`cn10k_ml_dev.h`, `cn10k_ml_ops.h` are not part of the driver file. Their
constants and the answers of the platform are the fields of `ml_env`; the
state the loader changes is `ml_world`. -/

/-- The registers `cn10k_ml_dev.c` reads or writes, by the name of their
offset macro. -/
inductive ml_reg where
  | ML_SCRATCH_DBG_BUFFER_HEAD_C0
  | ML_SCRATCH_DBG_BUFFER_TAIL_C0
  | ML_SCRATCH_DBG_BUFFER_HEAD_C1
  | ML_SCRATCH_DBG_BUFFER_TAIL_C1
  | ML_SCRATCH_EXCEPTION_SP_C0
  | ML_SCRATCH_EXCEPTION_SP_C1
  | ML_MLR_BASE
  | ML_AXI_BRIDGE_CTRL (a : Nat)
  | ML_ANBX_BACKP_DISABLE (a : Nat)
  | ML_ANBX_NCBI_P_OVR (a : Nat)
  | ML_ANBX_NCBI_NP_OVR (a : Nat)
  | ML_CFG
  | ML_JOB_MGR_CTRL
  | ML_A35_0_RST_VECTOR_BASE_W (a : Nat)
  | ML_A35_1_RST_VECTOR_BASE_W (a : Nat)
  | ML_SW_RST_CTRL
  | ML_SCRATCH_WORK_PTR
  | ML_SCRATCH_FW_CTRL
deriving DecidableEq, Repr

/-- A reserved memory zone: `mz->addr` and its length. -/
structure plt_memzone where
  addr : Nat
  len : Nat
deriving DecidableEq, Repr

/-- What the loader does to the outside world, in program order. -/
inductive hw_event where
  | reg_write64 (val : Nat) (reg : ml_reg)
  | reg_write32 (val : Nat) (reg : ml_reg)
  | reg_save (reg : ml_reg)
  | memcpy (dst : Nat) (len : Nat)
  | delay_us (us : Nat)
  | scratch_enqueue (work_ptr : Nat)
  | mlip_reset (force : Bool)
  | firmware_read (path : Option String)
  | free_fw_buffer
  | memzone_reserve (name : String) (len : Nat) (align : Nat)
  | memzone_free (name : String)
  | wmb
  | rmb
deriving DecidableEq, Repr

/-- What `rte_firmware_read` hands back: its return value, the buffer and the
size it stored. -/
structure firmware_read_result where
  ret : Int
  fw_buffer : Option (List Nat)
  fw_size : Nat

/-- Constants of the headers that are not in the driver file, and the answers
of the platform. -/
structure ml_env where
  ROC_ML_CFG_JD_SIZE : Nat
  ROC_ML_CFG_MLIP_ENA : Nat
  ROC_ML_CFG_MLIP_CLK_FORCE : Nat
  ROC_ML_CFG_ENA : Nat
  ROC_ML_JOB_MGR_CTRL_STALL_ON_IDLE : Nat
  ROC_ML_SW_RST_CTRL_ACC_RST : Nat
  ROC_ML_AXI_BRIDGE_CTRL_AXI_RESP_CTRL : Nat
  ROC_ML_AXI_BRIDGE_CTRL_BRIDGE_CTRL_MODE : Nat
  ROC_ML_AXI_BRIDGE_CTRL_NCB_WR_BLK : Nat
  ROC_ML_AXI_BRIDGE_CTRL_FORCE_WRESP_OK : Nat
  ROC_ML_AXI_BRIDGE_CTRL_FORCE_RRESP_OK : Nat
  ROC_ML_ANBX_BACKP_DISABLE_EXTMSTR_B_BACKP_DISABLE : Nat
  ROC_ML_ANBX_BACKP_DISABLE_EXTMSTR_R_BACKP_DISABLE : Nat
  ML_ANBX_NCBI_P_OVR_ANB_NCBI_P_NS_OVR : Nat
  ML_ANBX_NCBI_P_OVR_ANB_NCBI_P_NS_OVR_VLD : Nat
  ML_ANBX_NCBI_NP_OVR_ANB_NCBI_NP_NS_OVR : Nat
  ML_ANBX_NCBI_NP_OVR_ANB_NCBI_NP_NS_OVR_VLD : Nat
  ML_ANBX_NCBI_P_OVR_ANB_NCBI_P_RO_OVR : Nat
  ML_ANBX_NCBI_P_OVR_ANB_NCBI_P_RO_OVR_VLD : Nat
  ML_ANBX_NR : Nat
  ML_AXI_START_ADDR : Nat
  ML_CN10K_CMD_TIMEOUT : Nat
  ML_CN10K_POLL_JOB_START : Nat
  ML_CN10K_POLL_JOB_FINISH : Nat
  ML_CN10K_JOB_TYPE_FIRMWARE_LOAD : Nat
  ML_CN10K_ALIGN_SIZE : Nat
  /-- The value of `sizeof(struct cn10k_ml_req)`. -/
  sizeof_cn10k_ml_req : Nat
  /-- The value of `offsetof(struct cn10k_ml_req, jd)`. -/
  offsetof_jd : Nat
  /-- The value of `offsetof(struct cn10k_ml_req, status)`. -/
  offsetof_status : Nat
  /-- The value of `offsetof(struct cn10k_ml_req, result)`. -/
  offsetof_result : Nat
  roc_env_is_emulator : Bool
  roc_env_is_hw : Bool
  roc_env_is_asim : Bool
  rte_eal_get_baseaddr : Nat
  plt_tsc_hz : Nat
  /-- The value the cycle counter shows at its `k`-th read. -/
  plt_tsc_cycles : Nat → Nat
  roc_ml_addr_ap2mlip : Nat → Nat
  rte_firmware_read : Option String → firmware_read_result
  /-- The address the allocator gives a zone of this length and alignment, or
  `none` when it has no room. -/
  memzone_alloc : Nat → Nat → Option Nat
  /-- The answer of `roc_ml_mlip_is_enabled` for a register file. -/
  roc_ml_mlip_is_enabled : (ml_reg → Nat) → Bool
  /-- The register file after `roc_ml_mlip_reset`. -/
  mlip_reset_regs : Bool → (ml_reg → Nat) → (ml_reg → Nat)
  /-- The register file after `roc_ml_scratch_enqueue` of a work pointer. -/
  scratch_enqueue_regs : Nat → (ml_reg → Nat) → (ml_reg → Nat)
  /-- The answer of `roc_ml_scratch_is_done_bit_set` at the `k`-th completion
  check. -/
  scratch_is_done_bit_set : Nat → Bool
  /-- The status word `fw->req->status` as the `k`-th completion check reads
  it. -/
  req_status : Nat → Nat
  /-- The word `fw->req->result.error_code.u64` as read after the poll loop. -/
  result_error_code : Nat

/-- The fields of `struct cn10k_ml_req` the loader writes: the job descriptor
header, the firmware-load flags and the status word. -/
structure cn10k_ml_req where
  jd_hdr_jce_w1 : Nat
  jd_hdr_job_type : Nat
  jd_hdr_result : Nat
  jd_fw_load_flags : Nat
  status : Nat
deriving DecidableEq, Repr

/-- The state the loader works on. A register read returns the value `regs`
holds, which is the last one written unless a reset or an enqueue changed
it. `memzones` is the table of named zones. `tsc_reads` and `polls` count the
reads of the cycle counter and the completion checks made so far. -/
structure ml_world where
  mldev : cn10k_ml_dev
  regs : ml_reg → Nat
  memzones : String → Option plt_memzone
  req : cn10k_ml_req
  tsc_reads : Nat
  polls : Nat
  trace : List hw_event

def roc_ml_reg_read64 (reg : ml_reg) (w : ml_world) : Nat := w.regs reg

def roc_ml_reg_write64 (val : Nat) (reg : ml_reg) (w : ml_world) : ml_world :=
  { w with regs := Function.update w.regs reg val
           trace := w.trace ++ [hw_event.reg_write64 val reg] }

def roc_ml_reg_read32 (reg : ml_reg) (w : ml_world) : Nat := w.regs reg % 2 ^ 32

def roc_ml_reg_write32 (val : Nat) (reg : ml_reg) (w : ml_world) : ml_world :=
  { w with regs := Function.update w.regs reg val
           trace := w.trace ++ [hw_event.reg_write32 val reg] }

def roc_ml_reg_save (reg : ml_reg) (w : ml_world) : ml_world :=
  { w with trace := w.trace ++ [hw_event.reg_save reg] }

def roc_ml_mlip_reset (E : ml_env) (force : Bool) (w : ml_world) : ml_world :=
  { w with regs := E.mlip_reset_regs force w.regs
           trace := w.trace ++ [hw_event.mlip_reset force] }

def roc_ml_scratch_enqueue (E : ml_env) (work_ptr : Nat) (w : ml_world) : ml_world :=
  { w with regs := E.scratch_enqueue_regs work_ptr w.regs
           trace := w.trace ++ [hw_event.scratch_enqueue work_ptr] }

/-- Function `plt_tsc_cycles`: the next value of the cycle counter. -/
def plt_tsc_cycles (E : ml_env) (w : ml_world) : Nat × ml_world :=
  (E.plt_tsc_cycles w.tsc_reads, { w with tsc_reads := w.tsc_reads + 1 })

def log_event (e : hw_event) (w : ml_world) : ml_world :=
  { w with trace := w.trace ++ [e] }

/-- Modelled from the spec: `plt_memzone_lookup` is not in the driver file.
"Looks up the named scratch memory region": the table entry of the name. -/
def plt_memzone_lookup (name : String) (w : ml_world) : Option plt_memzone :=
  w.memzones name

/-- Modelled from the spec: `plt_memzone_free` is not in the driver file.
"Releases it": the name has no zone afterwards. -/
def plt_memzone_free (name : String) (w : ml_world) : ml_world :=
  { w with memzones := Function.update w.memzones name none
           trace := w.trace ++ [hw_event.memzone_free name] }

/-- Modelled from the spec: `plt_memzone_reserve_aligned` is not in the driver
file. "Reserve a named, alignment-constrained scratch region of the computed
size", with "at most one live reservation under that name": it returns NULL
when the name is taken or the allocator has no room, and otherwise enters the
zone in the table. -/
def plt_memzone_reserve_aligned (E : ml_env) (name : String) (len align : Nat)
    (w : ml_world) : Option plt_memzone × ml_world :=
  let w := log_event (hw_event.memzone_reserve name len align) w
  match w.memzones name with
  | some _ => (none, w)
  | none =>
    match E.memzone_alloc len align with
    | none => (none, w)
    | some addr =>
      (some { addr := addr, len := len },
       { w with memzones := Function.update w.memzones name (some { addr := addr, len := len }) })

/-- Addition of `uint64_t` values. -/
def add64 (a b : Nat) : Nat := (a + b) % 2 ^ 64

/-- Subtraction of `uint64_t` values. -/
def sub64 (a b : Nat) : Nat := (a % 2 ^ 64 + 2 ^ 64 - b % 2 ^ 64) % 2 ^ 64

/-- Multiplication of `uint64_t` values. -/
def mul64 (a b : Nat) : Nat := (a * b) % 2 ^ 64

/-- The six writes of lines 473-479 and 561-567. -/
def reset_debug_pointers (w : ml_world) : ml_world :=
  let w := roc_ml_reg_write64 0 ml_reg.ML_SCRATCH_DBG_BUFFER_HEAD_C0 w
  let w := roc_ml_reg_write64 0 ml_reg.ML_SCRATCH_DBG_BUFFER_TAIL_C0 w
  let w := roc_ml_reg_write64 0 ml_reg.ML_SCRATCH_DBG_BUFFER_HEAD_C1 w
  let w := roc_ml_reg_write64 0 ml_reg.ML_SCRATCH_DBG_BUFFER_TAIL_C1 w
  let w := roc_ml_reg_write64 0 ml_reg.ML_SCRATCH_EXCEPTION_SP_C0 w
  roc_ml_reg_write64 0 ml_reg.ML_SCRATCH_EXCEPTION_SP_C1 w

/-! ## `cn10k_ml_fw_load_asim` (lines 462-543) -/

/-- The `do ... while` loop of lines 501-507. The result is the variable
`timeout`; `none` when `fuel` iterations did not end the loop. -/
def asim_poll (E : ml_env) (timeout_cycle : Nat) : Nat → ml_world → Option (Bool × ml_world)
  | 0, _ => none
  | fuel + 1, w =>
    let done := E.scratch_is_done_bit_set w.polls
    let status := E.req_status w.polls
    let w := { w with polls := w.polls + 1 }
    if done && status == E.ML_CN10K_POLL_JOB_FINISH then some (false, w)
    else
      let now := plt_tsc_cycles E w
      if now.1 < timeout_cycle then asim_poll E timeout_cycle fuel now.2
      else some (true, now.2)

/-- Function `cn10k_ml_fw_load_asim` (lines 462-543): the return value and the world
after the call; `none` when the poll loop needs more than `fuel` iterations. -/
def cn10k_ml_fw_load_asim (E : ml_env) (fuel : Nat) (w : ml_world) :
    Option (Int × ml_world) :=
  let ret : Int := 0
  /- Reset HEAD and TAIL debug pointer registers -/
  let w := reset_debug_pointers w
  /- Set ML_MLR_BASE to base IOVA of the ML region in LLC/DRAM. -/
  let reg_val64 := E.rte_eal_get_baseaddr
  let w := roc_ml_reg_write64 reg_val64 ml_reg.ML_MLR_BASE w
  let w := roc_ml_reg_save ml_reg.ML_MLR_BASE w
  /- Update FW load completion structure -/
  let req := { w.req with
    jd_hdr_jce_w1 := w.mldev.fw.req + E.offsetof_status
    jd_hdr_job_type := E.ML_CN10K_JOB_TYPE_FIRMWARE_LOAD
    jd_hdr_result := E.roc_ml_addr_ap2mlip (w.mldev.fw.req + E.offsetof_result)
    jd_fw_load_flags := cn10k_ml_fw_flags_get w.mldev.fw
    status := E.ML_CN10K_POLL_JOB_START }
  let w := log_event hw_event.wmb { w with req := req }
  /- Enqueue FW load through scratch registers -/
  let now := plt_tsc_cycles E w
  let timeout_cycle := add64 now.1 (mul64 E.ML_CN10K_CMD_TIMEOUT E.plt_tsc_hz)
  let w := roc_ml_scratch_enqueue E (now.2.mldev.fw.req + E.offsetof_jd) now.2
  let w := log_event hw_event.rmb w
  match asim_poll E timeout_cycle fuel w with
  | none => none
  | some (timeout, w) =>
    /- Check firmware load status, clean-up and exit on failure. -/
    if !timeout && E.result_error_code == 0 then
      /- Reset scratch registers -/
      let w := roc_ml_reg_write64 0 ml_reg.ML_SCRATCH_FW_CTRL w
      let w := roc_ml_reg_write64 0 ml_reg.ML_SCRATCH_WORK_PTR w
      /- Disable job execution, to be enabled in start -/
      let reg_val64 := roc_ml_reg_read64 ml_reg.ML_CFG w
      let reg_val64 := reg_val64 &&& not64 E.ROC_ML_CFG_ENA
      let w := roc_ml_reg_write64 reg_val64 ml_reg.ML_CFG w
      some (ret, w)
    else
      /- Set ML to disable new jobs -/
      let reg_val64 := E.ROC_ML_CFG_JD_SIZE ||| E.ROC_ML_CFG_MLIP_ENA
      let w := roc_ml_reg_write64 reg_val64 ml_reg.ML_CFG w
      /- Clear scratch registers -/
      let w := roc_ml_reg_write64 0 ml_reg.ML_SCRATCH_WORK_PTR w
      let w := roc_ml_reg_write64 0 ml_reg.ML_SCRATCH_FW_CTRL w
      if timeout then some (-ETIME, w) else some (-1, w)

/-! ## `cn10k_ml_fw_load_cn10ka` (lines 545-764) -/

/-- The loop of lines 591-597, from index `i` for `n` more rounds. -/
def backp_disable_loop (E : ml_env) : Nat → Nat → ml_world → ml_world
  | 0, _, w => w
  | n + 1, i, w =>
    let reg_val64 := E.ROC_ML_ANBX_BACKP_DISABLE_EXTMSTR_B_BACKP_DISABLE |||
      E.ROC_ML_ANBX_BACKP_DISABLE_EXTMSTR_R_BACKP_DISABLE
    let w := roc_ml_reg_write64 reg_val64 (ml_reg.ML_ANBX_BACKP_DISABLE i) w
    backp_disable_loop E n (i + 1) w

/-- The loop of lines 602-614, from index `i` for `n` more rounds. -/
def ncbi_ns_ovr_loop (E : ml_env) : Nat → Nat → ml_world → ml_world
  | 0, _, w => w
  | n + 1, i, w =>
    let reg_val64 := E.ML_ANBX_NCBI_P_OVR_ANB_NCBI_P_NS_OVR |||
      E.ML_ANBX_NCBI_P_OVR_ANB_NCBI_P_NS_OVR_VLD
    let w := roc_ml_reg_write64 reg_val64 (ml_reg.ML_ANBX_NCBI_P_OVR i) w
    let reg_val64 := reg_val64 ||| (E.ML_ANBX_NCBI_NP_OVR_ANB_NCBI_NP_NS_OVR |||
      E.ML_ANBX_NCBI_NP_OVR_ANB_NCBI_NP_NS_OVR_VLD)
    let w := roc_ml_reg_write64 reg_val64 (ml_reg.ML_ANBX_NCBI_NP_OVR i) w
    ncbi_ns_ovr_loop E n (i + 1) w

/-- The loop of lines 756-761, from index `i` for `n` more rounds. -/
def ncbi_ro_ovr_loop (E : ml_env) : Nat → Nat → ml_world → ml_world
  | 0, _, w => w
  | n + 1, i, w =>
    let reg_val64 := roc_ml_reg_read64 (ml_reg.ML_ANBX_NCBI_P_OVR i) w
    let reg_val64 := reg_val64 ||| (E.ML_ANBX_NCBI_P_OVR_ANB_NCBI_P_RO_OVR |||
      E.ML_ANBX_NCBI_P_OVR_ANB_NCBI_P_RO_OVR_VLD)
    let w := roc_ml_reg_write64 reg_val64 (ml_reg.ML_ANBX_NCBI_P_OVR i) w
    ncbi_ro_ovr_loop E n (i + 1) w

/-- The `do ... while` loop of lines 692-698. The result is the variable
`timeout`; `none` when `fuel` iterations did not end the loop. -/
def cn10ka_poll (E : ml_env) (timeout_cycle : Nat) : Nat → ml_world → Option (Bool × ml_world)
  | 0, _ => none
  | fuel + 1, w =>
    let done := E.scratch_is_done_bit_set w.polls
    let status := E.req_status w.polls
    let w := { w with polls := w.polls + 1 }
    if done && status == E.ML_CN10K_POLL_JOB_FINISH then some (false, w)
    else
      let now := plt_tsc_cycles E w
      if now.1 < timeout_cycle then cn10ka_poll E timeout_cycle fuel now.2
      else some (true, now.2)

/-- Function `cn10k_ml_fw_load_cn10ka` (lines 545-764): the return value and the world
after the call; `none` when the poll loop needs more than `fuel` iterations.
The union `ml_a35_0_rst_vector_base_s` of `roc_ml.h` is taken as the 64-bit
word `addr` with `w0` its low and `w1` its high half. -/
def cn10k_ml_fw_load_cn10ka (E : ml_env) (fuel : Nat) (_buffer : Option (List Nat))
    (size : Nat) (w : ml_world) : Option (Int × ml_world) :=
  let ret : Int := 0
  /- Reset HEAD and TAIL debug pointer registers -/
  let w := reset_debug_pointers w
  /- (1) Write firmware images for ACC's two A35 cores to the ML region. -/
  let w := log_event (hw_event.memcpy (w.mldev.fw.data + FW_LINKER_OFFSET) size) w
  /- (2) Set ML(0)_MLR_BASE = Base IOVA of the ML region in LLC/DRAM. -/
  let reg_val64 := sub64 w.mldev.fw.data E.rte_eal_get_baseaddr
  let w := roc_ml_reg_write64 reg_val64 ml_reg.ML_MLR_BASE w
  let w := roc_ml_reg_save ml_reg.ML_MLR_BASE w
  /- (3) Set ML(0)_AXI_BRIDGE_CTRL(1) = 0x184003 -/
  let reg_val64 := E.ROC_ML_AXI_BRIDGE_CTRL_AXI_RESP_CTRL |||
    E.ROC_ML_AXI_BRIDGE_CTRL_BRIDGE_CTRL_MODE ||| E.ROC_ML_AXI_BRIDGE_CTRL_NCB_WR_BLK |||
    E.ROC_ML_AXI_BRIDGE_CTRL_FORCE_WRESP_OK ||| E.ROC_ML_AXI_BRIDGE_CTRL_FORCE_RRESP_OK
  let w := roc_ml_reg_write64 reg_val64 (ml_reg.ML_AXI_BRIDGE_CTRL 1) w
  /- (4) Set ML(0)_ANB(0..2)_BACKP_DISABLE = 0x3 -/
  let w := backp_disable_loop E E.ML_ANBX_NR 0 w
  /- (5) Set ML(0)_ANB(0..2)_NCBI_P_OVR = 0x3000 and ML(0)_ANB(0..2)_NCBI_NP_OVR = 0x3000 -/
  let w := ncbi_ns_ovr_loop E E.ML_ANBX_NR 0 w
  /- (6) Set ML(0)_CFG[MLIP_CLK_FORCE] = 1 -/
  let reg_val64 := roc_ml_reg_read64 ml_reg.ML_CFG w
  let reg_val64 := reg_val64 ||| E.ROC_ML_CFG_MLIP_CLK_FORCE
  let w := roc_ml_reg_write64 reg_val64 ml_reg.ML_CFG w
  /- (7) Set ML(0)_JOB_MGR_CTRL[STALL_ON_IDLE] = 0 -/
  let reg_val64 := roc_ml_reg_read64 ml_reg.ML_JOB_MGR_CTRL w
  let reg_val64 := reg_val64 &&& not64 E.ROC_ML_JOB_MGR_CTRL_STALL_ON_IDLE
  let w := roc_ml_reg_write64 reg_val64 ml_reg.ML_JOB_MGR_CTRL w
  /- (8) Set ML(0)_CFG[ENA] = 0 and ML(0)_CFG[MLIP_ENA] = 1 -/
  let reg_val64 := roc_ml_reg_read64 ml_reg.ML_CFG w
  let reg_val64 := reg_val64 ||| E.ROC_ML_CFG_MLIP_ENA
  let reg_val64 := reg_val64 &&& not64 E.ROC_ML_CFG_ENA
  let w := roc_ml_reg_write64 reg_val64 ml_reg.ML_CFG w
  /- (9) Wait at least 70 coprocessor clock cycles. -/
  let w := log_event (hw_event.delay_us FW_WAIT_CYCLES) w
  /- (10) Write ML outbound addresses pointing to the firmware images -/
  let offset := add64 w.mldev.fw.data
    (sub64 FW_LINKER_OFFSET (roc_ml_reg_read64 ml_reg.ML_MLR_BASE w))
  let a35_0_rst_vector_base := add64 offset E.ML_AXI_START_ADDR / 4
  let a35_1_rst_vector_base := add64 offset E.ML_AXI_START_ADDR / 4
  let w := roc_ml_reg_write32 (a35_0_rst_vector_base % 2 ^ 32)
    (ml_reg.ML_A35_0_RST_VECTOR_BASE_W 0) w
  let w := roc_ml_reg_write32 (a35_0_rst_vector_base / 2 ^ 32 % 2 ^ 32)
    (ml_reg.ML_A35_0_RST_VECTOR_BASE_W 1) w
  let w := roc_ml_reg_write32 (a35_1_rst_vector_base % 2 ^ 32)
    (ml_reg.ML_A35_1_RST_VECTOR_BASE_W 0) w
  let w := roc_ml_reg_write32 (a35_1_rst_vector_base / 2 ^ 32 % 2 ^ 32)
    (ml_reg.ML_A35_1_RST_VECTOR_BASE_W 1) w
  /- (11) Clear MLIP's ML(0)_SW_RST_CTRL[ACC_RST]. -/
  let reg_val32 := roc_ml_reg_read32 ml_reg.ML_SW_RST_CTRL w
  let reg_val32 := (reg_val32 &&& not64 E.ROC_ML_SW_RST_CTRL_ACC_RST) % 2 ^ 32
  let w := roc_ml_reg_write32 reg_val32 ml_reg.ML_SW_RST_CTRL w
  /- (12) Wait for notification from firmware that ML is ready for job execution. -/
  let req := { w.req with
    jd_hdr_jce_w1 := w.mldev.fw.req + E.offsetof_status
    jd_hdr_job_type := E.ML_CN10K_JOB_TYPE_FIRMWARE_LOAD
    jd_hdr_result := E.roc_ml_addr_ap2mlip (w.mldev.fw.req + E.offsetof_result)
    jd_fw_load_flags := cn10k_ml_fw_flags_get w.mldev.fw
    status := E.ML_CN10K_POLL_JOB_START }
  let w := log_event hw_event.wmb { w with req := req }
  /- Enqueue FW load through scratch registers -/
  let now := plt_tsc_cycles E w
  let timeout_cycle := add64 now.1 (mul64 E.ML_CN10K_CMD_TIMEOUT E.plt_tsc_hz)
  let w := roc_ml_scratch_enqueue E (now.2.mldev.fw.req + E.offsetof_jd) now.2
  let w := log_event hw_event.rmb w
  match cn10ka_poll E timeout_cycle fuel w with
  | none => none
  | some (timeout, w) =>
    /- Check firmware load status, clean-up and exit on failure. -/
    if !timeout && E.result_error_code == 0 then
      /- (13) Set ML(0)_JOB_MGR_CTRL[STALL_ON_IDLE] = 0x1 -/
      let reg_val64 := roc_ml_reg_read64 ml_reg.ML_JOB_MGR_CTRL w
      let reg_val64 := reg_val64 ||| E.ROC_ML_JOB_MGR_CTRL_STALL_ON_IDLE
      let w := roc_ml_reg_write64 reg_val64 ml_reg.ML_JOB_MGR_CTRL w
      /- (14) Set ML(0)_CFG[MLIP_CLK_FORCE] = 0 -/
      let reg_val64 := roc_ml_reg_read64 ml_reg.ML_CFG w
      let reg_val64 := reg_val64 &&& not64 E.ROC_ML_CFG_MLIP_CLK_FORCE
      let w := roc_ml_reg_write64 reg_val64 ml_reg.ML_CFG w
      /- (15) Set ML(0)_CFG[ENA] to enable ML job execution. -/
      let reg_val64 := roc_ml_reg_read64 ml_reg.ML_CFG w
      let reg_val64 := reg_val64 ||| E.ROC_ML_CFG_ENA
      let w := roc_ml_reg_write64 reg_val64 ml_reg.ML_CFG w
      /- Reset scratch registers -/
      let w := roc_ml_reg_write64 0 ml_reg.ML_SCRATCH_FW_CTRL w
      let w := roc_ml_reg_write64 0 ml_reg.ML_SCRATCH_WORK_PTR w
      /- Disable job execution, to be enabled in start -/
      let reg_val64 := roc_ml_reg_read64 ml_reg.ML_CFG w
      let reg_val64 := reg_val64 &&& not64 E.ROC_ML_CFG_ENA
      let w := roc_ml_reg_write64 reg_val64 ml_reg.ML_CFG w
      /- Additional fixes: Set RO bit to fix O2D DMA bandwidth issue on cn10ka -/
      let w := ncbi_ro_ovr_loop E E.ML_ANBX_NR 0 w
      some (ret, w)
    else
      /- Set ML to disable new jobs -/
      let reg_val64 := E.ROC_ML_CFG_JD_SIZE ||| E.ROC_ML_CFG_MLIP_ENA
      let w := roc_ml_reg_write64 reg_val64 ml_reg.ML_CFG w
      /- Clear scratch registers -/
      let w := roc_ml_reg_write64 0 ml_reg.ML_SCRATCH_WORK_PTR w
      let w := roc_ml_reg_write64 0 ml_reg.ML_SCRATCH_FW_CTRL w
      if timeout then some (-ETIME, w) else some (-1, w)

/-! ## `cn10k_ml_fw_unload` (lines 829-844) and `cn10k_ml_fw_load` (lines 766-827) -/

/-- Function `cn10k_ml_fw_unload` (lines 829-844). -/
def cn10k_ml_fw_unload (E : ml_env) (w : ml_world) : ml_world :=
  /- Disable and reset device -/
  let reg_val := roc_ml_reg_read64 ml_reg.ML_CFG w
  let reg_val := reg_val &&& not64 E.ROC_ML_CFG_MLIP_ENA
  let w := roc_ml_reg_write64 reg_val ml_reg.ML_CFG w
  let w := roc_ml_mlip_reset E true w
  match plt_memzone_lookup FW_MEMZONE_NAME w with
  | some _ => plt_memzone_free FW_MEMZONE_NAME w
  | none => w

/-- What lines 776-810 of `cn10k_ml_fw_load` hand to the load step: the world,
`fw_buffer` and `fw_size`. -/
structure fw_load_ready where
  world : ml_world
  mz : plt_memzone
  fw_buffer : Option (List Nat)
  fw_size : Nat

/-- Lines 776-810 of `cn10k_ml_fw_load`: read the firmware, reserve the
memzone, reset the completion structure and the device. `Except.error` is an
early `return` with its value. -/
def fw_load_setup (E : ml_env) (w : ml_world) : Except (Int × ml_world) fw_load_ready :=
  let fw_buffer : Option (List Nat) := none
  let mz_size : Nat := 0
  let fw_size : Nat := 0
  let read : Except (Int × ml_world) (ml_world × Option (List Nat) × Nat × Nat) :=
    if E.roc_env_is_emulator || E.roc_env_is_hw then
      /- Read firmware image to a buffer -/
      let r := E.rte_firmware_read w.mldev.fw.path
      let w := log_event (hw_event.firmware_read w.mldev.fw.path) w
      if r.ret < 0 then .error (r.ret, w)
      else
        /- Reserve memzone for firmware load completion and data -/
        .ok (w, r.fw_buffer, r.fw_size,
          add64 (add64 (add64 (add64 E.sizeof_cn10k_ml_req r.fw_size) FW_STACK_BUFFER_SIZE)
            FW_DEBUG_BUFFER_SIZE) FW_EXCEPTION_BUFFER_SIZE)
    else if E.roc_env_is_asim then
      /- Reserve memzone for firmware load completion -/
      .ok (w, fw_buffer, fw_size, E.sizeof_cn10k_ml_req)
    else .ok (w, fw_buffer, fw_size, mz_size)
  match read with
  | .error e => .error e
  | .ok (w, fw_buffer, fw_size, mz_size) =>
    match plt_memzone_reserve_aligned E FW_MEMZONE_NAME mz_size E.ML_CN10K_ALIGN_SIZE w with
    | (none, w) =>
      let w := if fw_buffer.isSome then log_event hw_event.free_fw_buffer w else w
      .error (-ENOMEM, w)
    | (some mz, w) =>
      let w := { w with mldev := { w.mldev with fw := { w.mldev.fw with req := mz.addr } } }
      /- Reset firmware load completion structure -/
      let w := { w with req := { w.req with
        jd_hdr_jce_w1 := 0, jd_hdr_job_type := 0, jd_hdr_result := 0, jd_fw_load_flags := 0 } }
      /- Reset device, if in active state -/
      let w := if E.roc_ml_mlip_is_enabled w.regs then roc_ml_mlip_reset E true w else w
      .ok { world := w, mz := mz, fw_buffer := fw_buffer, fw_size := fw_size }

/-- Lines 812-821 of `cn10k_ml_fw_load`: the load step, which runs one of the
two bring-up variants. The result is the variable `ret` and the world. -/
def fw_load_run (E : ml_env) (fuel : Nat) (r : fw_load_ready) : Option (Int × ml_world) :=
  let w := r.world
  if E.roc_env_is_emulator || E.roc_env_is_hw then
    let w := { w with mldev := { w.mldev with fw := { w.mldev.fw with
      data := r.mz.addr + E.sizeof_cn10k_ml_req } } }
    match cn10k_ml_fw_load_cn10ka E fuel r.fw_buffer r.fw_size w with
    | none => none
    | some (ret, w) =>
      some (ret, if r.fw_buffer.isSome then log_event hw_event.free_fw_buffer w else w)
  else if E.roc_env_is_asim then
    let w := { w with mldev := { w.mldev with fw := { w.mldev.fw with data := 0 } } }
    cn10k_ml_fw_load_asim E fuel w
  else some (0, w)

/-- Function `cn10k_ml_fw_load` (lines 766-827): the return value and the world after
the call; `none` when the poll loop needs more than `fuel` iterations. -/
def cn10k_ml_fw_load (E : ml_env) (fuel : Nat) (w : ml_world) : Option (Int × ml_world) :=
  match fw_load_setup E w with
  | .error e => some e
  | .ok r =>
    match fw_load_run E fuel r with
    | none => none
    | some (ret, w) =>
      if ret < 0 then some (ret, cn10k_ml_fw_unload E w) else some (ret, w)

/-! ## Notions the statements use -/

/-- The number of entries with this key in the device arguments; 0 when there
are no device arguments. -/
def devargs_count (devargs : Option rte_kvargs) (key : String) : Nat :=
  match devargs with
  | none => 0
  | some args => rte_kvargs_count args key

/-- The key is one of the four 0/1 keys. -/
def is_bool_key (key : String) : Bool :=
  key = CN10K_ML_FW_ENABLE_DPE_WARNINGS || key = CN10K_ML_FW_REPORT_DPE_WARNINGS ||
  key = CN10K_ML_DEV_CACHE_MODEL_DATA || key = CN10K_ML_DEV_HW_QUEUE_LOCK

/-- The key is one of the five keys read with `parse_integer_arg`. -/
def is_integer_key (key : String) : Bool :=
  is_bool_key key || key = CN10K_ML_OCM_PAGE_SIZE

/-- A recognized key with a value the driver documents for it
(`RTE_PMD_REGISTER_PARAM_STRING`, lines 863-869): any path, 0 or 1,
`lowest|largest`, `ddr|register`, one of the five page sizes. An integer
value is what `atoi` makes of the string. -/
def valid_value (key value : String) : Bool :=
  if key = CN10K_ML_FW_PATH then true
  else if is_bool_key key then atoi value = 0 || atoi value = 1
  else if key = CN10K_ML_OCM_ALLOC_MODE then value = "lowest" || value = "largest"
  else if key = CN10K_ML_FW_POLL_MEM then value = "ddr" || value = "register"
  else if key = CN10K_ML_OCM_PAGE_SIZE then valid_ocm_page_size.contains (atoi value)
  else false

/-- Every entry of the device arguments is a recognized key with a valid
value; absent device arguments are valid. -/
def valid_devargs (devargs : Option rte_kvargs) : Bool :=
  match devargs with
  | none => true
  | some args => args.all (fun p => valid_value p.1 p.2)

/-- The field of the device structure a 0/1 key or `ocm_page_size` is stored
in; 0 for any other key. -/
def integer_field (key : String) (m : cn10k_ml_dev) : Int :=
  if key = CN10K_ML_FW_ENABLE_DPE_WARNINGS then m.fw.enable_dpe_warnings
  else if key = CN10K_ML_FW_REPORT_DPE_WARNINGS then m.fw.report_dpe_warnings
  else if key = CN10K_ML_DEV_CACHE_MODEL_DATA then m.cache_model_data
  else if key = CN10K_ML_DEV_HW_QUEUE_LOCK then m.hw_queue_lock
  else if key = CN10K_ML_OCM_PAGE_SIZE then m.ocm_page_size
  else 0

/-- The device structure holds the documented default in the field of `key`. -/
def field_is_default (key : String) (m : cn10k_ml_dev) : Prop :=
  (key = CN10K_ML_FW_PATH → m.fw.path = some "/lib/firmware/mlip-fw.bin") ∧
  (key = CN10K_ML_FW_ENABLE_DPE_WARNINGS → m.fw.enable_dpe_warnings = 1) ∧
  (key = CN10K_ML_FW_REPORT_DPE_WARNINGS → m.fw.report_dpe_warnings = 0) ∧
  (key = CN10K_ML_DEV_CACHE_MODEL_DATA → m.cache_model_data = 1) ∧
  (key = CN10K_ML_OCM_ALLOC_MODE → m.ocm.alloc_mode = some "lowest") ∧
  (key = CN10K_ML_DEV_HW_QUEUE_LOCK → m.hw_queue_lock = 1) ∧
  (key = CN10K_ML_FW_POLL_MEM → m.fw.poll_mem = some "ddr") ∧
  (key = CN10K_ML_OCM_PAGE_SIZE → m.ocm_page_size = 16384)

/-- The list without the entries whose key is `key`. -/
def without_key (key : String) : rte_kvargs → rte_kvargs
  | [] => []
  | p :: rest => if p.1 = key then without_key key rest else p :: without_key key rest

/-- The value of the first entry of the list whose key is `key`. -/
def first_value (kvlist : rte_kvargs) (key : String) : Option String :=
  match kvlist with
  | [] => none
  | p :: rest => if p.1 = key then some p.2 else first_value rest key

/-- The value supplied for `key` when the key occurs exactly once. -/
def kv_arg (kvlist : rte_kvargs) (key : String) : Option String :=
  if rte_kvargs_count kvlist key = 1 then first_value kvlist key else none

/-- The handler `parse_integer_arg` refuses the supplied value. -/
def arg_neg (a : Option String) : Bool :=
  match a with
  | some v => decide (atoi v < 0)
  | none => false

/-- The integer a processing block leaves in its field. -/
def arg_int (a : Option String) (old : Int) : Int :=
  match a with
  | some v => atoi v
  | none => old

/-- The string a processing block leaves in its variable. -/
def arg_str (a : Option String) (old : Option String) : Option String :=
  match a with
  | some v => some v
  | none => old

/-- The value of `ret` after a processing block that did not fail. -/
def arg_ret (a : Option String) (old : Int) : Int :=
  match a with
  | some _ => 0
  | none => old

/-- The value supplied for each key that occurs exactly once in the list. -/
structure devargs_view where
  fw_path : Option String
  enable_dpe_warnings : Option String
  report_dpe_warnings : Option String
  cache_model_data : Option String
  ocm_alloc_mode : Option String
  hw_queue_lock : Option String
  poll_mem : Option String
  ocm_page_size : Option String

def view_of (kv : rte_kvargs) : devargs_view :=
  { fw_path := kv_arg kv CN10K_ML_FW_PATH
    enable_dpe_warnings := kv_arg kv CN10K_ML_FW_ENABLE_DPE_WARNINGS
    report_dpe_warnings := kv_arg kv CN10K_ML_FW_REPORT_DPE_WARNINGS
    cache_model_data := kv_arg kv CN10K_ML_DEV_CACHE_MODEL_DATA
    ocm_alloc_mode := kv_arg kv CN10K_ML_OCM_ALLOC_MODE
    hw_queue_lock := kv_arg kv CN10K_ML_DEV_HW_QUEUE_LOCK
    poll_mem := kv_arg kv CN10K_ML_FW_POLL_MEM
    ocm_page_size := kv_arg kv CN10K_ML_OCM_PAGE_SIZE }

/-- A 0/1 option is absent or converts to 0 or 1. -/
def ok_bool (a : Option String) : Prop :=
  ∀ v, a = some v → atoi v = 0 ∨ atoi v = 1

/-- A string option is absent or one of two literals. -/
def ok_str (a : Option String) (x y : String) : Prop :=
  ∀ v, a = some v → v = x ∨ v = y

/-- The page size is absent or converts to a supported size. -/
def ok_page (a : Option String) : Prop :=
  ∀ v, a = some v →
    atoi v = 1024 ∨ atoi v = 2048 ∨ atoi v = 4096 ∨ atoi v = 8192 ∨ atoi v = 16384

def view_ok (a : devargs_view) : Prop :=
  ok_bool a.enable_dpe_warnings ∧ ok_bool a.report_dpe_warnings ∧
  ok_bool a.cache_model_data ∧ ok_str a.ocm_alloc_mode "lowest" "largest" ∧
  ok_bool a.hw_queue_lock ∧ ok_str a.poll_mem "ddr" "register" ∧ ok_page a.ocm_page_size

/-- The device structure a successful call leaves: supplied values where a key
occurs once, defaults elsewhere; `data` and `req` are not touched. -/
def resolved (a : devargs_view) (m : cn10k_ml_dev) : cn10k_ml_dev :=
  { fw := { path := some (a.fw_path.getD CN10K_ML_FW_PATH_DEFAULT)
            enable_dpe_warnings :=
              (a.enable_dpe_warnings.map atoi).getD CN10K_ML_FW_ENABLE_DPE_WARNINGS_DEFAULT
            report_dpe_warnings :=
              (a.report_dpe_warnings.map atoi).getD CN10K_ML_FW_REPORT_DPE_WARNINGS_DEFAULT
            poll_mem := some (a.poll_mem.getD CN10K_ML_FW_POLL_MEM_DEFAULT)
            data := m.fw.data
            req := m.fw.req }
    cache_model_data :=
      (a.cache_model_data.map atoi).getD CN10K_ML_DEV_CACHE_MODEL_DATA_DEFAULT
    ocm := { alloc_mode := some (a.ocm_alloc_mode.getD CN10K_ML_OCM_ALLOC_MODE_DEFAULT) }
    hw_queue_lock := (a.hw_queue_lock.map atoi).getD CN10K_ML_DEV_HW_QUEUE_LOCK_DEFAULT
    ocm_page_size := (a.ocm_page_size.map atoi).getD CN10K_ML_OCM_PAGE_SIZE_DEFAULT }

/-- The completion check of the poll loops never sees the done bit together
with the finish sentinel. -/
def never_completes (E : ml_env) : Prop :=
  ∀ k, ¬(E.scratch_is_done_bit_set k = true ∧ E.req_status k = E.ML_CN10K_POLL_JOB_FINISH)

/-! ## A sample platform, for the concrete runs -/

/-- A simulator platform whose firmware never answers. The bit positions are
sample values (the source comments give 0x184003, 0x3 and 0x3000 for steps 3
to 5); the cycle counter advances by 1000 per read at 1000 cycles per second,
with a command timeout of 5 seconds. -/
def sample_env : ml_env :=
  { ROC_ML_CFG_JD_SIZE := 0x3
    ROC_ML_CFG_MLIP_ENA := BIT 2
    ROC_ML_CFG_MLIP_CLK_FORCE := BIT 5
    ROC_ML_CFG_ENA := BIT 6
    ROC_ML_JOB_MGR_CTRL_STALL_ON_IDLE := BIT 9
    ROC_ML_SW_RST_CTRL_ACC_RST := BIT 0
    ROC_ML_AXI_BRIDGE_CTRL_AXI_RESP_CTRL := BIT 0
    ROC_ML_AXI_BRIDGE_CTRL_BRIDGE_CTRL_MODE := BIT 1
    ROC_ML_AXI_BRIDGE_CTRL_NCB_WR_BLK := BIT 14
    ROC_ML_AXI_BRIDGE_CTRL_FORCE_WRESP_OK := BIT 19
    ROC_ML_AXI_BRIDGE_CTRL_FORCE_RRESP_OK := BIT 20
    ROC_ML_ANBX_BACKP_DISABLE_EXTMSTR_B_BACKP_DISABLE := BIT 0
    ROC_ML_ANBX_BACKP_DISABLE_EXTMSTR_R_BACKP_DISABLE := BIT 1
    ML_ANBX_NCBI_P_OVR_ANB_NCBI_P_NS_OVR := BIT 13
    ML_ANBX_NCBI_P_OVR_ANB_NCBI_P_NS_OVR_VLD := BIT 12
    ML_ANBX_NCBI_NP_OVR_ANB_NCBI_NP_NS_OVR := BIT 13
    ML_ANBX_NCBI_NP_OVR_ANB_NCBI_NP_NS_OVR_VLD := BIT 12
    ML_ANBX_NCBI_P_OVR_ANB_NCBI_P_RO_OVR := BIT 17
    ML_ANBX_NCBI_P_OVR_ANB_NCBI_P_RO_OVR_VLD := BIT 16
    ML_ANBX_NR := 3
    ML_AXI_START_ADDR := 0x800000000
    ML_CN10K_CMD_TIMEOUT := 5
    ML_CN10K_POLL_JOB_START := 0
    ML_CN10K_POLL_JOB_FINISH := 1
    ML_CN10K_JOB_TYPE_FIRMWARE_LOAD := 3
    ML_CN10K_ALIGN_SIZE := 128
    sizeof_cn10k_ml_req := 512
    offsetof_jd := 0
    offsetof_status := 256
    offsetof_result := 264
    roc_env_is_emulator := false
    roc_env_is_hw := false
    roc_env_is_asim := true
    rte_eal_get_baseaddr := 0x100000000
    plt_tsc_hz := 1000
    plt_tsc_cycles := fun k => 1000 * k
    roc_ml_addr_ap2mlip := fun a => a
    rte_firmware_read := fun _ => { ret := 0, fw_buffer := some [0, 1, 2, 3], fw_size := 4 }
    memzone_alloc := fun _ _ => some 0x140000000
    roc_ml_mlip_is_enabled := fun regs => regs ml_reg.ML_CFG &&& BIT 2 != 0
    mlip_reset_regs := fun _ regs => regs
    scratch_enqueue_regs := fun _ regs => regs
    scratch_is_done_bit_set := fun _ => false
    req_status := fun _ => 0
    result_error_code := 0 }

/-- A probed device with default arguments, no memzone reserved, all
registers zero. -/
def sample_world : ml_world :=
  { mldev := (cn10k_mldev_parse_devargs none mldev_zero).2
    regs := fun _ => 0
    memzones := fun _ => none
    req := { jd_hdr_jce_w1 := 0, jd_hdr_job_type := 0, jd_hdr_result := 0,
             jd_fw_load_flags := 0, status := 0 }
    tsc_reads := 0
    polls := 0
    trace := [] }

/-- What `fw_load_setup` hands over on the sample platform. -/
def sample_ready : fw_load_ready :=
  match fw_load_setup sample_env sample_world with
  | .ok r => r
  | .error e => { world := e.2, mz := { addr := 0, len := 0 }, fw_buffer := none, fw_size := 0 }

/-- The world after the load step on the sample platform, with fuel 8. -/
def sample_after_run : ml_world :=
  match fw_load_run sample_env 8 sample_ready with
  | some x => x.2
  | none => sample_ready.world

/-! ## Stages of the two bring-up functions

Each function below is a run of consecutive lines of `cn10k_ml_fw_load_asim`
or `cn10k_ml_fw_load_cn10ka`, written out from those lines; `asim_stages` and
`cn10ka_stages` show that the functions are these stages in sequence. -/

/-- Lines 473-485 of `cn10k_ml_fw_load_asim`: everything before the job
handshake. -/
def asim_prepare (E : ml_env) (w : ml_world) : ml_world :=
  let w := reset_debug_pointers w
  let reg_val64 := E.rte_eal_get_baseaddr
  let w := roc_ml_reg_write64 reg_val64 ml_reg.ML_MLR_BASE w
  roc_ml_reg_save ml_reg.ML_MLR_BASE w

/-- Lines 487-507 of `cn10k_ml_fw_load_asim`: the job handshake, from the
descriptor to the end of the poll loop. The result is the variable `timeout`
and the world at loop exit. -/
def asim_handshake (E : ml_env) (fuel : Nat) (w : ml_world) : Option (Bool × ml_world) :=
  let req := { w.req with
    jd_hdr_jce_w1 := w.mldev.fw.req + E.offsetof_status
    jd_hdr_job_type := E.ML_CN10K_JOB_TYPE_FIRMWARE_LOAD
    jd_hdr_result := E.roc_ml_addr_ap2mlip (w.mldev.fw.req + E.offsetof_result)
    jd_fw_load_flags := cn10k_ml_fw_flags_get w.mldev.fw
    status := E.ML_CN10K_POLL_JOB_START }
  let w := log_event hw_event.wmb { w with req := req }
  let now := plt_tsc_cycles E w
  let timeout_cycle := add64 now.1 (mul64 E.ML_CN10K_CMD_TIMEOUT E.plt_tsc_hz)
  let w := roc_ml_scratch_enqueue E (now.2.mldev.fw.req + E.offsetof_jd) now.2
  let w := log_event hw_event.rmb w
  asim_poll E timeout_cycle fuel w

/-- Lines 513-529 of `cn10k_ml_fw_load_asim`: the clean-up on failure and the
value returned. -/
def asim_failure (E : ml_env) (timeout : Bool) (w : ml_world) : Int × ml_world :=
  let reg_val64 := E.ROC_ML_CFG_JD_SIZE ||| E.ROC_ML_CFG_MLIP_ENA
  let w := roc_ml_reg_write64 reg_val64 ml_reg.ML_CFG w
  let w := roc_ml_reg_write64 0 ml_reg.ML_SCRATCH_WORK_PTR w
  let w := roc_ml_reg_write64 0 ml_reg.ML_SCRATCH_FW_CTRL w
  if timeout then (-ETIME, w) else (-1, w)

/-- Lines 532-540 of `cn10k_ml_fw_load_asim`: the steps after a successful
handshake. -/
def asim_finish (E : ml_env) (w : ml_world) : ml_world :=
  let w := roc_ml_reg_write64 0 ml_reg.ML_SCRATCH_FW_CTRL w
  let w := roc_ml_reg_write64 0 ml_reg.ML_SCRATCH_WORK_PTR w
  let reg_val64 := roc_ml_reg_read64 ml_reg.ML_CFG w
  let reg_val64 := reg_val64 &&& not64 E.ROC_ML_CFG_ENA
  roc_ml_reg_write64 reg_val64 ml_reg.ML_CFG w

/-- Lines 561-586 of `cn10k_ml_fw_load_cn10ka`: the debug pointers and steps
(1) to (3). -/
def cn10ka_steps_1_3 (E : ml_env) (size : Nat) (w : ml_world) : ml_world :=
  let w := reset_debug_pointers w
  let w := log_event (hw_event.memcpy (w.mldev.fw.data + FW_LINKER_OFFSET) size) w
  let reg_val64 := sub64 w.mldev.fw.data E.rte_eal_get_baseaddr
  let w := roc_ml_reg_write64 reg_val64 ml_reg.ML_MLR_BASE w
  let w := roc_ml_reg_save ml_reg.ML_MLR_BASE w
  let reg_val64 := E.ROC_ML_AXI_BRIDGE_CTRL_AXI_RESP_CTRL |||
    E.ROC_ML_AXI_BRIDGE_CTRL_BRIDGE_CTRL_MODE ||| E.ROC_ML_AXI_BRIDGE_CTRL_NCB_WR_BLK |||
    E.ROC_ML_AXI_BRIDGE_CTRL_FORCE_WRESP_OK ||| E.ROC_ML_AXI_BRIDGE_CTRL_FORCE_RRESP_OK
  roc_ml_reg_write64 reg_val64 (ml_reg.ML_AXI_BRIDGE_CTRL 1) w

/-- Lines 588-597 of `cn10k_ml_fw_load_cn10ka`: step (4). -/
def cn10ka_step_4 (E : ml_env) (w : ml_world) : ml_world :=
  backp_disable_loop E E.ML_ANBX_NR 0 w

/-- Lines 599-614 of `cn10k_ml_fw_load_cn10ka`: step (5). -/
def cn10ka_step_5 (E : ml_env) (w : ml_world) : ml_world :=
  ncbi_ns_ovr_loop E E.ML_ANBX_NR 0 w

/-- Lines 561-614 of `cn10k_ml_fw_load_cn10ka`: the debug pointers and steps
(1) to (5). -/
def cn10ka_steps_1_5 (E : ml_env) (size : Nat) (w : ml_world) : ml_world :=
  cn10ka_step_5 E (cn10ka_step_4 E (cn10ka_steps_1_3 E size w))

/-- Lines 616-676 of `cn10k_ml_fw_load_cn10ka`: steps (6) to (11). -/
def cn10ka_steps_6_11 (E : ml_env) (w : ml_world) : ml_world :=
  let reg_val64 := roc_ml_reg_read64 ml_reg.ML_CFG w
  let reg_val64 := reg_val64 ||| E.ROC_ML_CFG_MLIP_CLK_FORCE
  let w := roc_ml_reg_write64 reg_val64 ml_reg.ML_CFG w
  let reg_val64 := roc_ml_reg_read64 ml_reg.ML_JOB_MGR_CTRL w
  let reg_val64 := reg_val64 &&& not64 E.ROC_ML_JOB_MGR_CTRL_STALL_ON_IDLE
  let w := roc_ml_reg_write64 reg_val64 ml_reg.ML_JOB_MGR_CTRL w
  let reg_val64 := roc_ml_reg_read64 ml_reg.ML_CFG w
  let reg_val64 := reg_val64 ||| E.ROC_ML_CFG_MLIP_ENA
  let reg_val64 := reg_val64 &&& not64 E.ROC_ML_CFG_ENA
  let w := roc_ml_reg_write64 reg_val64 ml_reg.ML_CFG w
  let w := log_event (hw_event.delay_us FW_WAIT_CYCLES) w
  let offset := add64 w.mldev.fw.data
    (sub64 FW_LINKER_OFFSET (roc_ml_reg_read64 ml_reg.ML_MLR_BASE w))
  let a35_0_rst_vector_base := add64 offset E.ML_AXI_START_ADDR / 4
  let a35_1_rst_vector_base := add64 offset E.ML_AXI_START_ADDR / 4
  let w := roc_ml_reg_write32 (a35_0_rst_vector_base % 2 ^ 32)
    (ml_reg.ML_A35_0_RST_VECTOR_BASE_W 0) w
  let w := roc_ml_reg_write32 (a35_0_rst_vector_base / 2 ^ 32 % 2 ^ 32)
    (ml_reg.ML_A35_0_RST_VECTOR_BASE_W 1) w
  let w := roc_ml_reg_write32 (a35_1_rst_vector_base % 2 ^ 32)
    (ml_reg.ML_A35_1_RST_VECTOR_BASE_W 0) w
  let w := roc_ml_reg_write32 (a35_1_rst_vector_base / 2 ^ 32 % 2 ^ 32)
    (ml_reg.ML_A35_1_RST_VECTOR_BASE_W 1) w
  let reg_val32 := roc_ml_reg_read32 ml_reg.ML_SW_RST_CTRL w
  let reg_val32 := (reg_val32 &&& not64 E.ROC_ML_SW_RST_CTRL_ACC_RST) % 2 ^ 32
  roc_ml_reg_write32 reg_val32 ml_reg.ML_SW_RST_CTRL w

/-- Lines 561-676 of `cn10k_ml_fw_load_cn10ka`: everything before the job
handshake. -/
def cn10ka_prepare (E : ml_env) (size : Nat) (w : ml_world) : ml_world :=
  cn10ka_steps_6_11 E (cn10ka_steps_1_5 E size w)

/-- Lines 678-698 of `cn10k_ml_fw_load_cn10ka`: the job handshake of step
(12), from the descriptor to the end of the poll loop. The result is the
variable `timeout` and the world at loop exit. -/
def cn10ka_handshake (E : ml_env) (fuel : Nat) (w : ml_world) : Option (Bool × ml_world) :=
  let req := { w.req with
    jd_hdr_jce_w1 := w.mldev.fw.req + E.offsetof_status
    jd_hdr_job_type := E.ML_CN10K_JOB_TYPE_FIRMWARE_LOAD
    jd_hdr_result := E.roc_ml_addr_ap2mlip (w.mldev.fw.req + E.offsetof_result)
    jd_fw_load_flags := cn10k_ml_fw_flags_get w.mldev.fw
    status := E.ML_CN10K_POLL_JOB_START }
  let w := log_event hw_event.wmb { w with req := req }
  let now := plt_tsc_cycles E w
  let timeout_cycle := add64 now.1 (mul64 E.ML_CN10K_CMD_TIMEOUT E.plt_tsc_hz)
  let w := roc_ml_scratch_enqueue E (now.2.mldev.fw.req + E.offsetof_jd) now.2
  let w := log_event hw_event.rmb w
  cn10ka_poll E timeout_cycle fuel w

/-- Lines 704-720 of `cn10k_ml_fw_load_cn10ka`: the clean-up on failure and
the value returned. -/
def cn10ka_failure (E : ml_env) (timeout : Bool) (w : ml_world) : Int × ml_world :=
  let reg_val64 := E.ROC_ML_CFG_JD_SIZE ||| E.ROC_ML_CFG_MLIP_ENA
  let w := roc_ml_reg_write64 reg_val64 ml_reg.ML_CFG w
  let w := roc_ml_reg_write64 0 ml_reg.ML_SCRATCH_WORK_PTR w
  let w := roc_ml_reg_write64 0 ml_reg.ML_SCRATCH_FW_CTRL w
  if timeout then (-ETIME, w) else (-1, w)

/-- Lines 723-754 of `cn10k_ml_fw_load_cn10ka`: steps (13) to (15), the
reset of the scratch registers and the write that disables job execution. -/
def cn10ka_steps_13_15 (E : ml_env) (w : ml_world) : ml_world :=
  let reg_val64 := roc_ml_reg_read64 ml_reg.ML_JOB_MGR_CTRL w
  let reg_val64 := reg_val64 ||| E.ROC_ML_JOB_MGR_CTRL_STALL_ON_IDLE
  let w := roc_ml_reg_write64 reg_val64 ml_reg.ML_JOB_MGR_CTRL w
  let reg_val64 := roc_ml_reg_read64 ml_reg.ML_CFG w
  let reg_val64 := reg_val64 &&& not64 E.ROC_ML_CFG_MLIP_CLK_FORCE
  let w := roc_ml_reg_write64 reg_val64 ml_reg.ML_CFG w
  let reg_val64 := roc_ml_reg_read64 ml_reg.ML_CFG w
  let reg_val64 := reg_val64 ||| E.ROC_ML_CFG_ENA
  let w := roc_ml_reg_write64 reg_val64 ml_reg.ML_CFG w
  let w := roc_ml_reg_write64 0 ml_reg.ML_SCRATCH_FW_CTRL w
  let w := roc_ml_reg_write64 0 ml_reg.ML_SCRATCH_WORK_PTR w
  let reg_val64 := roc_ml_reg_read64 ml_reg.ML_CFG w
  let reg_val64 := reg_val64 &&& not64 E.ROC_ML_CFG_ENA
  roc_ml_reg_write64 reg_val64 ml_reg.ML_CFG w

/-- Lines 723-761 of `cn10k_ml_fw_load_cn10ka`: everything after a successful
handshake, ending with the loop that sets the RO bits. -/
def cn10ka_finish (E : ml_env) (w : ml_world) : ml_world :=
  ncbi_ro_ovr_loop E E.ML_ANBX_NR 0 (cn10ka_steps_13_15 E w)

/-! ## Notions the firmware statements use -/

/-- One of the completion checks with index from `p0` up to `p1 - 1` saw the
done bit set and the status word equal to the finish sentinel, both in that
same check. -/
def completion_observed (E : ml_env) (p0 p1 : Nat) : Prop :=
  ∃ k, p0 ≤ k ∧ k < p1 ∧ E.scratch_is_done_bit_set k = true ∧
    E.req_status k = E.ML_CN10K_POLL_JOB_FINISH

/-- The deadline both variants compute from the cycle counter read with index
`k`: `plt_tsc_cycles() + ML_CN10K_CMD_TIMEOUT * plt_tsc_hz()` in `uint64_t`. -/
def fw_load_deadline (E : ml_env) (k : Nat) : Nat :=
  add64 (E.plt_tsc_cycles k) (mul64 E.ML_CN10K_CMD_TIMEOUT E.plt_tsc_hz)


/-- The value an event writes to the register `reg`, when the event is a
write to that register. -/
def written_value (reg : ml_reg) : hw_event → Option Nat
  | hw_event.reg_write64 v r => if r = reg then some v else none
  | hw_event.reg_write32 v r => if r = reg then some v else none
  | _ => none

/-- The last value a trace writes to the register `reg`; `none` when the
trace has no write to it. -/
def last_write (reg : ml_reg) (tr : List hw_event) : Option Nat :=
  (tr.filterMap (written_value reg)).getLast?

/-- The writes the three loops over the ANB units make: a 64-bit write to one
of `ML_ANBX_BACKP_DISABLE`, `ML_ANBX_NCBI_P_OVR`, `ML_ANBX_NCBI_NP_OVR`. -/
def is_anb_write : hw_event → Bool
  | hw_event.reg_write64 _ (ml_reg.ML_ANBX_BACKP_DISABLE _) => true
  | hw_event.reg_write64 _ (ml_reg.ML_ANBX_NCBI_P_OVR _) => true
  | hw_event.reg_write64 _ (ml_reg.ML_ANBX_NCBI_NP_OVR _) => true
  | _ => false

/-- The register an event writes, when it is a register write. -/
def written_reg : hw_event → Option ml_reg
  | hw_event.reg_write64 _ r => some r
  | hw_event.reg_write32 _ r => some r
  | _ => none

/-- The actions of `cn10k_ml_fw_unload` and of the reset in the set-up: a
device reset or the release of a memzone. -/
def is_teardown : hw_event → Bool
  | hw_event.mlip_reset _ => true
  | hw_event.memzone_free _ => true
  | _ => false

/-- An action on the device: a register write or save, a reset, an enqueue
through the scratch mailbox, or a copy into the ML region. -/
def touches_device : hw_event → Bool
  | hw_event.reg_write64 _ _ => true
  | hw_event.reg_write32 _ _ => true
  | hw_event.reg_save _ => true
  | hw_event.memcpy _ _ => true
  | hw_event.scratch_enqueue _ => true
  | hw_event.mlip_reset _ => true
  | _ => false

/-- The actions whose order the real-hardware bring-up fixes: the copy of the
firmware image, a write to `ML_MLR_BASE`, a write to one of the four
reset-vector half-registers, a write to `ML_SW_RST_CTRL`, and the enqueue
through the scratch mailbox. -/
def is_milestone : hw_event → Bool
  | hw_event.memcpy _ _ => true
  | hw_event.scratch_enqueue _ => true
  | e =>
    match written_reg e with
    | some ml_reg.ML_MLR_BASE => true
    | some (ml_reg.ML_A35_0_RST_VECTOR_BASE_W _) => true
    | some (ml_reg.ML_A35_1_RST_VECTOR_BASE_W _) => true
    | some ml_reg.ML_SW_RST_CTRL => true
    | _ => false

/-- The events a step appended to the trace: what the trace of the world
`w'` after the step has beyond the trace of the world `w` before it. -/
def appended (w w' : ml_world) : List hw_event :=
  w'.trace.drop w.trace.length

/-! ## Further sample platforms -/

/-- A real-hardware platform whose firmware answers at the first completion
check with error code zero; everything else as in `sample_env`. -/
def sample_env_hw : ml_env :=
  { sample_env with
    roc_env_is_hw := true
    roc_env_is_asim := false
    scratch_is_done_bit_set := fun _ => true
    req_status := fun _ => 1 }

/-- What `fw_load_setup` hands over on the real-hardware sample platform. -/
def sample_ready_hw : fw_load_ready :=
  match fw_load_setup sample_env_hw sample_world with
  | .ok r => r
  | .error e => { world := e.2, mz := { addr := 0, len := 0 }, fw_buffer := none, fw_size := 0 }

/-- The world after the load step on the real-hardware sample platform, with
fuel 1. -/
def sample_after_run_hw : ml_world :=
  match fw_load_run sample_env_hw 1 sample_ready_hw with
  | some x => x.2
  | none => sample_ready_hw.world

/-! ## Parts of `cn10k_ml_fw_load` -/

/-- Lines 795-810 of `cn10k_ml_fw_load`: the reservation of the memzone with
the size `mz_size` computed before, and what follows it up to the load
step. -/
def fw_load_reserve (E : ml_env) (w : ml_world) (fw_buffer : Option (List Nat))
    (fw_size mz_size : Nat) : Except (Int × ml_world) fw_load_ready :=
  match plt_memzone_reserve_aligned E FW_MEMZONE_NAME mz_size E.ML_CN10K_ALIGN_SIZE w with
  | (none, w) =>
    let w := if fw_buffer.isSome then log_event hw_event.free_fw_buffer w else w
    .error (-ENOMEM, w)
  | (some mz, w) =>
    let w := { w with mldev := { w.mldev with fw := { w.mldev.fw with req := mz.addr } } }
    let w := { w with req := { w.req with
      jd_hdr_jce_w1 := 0, jd_hdr_job_type := 0, jd_hdr_result := 0, jd_fw_load_flags := 0 } }
    let w := if E.roc_ml_mlip_is_enabled w.regs then roc_ml_mlip_reset E true w else w
    .ok { world := w, mz := mz, fw_buffer := fw_buffer, fw_size := fw_size }

/-- The kinds of action the two bring-up variants perform, and the release of
the firmware buffer after them: register writes and saves, the copy of the
image, the delay, the enqueue and the barriers. A reset, a read of the
firmware file, and the reservation or release of a memzone are not among
them. -/
def is_bringup_action : hw_event → Bool
  | hw_event.mlip_reset _ => false
  | hw_event.firmware_read _ => false
  | hw_event.memzone_reserve _ _ _ => false
  | hw_event.memzone_free _ => false
  | _ => true

/-- A reservation of a memzone. -/
def is_reserve : hw_event → Bool
  | hw_event.memzone_reserve _ _ _ => true
  | _ => false

/-! ## Further sample runs -/

/-- What `cn10k_ml_fw_load` returns on the real-hardware sample platform, with
fuel 1. -/
def sample_load_hw : Int × ml_world :=
  match cn10k_ml_fw_load sample_env_hw 1 sample_world with
  | some x => x
  | none => (0, sample_world)

/-- What the real-hardware variant returns on the real-hardware sample
platform for a firmware image of four bytes, with fuel 1. -/
def sample_cn10ka_result : Int × ml_world :=
  match cn10k_ml_fw_load_cn10ka sample_env_hw 1 (some [0, 1, 2, 3]) 4 sample_world with
  | some x => x
  | none => (0, sample_world)

/-- The real-hardware sample platform with a firmware file that cannot be
read: the reader returns -2. -/
def sample_env_no_file : ml_env :=
  { sample_env_hw with
    rte_firmware_read := fun _ => { ret := -2, fw_buffer := none, fw_size := 0 } }

/-- A copy into the ML region. -/
def is_memcpy : hw_event → Bool
  | hw_event.memcpy _ _ => true
  | _ => false

/-- A platform that is none of emulator, real hardware and simulator;
everything else as in `sample_env`. -/
def sample_env_none : ml_env :=
  { sample_env with roc_env_is_asim := false }

/-! ## Value strings and the integers they denote -/

/-- The number a list of decimal digits denotes, read from the left. -/
def decimal_value (ds : List Char) : Nat :=
  ds.foldl (fun acc c => 10 * acc + (c.toNat - 48)) 0

/-- The integer a value string denotes, when the string is a decimal numeral:
one or more decimal digits, with a `-` in front for a negative integer, and
nothing else. Any other string, such as "abc", "1abc" or the empty string,
denotes no integer. -/
def decimal_numeral (s : String) : Option Int :=
  match s.toList with
  | '-' :: ds =>
    if !ds.isEmpty && ds.all isdigit then some (-(decimal_value ds : Int)) else none
  | ds => if !ds.isEmpty && ds.all isdigit then some (decimal_value ds : Int) else none

/-- The integer `v` is a value of the C type `int` (32 bits). -/
def fits_int (v : Int) : Prop := -(2 ^ 31) ≤ v ∧ v < 2 ^ 31

/-- What `atoi` returns for a numeral of the integer `v`: `v` clamped to the
range of `long` by `strtol` and then converted to `int`. -/
def int_of_decimal (v : Int) : Int := long_to_int (max LONG_MIN (min LONG_MAX v))

/-- The parts of a string that `atoi` looks at: white space `ws`, an optional
sign (`neg` says that it is `-`), the digits `ds`, and a `rest` that does not
begin with a digit. Without a sign the part after the white space begins
with neither white space nor a sign. -/
def atoi_reads (s : String) (neg : Bool) (ds rest : List Char) : Prop :=
  ∃ ws sign, s.toList = ws ++ sign ++ ds ++ rest ∧ ws.all isspace = true ∧
    ((sign = [] ∧ neg = false ∧
        ∀ c, (ds ++ rest).head? = some c → isspace c = false ∧ c ≠ '-' ∧ c ≠ '+') ∨
      (sign = ['-'] ∧ neg = true) ∨ (sign = ['+'] ∧ neg = false)) ∧
    ds.all isdigit = true ∧ (∀ c, rest.head? = some c → isdigit c = false)

/-- The integer the sign and the digits denote; 0 for no digits. -/
def read_value (neg : Bool) (ds : List Char) : Int :=
  if neg then -(decimal_value ds : Int) else (decimal_value ds : Int)

/-! ## Facts about the kvargs model -/

theorem process_count_zero {σ : Type} (kv : rte_kvargs) (k : String)
    (h : String → String → σ → Int × σ) (x : σ) (hc : rte_kvargs_count kv k = 0) :
    rte_kvargs_process kv k h x = (0, x) := by
  induction kv generalizing x with
  | nil => rfl
  | cons p rest ih =>
    by_cases hp : p.1 = k
    · simp [rte_kvargs_count, hp] at hc
    · simp only [rte_kvargs_count, hp, if_false] at hc
      simp only [rte_kvargs_process, hp, if_false]
      exact ih x hc

theorem first_value_mem (kv : rte_kvargs) (k v : String) (h : first_value kv k = some v) :
    (k, v) ∈ kv := by
  induction kv with
  | nil => simp [first_value] at h
  | cons p rest ih =>
    by_cases hp : p.1 = k
    · simp only [first_value, hp, if_true, Option.some.injEq] at h
      have : p = (k, v) := by rw [← hp, ← h]
      simp [this]
    · simp only [first_value, hp, if_false] at h
      exact List.mem_cons_of_mem _ (ih h)

theorem count_pos_first_value (kv : rte_kvargs) (k : String)
    (hc : 0 < rte_kvargs_count kv k) : ∃ v, first_value kv k = some v := by
  induction kv with
  | nil => simp [rte_kvargs_count] at hc
  | cons p rest ih =>
    by_cases hp : p.1 = k
    · exact ⟨p.2, by simp [first_value, hp]⟩
    · simp only [rte_kvargs_count, hp, if_false] at hc
      obtain ⟨v, hv⟩ := ih hc
      exact ⟨v, by simp [first_value, hp, hv]⟩

theorem process_count_one {σ : Type} (kv : rte_kvargs) (k v : String)
    (h : String → String → σ → Int × σ) (x : σ) (hc : rte_kvargs_count kv k = 1)
    (hv : first_value kv k = some v) :
    rte_kvargs_process kv k h x =
      (if (h k v x).1 < 0 then (-1, (h k v x).2) else (0, (h k v x).2)) := by
  induction kv generalizing x with
  | nil => simp [rte_kvargs_count] at hc
  | cons p rest ih =>
    by_cases hp : p.1 = k
    · simp only [rte_kvargs_count, hp, if_true, Nat.add_eq_right] at hc
      simp only [first_value, hp, if_true, Option.some.injEq] at hv
      simp only [rte_kvargs_process, hp, if_true, hv]
      split
      · rfl
      · exact process_count_zero rest k h _ hc
    · simp only [rte_kvargs_count, hp, if_false] at hc
      simp only [first_value, hp, if_false] at hv
      simp only [rte_kvargs_process, hp, if_false]
      exact ih x hc hv

theorem kv_arg_some (kv : rte_kvargs) (k v : String) (h : kv_arg kv k = some v) :
    rte_kvargs_count kv k = 1 ∧ first_value kv k = some v := by
  unfold kv_arg at h
  split at h
  · exact ⟨by assumption, h⟩
  · exact absurd h (by simp)

theorem kv_arg_none (kv : rte_kvargs) (k : String) (h : kv_arg kv k = none) :
    rte_kvargs_count kv k ≠ 1 := by
  intro hc
  obtain ⟨v, hv⟩ := count_pos_first_value kv k (by omega)
  simp [kv_arg, hc, hv] at h

/-! ## The blocks of `cn10k_mldev_parse_devargs` in terms of `kv_arg` -/

theorem bind_ite_error {ε α β : Type} (c : Prop) [Decidable c] (e : ε) (y : Except ε α)
    (f : α → Except ε β) :
    ((if c then Except.error e else y) >>= f) = if c then Except.error e else (y >>= f) := by
  split <;> rfl

theorem process_enable_dpe_warnings_eq (kv : rte_kvargs) (s : devargs_state) :
    process_enable_dpe_warnings kv s =
      if arg_neg (kv_arg kv CN10K_ML_FW_ENABLE_DPE_WARNINGS) = true then
        Except.error { s with
          mldev := { s.mldev with fw := { s.mldev.fw with enable_dpe_warnings := arg_int (kv_arg kv CN10K_ML_FW_ENABLE_DPE_WARNINGS) s.mldev.fw.enable_dpe_warnings } }
          ret := -EINVAL }
      else
        Except.ok { s with
          mldev := { s.mldev with fw := { s.mldev.fw with enable_dpe_warnings := arg_int (kv_arg kv CN10K_ML_FW_ENABLE_DPE_WARNINGS) s.mldev.fw.enable_dpe_warnings } }
          ret := arg_ret (kv_arg kv CN10K_ML_FW_ENABLE_DPE_WARNINGS) s.ret
          enable_dpe_warnings_set := (kv_arg kv CN10K_ML_FW_ENABLE_DPE_WARNINGS).isSome || s.enable_dpe_warnings_set } := by
  cases h : kv_arg kv CN10K_ML_FW_ENABLE_DPE_WARNINGS with
  | none =>
    have hc := kv_arg_none kv _ h
    simp [process_enable_dpe_warnings, hc, arg_neg, arg_int, arg_ret]
  | some v =>
    obtain ⟨hc, hv⟩ := kv_arg_some kv _ v h
    simp only [process_enable_dpe_warnings, hc, if_true, process_count_one kv _ v _ _ hc hv,
      parse_integer_arg, arg_neg, arg_int, arg_ret, decide_eq_true_eq]
    by_cases hn : atoi v < 0 <;> simp [hn, EINVAL]

theorem process_report_dpe_warnings_eq (kv : rte_kvargs) (s : devargs_state) :
    process_report_dpe_warnings kv s =
      if arg_neg (kv_arg kv CN10K_ML_FW_REPORT_DPE_WARNINGS) = true then
        Except.error { s with
          mldev := { s.mldev with fw := { s.mldev.fw with report_dpe_warnings := arg_int (kv_arg kv CN10K_ML_FW_REPORT_DPE_WARNINGS) s.mldev.fw.report_dpe_warnings } }
          ret := -EINVAL }
      else
        Except.ok { s with
          mldev := { s.mldev with fw := { s.mldev.fw with report_dpe_warnings := arg_int (kv_arg kv CN10K_ML_FW_REPORT_DPE_WARNINGS) s.mldev.fw.report_dpe_warnings } }
          ret := arg_ret (kv_arg kv CN10K_ML_FW_REPORT_DPE_WARNINGS) s.ret
          report_dpe_warnings_set := (kv_arg kv CN10K_ML_FW_REPORT_DPE_WARNINGS).isSome || s.report_dpe_warnings_set } := by
  cases h : kv_arg kv CN10K_ML_FW_REPORT_DPE_WARNINGS with
  | none =>
    have hc := kv_arg_none kv _ h
    simp [process_report_dpe_warnings, hc, arg_neg, arg_int, arg_ret]
  | some v =>
    obtain ⟨hc, hv⟩ := kv_arg_some kv _ v h
    simp only [process_report_dpe_warnings, hc, if_true, process_count_one kv _ v _ _ hc hv,
      parse_integer_arg, arg_neg, arg_int, arg_ret, decide_eq_true_eq]
    by_cases hn : atoi v < 0 <;> simp [hn, EINVAL]

theorem process_cache_model_data_eq (kv : rte_kvargs) (s : devargs_state) :
    process_cache_model_data kv s =
      if arg_neg (kv_arg kv CN10K_ML_DEV_CACHE_MODEL_DATA) = true then
        Except.error { s with
          mldev := { s.mldev with cache_model_data := arg_int (kv_arg kv CN10K_ML_DEV_CACHE_MODEL_DATA) s.mldev.cache_model_data }
          ret := -EINVAL }
      else
        Except.ok { s with
          mldev := { s.mldev with cache_model_data := arg_int (kv_arg kv CN10K_ML_DEV_CACHE_MODEL_DATA) s.mldev.cache_model_data }
          ret := arg_ret (kv_arg kv CN10K_ML_DEV_CACHE_MODEL_DATA) s.ret
          cache_model_data_set := (kv_arg kv CN10K_ML_DEV_CACHE_MODEL_DATA).isSome || s.cache_model_data_set } := by
  cases h : kv_arg kv CN10K_ML_DEV_CACHE_MODEL_DATA with
  | none =>
    have hc := kv_arg_none kv _ h
    simp [process_cache_model_data, hc, arg_neg, arg_int, arg_ret]
  | some v =>
    obtain ⟨hc, hv⟩ := kv_arg_some kv _ v h
    simp only [process_cache_model_data, hc, if_true, process_count_one kv _ v _ _ hc hv,
      parse_integer_arg, arg_neg, arg_int, arg_ret, decide_eq_true_eq]
    by_cases hn : atoi v < 0 <;> simp [hn, EINVAL]

theorem process_hw_queue_lock_eq (kv : rte_kvargs) (s : devargs_state) :
    process_hw_queue_lock kv s =
      if arg_neg (kv_arg kv CN10K_ML_DEV_HW_QUEUE_LOCK) = true then
        Except.error { s with
          mldev := { s.mldev with hw_queue_lock := arg_int (kv_arg kv CN10K_ML_DEV_HW_QUEUE_LOCK) s.mldev.hw_queue_lock }
          ret := -EINVAL }
      else
        Except.ok { s with
          mldev := { s.mldev with hw_queue_lock := arg_int (kv_arg kv CN10K_ML_DEV_HW_QUEUE_LOCK) s.mldev.hw_queue_lock }
          ret := arg_ret (kv_arg kv CN10K_ML_DEV_HW_QUEUE_LOCK) s.ret
          hw_queue_lock_set := (kv_arg kv CN10K_ML_DEV_HW_QUEUE_LOCK).isSome || s.hw_queue_lock_set } := by
  cases h : kv_arg kv CN10K_ML_DEV_HW_QUEUE_LOCK with
  | none =>
    have hc := kv_arg_none kv _ h
    simp [process_hw_queue_lock, hc, arg_neg, arg_int, arg_ret]
  | some v =>
    obtain ⟨hc, hv⟩ := kv_arg_some kv _ v h
    simp only [process_hw_queue_lock, hc, if_true, process_count_one kv _ v _ _ hc hv,
      parse_integer_arg, arg_neg, arg_int, arg_ret, decide_eq_true_eq]
    by_cases hn : atoi v < 0 <;> simp [hn, EINVAL]

theorem process_ocm_page_size_eq (kv : rte_kvargs) (s : devargs_state) :
    process_ocm_page_size kv s =
      if arg_neg (kv_arg kv CN10K_ML_OCM_PAGE_SIZE) = true then
        Except.error { s with
          mldev := { s.mldev with ocm_page_size := arg_int (kv_arg kv CN10K_ML_OCM_PAGE_SIZE) s.mldev.ocm_page_size }
          ret := -EINVAL }
      else
        Except.ok { s with
          mldev := { s.mldev with ocm_page_size := arg_int (kv_arg kv CN10K_ML_OCM_PAGE_SIZE) s.mldev.ocm_page_size }
          ret := arg_ret (kv_arg kv CN10K_ML_OCM_PAGE_SIZE) s.ret
          ocm_page_size_set := (kv_arg kv CN10K_ML_OCM_PAGE_SIZE).isSome || s.ocm_page_size_set } := by
  cases h : kv_arg kv CN10K_ML_OCM_PAGE_SIZE with
  | none =>
    have hc := kv_arg_none kv _ h
    simp [process_ocm_page_size, hc, arg_neg, arg_int, arg_ret]
  | some v =>
    obtain ⟨hc, hv⟩ := kv_arg_some kv _ v h
    simp only [process_ocm_page_size, hc, if_true, process_count_one kv _ v _ _ hc hv,
      parse_integer_arg, arg_neg, arg_int, arg_ret, decide_eq_true_eq]
    by_cases hn : atoi v < 0 <;> simp [hn, EINVAL]

theorem process_fw_path_eq (kv : rte_kvargs) (s : devargs_state) :
    process_fw_path kv s =
      Except.ok { s with
        fw_path := arg_str (kv_arg kv CN10K_ML_FW_PATH) s.fw_path
        ret := arg_ret (kv_arg kv CN10K_ML_FW_PATH) s.ret
        fw_path_set := (kv_arg kv CN10K_ML_FW_PATH).isSome || s.fw_path_set } := by
  cases h : kv_arg kv CN10K_ML_FW_PATH with
  | none =>
    have hc := kv_arg_none kv _ h
    simp [process_fw_path, hc, arg_str, arg_ret]
  | some v =>
    obtain ⟨hc, hv⟩ := kv_arg_some kv _ v h
    simp [process_fw_path, hc, process_count_one kv _ v _ _ hc hv,
      parse_string_arg, arg_str, arg_ret]

theorem process_ocm_alloc_mode_eq (kv : rte_kvargs) (s : devargs_state) :
    process_ocm_alloc_mode kv s =
      Except.ok { s with
        ocm_alloc_mode := arg_str (kv_arg kv CN10K_ML_OCM_ALLOC_MODE) s.ocm_alloc_mode
        ret := arg_ret (kv_arg kv CN10K_ML_OCM_ALLOC_MODE) s.ret
        ocm_alloc_mode_set := (kv_arg kv CN10K_ML_OCM_ALLOC_MODE).isSome || s.ocm_alloc_mode_set } := by
  cases h : kv_arg kv CN10K_ML_OCM_ALLOC_MODE with
  | none =>
    have hc := kv_arg_none kv _ h
    simp [process_ocm_alloc_mode, hc, arg_str, arg_ret]
  | some v =>
    obtain ⟨hc, hv⟩ := kv_arg_some kv _ v h
    simp [process_ocm_alloc_mode, hc, process_count_one kv _ v _ _ hc hv,
      parse_string_arg, arg_str, arg_ret]

theorem process_poll_mem_eq (kv : rte_kvargs) (s : devargs_state) :
    process_poll_mem kv s =
      Except.ok { s with
        poll_mem := arg_str (kv_arg kv CN10K_ML_FW_POLL_MEM) s.poll_mem
        ret := arg_ret (kv_arg kv CN10K_ML_FW_POLL_MEM) s.ret
        poll_mem_set := (kv_arg kv CN10K_ML_FW_POLL_MEM).isSome || s.poll_mem_set } := by
  cases h : kv_arg kv CN10K_ML_FW_POLL_MEM with
  | none =>
    have hc := kv_arg_none kv _ h
    simp [process_poll_mem, hc, arg_str, arg_ret]
  | some v =>
    obtain ⟨hc, hv⟩ := kv_arg_some kv _ v h
    simp [process_poll_mem, hc, process_count_one kv _ v _ _ hc hv,
      parse_string_arg, arg_str, arg_ret]

theorem ok_bind {ε α β : Type} (x : α) (f : α → Except ε β) :
    ((Except.ok x : Except ε α) >>= f) = f x := rfl

theorem strcmp_eq_zero (s1 : Option String) (s2 : String) :
    strcmp s1 s2 = 0 ↔ s1 = some s2 := by
  cases s1 with
  | none => simp [strcmp]
  | some a =>
    simp only [strcmp, Option.some.injEq]
    by_cases h : a = s2
    · simp [h]
    · simp only [h, if_false, iff_false]
      split <;> decide

theorem ocm_page_size_found_iff (v : Int) :
    ocm_page_size_found v valid_ocm_page_size = true ↔
      v = 1024 ∨ v = 2048 ∨ v = 4096 ∨ v = 8192 ∨ v = 16384 := by
  simp only [valid_ocm_page_size, ocm_page_size_found]
  by_cases h1 : v = 1024 <;> by_cases h2 : v = 2048 <;> by_cases h3 : v = 4096 <;>
    by_cases h4 : v = 8192 <;> by_cases h5 : v = 16384 <;> simp [h1, h2, h3, h4, h5]

theorem check_enable_dpe_warnings_eq (s : devargs_state) :
    check_enable_dpe_warnings s =
      if s.enable_dpe_warnings_set = true ∧ (s.mldev.fw.enable_dpe_warnings < 0 ∨ s.mldev.fw.enable_dpe_warnings > 1) then
        Except.error { s with ret := -EINVAL }
      else
        Except.ok { s with mldev := { s.mldev with fw := { s.mldev.fw with enable_dpe_warnings :=
            if s.enable_dpe_warnings_set = true then s.mldev.fw.enable_dpe_warnings else CN10K_ML_FW_ENABLE_DPE_WARNINGS_DEFAULT } } } := by
  rcases s with ⟨f1, f2, f3, f4, f5, f6, om, f7, f8, pm, fp, r, m⟩
  cases f1 <;> simp [check_enable_dpe_warnings]

theorem check_report_dpe_warnings_eq (s : devargs_state) :
    check_report_dpe_warnings s =
      if s.report_dpe_warnings_set = true ∧ (s.mldev.fw.report_dpe_warnings < 0 ∨ s.mldev.fw.report_dpe_warnings > 1) then
        Except.error { s with ret := -EINVAL }
      else
        Except.ok { s with mldev := { s.mldev with fw := { s.mldev.fw with report_dpe_warnings :=
            if s.report_dpe_warnings_set = true then s.mldev.fw.report_dpe_warnings else CN10K_ML_FW_REPORT_DPE_WARNINGS_DEFAULT } } } := by
  rcases s with ⟨f1, f2, f3, f4, f5, f6, om, f7, f8, pm, fp, r, m⟩
  cases f2 <;> simp [check_report_dpe_warnings]

theorem check_cache_model_data_eq (s : devargs_state) :
    check_cache_model_data s =
      if s.cache_model_data_set = true ∧ (s.mldev.cache_model_data < 0 ∨ s.mldev.cache_model_data > 1) then
        Except.error { s with ret := -EINVAL }
      else
        Except.ok { s with mldev := { s.mldev with cache_model_data :=
            if s.cache_model_data_set = true then s.mldev.cache_model_data else CN10K_ML_DEV_CACHE_MODEL_DATA_DEFAULT } } := by
  rcases s with ⟨f1, f2, f3, f4, f5, f6, om, f7, f8, pm, fp, r, m⟩
  cases f3 <;> simp [check_cache_model_data]

theorem check_hw_queue_lock_eq (s : devargs_state) :
    check_hw_queue_lock s =
      if s.hw_queue_lock_set = true ∧ (s.mldev.hw_queue_lock < 0 ∨ s.mldev.hw_queue_lock > 1) then
        Except.error { s with ret := -EINVAL }
      else
        Except.ok { s with mldev := { s.mldev with hw_queue_lock :=
            if s.hw_queue_lock_set = true then s.mldev.hw_queue_lock else CN10K_ML_DEV_HW_QUEUE_LOCK_DEFAULT } } := by
  rcases s with ⟨f1, f2, f3, f4, f5, f6, om, f7, f8, pm, fp, r, m⟩
  cases f5 <;> simp [check_hw_queue_lock]

theorem check_fw_path_eq (s : devargs_state) :
    check_fw_path s =
      Except.ok { s with mldev := { s.mldev with fw := { s.mldev.fw with path :=
        (if s.fw_path_set = true then s.fw_path else some CN10K_ML_FW_PATH_DEFAULT) } } } := by
  rcases s with ⟨f1, f2, f3, f4, f5, f6, om, f7, f8, pm, fp, r, m⟩
  cases f8 <;> simp [check_fw_path]

theorem check_ocm_alloc_mode_eq (s : devargs_state) :
    check_ocm_alloc_mode s =
      if s.ocm_alloc_mode_set = true ∧
          ¬(s.ocm_alloc_mode = some "lowest" ∨ s.ocm_alloc_mode = some "largest") then
        Except.error { s with ret := -EINVAL }
      else
        Except.ok { s with mldev := { s.mldev with ocm := { s.mldev.ocm with alloc_mode :=
          (if s.ocm_alloc_mode_set = true then s.ocm_alloc_mode
          else some CN10K_ML_OCM_ALLOC_MODE_DEFAULT) } } } := by
  rcases s with ⟨f1, f2, f3, f4, f5, f6, om, f7, f8, pm, fp, r, m⟩
  cases f4 <;> simp [check_ocm_alloc_mode, strcmp_eq_zero]

theorem check_poll_mem_eq (s : devargs_state) :
    check_poll_mem s =
      if s.poll_mem_set = true ∧
          ¬(s.poll_mem = some "ddr" ∨ s.poll_mem = some "register") then
        Except.error { s with ret := -EINVAL }
      else
        Except.ok { s with mldev := { s.mldev with fw := { s.mldev.fw with poll_mem :=
          (if s.poll_mem_set = true then s.poll_mem
          else some CN10K_ML_FW_POLL_MEM_DEFAULT) } } } := by
  rcases s with ⟨f1, f2, f3, f4, f5, f6, om, f7, f8, pm, fp, r, m⟩
  cases f7 <;> simp [check_poll_mem, strcmp_eq_zero]

theorem check_ocm_page_size_eq (s : devargs_state) :
    check_ocm_page_size s =
      if s.ocm_page_size_set = true ∧ (s.mldev.ocm_page_size < 0 ∨
          ocm_page_size_found s.mldev.ocm_page_size valid_ocm_page_size = false) then
        Except.error { s with ret := -EINVAL }
      else
        Except.ok { s with mldev := { s.mldev with ocm_page_size :=
          if s.ocm_page_size_set = true then s.mldev.ocm_page_size
          else CN10K_ML_OCM_PAGE_SIZE_DEFAULT } } := by
  rcases s with ⟨f1, f2, f3, f4, f5, f6, om, f7, f8, pm, fp, r, m⟩
  cases f6
  · simp [check_ocm_page_size]
  · simp only [check_ocm_page_size]
    split_ifs <;> first | rfl | (exfalso; simp_all; omega) | (exfalso; simp_all)

theorem ok_bool_iff (a : Option String) (old : Int) :
    ok_bool a ↔ ¬(arg_neg a = true) ∧
      ¬((a.isSome || false) = true ∧ (arg_int a old < 0 ∨ arg_int a old > 1)) := by
  cases a with
  | none => simp [ok_bool, arg_neg]
  | some v =>
    simp only [ok_bool, Option.some.injEq, forall_eq', arg_neg, arg_int, Option.isSome_some,
      Bool.or_false, true_and, decide_eq_true_eq]
    omega

theorem ok_str_iff (a : Option String) (x y : String) :
    ok_str a x y ↔
      ¬((a.isSome || false) = true ∧ ¬(arg_str a none = some x ∨ arg_str a none = some y)) := by
  cases a with
  | none => simp [ok_str]
  | some v =>
    simp only [ok_str, Option.some.injEq, forall_eq', arg_str, Option.isSome_some,
      Bool.or_false, true_and, not_not]

theorem ok_page_iff (a : Option String) (old : Int) :
    ok_page a ↔ ¬(arg_neg a = true) ∧
      ¬((a.isSome || false) = true ∧ (arg_int a old < 0 ∨
        ocm_page_size_found (arg_int a old) valid_ocm_page_size = false)) := by
  cases a with
  | none => simp [ok_page, arg_neg]
  | some v =>
    have h := ocm_page_size_found_iff (atoi v)
    simp only [ok_page, Option.some.injEq, forall_eq', arg_neg, arg_int, Option.isSome_some,
      Bool.or_false, true_and, decide_eq_true_eq, ← h, Bool.not_eq_true, not_or,
      Bool.not_eq_false]
    constructor
    · intro hf
      have := h.mp hf
      exact ⟨by omega, by omega, hf⟩
    · exact fun hf => hf.2.2

theorem arg_ret_zero (a : Option String) : arg_ret a 0 = 0 := by
  cases a <;> rfl

theorem int_field_eq (a : Option String) (old d : Int) :
    (if (a.isSome || false) = true then arg_int a old else d) = (a.map atoi).getD d := by
  cases a <;> rfl

theorem str_field_eq (a : Option String) (d : String) :
    (if (a.isSome || false) = true then arg_str a none else some d) = some (a.getD d) := by
  cases a <;> rfl

theorem exit_ite_error {c : Prop} [Decidable c] {e : devargs_state}
    {y : Except devargs_state devargs_state} (he : e.ret = -EINVAL)
    (h : ¬c → (devargs_exit y).1 = -EINVAL) :
    (devargs_exit (if c then Except.error e else y)).1 = -EINVAL := by
  by_cases hc : c
  · rw [if_pos hc]; exact he
  · rw [if_neg hc]; exact h hc

theorem parse_kv (kv : rte_kvargs) (m : cn10k_ml_dev) :
    (view_ok (view_of kv) →
      devargs_exit (process_devargs kv (devargs_state.init m) >>= check_args) =
        (0, resolved (view_of kv) m)) ∧
    (¬view_ok (view_of kv) →
      (devargs_exit (process_devargs kv (devargs_state.init m) >>= check_args)).1 =
        -EINVAL) := by
  simp only [process_devargs, process_fw_path_eq, process_enable_dpe_warnings_eq,
    process_report_dpe_warnings_eq, process_cache_model_data_eq, process_ocm_alloc_mode_eq,
    process_hw_queue_lock_eq, process_poll_mem_eq, process_ocm_page_size_eq,
    bind_ite_error, ok_bind, check_args, check_fw_path_eq, check_enable_dpe_warnings_eq,
    check_report_dpe_warnings_eq, check_cache_model_data_eq, check_ocm_alloc_mode_eq,
    check_hw_queue_lock_eq, check_poll_mem_eq, check_ocm_page_size_eq, view_ok, view_of,
    resolved]
  generalize kv_arg kv CN10K_ML_FW_PATH = a1
  generalize kv_arg kv CN10K_ML_FW_ENABLE_DPE_WARNINGS = a2
  generalize kv_arg kv CN10K_ML_FW_REPORT_DPE_WARNINGS = a3
  generalize kv_arg kv CN10K_ML_DEV_CACHE_MODEL_DATA = a4
  generalize kv_arg kv CN10K_ML_OCM_ALLOC_MODE = a5
  generalize kv_arg kv CN10K_ML_DEV_HW_QUEUE_LOCK = a6
  generalize kv_arg kv CN10K_ML_FW_POLL_MEM = a7
  generalize kv_arg kv CN10K_ML_OCM_PAGE_SIZE = a8
  simp only [devargs_state.init]
  rw [ok_bool_iff a2 m.fw.enable_dpe_warnings, ok_bool_iff a3 m.fw.report_dpe_warnings,
    ok_bool_iff a4 m.cache_model_data, ok_bool_iff a6 m.hw_queue_lock,
    ok_page_iff a8 m.ocm_page_size, ok_str_iff a5, ok_str_iff a7]
  constructor
  · rintro ⟨⟨n2, c2⟩, ⟨n3, c3⟩, ⟨n4, c4⟩, c5, ⟨n6, c6⟩, c7, ⟨n8, c8⟩⟩
    rw [if_neg n2, if_neg n3, if_neg n4, if_neg n6, if_neg n8, if_neg c2, if_neg c3,
      if_neg c4, if_neg c5, if_neg c6, if_neg c7, if_neg c8]
    simp only [devargs_exit]
    simp only [arg_ret_zero]
    rw [int_field_eq a2, int_field_eq a3, int_field_eq a4, int_field_eq a6, int_field_eq a8,
      str_field_eq a1, str_field_eq a5, str_field_eq a7]
  · intro hnok
    refine exit_ite_error rfl (fun h1 => ?_)
    refine exit_ite_error rfl (fun h2 => ?_)
    refine exit_ite_error rfl (fun h3 => ?_)
    refine exit_ite_error rfl (fun h4 => ?_)
    refine exit_ite_error rfl (fun h5 => ?_)
    refine exit_ite_error rfl (fun h6 => ?_)
    refine exit_ite_error rfl (fun h7 => ?_)
    refine exit_ite_error rfl (fun h8 => ?_)
    refine exit_ite_error rfl (fun h9 => ?_)
    refine exit_ite_error rfl (fun h10 => ?_)
    refine exit_ite_error rfl (fun h11 => ?_)
    refine exit_ite_error rfl (fun h12 => ?_)
    exact absurd ⟨⟨h1, h6⟩, ⟨h2, h7⟩, ⟨h3, h8⟩, h9, ⟨h4, h10⟩, h11, ⟨h5, h12⟩⟩ hnok
/-! ## From the argument list to the view -/

theorem valid_args_eq :
    valid_args = ["fw_path", "enable_dpe_warnings", "report_dpe_warnings",
      "cache_model_data", "ocm_alloc_mode", "hw_queue_lock", "poll_mem", "ocm_page_size"] :=
  rfl

theorem mem_valid_args (k : String) :
    k ∈ valid_args ↔ k = "fw_path" ∨ k = "enable_dpe_warnings" ∨ k = "report_dpe_warnings" ∨
      k = "cache_model_data" ∨ k = "ocm_alloc_mode" ∨ k = "hw_queue_lock" ∨ k = "poll_mem" ∨
      k = "ocm_page_size" := by
  rw [valid_args_eq]
  simp only [List.mem_cons, List.mem_singleton, List.not_mem_nil, or_false]

theorem valid_value_mem (k v : String) (h : valid_value k v = true) : k ∈ valid_args := by
  rw [mem_valid_args]
  by_cases h1 : k = "fw_path"
  · exact Or.inl h1
  by_cases h2 : k = "enable_dpe_warnings"
  · exact Or.inr (Or.inl h2)
  by_cases h3 : k = "report_dpe_warnings"
  · exact Or.inr (Or.inr (Or.inl h3))
  by_cases h4 : k = "cache_model_data"
  · exact Or.inr (Or.inr (Or.inr (Or.inl h4)))
  by_cases h5 : k = "ocm_alloc_mode"
  · exact Or.inr (Or.inr (Or.inr (Or.inr (Or.inl h5))))
  by_cases h6 : k = "hw_queue_lock"
  · exact Or.inr (Or.inr (Or.inr (Or.inr (Or.inr (Or.inl h6)))))
  by_cases h7 : k = "poll_mem"
  · exact Or.inr (Or.inr (Or.inr (Or.inr (Or.inr (Or.inr (Or.inl h7))))))
  by_cases h8 : k = "ocm_page_size"
  · exact Or.inr (Or.inr (Or.inr (Or.inr (Or.inr (Or.inr (Or.inr h8))))))
  · simp [valid_value, is_bool_key, CN10K_ML_FW_PATH, CN10K_ML_FW_ENABLE_DPE_WARNINGS,
      CN10K_ML_FW_REPORT_DPE_WARNINGS, CN10K_ML_DEV_CACHE_MODEL_DATA, CN10K_ML_OCM_ALLOC_MODE,
      CN10K_ML_DEV_HW_QUEUE_LOCK, CN10K_ML_FW_POLL_MEM, CN10K_ML_OCM_PAGE_SIZE,
      h1, h2, h3, h4, h5, h6, h7, h8] at h

theorem valid_value_bool (k v : String) (hk : is_bool_key k = true) :
    valid_value k v = true ↔ atoi v = 0 ∨ atoi v = 1 := by
  have hne : k ≠ CN10K_ML_FW_PATH := by
    intro h
    rw [h] at hk
    exact absurd hk (by decide)
  simp [valid_value, hk, hne]

theorem valid_value_alloc_mode (v : String) :
    valid_value "ocm_alloc_mode" v = true ↔ v = "lowest" ∨ v = "largest" := by
  simp [valid_value, is_bool_key, CN10K_ML_FW_PATH, CN10K_ML_FW_ENABLE_DPE_WARNINGS,
    CN10K_ML_FW_REPORT_DPE_WARNINGS, CN10K_ML_DEV_CACHE_MODEL_DATA, CN10K_ML_OCM_ALLOC_MODE,
    CN10K_ML_DEV_HW_QUEUE_LOCK]

theorem valid_value_poll_mem (v : String) :
    valid_value "poll_mem" v = true ↔ v = "ddr" ∨ v = "register" := by
  simp [valid_value, is_bool_key, CN10K_ML_FW_PATH, CN10K_ML_FW_ENABLE_DPE_WARNINGS,
    CN10K_ML_FW_REPORT_DPE_WARNINGS, CN10K_ML_DEV_CACHE_MODEL_DATA, CN10K_ML_OCM_ALLOC_MODE,
    CN10K_ML_DEV_HW_QUEUE_LOCK, CN10K_ML_FW_POLL_MEM]

theorem valid_value_page_size (v : String) :
    valid_value "ocm_page_size" v = true ↔
      atoi v = 1024 ∨ atoi v = 2048 ∨ atoi v = 4096 ∨ atoi v = 8192 ∨ atoi v = 16384 := by
  simp [valid_value, is_bool_key, CN10K_ML_FW_PATH, CN10K_ML_FW_ENABLE_DPE_WARNINGS,
    CN10K_ML_FW_REPORT_DPE_WARNINGS, CN10K_ML_DEV_CACHE_MODEL_DATA, CN10K_ML_OCM_ALLOC_MODE,
    CN10K_ML_DEV_HW_QUEUE_LOCK, CN10K_ML_FW_POLL_MEM, CN10K_ML_OCM_PAGE_SIZE,
    valid_ocm_page_size]

theorem count_zero_not_mem (kv : rte_kvargs) (k v : String)
    (hc : rte_kvargs_count kv k = 0) : (k, v) ∉ kv := by
  induction kv with
  | nil => simp
  | cons p rest ih =>
    by_cases hp : p.1 = k
    · simp [rte_kvargs_count, hp] at hc
    · simp only [rte_kvargs_count, hp, if_false] at hc
      intro hm
      rcases List.mem_cons.mp hm with h | h
      · exact hp (by rw [← h])
      · exact ih hc h

theorem count_one_first_value (kv : rte_kvargs) (k v : String)
    (hc : rte_kvargs_count kv k = 1) (hm : (k, v) ∈ kv) : first_value kv k = some v := by
  induction kv with
  | nil => simp at hm
  | cons p rest ih =>
    by_cases hp : p.1 = k
    · simp only [rte_kvargs_count, hp, if_true, Nat.add_eq_right] at hc
      rcases List.mem_cons.mp hm with h | h
      · simp [first_value, hp, ← h]
      · exact absurd h (count_zero_not_mem rest k v hc)
    · simp only [rte_kvargs_count, hp, if_false] at hc
      rcases List.mem_cons.mp hm with h | h
      · exact absurd (by rw [← h]) hp
      · simp only [first_value, hp, if_false]
        exact ih hc h

theorem kv_arg_of_count_one (kv : rte_kvargs) (k v : String)
    (hc : rte_kvargs_count kv k = 1) (hm : (k, v) ∈ kv) : kv_arg kv k = some v := by
  simp [kv_arg, hc, count_one_first_value kv k v hc hm]

theorem kv_arg_mem (kv : rte_kvargs) (k v : String) (h : kv_arg kv k = some v) :
    (k, v) ∈ kv :=
  first_value_mem kv k v (kv_arg_some kv k v h).2

theorem kv_arg_of_count_ne_one (kv : rte_kvargs) (k : String)
    (hc : rte_kvargs_count kv k ≠ 1) : kv_arg kv k = none := by
  simp [kv_arg, hc]

theorem rte_kvargs_parse_valid (kv : rte_kvargs) (h : ∀ p ∈ kv, p.1 ∈ valid_args) :
    rte_kvargs_parse kv valid_args = some kv := by
  unfold rte_kvargs_parse
  rw [if_pos]
  rw [List.all_eq_true]
  intro p hp
  exact List.elem_eq_true_of_mem (h p hp)

theorem rte_kvargs_parse_invalid (kv : rte_kvargs) (h : ∃ p ∈ kv, p.1 ∉ valid_args) :
    rte_kvargs_parse kv valid_args = none := by
  unfold rte_kvargs_parse
  rw [if_neg]
  rw [List.all_eq_true]
  intro hall
  obtain ⟨p, hp, hn⟩ := h
  exact hn (List.mem_of_elem_eq_true (hall p hp))

theorem parse_some_eq (kv : rte_kvargs) (m : cn10k_ml_dev) (h : ∀ p ∈ kv, p.1 ∈ valid_args) :
    cn10k_mldev_parse_devargs (some kv) m =
      devargs_exit (process_devargs kv (devargs_state.init m) >>= check_args) := by
  simp only [cn10k_mldev_parse_devargs, rte_kvargs_parse_valid kv h]

theorem parse_none_eq (m : cn10k_ml_dev) :
    cn10k_mldev_parse_devargs none m = cn10k_mldev_parse_devargs (some []) m := rfl

/-- With recognized keys only, the call succeeds exactly when the view is
valid, and then leaves `resolved`. -/
theorem parse_view (kv : rte_kvargs) (m : cn10k_ml_dev) (h : ∀ p ∈ kv, p.1 ∈ valid_args) :
    (view_ok (view_of kv) →
      cn10k_mldev_parse_devargs (some kv) m = (0, resolved (view_of kv) m)) ∧
    (¬view_ok (view_of kv) → (cn10k_mldev_parse_devargs (some kv) m).1 = -EINVAL) := by
  rw [parse_some_eq kv m h]
  exact parse_kv kv m

theorem view_ok_of_valid (kv : rte_kvargs)
    (h : ∀ K v, kv_arg kv K = some v → valid_value K v = true) : view_ok (view_of kv) := by
  refine ⟨?_, ?_, ?_, ?_, ?_, ?_, ?_⟩
  · intro v hv
    exact (valid_value_bool _ v (by decide)).mp (h _ v hv)
  · intro v hv
    exact (valid_value_bool _ v (by decide)).mp (h _ v hv)
  · intro v hv
    exact (valid_value_bool _ v (by decide)).mp (h _ v hv)
  · intro v hv
    exact (valid_value_alloc_mode v).mp (h _ v hv)
  · intro v hv
    exact (valid_value_bool _ v (by decide)).mp (h _ v hv)
  · intro v hv
    exact (valid_value_poll_mem v).mp (h _ v hv)
  · intro v hv
    exact (valid_value_page_size v).mp (h _ v hv)

theorem valid_of_view_ok (kv : rte_kvargs) (h : view_ok (view_of kv)) (K v : String)
    (hK : K ∈ valid_args) (hv : kv_arg kv K = some v) : valid_value K v = true := by
  obtain ⟨h2, h3, h4, h5, h6, h7, h8⟩ := h
  rcases (mem_valid_args K).mp hK with rfl | rfl | rfl | rfl | rfl | rfl | rfl | rfl
  · rfl
  · exact (valid_value_bool _ v (by decide)).mpr (h2 v hv)
  · exact (valid_value_bool _ v (by decide)).mpr (h3 v hv)
  · exact (valid_value_bool _ v (by decide)).mpr (h4 v hv)
  · exact (valid_value_alloc_mode v).mpr (h5 v hv)
  · exact (valid_value_bool _ v (by decide)).mpr (h6 v hv)
  · exact (valid_value_poll_mem v).mpr (h7 v hv)
  · exact (valid_value_page_size v).mpr (h8 v hv)

/-- One key supplied once with `value`, every other entry valid: the keys are
all recognized, and the view is valid exactly when `value` is valid. -/
theorem single_key (kv : rte_kvargs) (key value : String) (hkey : key ∈ valid_args)
    (hc : rte_kvargs_count kv key = 1) (hm : (key, value) ∈ kv)
    (hothers : ∀ p ∈ kv, p.1 ≠ key → valid_value p.1 p.2 = true) :
    (∀ p ∈ kv, p.1 ∈ valid_args) ∧ kv_arg kv key = some value ∧
    (view_ok (view_of kv) ↔ valid_value key value = true) := by
  have hk := kv_arg_of_count_one kv key value hc hm
  refine ⟨?_, hk, ?_, ?_⟩
  · intro p hp
    by_cases hpk : p.1 = key
    · rw [hpk]; exact hkey
    · exact valid_value_mem _ _ (hothers p hp hpk)
  · intro hok
    exact valid_of_view_ok kv hok key value hkey hk
  · intro hval
    apply view_ok_of_valid
    intro K v hv
    by_cases hKk : K = key
    · subst hKk
      rw [hk] at hv
      rw [← Option.some.inj hv]
      exact hval
    · exact hothers (K, v) (kv_arg_mem kv K v hv) hKk

/-- The return value is 0 or -EINVAL, and 0 exactly for a valid view. -/
theorem parse_ret (kv : rte_kvargs) (m : cn10k_ml_dev) (h : ∀ p ∈ kv, p.1 ∈ valid_args) :
    ((cn10k_mldev_parse_devargs (some kv) m).1 = 0 ↔ view_ok (view_of kv)) ∧
    ((cn10k_mldev_parse_devargs (some kv) m).1 ≠ 0 →
      (cn10k_mldev_parse_devargs (some kv) m).1 = -EINVAL) := by
  obtain ⟨hok, hbad⟩ := parse_view kv m h
  by_cases hv : view_ok (view_of kv)
  · rw [hok hv]
    exact ⟨⟨fun _ => hv, fun _ => rfl⟩, fun hne => absurd rfl hne⟩
  · rw [hbad hv]
    exact ⟨⟨fun h0 => absurd h0 (by decide), fun h1 => absurd h1 hv⟩, fun _ => rfl⟩

/-! ## Device arguments: the resolver's contract -/

theorem parse_valid_list (kv : rte_kvargs) (m : cn10k_ml_dev)
    (h : ∀ p ∈ kv, valid_value p.1 p.2 = true) :
    cn10k_mldev_parse_devargs (some kv) m = (0, resolved (view_of kv) m) := by
  have hkeys : ∀ p ∈ kv, p.1 ∈ valid_args := fun p hp => valid_value_mem _ _ (h p hp)
  refine (parse_view kv m hkeys).1 (view_ok_of_valid kv ?_)
  intro K v hv
  exact h (K, v) (kv_arg_mem kv K v hv)

theorem parse_valid_devargs (devargs : Option rte_kvargs) (m : cn10k_ml_dev)
    (h : valid_devargs devargs = true) :
    ∃ kv, cn10k_mldev_parse_devargs devargs m = (0, resolved (view_of kv) m) ∧
      ∀ k, rte_kvargs_count kv k = devargs_count devargs k := by
  cases devargs with
  | none =>
    refine ⟨[], ?_, fun k => rfl⟩
    rw [parse_none_eq]
    exact parse_valid_list [] m (by simp)
  | some kv =>
    refine ⟨kv, parse_valid_list kv m ?_, fun k => rfl⟩
    simpa [valid_devargs, List.all_eq_true] using h

/-- C1. For device arguments (absent ones included) that hold only recognized
keys with valid values, `cn10k_mldev_parse_devargs` returns 0 and every key
that is omitted takes its documented default. -/
theorem parse_devargs_defaults (devargs : Option rte_kvargs) (mldev : cn10k_ml_dev)
    (hvalid : valid_devargs devargs = true) :
    (cn10k_mldev_parse_devargs devargs mldev).1 = 0 ∧
    (devargs_count devargs "fw_path" = 0 →
      (cn10k_mldev_parse_devargs devargs mldev).2.fw.path =
        some "/lib/firmware/mlip-fw.bin") ∧
    (devargs_count devargs "enable_dpe_warnings" = 0 →
      (cn10k_mldev_parse_devargs devargs mldev).2.fw.enable_dpe_warnings = 1) ∧
    (devargs_count devargs "report_dpe_warnings" = 0 →
      (cn10k_mldev_parse_devargs devargs mldev).2.fw.report_dpe_warnings = 0) ∧
    (devargs_count devargs "cache_model_data" = 0 →
      (cn10k_mldev_parse_devargs devargs mldev).2.cache_model_data = 1) ∧
    (devargs_count devargs "ocm_alloc_mode" = 0 →
      (cn10k_mldev_parse_devargs devargs mldev).2.ocm.alloc_mode = some "lowest") ∧
    (devargs_count devargs "hw_queue_lock" = 0 →
      (cn10k_mldev_parse_devargs devargs mldev).2.hw_queue_lock = 1) ∧
    (devargs_count devargs "poll_mem" = 0 →
      (cn10k_mldev_parse_devargs devargs mldev).2.fw.poll_mem = some "ddr") ∧
    (devargs_count devargs "ocm_page_size" = 0 →
      (cn10k_mldev_parse_devargs devargs mldev).2.ocm_page_size = 16384) := by
  obtain ⟨kv, hres, hcnt⟩ := parse_valid_devargs devargs mldev hvalid
  rw [hres]
  have hnone : ∀ k, devargs_count devargs k = 0 → kv_arg kv k = none := by
    intro k hk
    apply kv_arg_of_count_ne_one
    rw [hcnt k, hk]
    decide
  refine ⟨rfl, ?_, ?_, ?_, ?_, ?_, ?_, ?_, ?_⟩ <;> intro h0 <;>
    simp only [resolved, view_of, CN10K_ML_FW_PATH, CN10K_ML_FW_ENABLE_DPE_WARNINGS,
      CN10K_ML_FW_REPORT_DPE_WARNINGS, CN10K_ML_DEV_CACHE_MODEL_DATA, CN10K_ML_OCM_ALLOC_MODE,
      CN10K_ML_DEV_HW_QUEUE_LOCK, CN10K_ML_FW_POLL_MEM, CN10K_ML_OCM_PAGE_SIZE] <;>
    rw [hnone _ h0] <;> rfl

/-- C1, at `fw_path=/tmp/mlip-fw.bin,ocm_page_size=4096`. -/
theorem parse_devargs_defaults_witness :
    valid_devargs (some [("fw_path", "/tmp/mlip-fw.bin"), ("ocm_page_size", "4096")]) = true ∧
    (cn10k_mldev_parse_devargs
      (some [("fw_path", "/tmp/mlip-fw.bin"), ("ocm_page_size", "4096")]) mldev_zero).1 = 0 :=
  ⟨by decide,
   (parse_devargs_defaults
      (some [("fw_path", "/tmp/mlip-fw.bin"), ("ocm_page_size", "4096")]) mldev_zero
      (by decide)).1⟩

/-- C2. A non-empty argument list with a key outside the eight recognized keys
makes `cn10k_mldev_parse_devargs` fail with -EINVAL, whatever the other keys
and values are; the device structure is not written. -/
theorem parse_devargs_unrecognized_key (args : rte_kvargs) (mldev : cn10k_ml_dev)
    (h : ∃ p ∈ args, p.1 ∉ ["fw_path", "enable_dpe_warnings", "report_dpe_warnings",
      "cache_model_data", "ocm_alloc_mode", "hw_queue_lock", "poll_mem", "ocm_page_size"]) :
    cn10k_mldev_parse_devargs (some args) mldev = (-EINVAL, mldev) := by
  rw [← valid_args_eq] at h
  simp only [cn10k_mldev_parse_devargs, rte_kvargs_parse_invalid args h]

/-- C2, at `fw_path=/tmp/mlip-fw.bin,bogus=1`. -/
theorem parse_devargs_unrecognized_key_witness :
    cn10k_mldev_parse_devargs (some [("fw_path", "/tmp/mlip-fw.bin"), ("bogus", "1")])
      mldev_zero = (-EINVAL, mldev_zero) :=
  parse_devargs_unrecognized_key [("fw_path", "/tmp/mlip-fw.bin"), ("bogus", "1")] mldev_zero
    ⟨("bogus", "1"), by decide, by decide⟩

theorem is_bool_key_mem (key : String) (h : is_bool_key key = true) : key ∈ valid_args := by
  rw [mem_valid_args]
  simp only [is_bool_key, CN10K_ML_FW_ENABLE_DPE_WARNINGS, CN10K_ML_FW_REPORT_DPE_WARNINGS,
    CN10K_ML_DEV_CACHE_MODEL_DATA, CN10K_ML_DEV_HW_QUEUE_LOCK, Bool.or_eq_true,
    decide_eq_true_eq] at h
  tauto

theorem integer_field_resolved (kv : rte_kvargs) (m : cn10k_ml_dev) (key value : String)
    (hkey : is_integer_key key = true) (hk : kv_arg kv key = some value) :
    integer_field key (resolved (view_of kv) m) = atoi value := by
  simp only [is_integer_key, is_bool_key, Bool.or_eq_true, decide_eq_true_eq] at hkey
  rcases hkey with ((((h | h) | h) | h) | h) <;> subst h <;>
    simp only [integer_field, resolved, view_of, hk, Option.map_some', Option.getD_some] <;>
    rfl

theorem is_bool_key_iff (key : String) :
    is_bool_key key = true ↔ key = "enable_dpe_warnings" ∨ key = "report_dpe_warnings" ∨
      key = "cache_model_data" ∨ key = "hw_queue_lock" := by
  simp only [is_bool_key, CN10K_ML_FW_ENABLE_DPE_WARNINGS, CN10K_ML_FW_REPORT_DPE_WARNINGS,
    CN10K_ML_DEV_CACHE_MODEL_DATA, CN10K_ML_DEV_HW_QUEUE_LOCK, Bool.or_eq_true,
    decide_eq_true_eq]
  tauto

/-- C5. The key `ocm_alloc_mode` supplied once with the string `value`, all
other entries valid: the call returns 0 if and only if `value` is exactly
"lowest" or "largest"; likewise `poll_mem` and exactly "ddr" or "register".
On success the field holds `value`; any other string makes the call return
-EINVAL. -/
theorem string_key_literals (args : rte_kvargs) (mldev : cn10k_ml_dev) (key value : String)
    (hkey : key = "ocm_alloc_mode" ∨ key = "poll_mem")
    (honce : rte_kvargs_count args key = 1) (hval : (key, value) ∈ args)
    (hothers : ∀ p ∈ args, p.1 ≠ key → valid_value p.1 p.2 = true) :
    (key = "ocm_alloc_mode" →
      ((cn10k_mldev_parse_devargs (some args) mldev).1 = 0 ↔
        value = "lowest" ∨ value = "largest") ∧
      ((cn10k_mldev_parse_devargs (some args) mldev).1 = 0 →
        (cn10k_mldev_parse_devargs (some args) mldev).2.ocm.alloc_mode = some value)) ∧
    (key = "poll_mem" →
      ((cn10k_mldev_parse_devargs (some args) mldev).1 = 0 ↔
        value = "ddr" ∨ value = "register") ∧
      ((cn10k_mldev_parse_devargs (some args) mldev).1 = 0 →
        (cn10k_mldev_parse_devargs (some args) mldev).2.fw.poll_mem = some value)) ∧
    ((cn10k_mldev_parse_devargs (some args) mldev).1 ≠ 0 →
      (cn10k_mldev_parse_devargs (some args) mldev).1 = -EINVAL) := by
  have hmem : key ∈ valid_args := by
    rcases hkey with h | h <;> rw [h] <;> decide
  obtain ⟨hkeys, hk, hiff⟩ := single_key args key value hmem honce hval hothers
  obtain ⟨hret, hne⟩ := parse_ret args mldev hkeys
  refine ⟨?_, ?_, hne⟩
  · intro h
    subst h
    rw [valid_value_alloc_mode value] at hiff
    refine ⟨hret.trans hiff, fun h0 => ?_⟩
    rw [(parse_view args mldev hkeys).1 (hret.mp h0)]
    simp only [resolved, view_of, CN10K_ML_OCM_ALLOC_MODE, hk, Option.getD_some]
  · intro h
    subst h
    rw [valid_value_poll_mem value] at hiff
    refine ⟨hret.trans hiff, fun h0 => ?_⟩
    rw [(parse_view args mldev hkeys).1 (hret.mp h0)]
    simp only [resolved, view_of, CN10K_ML_FW_POLL_MEM, hk, Option.getD_some]

/-- C5, at `ocm_alloc_mode=Lowest` (upper-case L), which is refused. -/
theorem string_key_literals_witness :
    (cn10k_mldev_parse_devargs (some [("ocm_alloc_mode", "Lowest")]) mldev_zero).1 = -EINVAL := by
  have h := string_key_literals [("ocm_alloc_mode", "Lowest")] mldev_zero "ocm_alloc_mode"
    "Lowest" (by decide) (by decide) (by decide) (by decide)
  exact h.2.2 (fun h0 => absurd ((h.1 rfl).1.mp h0) (by decide))

/-- C6. Every recognized key supplied exactly once with a valid value: the
call returns 0 and each field holds the value supplied for its key (the
string itself for the three string keys, the converted integer for the five
integer keys); no default replaces a supplied value. -/
theorem parse_devargs_round_trip (args : rte_kvargs) (mldev : cn10k_ml_dev)
    (honce : ∀ k ∈ valid_args, rte_kvargs_count args k = 1)
    (hvalid : valid_devargs (some args) = true) :
    (cn10k_mldev_parse_devargs (some args) mldev).1 = 0 ∧
    ∀ v : String,
      (("fw_path", v) ∈ args →
        (cn10k_mldev_parse_devargs (some args) mldev).2.fw.path = some v) ∧
      (("enable_dpe_warnings", v) ∈ args →
        (cn10k_mldev_parse_devargs (some args) mldev).2.fw.enable_dpe_warnings = atoi v) ∧
      (("report_dpe_warnings", v) ∈ args →
        (cn10k_mldev_parse_devargs (some args) mldev).2.fw.report_dpe_warnings = atoi v) ∧
      (("cache_model_data", v) ∈ args →
        (cn10k_mldev_parse_devargs (some args) mldev).2.cache_model_data = atoi v) ∧
      (("ocm_alloc_mode", v) ∈ args →
        (cn10k_mldev_parse_devargs (some args) mldev).2.ocm.alloc_mode = some v) ∧
      (("hw_queue_lock", v) ∈ args →
        (cn10k_mldev_parse_devargs (some args) mldev).2.hw_queue_lock = atoi v) ∧
      (("poll_mem", v) ∈ args →
        (cn10k_mldev_parse_devargs (some args) mldev).2.fw.poll_mem = some v) ∧
      (("ocm_page_size", v) ∈ args →
        (cn10k_mldev_parse_devargs (some args) mldev).2.ocm_page_size = atoi v) := by
  have hall : ∀ p ∈ args, valid_value p.1 p.2 = true := by
    simpa [valid_devargs, List.all_eq_true] using hvalid
  rw [parse_valid_list args mldev hall]
  refine ⟨rfl, fun v => ⟨?_, ?_, ?_, ?_, ?_, ?_, ?_, ?_⟩⟩ <;> intro hm <;>
    simp only [resolved, view_of, CN10K_ML_FW_PATH, CN10K_ML_FW_ENABLE_DPE_WARNINGS,
      CN10K_ML_FW_REPORT_DPE_WARNINGS, CN10K_ML_DEV_CACHE_MODEL_DATA, CN10K_ML_OCM_ALLOC_MODE,
      CN10K_ML_DEV_HW_QUEUE_LOCK, CN10K_ML_FW_POLL_MEM, CN10K_ML_OCM_PAGE_SIZE] <;>
    rw [kv_arg_of_count_one args _ v (honce _ (by decide)) hm] <;> rfl

/-- C6, at a list that sets all eight keys away from their defaults. -/
theorem parse_devargs_round_trip_witness :
    (cn10k_mldev_parse_devargs
      (some [("fw_path", "/tmp/mlip-fw.bin"), ("enable_dpe_warnings", "0"),
        ("report_dpe_warnings", "1"), ("cache_model_data", "0"),
        ("ocm_alloc_mode", "largest"), ("hw_queue_lock", "0"), ("poll_mem", "register"),
        ("ocm_page_size", "1024")]) mldev_zero).1 = 0 ∧
    (cn10k_mldev_parse_devargs
      (some [("fw_path", "/tmp/mlip-fw.bin"), ("enable_dpe_warnings", "0"),
        ("report_dpe_warnings", "1"), ("cache_model_data", "0"),
        ("ocm_alloc_mode", "largest"), ("hw_queue_lock", "0"), ("poll_mem", "register"),
        ("ocm_page_size", "1024")]) mldev_zero).2.ocm.alloc_mode = some "largest" := by
  have h := parse_devargs_round_trip
    [("fw_path", "/tmp/mlip-fw.bin"), ("enable_dpe_warnings", "0"),
      ("report_dpe_warnings", "1"), ("cache_model_data", "0"),
      ("ocm_alloc_mode", "largest"), ("hw_queue_lock", "0"), ("poll_mem", "register"),
      ("ocm_page_size", "1024")] mldev_zero (by decide) (by decide)
  exact ⟨h.1, (h.2 "largest").2.2.2.2.1 (by decide)⟩

/-! ## Firmware flags -/

/-- C7. The flags `cn10k_ml_fw_flags_get` returns are exactly bit 0 when
`enable_dpe_warnings` is set, bit 1 when `report_dpe_warnings` is set and
bit 2 when `poll_mem` is "ddr", OR-ed together; bit 2 is clear for
"register" and no other bit is ever set. With (1, 1, "ddr") the result is 7
and with (0, 0, "register") it is 0. -/
theorem fw_flags_get_bits (fw : cn10k_ml_fw) :
    cn10k_ml_fw_flags_get fw =
      ((if fw.enable_dpe_warnings ≠ 0 then BIT 0 else 0) |||
       (if fw.report_dpe_warnings ≠ 0 then BIT 1 else 0) |||
       (if fw.poll_mem = some "ddr" then BIT 2 else 0)) ∧
    (fw.poll_mem = some "register" → (cn10k_ml_fw_flags_get fw).testBit 2 = false) ∧
    (∀ n, 3 ≤ n → (cn10k_ml_fw_flags_get fw).testBit n = false) ∧
    (fw.enable_dpe_warnings = 1 → fw.report_dpe_warnings = 1 → fw.poll_mem = some "ddr" →
      cn10k_ml_fw_flags_get fw = BIT 0 ||| BIT 1 ||| BIT 2 ∧ cn10k_ml_fw_flags_get fw = 7) ∧
    (fw.enable_dpe_warnings = 0 → fw.report_dpe_warnings = 0 →
      fw.poll_mem = some "register" → cn10k_ml_fw_flags_get fw = 0) := by
  have hval : cn10k_ml_fw_flags_get fw =
      ((if fw.enable_dpe_warnings ≠ 0 then BIT 0 else 0) |||
       (if fw.report_dpe_warnings ≠ 0 then BIT 1 else 0) |||
       (if fw.poll_mem = some "ddr" then BIT 2 else 0)) := by
    unfold cn10k_ml_fw_flags_get
    simp only [strcmp_eq_zero]
    by_cases he : fw.enable_dpe_warnings = 0 <;> by_cases hr : fw.report_dpe_warnings = 0 <;>
      by_cases hd : fw.poll_mem = some "ddr" <;>
      by_cases hg : fw.poll_mem = some "register" <;>
      simp only [he, hr, hd, hg, ne_eq, not_true_eq_false, not_false_eq_true, if_true,
        if_false] <;> decide
  have hlt : cn10k_ml_fw_flags_get fw < 8 := by
    rw [hval]
    by_cases he : fw.enable_dpe_warnings = 0 <;> by_cases hr : fw.report_dpe_warnings = 0 <;>
      by_cases hd : fw.poll_mem = some "ddr" <;>
      simp only [he, hr, hd, ne_eq, not_true_eq_false, not_false_eq_true, if_true,
        if_false] <;> decide
  refine ⟨hval, ?_, ?_, ?_, ?_⟩
  · intro hreg
    rw [hval]
    have hd : ¬fw.poll_mem = some "ddr" := by rw [hreg]; decide
    by_cases he : fw.enable_dpe_warnings = 0 <;> by_cases hr : fw.report_dpe_warnings = 0 <;>
      simp only [he, hr, hd, ne_eq, not_true_eq_false, not_false_eq_true, if_true,
        if_false] <;> decide
  · intro n hn
    apply Nat.testBit_lt_two_pow
    calc cn10k_ml_fw_flags_get fw < 8 := hlt
      _ = 2 ^ 3 := by norm_num
      _ ≤ 2 ^ n := Nat.pow_le_pow_right (by norm_num) hn
  · intro he hr hd
    rw [hval, he, hr, hd]
    decide
  · intro he hr hg
    rw [hval, he, hr, hg]
    decide

/-! ## Values that are not integers, and keys supplied more than once -/

theorem is_integer_key_iff (key : String) :
    is_integer_key key = true ↔ key = "enable_dpe_warnings" ∨ key = "report_dpe_warnings" ∨
      key = "cache_model_data" ∨ key = "hw_queue_lock" ∨ key = "ocm_page_size" := by
  simp only [is_integer_key, Bool.or_eq_true, is_bool_key_iff, CN10K_ML_OCM_PAGE_SIZE,
    decide_eq_true_eq]
  tauto

theorem is_integer_key_mem (key : String) (h : is_integer_key key = true) :
    key ∈ valid_args := by
  rw [mem_valid_args]
  have := (is_integer_key_iff key).mp h
  tauto

/-! ## What `atoi` makes of a value string -/

theorem strtol_digits_append (ds rest : List Char) (acc : Nat)
    (hds : ds.all isdigit = true) (hrest : ∀ c, rest.head? = some c → isdigit c = false) :
    strtol_digits (ds ++ rest) acc =
      ds.foldl (fun a c => 10 * a + (c.toNat - 48)) acc := by
  induction ds generalizing acc with
  | nil =>
    cases rest with
    | nil => rfl
    | cons c cs =>
      have hc : isdigit c = false := hrest c rfl
      simp only [List.nil_append, strtol_digits, hc, Bool.false_eq_true, if_false,
        List.foldl_nil]
  | cons d ds ih =>
    simp only [List.all_cons, Bool.and_eq_true] at hds
    simp only [List.cons_append, strtol_digits, hds.1, if_true, List.foldl_cons]
    exact ih _ hds.2

theorem strtol_digits_value (ds rest : List Char)
    (hds : ds.all isdigit = true) (hrest : ∀ c, rest.head? = some c → isdigit c = false) :
    strtol_digits (ds ++ rest) 0 = decimal_value ds :=
  strtol_digits_append ds rest 0 hds hrest

theorem dropWhile_isspace (ws l : List Char) (hws : ws.all isspace = true)
    (hl : ∀ c, l.head? = some c → isspace c = false) :
    (ws ++ l).dropWhile isspace = l := by
  induction ws with
  | nil =>
    cases l with
    | nil => rfl
    | cons c cs =>
      simp only [List.nil_append, List.dropWhile, hl c rfl]
  | cons w ws ih =>
    simp only [List.all_cons, Bool.and_eq_true] at hws
    simp only [List.cons_append, List.dropWhile, hws.1]
    exact ih hws.2

/-- Function `atoi` reads the sign and the digits, and ignores the rest. -/
theorem atoi_of_reads (s : String) (neg : Bool) (ds rest : List Char)
    (h : atoi_reads s neg ds rest) : atoi s = int_of_decimal (read_value neg ds) := by
  obtain ⟨ws, sign, hs, hws, hsign, hds, hrest⟩ := h
  have hv := strtol_digits_value ds rest hds hrest
  have hnn : (0 : Int) ≤ (decimal_value ds : Int) := Int.ofNat_nonneg _
  rcases hsign with ⟨h1, h2, h3⟩ | ⟨h1, h2⟩ | ⟨h1, h2⟩
  · subst h1
    subst h2
    have hdrop : s.toList.dropWhile isspace = ds ++ rest := by
      rw [hs, List.append_nil, List.append_assoc]
      exact dropWhile_isspace ws (ds ++ rest) hws (fun c hc => (h3 c hc).1)
    simp only [atoi, strtol, hdrop, int_of_decimal, read_value, Bool.false_eq_true, if_false]
    split
    · rename_i cs heq
      exact absurd rfl (h3 '-' (by rw [heq]; rfl)).2.1
    · rename_i cs heq
      exact absurd rfl (h3 '+' (by rw [heq]; rfl)).2.2
    · rw [hv]
      congr 1
      simp only [LONG_MIN, LONG_MAX]
      omega
  · subst h1
    subst h2
    have hdrop : s.toList.dropWhile isspace = '-' :: (ds ++ rest) := by
      rw [hs, List.append_assoc, List.append_assoc]
      exact dropWhile_isspace ws _ hws (fun c hc => by cases hc; decide)
    simp only [atoi, strtol, hdrop, int_of_decimal, read_value, if_true, hv]
    congr 1
    simp only [LONG_MIN, LONG_MAX]
    omega
  · subst h1
    subst h2
    have hdrop : s.toList.dropWhile isspace = '+' :: (ds ++ rest) := by
      rw [hs, List.append_assoc, List.append_assoc]
      exact dropWhile_isspace ws _ hws (fun c hc => by cases hc; decide)
    simp only [atoi, strtol, hdrop, int_of_decimal, read_value, Bool.false_eq_true, if_false,
      hv]
    congr 1
    simp only [LONG_MIN, LONG_MAX]
    omega

theorem int_of_decimal_fits (v : Int) (h : fits_int v) : int_of_decimal v = v := by
  obtain ⟨h1, h2⟩ := h
  simp only [int_of_decimal, long_to_int, LONG_MIN, LONG_MAX]
  omega

theorem isdigit_not_isspace (c : Char) (h : isdigit c = true) : isspace c = false := by
  simp only [isdigit, Bool.and_eq_true, decide_eq_true_eq] at h
  simp only [isspace, Bool.or_eq_false_iff, Bool.and_eq_false_iff, decide_eq_false_iff_not]
  omega

theorem isdigit_not_sign (c : Char) (h : isdigit c = true) : c ≠ '-' ∧ c ≠ '+' := by
  constructor
  · intro e
    subst e
    exact Bool.noConfusion h
  · intro e
    subst e
    exact Bool.noConfusion h

theorem digits_head (ds : List Char) (hds : ds.all isdigit = true) (c : Char)
    (hc : (ds ++ ([] : List Char)).head? = some c) :
    isspace c = false ∧ c ≠ '-' ∧ c ≠ '+' := by
  cases ds with
  | nil => exact Option.noConfusion hc
  | cons d ds =>
    simp only [List.all_cons, Bool.and_eq_true] at hds
    simp only [List.cons_append, List.head?_cons, Option.some.injEq] at hc
    subst hc
    exact ⟨isdigit_not_isspace d hds.1, isdigit_not_sign d hds.1⟩

/-- A decimal numeral is read by `atoi` in full: no white space, the sign,
the digits, and nothing left over. -/
theorem numeral_reads (s : String) (v : Int) (h : decimal_numeral s = some v) :
    ∃ neg ds, atoi_reads s neg ds [] ∧ read_value neg ds = v := by
  unfold decimal_numeral at h
  split at h
  · rename_i ds heq
    split at h
    · rename_i hc
      simp only [Bool.and_eq_true] at hc
      simp only [Option.some.injEq] at h
      refine ⟨true, ds, ⟨[], ['-'], ?_, rfl, Or.inr (Or.inl ⟨rfl, rfl⟩), hc.2, ?_⟩, ?_⟩
      · rw [heq]
        simp only [List.nil_append, List.append_nil, List.singleton_append]
      · intro c hc2
        exact Option.noConfusion hc2
      · simp only [read_value, if_true]
        exact h
    · exact Option.noConfusion h
  · rename_i ds hno
    split at h
    · rename_i hc
      simp only [Bool.and_eq_true] at hc
      simp only [Option.some.injEq] at h
      refine ⟨false, s.toList, ⟨[], [], ?_, rfl,
        Or.inl ⟨rfl, rfl, digits_head s.toList hc.2⟩, hc.2, ?_⟩, ?_⟩
      · simp only [List.nil_append, List.append_nil]
      · intro c hc2
        exact Option.noConfusion hc2
      · simp only [read_value, Bool.false_eq_true, if_false]
        exact h
    · exact Option.noConfusion h

/-- Function `atoi` on a decimal numeral of `v` returns `v` clamped to `long`
and converted to `int`. -/
theorem atoi_of_numeral (s : String) (v : Int) (h : decimal_numeral s = some v) :
    atoi s = int_of_decimal v := by
  obtain ⟨neg, ds, hr, hv⟩ := numeral_reads s v h
  rw [atoi_of_reads s neg ds [] hr, hv]

theorem takeWhile_all (p : Char → Bool) (l : List Char) : (l.takeWhile p).all p = true := by
  induction l with
  | nil => rfl
  | cons c cs ih =>
    by_cases hc : p c = true
    · simp only [List.takeWhile, hc, List.all_cons, ih, Bool.and_self]
    · simp only [Bool.not_eq_true] at hc
      simp only [List.takeWhile, hc, List.all_nil]

theorem dropWhile_head (p : Char → Bool) (l : List Char) (c : Char)
    (h : (l.dropWhile p).head? = some c) : p c = false := by
  induction l with
  | nil => exact Option.noConfusion h
  | cons d ds ih =>
    by_cases hd : p d = true
    · simp only [List.dropWhile, hd] at h
      exact ih h
    · simp only [Bool.not_eq_true] at hd
      simp only [List.dropWhile, hd, List.head?_cons, Option.some.injEq] at h
      subst h
      exact hd

theorem take_drop_while (p : Char → Bool) (l : List Char) :
    l = l.takeWhile p ++ l.dropWhile p := (List.takeWhile_append_dropWhile p l).symm

/-- Every string has a reading: `atoi` consumes any string whatever. -/
theorem atoi_reads_total (s : String) : ∃ neg ds rest, atoi_reads s neg ds rest := by
  have hs := take_drop_while isspace s.toList
  have hws := takeWhile_all isspace s.toList
  have hhead := dropWhile_head isspace s.toList
  generalize s.toList.takeWhile isspace = ws at hs hws
  generalize s.toList.dropWhile isspace = l at hs hhead
  by_cases hm : ∃ cs, l = '-' :: cs
  · obtain ⟨cs, hcs⟩ := hm
    refine ⟨true, cs.takeWhile isdigit, cs.dropWhile isdigit, ws, ['-'], ?_, hws,
      Or.inr (Or.inl ⟨rfl, rfl⟩), takeWhile_all isdigit cs, dropWhile_head isdigit cs⟩
    rw [List.append_assoc, ← take_drop_while isdigit cs, hs, hcs]
    simp only [List.append_assoc, List.singleton_append]
  · by_cases hp : ∃ cs, l = '+' :: cs
    · obtain ⟨cs, hcs⟩ := hp
      refine ⟨false, cs.takeWhile isdigit, cs.dropWhile isdigit, ws, ['+'], ?_, hws,
        Or.inr (Or.inr ⟨rfl, rfl⟩), takeWhile_all isdigit cs, dropWhile_head isdigit cs⟩
      rw [List.append_assoc, ← take_drop_while isdigit cs, hs, hcs]
      simp only [List.append_assoc, List.singleton_append]
    · refine ⟨false, l.takeWhile isdigit, l.dropWhile isdigit, ws, [], ?_, hws,
        Or.inl ⟨rfl, rfl, ?_⟩, takeWhile_all isdigit l, dropWhile_head isdigit l⟩
      · rw [List.append_nil, List.append_assoc, ← take_drop_while isdigit l]
        exact hs
      · intro c hc
        rw [← take_drop_while isdigit l] at hc
        refine ⟨hhead c hc, ?_, ?_⟩
        · intro e
          subst e
          cases l with
          | nil => exact Option.noConfusion hc
          | cons d ds =>
            simp only [List.head?_cons, Option.some.injEq] at hc
            exact hm ⟨ds, by rw [hc]⟩
        · intro e
          subst e
          cases l with
          | nil => exact Option.noConfusion hc
          | cons d ds =>
            simp only [List.head?_cons, Option.some.injEq] at hc
            exact hp ⟨ds, by rw [hc]⟩

/-! ## Device arguments: integer keys and the numerals supplied for them -/

/-- An integer key supplied once, all other entries valid, in terms of what
`atoi` makes of the value string: a 0/1 key returns 0 exactly for 0 and 1,
`ocm_page_size` exactly for the five sizes; on success the field holds the
converted value, and every failure is -EINVAL. -/
theorem integer_key_value (args : rte_kvargs) (mldev : cn10k_ml_dev) (key value : String)
    (hkey : key = "enable_dpe_warnings" ∨ key = "report_dpe_warnings" ∨
      key = "cache_model_data" ∨ key = "hw_queue_lock" ∨ key = "ocm_page_size")
    (honce : rte_kvargs_count args key = 1) (hval : (key, value) ∈ args)
    (hothers : ∀ p ∈ args, p.1 ≠ key → valid_value p.1 p.2 = true) :
    (key ≠ "ocm_page_size" →
      ((cn10k_mldev_parse_devargs (some args) mldev).1 = 0 ↔
        atoi value = 0 ∨ atoi value = 1)) ∧
    (key = "ocm_page_size" →
      ((cn10k_mldev_parse_devargs (some args) mldev).1 = 0 ↔
        atoi value = 1024 ∨ atoi value = 2048 ∨ atoi value = 4096 ∨ atoi value = 8192 ∨
          atoi value = 16384)) ∧
    ((cn10k_mldev_parse_devargs (some args) mldev).1 = 0 →
      integer_field key (cn10k_mldev_parse_devargs (some args) mldev).2 = atoi value) ∧
    ((cn10k_mldev_parse_devargs (some args) mldev).1 ≠ 0 →
      (cn10k_mldev_parse_devargs (some args) mldev).1 = -EINVAL) := by
  have hi : is_integer_key key = true := (is_integer_key_iff key).mpr hkey
  obtain ⟨hkeys, hk, hiff⟩ :=
    single_key args key value (is_integer_key_mem key hi) honce hval hothers
  obtain ⟨hret, hne⟩ := parse_ret args mldev hkeys
  refine ⟨?_, ?_, ?_, hne⟩
  · intro hnp
    have hb : is_bool_key key = true := by
      rw [is_bool_key_iff]
      tauto
    rw [valid_value_bool key value hb] at hiff
    exact hret.trans hiff
  · intro hp
    subst hp
    rw [valid_value_page_size value] at hiff
    exact hret.trans hiff
  · intro h0
    rw [(parse_view args mldev hkeys).1 (hret.mp h0)]
    exact integer_field_resolved args mldev key value hi hk

theorem bool_key_not_page_size (key : String)
    (hkey : key = "enable_dpe_warnings" ∨ key = "report_dpe_warnings" ∨
      key = "cache_model_data" ∨ key = "hw_queue_lock") : key ≠ "ocm_page_size" := by
  rcases hkey with h | h | h | h <;> subst h <;> decide

set_option maxRecDepth 8000 in
/-- C3, refuted as stated: `enable_dpe_warnings=4294967297` supplies the
integer 4294967297, which is neither 0 nor 1, once and with no other key; yet
the call returns 0, not -EINVAL, and the field holds 1, not the integer
supplied. -/
theorem bool_key_value_wraps :
    decimal_numeral "4294967297" = some 4294967297 ∧
    ¬((4294967297 : Int) = 0 ∨ (4294967297 : Int) = 1) ∧
    (cn10k_mldev_parse_devargs
      (some [("enable_dpe_warnings", "4294967297")]) mldev_zero).1 = 0 ∧
    (cn10k_mldev_parse_devargs
      (some [("enable_dpe_warnings", "4294967297")]) mldev_zero).1 ≠ -EINVAL ∧
    (cn10k_mldev_parse_devargs
      (some [("enable_dpe_warnings", "4294967297")]) mldev_zero).2.fw.enable_dpe_warnings
        = 1 ∧
    (cn10k_mldev_parse_devargs
      (some [("enable_dpe_warnings", "4294967297")]) mldev_zero).2.fw.enable_dpe_warnings
        ≠ 4294967297 :=
  ⟨by decide, by decide, by decide, by decide, by decide, by decide⟩

/-- C3, amended. A 0/1 key (`enable_dpe_warnings`, `report_dpe_warnings`,
`cache_model_data`, `hw_queue_lock`) supplied once with a decimal numeral of
the integer `v`, all other entries valid. When `v` is a value of the 32-bit
type `int`: the call returns 0 if and only if `v` is 0 or 1, the field then
holds `v`, and every other `v` makes the call return -EINVAL. For every `v`,
in range or not, the same holds of `int_of_decimal v`, the integer `v`
clamped to `long` and converted to `int`, in place of `v`. -/
theorem bool_key_zero_or_one (args : rte_kvargs) (mldev : cn10k_ml_dev) (key value : String)
    (v : Int)
    (hkey : key = "enable_dpe_warnings" ∨ key = "report_dpe_warnings" ∨
      key = "cache_model_data" ∨ key = "hw_queue_lock")
    (honce : rte_kvargs_count args key = 1) (hval : (key, value) ∈ args)
    (hothers : ∀ p ∈ args, p.1 ≠ key → valid_value p.1 p.2 = true)
    (hden : decimal_numeral value = some v) :
    (fits_int v →
      ((cn10k_mldev_parse_devargs (some args) mldev).1 = 0 ↔ v = 0 ∨ v = 1) ∧
      ((cn10k_mldev_parse_devargs (some args) mldev).1 = 0 →
        integer_field key (cn10k_mldev_parse_devargs (some args) mldev).2 = v) ∧
      (¬(v = 0 ∨ v = 1) → (cn10k_mldev_parse_devargs (some args) mldev).1 = -EINVAL)) ∧
    (((cn10k_mldev_parse_devargs (some args) mldev).1 = 0 ↔
        int_of_decimal v = 0 ∨ int_of_decimal v = 1) ∧
      ((cn10k_mldev_parse_devargs (some args) mldev).1 = 0 →
        integer_field key (cn10k_mldev_parse_devargs (some args) mldev).2
          = int_of_decimal v) ∧
      (¬(int_of_decimal v = 0 ∨ int_of_decimal v = 1) →
        (cn10k_mldev_parse_devargs (some args) mldev).1 = -EINVAL)) := by
  have hk5 : key = "enable_dpe_warnings" ∨ key = "report_dpe_warnings" ∨
      key = "cache_model_data" ∨ key = "hw_queue_lock" ∨ key = "ocm_page_size" := by
    tauto
  obtain ⟨hb, _, hfield, hne⟩ := integer_key_value args mldev key value hk5 honce hval hothers
  have hiff := hb (bool_key_not_page_size key hkey)
  rw [atoi_of_numeral value v hden] at hiff hfield
  have hgen := And.intro hiff (And.intro hfield
    (fun hbad : ¬(int_of_decimal v = 0 ∨ int_of_decimal v = 1) =>
      hne (fun h0 => hbad (hiff.mp h0))))
  refine ⟨fun hf => ?_, hgen⟩
  rw [int_of_decimal_fits v hf] at hgen
  exact hgen

/-- C3 amended, at `cache_model_data=1,poll_mem=register`. -/
theorem bool_key_zero_or_one_witness :
    decimal_numeral "1" = some 1 ∧ fits_int 1 ∧
    (cn10k_mldev_parse_devargs
      (some [("cache_model_data", "1"), ("poll_mem", "register")]) mldev_zero).1 = 0 ∧
    integer_field "cache_model_data" (cn10k_mldev_parse_devargs
      (some [("cache_model_data", "1"), ("poll_mem", "register")]) mldev_zero).2 = 1 := by
  have hf : fits_int 1 := ⟨by decide, by decide⟩
  have h := (bool_key_zero_or_one [("cache_model_data", "1"), ("poll_mem", "register")]
    mldev_zero "cache_model_data" "1" 1 (by decide) (by decide) (by decide) (by decide)
    (by decide)).1 hf
  have h0 := h.1.mpr (Or.inr rfl)
  exact ⟨by decide, hf, h0, h.2.1 h0⟩

set_option maxRecDepth 8000 in
/-- C4, refuted as stated: `ocm_page_size=4294968320` supplies a non-negative
integer that is none of the five sizes, and `ocm_page_size=-4294966272` a
negative integer; yet for both the call returns 0, not -EINVAL, and stores
1024, not the integer supplied. -/
theorem page_size_value_wraps :
    (decimal_numeral "4294968320" = some 4294968320 ∧
      (cn10k_mldev_parse_devargs (some [("ocm_page_size", "4294968320")]) mldev_zero).1 = 0 ∧
      (cn10k_mldev_parse_devargs (some [("ocm_page_size", "4294968320")]) mldev_zero).1
        ≠ -EINVAL ∧
      (cn10k_mldev_parse_devargs
        (some [("ocm_page_size", "4294968320")]) mldev_zero).2.ocm_page_size = 1024) ∧
    (decimal_numeral "-4294966272" = some (-4294966272) ∧
      (cn10k_mldev_parse_devargs (some [("ocm_page_size", "-4294966272")]) mldev_zero).1 = 0 ∧
      (cn10k_mldev_parse_devargs (some [("ocm_page_size", "-4294966272")]) mldev_zero).1
        ≠ -EINVAL ∧
      (cn10k_mldev_parse_devargs
        (some [("ocm_page_size", "-4294966272")]) mldev_zero).2.ocm_page_size = 1024) :=
  ⟨⟨by decide, by decide, by decide, by decide⟩, ⟨by decide, by decide, by decide, by decide⟩⟩

/-- C4, amended. The key `ocm_page_size` supplied once with a decimal numeral
of the integer `v`, all other entries valid. When `v` is a value of the
32-bit type `int`: the call returns 0 if and only if `v` is 1024, 2048, 4096,
8192 or 16384, and then stores `v`; every other `v`, non-negative or
negative, makes the call return -EINVAL. For every `v`, in range or not, the
same holds of `int_of_decimal v`, the integer `v` clamped to `long` and
converted to `int`, in place of `v`. -/
theorem ocm_page_size_supported (args : rte_kvargs) (mldev : cn10k_ml_dev) (value : String)
    (v : Int)
    (honce : rte_kvargs_count args "ocm_page_size" = 1)
    (hval : ("ocm_page_size", value) ∈ args)
    (hothers : ∀ p ∈ args, p.1 ≠ "ocm_page_size" → valid_value p.1 p.2 = true)
    (hden : decimal_numeral value = some v) :
    (fits_int v →
      ((cn10k_mldev_parse_devargs (some args) mldev).1 = 0 ↔
        v = 1024 ∨ v = 2048 ∨ v = 4096 ∨ v = 8192 ∨ v = 16384) ∧
      ((cn10k_mldev_parse_devargs (some args) mldev).1 = 0 →
        (cn10k_mldev_parse_devargs (some args) mldev).2.ocm_page_size = v) ∧
      (0 ≤ v → ¬(v = 1024 ∨ v = 2048 ∨ v = 4096 ∨ v = 8192 ∨ v = 16384) →
        (cn10k_mldev_parse_devargs (some args) mldev).1 = -EINVAL) ∧
      (v < 0 → (cn10k_mldev_parse_devargs (some args) mldev).1 = -EINVAL)) ∧
    (((cn10k_mldev_parse_devargs (some args) mldev).1 = 0 ↔
        int_of_decimal v = 1024 ∨ int_of_decimal v = 2048 ∨ int_of_decimal v = 4096 ∨
          int_of_decimal v = 8192 ∨ int_of_decimal v = 16384) ∧
      ((cn10k_mldev_parse_devargs (some args) mldev).1 = 0 →
        (cn10k_mldev_parse_devargs (some args) mldev).2.ocm_page_size = int_of_decimal v) ∧
      (¬(int_of_decimal v = 1024 ∨ int_of_decimal v = 2048 ∨ int_of_decimal v = 4096 ∨
          int_of_decimal v = 8192 ∨ int_of_decimal v = 16384) →
        (cn10k_mldev_parse_devargs (some args) mldev).1 = -EINVAL)) := by
  obtain ⟨_, hp, hfield, hne⟩ := integer_key_value args mldev "ocm_page_size" value
    (by decide) honce hval hothers
  have hiff := hp rfl
  have hfield2 : (cn10k_mldev_parse_devargs (some args) mldev).1 = 0 →
      (cn10k_mldev_parse_devargs (some args) mldev).2.ocm_page_size = atoi value := hfield
  rw [atoi_of_numeral value v hden] at hiff hfield2
  have hgen := And.intro hiff (And.intro hfield2
    (fun hbad : ¬(int_of_decimal v = 1024 ∨ int_of_decimal v = 2048 ∨
        int_of_decimal v = 4096 ∨ int_of_decimal v = 8192 ∨ int_of_decimal v = 16384) =>
      hne (fun h0 => hbad (hiff.mp h0))))
  refine ⟨fun hf => ?_, hgen⟩
  rw [int_of_decimal_fits v hf] at hgen
  refine ⟨hgen.1, hgen.2.1, fun _ hbad => hgen.2.2 hbad, fun hneg => hgen.2.2 ?_⟩
  omega

/-- C4 amended, at `ocm_page_size=2048`. -/
theorem ocm_page_size_supported_witness :
    decimal_numeral "2048" = some 2048 ∧ fits_int 2048 ∧
    (cn10k_mldev_parse_devargs (some [("ocm_page_size", "2048")]) mldev_zero).1 = 0 ∧
    (cn10k_mldev_parse_devargs (some [("ocm_page_size", "2048")]) mldev_zero).2.ocm_page_size
      = 2048 := by
  have hf : fits_int 2048 := ⟨by decide, by decide⟩
  have h := (ocm_page_size_supported [("ocm_page_size", "2048")] mldev_zero "2048" 2048
    (by decide) (by decide) (by decide) (by decide)).1 hf
  have h0 := h.1.mpr (Or.inr (Or.inl rfl))
  exact ⟨by decide, hf, h0, h.2.1 h0⟩

theorem int_of_decimal_no_digits (neg : Bool) : int_of_decimal (read_value neg []) = 0 := by
  cases neg <;> decide

set_option maxRecDepth 8000 in
/-- C8, refuted as stated. The value of `enable_dpe_warnings=abc` is not an
integer at all, yet the call returns 0, not -EINVAL, and stores 0; so do
"yes" and the empty string. The value of `enable_dpe_warnings=1abc` is not an
integer either, and the call returns 0 and stores 1; `ocm_page_size=4096KB`
returns 0 and stores 4096. The value of `enable_dpe_warnings=-4294967295`
denotes a negative integer, yet the call returns 0, not -EINVAL, and stores
1. -/
theorem non_integer_value_accepted :
    ((cn10k_mldev_parse_devargs (some [("enable_dpe_warnings", "abc")]) mldev_zero).1 = 0 ∧
      (cn10k_mldev_parse_devargs (some [("enable_dpe_warnings", "abc")]) mldev_zero).1
        ≠ -EINVAL ∧
      (cn10k_mldev_parse_devargs
        (some [("enable_dpe_warnings", "abc")]) mldev_zero).2.fw.enable_dpe_warnings = 0) ∧
    (decimal_numeral "abc" = none ∧ decimal_numeral "yes" = none ∧
      decimal_numeral "" = none ∧ decimal_numeral "1abc" = none ∧
      decimal_numeral "4096KB" = none) ∧
    ((cn10k_mldev_parse_devargs (some [("report_dpe_warnings", "yes")]) mldev_zero).1 = 0 ∧
      (cn10k_mldev_parse_devargs (some [("hw_queue_lock", "")]) mldev_zero).1 = 0) ∧
    ((cn10k_mldev_parse_devargs (some [("enable_dpe_warnings", "1abc")]) mldev_zero).1 = 0 ∧
      (cn10k_mldev_parse_devargs
        (some [("enable_dpe_warnings", "1abc")]) mldev_zero).2.fw.enable_dpe_warnings = 1) ∧
    ((cn10k_mldev_parse_devargs (some [("ocm_page_size", "4096KB")]) mldev_zero).1 = 0 ∧
      (cn10k_mldev_parse_devargs
        (some [("ocm_page_size", "4096KB")]) mldev_zero).2.ocm_page_size = 4096) ∧
    (decimal_numeral "-4294967295" = some (-4294967295) ∧ (-4294967295 : Int) < 0 ∧
      (cn10k_mldev_parse_devargs
        (some [("enable_dpe_warnings", "-4294967295")]) mldev_zero).1 = 0 ∧
      (cn10k_mldev_parse_devargs
        (some [("enable_dpe_warnings", "-4294967295")]) mldev_zero).1 ≠ -EINVAL ∧
      (cn10k_mldev_parse_devargs
        (some [("enable_dpe_warnings", "-4294967295")]) mldev_zero).2.fw.enable_dpe_warnings
          = 1) :=
  ⟨⟨by decide, by decide, by decide⟩,
    ⟨by decide, by decide, by decide, by decide, by decide⟩,
    ⟨by decide, by decide⟩, ⟨by decide, by decide⟩, ⟨by decide, by decide⟩,
    ⟨by decide, by decide, by decide, by decide, by decide⟩⟩

/-- C8, amended. An integer key (`enable_dpe_warnings`, `report_dpe_warnings`,
`cache_model_data`, `hw_queue_lock`, `ocm_page_size`) supplied once, all other
entries valid. The value string is converted with `atoi`, which reads it as
white space, an optional sign, a run of digits `ds` and a rest it ignores,
and returns the integer of the sign and the digits (0 for no digits), clamped
to `long` and converted to `int`. With `c` this converted value: the call
returns -EINVAL when `c` is negative, in particular when the value is a
decimal numeral of a negative integer of the 32-bit type `int`; a 0/1 key
returns 0 if and only if `c` is 0 or 1, and `ocm_page_size` if and only if
`c` is one of the five sizes; on success the field holds `c`, and every
failure is -EINVAL. A value without digits where `atoi` looks for them, such
as "abc", "yes" or the empty string, converts to 0: a 0/1 key returns 0
and stores 0, and `ocm_page_size` returns -EINVAL. Every string has such a
reading. -/
theorem integer_key_atoi (args : rte_kvargs) (mldev : cn10k_ml_dev) (key value : String)
    (neg : Bool) (ds rest : List Char)
    (hkey : key = "enable_dpe_warnings" ∨ key = "report_dpe_warnings" ∨
      key = "cache_model_data" ∨ key = "hw_queue_lock" ∨ key = "ocm_page_size")
    (honce : rte_kvargs_count args key = 1) (hval : (key, value) ∈ args)
    (hothers : ∀ p ∈ args, p.1 ≠ key → valid_value p.1 p.2 = true)
    (hreads : atoi_reads value neg ds rest) :
    atoi value = int_of_decimal (read_value neg ds) ∧
    (int_of_decimal (read_value neg ds) < 0 →
      (cn10k_mldev_parse_devargs (some args) mldev).1 = -EINVAL) ∧
    (∀ v, decimal_numeral value = some v → v < 0 → fits_int v →
      (cn10k_mldev_parse_devargs (some args) mldev).1 = -EINVAL) ∧
    (key ≠ "ocm_page_size" →
      ((cn10k_mldev_parse_devargs (some args) mldev).1 = 0 ↔
        int_of_decimal (read_value neg ds) = 0 ∨ int_of_decimal (read_value neg ds) = 1)) ∧
    (key = "ocm_page_size" →
      ((cn10k_mldev_parse_devargs (some args) mldev).1 = 0 ↔
        int_of_decimal (read_value neg ds) = 1024 ∨
        int_of_decimal (read_value neg ds) = 2048 ∨
        int_of_decimal (read_value neg ds) = 4096 ∨
        int_of_decimal (read_value neg ds) = 8192 ∨
        int_of_decimal (read_value neg ds) = 16384)) ∧
    ((cn10k_mldev_parse_devargs (some args) mldev).1 = 0 →
      integer_field key (cn10k_mldev_parse_devargs (some args) mldev).2
        = int_of_decimal (read_value neg ds)) ∧
    ((cn10k_mldev_parse_devargs (some args) mldev).1 ≠ 0 →
      (cn10k_mldev_parse_devargs (some args) mldev).1 = -EINVAL) ∧
    (ds = [] →
      (key ≠ "ocm_page_size" →
        (cn10k_mldev_parse_devargs (some args) mldev).1 = 0 ∧
        integer_field key (cn10k_mldev_parse_devargs (some args) mldev).2 = 0) ∧
      (key = "ocm_page_size" →
        (cn10k_mldev_parse_devargs (some args) mldev).1 = -EINVAL)) ∧
    (∀ s : String, ∃ n d r, atoi_reads s n d r) := by
  have hat := atoi_of_reads value neg ds rest hreads
  obtain ⟨hb, hp, hfield, hne⟩ := integer_key_value args mldev key value hkey honce hval hothers
  have hnegc : atoi value < 0 →
      (cn10k_mldev_parse_devargs (some args) mldev).1 = -EINVAL := by
    intro hlt
    apply hne
    intro h0
    by_cases hk : key = "ocm_page_size"
    · have h1 := (hp hk).mp h0
      omega
    · have h1 := (hb hk).mp h0
      omega
  have hnum : ∀ v, decimal_numeral value = some v → v < 0 → fits_int v →
      (cn10k_mldev_parse_devargs (some args) mldev).1 = -EINVAL := by
    intro v hv hlt hf
    apply hnegc
    rw [atoi_of_numeral value v hv, int_of_decimal_fits v hf]
    exact hlt
  rw [hat] at hb hp hfield hnegc
  refine ⟨hat, hnegc, hnum, hb, hp, hfield, hne, ?_, atoi_reads_total⟩
  intro hds
  subst hds
  rw [int_of_decimal_no_digits neg] at hb hp hfield
  refine ⟨fun hk => ?_, fun hk => ?_⟩
  · have h0 := (hb hk).mpr (Or.inl rfl)
    exact ⟨h0, hfield h0⟩
  · apply hne
    intro h0
    have h1 := (hp hk).mp h0
    omega

/-- C8 amended, at `ocm_page_size=4096KB`: the digits 4096 are read, the rest
"KB" is ignored, and the call returns 0 and stores 4096. -/
theorem integer_key_atoi_witness :
    atoi_reads "4096KB" false ['4', '0', '9', '6'] ['K', 'B'] ∧
    (cn10k_mldev_parse_devargs (some [("ocm_page_size", "4096KB")]) mldev_zero).1 = 0 ∧
    integer_field "ocm_page_size"
      (cn10k_mldev_parse_devargs (some [("ocm_page_size", "4096KB")]) mldev_zero).2
        = 4096 := by
  have hr : atoi_reads "4096KB" false ['4', '0', '9', '6'] ['K', 'B'] := by
    refine ⟨[], [], by decide, rfl, Or.inl ⟨rfl, rfl, ?_⟩, by decide, ?_⟩
    · intro c hc
      simp only [List.cons_append, List.head?_cons, Option.some.injEq] at hc
      subst hc
      decide
    · intro c hc
      simp only [List.head?_cons, Option.some.injEq] at hc
      subst hc
      decide
  have h := integer_key_atoi [("ocm_page_size", "4096KB")] mldev_zero "ocm_page_size"
    "4096KB" false ['4', '0', '9', '6'] ['K', 'B'] (by decide) (by decide) (by decide)
    (by decide) hr
  have hc : int_of_decimal (read_value false ['4', '0', '9', '6']) = 4096 := by decide
  have h0 := (h.2.2.2.2.1 rfl).mpr (Or.inr (Or.inr (Or.inl hc)))
  exact ⟨hr, h0, (h.2.2.2.2.2.1 h0).trans hc⟩

theorem count_without_ne (kv : rte_kvargs) (key K : String) (h : K ≠ key) :
    rte_kvargs_count (without_key key kv) K = rte_kvargs_count kv K := by
  induction kv with
  | nil => rfl
  | cons p rest ih =>
    by_cases hp : p.1 = key
    · have hpK : ¬p.1 = K := fun e => h (e.symm.trans hp)
      simp only [without_key, hp, if_true, rte_kvargs_count, hpK, if_false, ih]
      rw [← hp, if_neg hpK]
    · simp only [without_key, hp, if_false, rte_kvargs_count, ih]

theorem first_value_without_ne (kv : rte_kvargs) (key K : String) (h : K ≠ key) :
    first_value (without_key key kv) K = first_value kv K := by
  induction kv with
  | nil => rfl
  | cons p rest ih =>
    by_cases hp : p.1 = key
    · have hpK : ¬p.1 = K := fun e => h (e.symm.trans hp)
      simp only [without_key, hp, if_true, first_value, ih]
      rw [← hp, if_neg hpK]
    · simp only [without_key, hp, if_false, first_value, ih]

theorem count_without_self (kv : rte_kvargs) (key : String) :
    rte_kvargs_count (without_key key kv) key = 0 := by
  induction kv with
  | nil => rfl
  | cons p rest ih =>
    by_cases hp : p.1 = key
    · simp only [without_key, hp, if_true, ih]
    · simp only [without_key, hp, if_false, rte_kvargs_count, ih]

theorem mem_without_key (kv : rte_kvargs) (key : String) (p : String × String) :
    p ∈ without_key key kv ↔ p ∈ kv ∧ p.1 ≠ key := by
  induction kv with
  | nil => simp [without_key]
  | cons q rest ih =>
    by_cases hq : q.1 = key
    · simp only [without_key, hq, if_true, ih, List.mem_cons]
      constructor
      · exact fun h => ⟨Or.inr h.1, h.2⟩
      · rintro ⟨h1 | h1, h2⟩
        · exact absurd (h1 ▸ hq) h2
        · exact ⟨h1, h2⟩
    · simp only [without_key, hq, if_false, List.mem_cons, ih]
      constructor
      · rintro (h1 | h1)
        · exact ⟨Or.inl h1, h1 ▸ hq⟩
        · exact ⟨Or.inr h1.1, h1.2⟩
      · rintro ⟨h1 | h1, h2⟩
        · exact Or.inl h1
        · exact Or.inr ⟨h1, h2⟩

theorem kv_arg_without (kv : rte_kvargs) (key K : String)
    (hc : rte_kvargs_count kv key ≠ 1) :
    kv_arg (without_key key kv) K = kv_arg kv K := by
  by_cases h : K = key
  · subst h
    rw [kv_arg_of_count_ne_one kv K hc]
    apply kv_arg_of_count_ne_one
    rw [count_without_self]
    decide
  · simp only [kv_arg, count_without_ne kv key K h, first_value_without_ne kv key K h]

theorem process_devargs_without (kv : rte_kvargs) (key : String) (s : devargs_state)
    (hc : rte_kvargs_count kv key ≠ 1) :
    process_devargs (without_key key kv) s = process_devargs kv s := by
  simp only [process_devargs, process_fw_path_eq, process_enable_dpe_warnings_eq,
    process_report_dpe_warnings_eq, process_cache_model_data_eq, process_ocm_alloc_mode_eq,
    process_hw_queue_lock_eq, process_poll_mem_eq, process_ocm_page_size_eq,
    bind_ite_error, ok_bind, kv_arg_without kv key _ hc]

theorem not_all_valid (kv : rte_kvargs) (h : ¬∀ p ∈ kv, p.1 ∈ valid_args) :
    ∃ p ∈ kv, p.1 ∉ valid_args := by
  by_contra hn
  exact h (fun p hp => by_contra (fun hp2 => hn ⟨p, hp, hp2⟩))

theorem parse_invalid_eq (kv : rte_kvargs) (m : cn10k_ml_dev)
    (h : ∃ p ∈ kv, p.1 ∉ valid_args) :
    cn10k_mldev_parse_devargs (some kv) m = (-EINVAL, m) := by
  simp only [cn10k_mldev_parse_devargs, rte_kvargs_parse_invalid kv h]

/-- C9, refuted as stated: with `ocm_page_size=1024,ocm_page_size=2048` the
call returns 0 and the field holds the default 16384, not the value 1024 of
the first occurrence. -/
theorem duplicate_key_not_first :
    (cn10k_mldev_parse_devargs
      (some [("ocm_page_size", "1024"), ("ocm_page_size", "2048")]) mldev_zero).1 = 0 ∧
    (cn10k_mldev_parse_devargs
      (some [("ocm_page_size", "1024"), ("ocm_page_size", "2048")]) mldev_zero).2.ocm_page_size
      = 16384 ∧
    (cn10k_mldev_parse_devargs
      (some [("ocm_page_size", "1024"), ("ocm_page_size", "2048")]) mldev_zero).2.ocm_page_size
      ≠ atoi "1024" :=
  ⟨by decide, by decide, by decide⟩

/-- C9, amended. A recognized key supplied more than once is not read at all
(each block is guarded by `rte_kvargs_count(...) == 1`): the call does what
it does on the list without the entries of that key, and when it returns 0
the field of the key holds the documented default. -/
theorem duplicate_key_default (args : rte_kvargs) (mldev : cn10k_ml_dev) (key : String)
    (hkey : key ∈ valid_args) (hdup : 2 ≤ rte_kvargs_count args key) :
    cn10k_mldev_parse_devargs (some args) mldev =
      cn10k_mldev_parse_devargs (some (without_key key args)) mldev ∧
    ((cn10k_mldev_parse_devargs (some args) mldev).1 = 0 →
      field_is_default key (cn10k_mldev_parse_devargs (some args) mldev).2) := by
  have hc : rte_kvargs_count args key ≠ 1 := by omega
  constructor
  · by_cases h : ∀ p ∈ args, p.1 ∈ valid_args
    · have h2 : ∀ p ∈ without_key key args, p.1 ∈ valid_args :=
        fun p hp => h p ((mem_without_key args key p).mp hp).1
      rw [parse_some_eq args mldev h, parse_some_eq _ mldev h2,
        process_devargs_without args key _ hc]
    · obtain ⟨p, hp, hn⟩ := not_all_valid args h
      have hpk : p.1 ≠ key := fun e => hn (e ▸ hkey)
      rw [parse_invalid_eq args mldev ⟨p, hp, hn⟩,
        parse_invalid_eq _ mldev ⟨p, (mem_without_key args key p).mpr ⟨hp, hpk⟩, hn⟩]
  · intro h0
    have hkeys : ∀ p ∈ args, p.1 ∈ valid_args := by
      by_contra hn
      rw [parse_invalid_eq args mldev (not_all_valid args hn)] at h0
      have h1 : (-EINVAL : Int) = 0 := h0
      exact absurd h1 (by decide)
    rw [(parse_view args mldev hkeys).1 ((parse_ret args mldev hkeys).1.mp h0)]
    have hn := kv_arg_of_count_ne_one args key hc
    refine ⟨?_, ?_, ?_, ?_, ?_, ?_, ?_, ?_⟩ <;> intro hk <;> rw [hk] at hn <;>
      simp only [resolved, view_of, hn] <;> rfl

/-- C9 amended, at `ocm_page_size=1024,ocm_page_size=2048`. -/
theorem duplicate_key_default_witness :
    field_is_default "ocm_page_size" (cn10k_mldev_parse_devargs
      (some [("ocm_page_size", "1024"), ("ocm_page_size", "2048")]) mldev_zero).2 :=
  (duplicate_key_default [("ocm_page_size", "1024"), ("ocm_page_size", "2048")] mldev_zero
    "ocm_page_size" (by decide) (by decide)).2 (by decide)

/-! ## Firmware load: what the steps leave alone -/

@[simp] theorem write64_memzones (v : Nat) (r : ml_reg) (w : ml_world) :
    (roc_ml_reg_write64 v r w).memzones = w.memzones := rfl

@[simp] theorem write32_memzones (v : Nat) (r : ml_reg) (w : ml_world) :
    (roc_ml_reg_write32 v r w).memzones = w.memzones := rfl

@[simp] theorem reg_save_memzones (r : ml_reg) (w : ml_world) :
    (roc_ml_reg_save r w).memzones = w.memzones := rfl

@[simp] theorem mlip_reset_memzones (E : ml_env) (f : Bool) (w : ml_world) :
    (roc_ml_mlip_reset E f w).memzones = w.memzones := rfl

@[simp] theorem scratch_enqueue_memzones (E : ml_env) (p : Nat) (w : ml_world) :
    (roc_ml_scratch_enqueue E p w).memzones = w.memzones := rfl

@[simp] theorem log_event_memzones (e : hw_event) (w : ml_world) :
    (log_event e w).memzones = w.memzones := rfl

@[simp] theorem tsc_cycles_memzones (E : ml_env) (w : ml_world) :
    (plt_tsc_cycles E w).2.memzones = w.memzones := rfl

@[simp] theorem reset_debug_pointers_memzones (w : ml_world) :
    (reset_debug_pointers w).memzones = w.memzones := rfl

@[simp] theorem backp_disable_loop_memzones (E : ml_env) (n i : Nat) (w : ml_world) :
    (backp_disable_loop E n i w).memzones = w.memzones := by
  induction n generalizing i w with
  | zero => rfl
  | succ n ih => simp only [backp_disable_loop, ih, write64_memzones]

@[simp] theorem ncbi_ns_ovr_loop_memzones (E : ml_env) (n i : Nat) (w : ml_world) :
    (ncbi_ns_ovr_loop E n i w).memzones = w.memzones := by
  induction n generalizing i w with
  | zero => rfl
  | succ n ih => simp only [ncbi_ns_ovr_loop, ih, write64_memzones]

@[simp] theorem ncbi_ro_ovr_loop_memzones (E : ml_env) (n i : Nat) (w : ml_world) :
    (ncbi_ro_ovr_loop E n i w).memzones = w.memzones := by
  induction n generalizing i w with
  | zero => rfl
  | succ n ih => simp only [ncbi_ro_ovr_loop, ih, write64_memzones]

theorem asim_poll_frame (E : ml_env) (T fuel : Nat) (w : ml_world) (t : Bool)
    (w' : ml_world) (h : asim_poll E T fuel w = some (t, w')) :
    w'.memzones = w.memzones ∧ (never_completes E → t = true) := by
  induction fuel generalizing w with
  | zero => simp [asim_poll] at h
  | succ n ih =>
    simp only [asim_poll] at h
    split at h
    · rename_i hc
      simp only [Option.some.injEq, Prod.mk.injEq] at h
      refine ⟨by rw [← h.2], fun hn => ?_⟩
      simp only [Bool.and_eq_true, beq_iff_eq] at hc
      exact absurd hc (hn _)
    · split at h
      · obtain ⟨h1, h2⟩ := ih _ h
        exact ⟨by rw [h1]; rfl, h2⟩
      · simp only [Option.some.injEq, Prod.mk.injEq] at h
        exact ⟨by rw [← h.2]; rfl, fun _ => h.1.symm⟩

theorem cn10ka_poll_frame (E : ml_env) (T fuel : Nat) (w : ml_world) (t : Bool)
    (w' : ml_world) (h : cn10ka_poll E T fuel w = some (t, w')) :
    w'.memzones = w.memzones ∧ (never_completes E → t = true) := by
  induction fuel generalizing w with
  | zero => simp [cn10ka_poll] at h
  | succ n ih =>
    simp only [cn10ka_poll] at h
    split at h
    · rename_i hc
      simp only [Option.some.injEq, Prod.mk.injEq] at h
      refine ⟨by rw [← h.2], fun hn => ?_⟩
      simp only [Bool.and_eq_true, beq_iff_eq] at hc
      exact absurd hc (hn _)
    · split at h
      · obtain ⟨h1, h2⟩ := ih _ h
        exact ⟨by rw [h1]; rfl, h2⟩
      · simp only [Option.some.injEq, Prod.mk.injEq] at h
        exact ⟨by rw [← h.2]; rfl, fun _ => h.1.symm⟩

/-- What a run of the simulator variant that returns leaves: the memzone
table untouched, and one of three return values. -/
theorem asim_result (E : ml_env) (fuel : Nat) (w : ml_world) (ret : Int) (w' : ml_world)
    (h : cn10k_ml_fw_load_asim E fuel w = some (ret, w')) :
    w'.memzones = w.memzones ∧ (ret = 0 ∨ ret = -ETIME ∨ ret = -1) ∧
    (never_completes E → ret = -ETIME) := by
  simp only [cn10k_ml_fw_load_asim] at h
  split at h
  · exact absurd h (by simp)
  · rename_i t wp hp
    obtain ⟨hm, ht⟩ := asim_poll_frame E _ fuel _ t wp hp
    simp only [log_event_memzones, scratch_enqueue_memzones, tsc_cycles_memzones,
      write64_memzones, reg_save_memzones, reset_debug_pointers_memzones] at hm
    split at h
    · rename_i hc
      simp only [Option.some.injEq, Prod.mk.injEq] at h
      refine ⟨by rw [← h.2]; simpa using hm, Or.inl h.1.symm, fun hn => ?_⟩
      rw [ht hn] at hc
      simp at hc
    · split at h
      · simp only [Option.some.injEq, Prod.mk.injEq] at h
        exact ⟨by rw [← h.2]; simpa using hm, Or.inr (Or.inl h.1.symm), fun _ => h.1.symm⟩
      · rename_i hc ht2
        simp only [Option.some.injEq, Prod.mk.injEq] at h
        refine ⟨by rw [← h.2]; simpa using hm, Or.inr (Or.inr h.1.symm), fun hn => ?_⟩
        exact absurd (ht hn) ht2

/-- What a run of the real-hardware variant that returns leaves: the memzone
table untouched, and one of three return values. -/
theorem cn10ka_result (E : ml_env) (fuel : Nat) (b : Option (List Nat)) (size : Nat)
    (w : ml_world) (ret : Int) (w' : ml_world)
    (h : cn10k_ml_fw_load_cn10ka E fuel b size w = some (ret, w')) :
    w'.memzones = w.memzones ∧ (ret = 0 ∨ ret = -ETIME ∨ ret = -1) ∧
    (never_completes E → ret = -ETIME) := by
  simp only [cn10k_ml_fw_load_cn10ka] at h
  split at h
  · exact absurd h (by simp)
  · rename_i t wp hp
    obtain ⟨hm, ht⟩ := cn10ka_poll_frame E _ fuel _ t wp hp
    simp only [log_event_memzones, scratch_enqueue_memzones, tsc_cycles_memzones,
      write64_memzones, write32_memzones, reg_save_memzones, reset_debug_pointers_memzones,
      backp_disable_loop_memzones, ncbi_ns_ovr_loop_memzones] at hm
    split at h
    · rename_i hc
      simp only [Option.some.injEq, Prod.mk.injEq] at h
      refine ⟨by rw [← h.2]; simpa using hm, Or.inl h.1.symm, fun hn => ?_⟩
      rw [ht hn] at hc
      simp at hc
    · split at h
      · simp only [Option.some.injEq, Prod.mk.injEq] at h
        exact ⟨by rw [← h.2]; simpa using hm, Or.inr (Or.inl h.1.symm), fun _ => h.1.symm⟩
      · rename_i hc ht2
        simp only [Option.some.injEq, Prod.mk.injEq] at h
        refine ⟨by rw [← h.2]; simpa using hm, Or.inr (Or.inr h.1.symm), fun hn => ?_⟩
        exact absurd (ht hn) ht2

/-! ## Firmware load: the poll loop ends once the clock passes the deadline -/

@[simp] theorem write64_tsc_reads (v : Nat) (r : ml_reg) (w : ml_world) :
    (roc_ml_reg_write64 v r w).tsc_reads = w.tsc_reads := rfl

@[simp] theorem write32_tsc_reads (v : Nat) (r : ml_reg) (w : ml_world) :
    (roc_ml_reg_write32 v r w).tsc_reads = w.tsc_reads := rfl

@[simp] theorem reg_save_tsc_reads (r : ml_reg) (w : ml_world) :
    (roc_ml_reg_save r w).tsc_reads = w.tsc_reads := rfl

@[simp] theorem scratch_enqueue_tsc_reads (E : ml_env) (p : Nat) (w : ml_world) :
    (roc_ml_scratch_enqueue E p w).tsc_reads = w.tsc_reads := rfl

@[simp] theorem log_event_tsc_reads (e : hw_event) (w : ml_world) :
    (log_event e w).tsc_reads = w.tsc_reads := rfl

@[simp] theorem tsc_cycles_tsc_reads (E : ml_env) (w : ml_world) :
    (plt_tsc_cycles E w).2.tsc_reads = w.tsc_reads + 1 := rfl

@[simp] theorem tsc_cycles_value (E : ml_env) (w : ml_world) :
    (plt_tsc_cycles E w).1 = E.plt_tsc_cycles w.tsc_reads := rfl

@[simp] theorem reset_debug_pointers_tsc_reads (w : ml_world) :
    (reset_debug_pointers w).tsc_reads = w.tsc_reads := rfl

@[simp] theorem backp_disable_loop_tsc_reads (E : ml_env) (n i : Nat) (w : ml_world) :
    (backp_disable_loop E n i w).tsc_reads = w.tsc_reads := by
  induction n generalizing i w with
  | zero => rfl
  | succ n ih => simp only [backp_disable_loop, ih, write64_tsc_reads]

@[simp] theorem ncbi_ns_ovr_loop_tsc_reads (E : ml_env) (n i : Nat) (w : ml_world) :
    (ncbi_ns_ovr_loop E n i w).tsc_reads = w.tsc_reads := by
  induction n generalizing i w with
  | zero => rfl
  | succ n ih => simp only [ncbi_ns_ovr_loop, ih, write64_tsc_reads]

theorem asim_poll_terminates (E : ml_env) (T n : Nat) (w : ml_world)
    (hclock : ¬E.plt_tsc_cycles (w.tsc_reads + n) < T) :
    asim_poll E T (n + 1) w ≠ none := by
  induction n generalizing w with
  | zero =>
    simp only [asim_poll]
    split
    · simp
    · rw [if_neg (by simpa using hclock)]
      simp
  | succ n ih =>
    rw [asim_poll]
    split
    · simp
    · simp only []
      split
      · apply ih
        simp only [tsc_cycles_tsc_reads]
        rw [show w.tsc_reads + 1 + n = w.tsc_reads + (n + 1) by omega]
        exact hclock
      · simp

theorem cn10ka_poll_terminates (E : ml_env) (T n : Nat) (w : ml_world)
    (hclock : ¬E.plt_tsc_cycles (w.tsc_reads + n) < T) :
    cn10ka_poll E T (n + 1) w ≠ none := by
  induction n generalizing w with
  | zero =>
    simp only [cn10ka_poll]
    split
    · simp
    · rw [if_neg (by simpa using hclock)]
      simp
  | succ n ih =>
    rw [cn10ka_poll]
    split
    · simp
    · simp only []
      split
      · apply ih
        simp only [tsc_cycles_tsc_reads]
        rw [show w.tsc_reads + 1 + n = w.tsc_reads + (n + 1) by omega]
        exact hclock
      · simp

/-- The simulator variant returns with fuel `n + 1` when the cycle counter is
past the deadline at its `n`-th read after the one the deadline was computed
from. -/
theorem asim_returns (E : ml_env) (n : Nat) (w : ml_world)
    (hclock : ¬E.plt_tsc_cycles (w.tsc_reads + 1 + n) <
      add64 (E.plt_tsc_cycles w.tsc_reads) (mul64 E.ML_CN10K_CMD_TIMEOUT E.plt_tsc_hz)) :
    ∃ ret w', cn10k_ml_fw_load_asim E (n + 1) w = some (ret, w') := by
  simp only [cn10k_ml_fw_load_asim]
  split
  · rename_i hp
    exact absurd hp (asim_poll_terminates E _ n _ (by simpa using hclock))
  · split
    · exact ⟨_, _, rfl⟩
    · split <;> exact ⟨_, _, rfl⟩

theorem cn10ka_returns (E : ml_env) (n : Nat) (b : Option (List Nat)) (size : Nat)
    (w : ml_world)
    (hclock : ¬E.plt_tsc_cycles (w.tsc_reads + 1 + n) <
      add64 (E.plt_tsc_cycles w.tsc_reads) (mul64 E.ML_CN10K_CMD_TIMEOUT E.plt_tsc_hz)) :
    ∃ ret w', cn10k_ml_fw_load_cn10ka E (n + 1) b size w = some (ret, w') := by
  simp only [cn10k_ml_fw_load_cn10ka]
  split
  · rename_i hp
    exact absurd hp (cn10ka_poll_terminates E _ n _ (by simpa using hclock))
  · split
    · exact ⟨_, _, rfl⟩
    · split <;> exact ⟨_, _, rfl⟩

theorem run_returns (E : ml_env) (n : Nat) (r : fw_load_ready)
    (hclock : ¬E.plt_tsc_cycles (r.world.tsc_reads + 1 + n) <
      add64 (E.plt_tsc_cycles r.world.tsc_reads)
        (mul64 E.ML_CN10K_CMD_TIMEOUT E.plt_tsc_hz)) :
    ∃ ret ws, fw_load_run E (n + 1) r = some (ret, ws) := by
  simp only [fw_load_run]
  split
  · obtain ⟨ret, w', h⟩ := cn10ka_returns E n r.fw_buffer r.fw_size
      { r.world with mldev := { r.world.mldev with fw := { r.world.mldev.fw with
          data := r.mz.addr + E.sizeof_cn10k_ml_req } } } hclock
    rw [h]
    exact ⟨_, _, rfl⟩
  · split
    · exact asim_returns E n _ hclock
    · exact ⟨_, _, rfl⟩

/-! ## Firmware load: a failed bring-up is torn down -/

theorem reserve_some (E : ml_env) (name : String) (len align : Nat) (w w' : ml_world)
    (mz : plt_memzone)
    (h : plt_memzone_reserve_aligned E name len align w = (some mz, w')) :
    w'.memzones name = some mz := by
  simp only [plt_memzone_reserve_aligned] at h
  split at h
  · simp at h
  · split at h
    · simp at h
    · simp only [Prod.mk.injEq, Option.some.injEq] at h
      rw [← h.2, ← h.1]
      simp

theorem setup_memzone (E : ml_env) (w : ml_world) (r : fw_load_ready)
    (h : fw_load_setup E w = Except.ok r) :
    r.world.memzones FW_MEMZONE_NAME = some r.mz := by
  simp only [fw_load_setup] at h
  split at h
  · simp at h
  · split at h
    · simp at h
    · rename_i hres
      have hz := reserve_some E _ _ _ _ _ _ hres
      simp only [Except.ok.injEq] at h
      rw [← h]
      simp only
      split <;> simpa using hz

theorem run_result (E : ml_env) (fuel : Nat) (r : fw_load_ready) (ret : Int) (ws : ml_world)
    (h : fw_load_run E fuel r = some (ret, ws)) :
    ws.memzones = r.world.memzones ∧ (ret = 0 ∨ ret = -ETIME ∨ ret = -1) ∧
    (never_completes E → ret = 0 ∨ ret = -ETIME) ∧
    (never_completes E →
      (E.roc_env_is_emulator || E.roc_env_is_hw || E.roc_env_is_asim) = true →
      ret = -ETIME) := by
  simp only [fw_load_run] at h
  split at h
  · split at h
    · simp at h
    · rename_i ret' w' hc
      obtain ⟨h1, h2, h3⟩ := cn10ka_result E fuel _ _ _ ret' w' hc
      simp only [Option.some.injEq, Prod.mk.injEq] at h
      rw [← h.1, ← h.2]
      refine ⟨?_, h2, fun hn => Or.inr (h3 hn), fun hn _ => h3 hn⟩
      split <;> simpa using h1
  · rename_i hA
    split at h
    · obtain ⟨h1, h2, h3⟩ := asim_result E fuel _ ret ws h
      exact ⟨by simpa using h1, h2, fun hn => Or.inr (h3 hn), fun hn _ => h3 hn⟩
    · rename_i hB
      simp only [Option.some.injEq, Prod.mk.injEq] at h
      rw [← h.1, ← h.2]
      refine ⟨rfl, Or.inl rfl, fun _ => Or.inl rfl, fun _ he => ?_⟩
      simp only [Bool.or_eq_true] at he hA
      exact absurd he (by tauto)

theorem unload_memzone_none (E : ml_env) (w : ml_world) :
    (cn10k_ml_fw_unload E w).memzones FW_MEMZONE_NAME = none := by
  simp only [cn10k_ml_fw_unload, plt_memzone_lookup, mlip_reset_memzones, write64_memzones]
  cases h : w.memzones FW_MEMZONE_NAME with
  | none => simpa using h
  | some mz => simp [plt_memzone_free]

/-- C10. Whenever the load step of `cn10k_ml_fw_load` (either bring-up
variant) returns a negative value, `cn10k_ml_fw_unload` is run on the world
the variant left before the call returns, that value is returned unchanged,
it is -ETIME or -1 and it is -ETIME when completion is never signalled, and
the memzone `ml_cn10k_fw_mz` is not reserved on return. The last three
actions of the call are those of the unload: the ML_CFG write with MLIP_ENA
cleared, the forced reset and the release of the memzone. When completion is
never signalled and the cycle counter is past the deadline at its `n`-th
read after submission, the call does return with fuel `n + 1`: it returns
-ETIME after the unload. -/
theorem fw_load_failure_unloads (E : ml_env) (fuel : Nat) (w : ml_world)
    (r : fw_load_ready) (ret : Int) (ws : ml_world)
    (hsetup : fw_load_setup E w = Except.ok r)
    (hrun : fw_load_run E fuel r = some (ret, ws))
    (hfail : ret < 0) :
    cn10k_ml_fw_load E fuel w = some (ret, cn10k_ml_fw_unload E ws) ∧
    (ret = -ETIME ∨ ret = -1) ∧
    (never_completes E → ret = -ETIME) ∧
    (cn10k_ml_fw_unload E ws).memzones "ml_cn10k_fw_mz" = none ∧
    (cn10k_ml_fw_unload E ws).trace = ws.trace ++
      [hw_event.reg_write64 (ws.regs ml_reg.ML_CFG &&& not64 E.ROC_ML_CFG_MLIP_ENA)
         ml_reg.ML_CFG,
       hw_event.mlip_reset true,
       hw_event.memzone_free "ml_cn10k_fw_mz"] ∧
    (never_completes E →
      (E.roc_env_is_emulator || E.roc_env_is_hw || E.roc_env_is_asim) = true →
      ∀ n, ¬E.plt_tsc_cycles (r.world.tsc_reads + 1 + n) <
          add64 (E.plt_tsc_cycles r.world.tsc_reads)
            (mul64 E.ML_CN10K_CMD_TIMEOUT E.plt_tsc_hz) →
        ∃ ws', cn10k_ml_fw_load E (n + 1) w = some (-ETIME, cn10k_ml_fw_unload E ws') ∧
          (cn10k_ml_fw_unload E ws').memzones "ml_cn10k_fw_mz" = none) := by
  obtain ⟨hm, hr, hn, _⟩ := run_result E fuel r ret ws hrun
  have hz : ws.memzones FW_MEMZONE_NAME = some r.mz := by
    rw [hm]
    exact setup_memzone E w r hsetup
  refine ⟨?_, ?_, ?_, unload_memzone_none E ws, ?_, ?_⟩
  · simp only [cn10k_ml_fw_load, hsetup, hrun, hfail, if_true]
  · rcases hr with h | h | h
    · rw [h] at hfail
      exact absurd hfail (by decide)
    · exact Or.inl h
    · exact Or.inr h
  · intro hnc
    rcases hn hnc with h | h
    · rw [h] at hfail
      exact absurd hfail (by decide)
    · exact h
  · simp only [cn10k_ml_fw_unload, plt_memzone_lookup, mlip_reset_memzones, write64_memzones,
      hz]
    simp [plt_memzone_free, roc_ml_mlip_reset, roc_ml_reg_write64, roc_ml_reg_read64,
      FW_MEMZONE_NAME]
  · intro hnc henv n hclock
    obtain ⟨ret', ws', hrun'⟩ := run_returns E n r hclock
    have hret := (run_result E (n + 1) r ret' ws' hrun').2.2.2 hnc henv
    subst hret
    refine ⟨ws', ?_, unload_memzone_none E ws'⟩
    simp only [cn10k_ml_fw_load, hsetup, hrun']
    rfl

/-- C10, on the sample simulator platform whose firmware never answers: the
load times out with -ETIME and the memzone is released. -/
theorem fw_load_failure_unloads_witness :
    cn10k_ml_fw_load sample_env 8 sample_world =
      some (-ETIME, cn10k_ml_fw_unload sample_env sample_after_run) ∧
    (cn10k_ml_fw_unload sample_env sample_after_run).memzones "ml_cn10k_fw_mz" = none :=
  have h := fw_load_failure_unloads sample_env 8 sample_world sample_ready (-ETIME)
    sample_after_run rfl rfl (by decide)
  ⟨h.1, h.2.2.2.1⟩

/-! ## The bring-up functions are their stages in sequence -/

theorem asim_stages (E : ml_env) (fuel : Nat) (w : ml_world) :
    cn10k_ml_fw_load_asim E fuel w =
      match asim_handshake E fuel (asim_prepare E w) with
      | none => none
      | some (timeout, wp) =>
        if (!timeout && E.result_error_code == 0) = true then some (0, asim_finish E wp)
        else some (asim_failure E timeout wp) := by
  simp only [cn10k_ml_fw_load_asim, asim_handshake, asim_prepare, asim_finish, asim_failure]
  split
  · rfl
  · split
    · rfl
    · split <;> rfl

theorem cn10ka_stages (E : ml_env) (fuel : Nat) (b : Option (List Nat)) (size : Nat)
    (w : ml_world) :
    cn10k_ml_fw_load_cn10ka E fuel b size w =
      match cn10ka_handshake E fuel (cn10ka_prepare E size w) with
      | none => none
      | some (timeout, wp) =>
        if (!timeout && E.result_error_code == 0) = true then some (0, cn10ka_finish E wp)
        else some (cn10ka_failure E timeout wp) := by
  simp only [cn10k_ml_fw_load_cn10ka, cn10ka_handshake, cn10ka_prepare, cn10ka_steps_1_5,
    cn10ka_steps_1_3, cn10ka_step_4, cn10ka_step_5, cn10ka_steps_6_11, cn10ka_finish,
    cn10ka_steps_13_15, cn10ka_failure]
  split
  · rfl
  · split
    · rfl
    · split <;> rfl

/-! ## The poll loop -/

theorem cn10ka_poll_eq_asim_poll (E : ml_env) (T fuel : Nat) (w : ml_world) :
    cn10ka_poll E T fuel w = asim_poll E T fuel w := by
  induction fuel generalizing w with
  | zero => rfl
  | succ n ih =>
    simp only [cn10ka_poll, asim_poll, ih]

/-- What a poll loop that ends has done: it changed nothing but the two
counters, made at least one completion check, reports completion exactly when
one of its checks saw it, and on a timeout its last clock read was not below
the deadline. -/
theorem asim_poll_spec (E : ml_env) (T fuel : Nat) (w : ml_world) (t : Bool) (w' : ml_world)
    (h : asim_poll E T fuel w = some (t, w')) :
    w' = { w with polls := w'.polls, tsc_reads := w'.tsc_reads } ∧
    w.polls < w'.polls ∧ w.tsc_reads ≤ w'.tsc_reads ∧
    (t = false ↔ completion_observed E w.polls w'.polls) ∧
    (t = true → w.tsc_reads < w'.tsc_reads ∧ ¬E.plt_tsc_cycles (w'.tsc_reads - 1) < T) := by
  induction fuel generalizing w with
  | zero => simp [asim_poll] at h
  | succ n ih =>
    simp only [asim_poll] at h
    split at h
    · rename_i hc
      simp only [Bool.and_eq_true, beq_iff_eq] at hc
      simp only [Option.some.injEq, Prod.mk.injEq] at h
      obtain ⟨ht, hw⟩ := h
      subst ht
      subst hw
      refine ⟨rfl, Nat.lt_succ_self _, Nat.le_refl _, ?_, fun hf => absurd hf (by decide)⟩
      exact ⟨fun _ => ⟨w.polls, Nat.le_refl _, Nat.lt_succ_self _, hc.1, hc.2⟩, fun _ => rfl⟩
    · rename_i hc
      simp only [Bool.and_eq_true, beq_iff_eq] at hc
      split at h
      · obtain ⟨h1, h2, h3, h4, h5⟩ := ih _ h
        simp only [tsc_cycles_tsc_reads] at h3 h5
        refine ⟨?_, ?_, by omega, ?_, fun ht => ⟨by omega, (h5 ht).2⟩⟩
        · rw [h1]
          rfl
        · exact Nat.lt_trans (Nat.lt_succ_self _) h2
        · rw [h4]
          constructor
          · rintro ⟨k, hk1, hk2, hk3, hk4⟩
            exact ⟨k, Nat.le_of_succ_le hk1, hk2, hk3, hk4⟩
          · rintro ⟨k, hk1, hk2, hk3, hk4⟩
            refine ⟨k, ?_, hk2, hk3, hk4⟩
            rcases Nat.eq_or_lt_of_le hk1 with he | hl
            · rw [← he] at hk3 hk4
              exact absurd ⟨hk3, hk4⟩ hc
            · exact hl
      · rename_i hnt
        simp only [Option.some.injEq, Prod.mk.injEq] at h
        obtain ⟨ht, hw⟩ := h
        subst ht
        subst hw
        refine ⟨rfl, Nat.lt_succ_self _, Nat.le_succ _, ?_, fun _ => ⟨Nat.lt_succ_self _, ?_⟩⟩
        · constructor
          · intro hf
            exact absurd hf (by decide)
          · rintro ⟨k, hk1, hk2, hk3, hk4⟩
            have hk : k = w.polls := Nat.le_antisymm (Nat.le_of_lt_succ hk2) hk1
            rw [hk] at hk3 hk4
            exact absurd ⟨hk3, hk4⟩ hc
        · simpa using hnt

/-- A completion that is signalled at the first check ends the loop at once,
whatever the deadline is. -/
theorem asim_poll_first_check (E : ml_env) (T fuel : Nat) (w : ml_world)
    (hd : E.scratch_is_done_bit_set w.polls = true)
    (hs : E.req_status w.polls = E.ML_CN10K_POLL_JOB_FINISH) :
    asim_poll E T (fuel + 1) w = some (false, { w with polls := w.polls + 1 }) := by
  simp only [asim_poll, hd, hs, beq_self_eq_true, Bool.and_self, if_true]

theorem asim_poll_fuel_succ (E : ml_env) (T fuel : Nat) (w : ml_world)
    (r : Bool × ml_world) (h : asim_poll E T fuel w = some r) :
    asim_poll E T (fuel + 1) w = some r := by
  induction fuel generalizing w with
  | zero => simp [asim_poll] at h
  | succ n ih =>
    rw [asim_poll] at h ⊢
    split
    · rename_i hc
      rw [if_pos hc] at h
      exact h
    · rename_i hc
      rw [if_neg hc] at h
      simp only [] at h ⊢
      split
      · rename_i hlt
        rw [if_pos hlt] at h
        exact ih _ h
      · rename_i hlt
        rw [if_neg hlt] at h
        exact h

theorem asim_poll_fuel_le (E : ml_env) (T n fuel : Nat) (w : ml_world)
    (r : Bool × ml_world) (h : asim_poll E T n w = some r) (hle : n ≤ fuel) :
    asim_poll E T fuel w = some r := by
  induction fuel with
  | zero =>
    have : n = 0 := Nat.le_zero.mp hle
    subst this
    exact h
  | succ m ih =>
    rcases Nat.eq_or_lt_of_le hle with he | hl
    · subst he
      exact h
    · exact asim_poll_fuel_succ E T m w r (ih (Nat.le_of_lt_succ hl))

theorem strict_clock_ge (E : ml_env) (hmono : ∀ k, E.plt_tsc_cycles k < E.plt_tsc_cycles (k + 1))
    (k : Nat) : k ≤ E.plt_tsc_cycles k := by
  induction k with
  | zero => exact Nat.zero_le _
  | succ n ih => exact Nat.succ_le_of_lt (Nat.lt_of_le_of_lt ih (hmono n))

/-- With a strictly increasing cycle counter the loop ends within `T + 1`
iterations, with one result for every larger fuel. -/
theorem asim_poll_ends (E : ml_env)
    (hmono : ∀ k, E.plt_tsc_cycles k < E.plt_tsc_cycles (k + 1)) (T : Nat) (w : ml_world) :
    ∃ t w', ∀ fuel, T + 1 ≤ fuel → asim_poll E T fuel w = some (t, w') := by
  have hclock : ¬E.plt_tsc_cycles (w.tsc_reads + T) < T := by
    have := strict_clock_ge E hmono (w.tsc_reads + T)
    omega
  have hne := asim_poll_terminates E T T w hclock
  cases hr : asim_poll E T (T + 1) w with
  | none => exact absurd hr hne
  | some r =>
    exact ⟨r.1, r.2, fun fuel hle => asim_poll_fuel_le E T (T + 1) fuel w r hr hle⟩

/-! ## Firmware load: the fields each primitive changes -/

@[simp] theorem write64_trace (v : Nat) (r : ml_reg) (w : ml_world) :
    (roc_ml_reg_write64 v r w).trace = w.trace ++ [hw_event.reg_write64 v r] := rfl

@[simp] theorem write64_regs (v : Nat) (r : ml_reg) (w : ml_world) :
    (roc_ml_reg_write64 v r w).regs = Function.update w.regs r v := rfl

@[simp] theorem write64_mldev (v : Nat) (r : ml_reg) (w : ml_world) :
    (roc_ml_reg_write64 v r w).mldev = w.mldev := rfl

@[simp] theorem write64_req (v : Nat) (r : ml_reg) (w : ml_world) :
    (roc_ml_reg_write64 v r w).req = w.req := rfl

@[simp] theorem write64_polls (v : Nat) (r : ml_reg) (w : ml_world) :
    (roc_ml_reg_write64 v r w).polls = w.polls := rfl

@[simp] theorem write32_trace (v : Nat) (r : ml_reg) (w : ml_world) :
    (roc_ml_reg_write32 v r w).trace = w.trace ++ [hw_event.reg_write32 v r] := rfl

@[simp] theorem write32_regs (v : Nat) (r : ml_reg) (w : ml_world) :
    (roc_ml_reg_write32 v r w).regs = Function.update w.regs r v := rfl

@[simp] theorem write32_mldev (v : Nat) (r : ml_reg) (w : ml_world) :
    (roc_ml_reg_write32 v r w).mldev = w.mldev := rfl

@[simp] theorem write32_req (v : Nat) (r : ml_reg) (w : ml_world) :
    (roc_ml_reg_write32 v r w).req = w.req := rfl

@[simp] theorem write32_polls (v : Nat) (r : ml_reg) (w : ml_world) :
    (roc_ml_reg_write32 v r w).polls = w.polls := rfl

@[simp] theorem reg_save_trace (r : ml_reg) (w : ml_world) :
    (roc_ml_reg_save r w).trace = w.trace ++ [hw_event.reg_save r] := rfl

@[simp] theorem reg_save_regs (r : ml_reg) (w : ml_world) :
    (roc_ml_reg_save r w).regs = w.regs := rfl

@[simp] theorem reg_save_mldev (r : ml_reg) (w : ml_world) :
    (roc_ml_reg_save r w).mldev = w.mldev := rfl

@[simp] theorem reg_save_req (r : ml_reg) (w : ml_world) :
    (roc_ml_reg_save r w).req = w.req := rfl

@[simp] theorem reg_save_polls (r : ml_reg) (w : ml_world) :
    (roc_ml_reg_save r w).polls = w.polls := rfl

@[simp] theorem mlip_reset_trace (E : ml_env) (f : Bool) (w : ml_world) :
    (roc_ml_mlip_reset E f w).trace = w.trace ++ [hw_event.mlip_reset f] := rfl

@[simp] theorem mlip_reset_regs (E : ml_env) (f : Bool) (w : ml_world) :
    (roc_ml_mlip_reset E f w).regs = E.mlip_reset_regs f w.regs := rfl

@[simp] theorem mlip_reset_mldev (E : ml_env) (f : Bool) (w : ml_world) :
    (roc_ml_mlip_reset E f w).mldev = w.mldev := rfl

@[simp] theorem mlip_reset_req (E : ml_env) (f : Bool) (w : ml_world) :
    (roc_ml_mlip_reset E f w).req = w.req := rfl

@[simp] theorem mlip_reset_polls (E : ml_env) (f : Bool) (w : ml_world) :
    (roc_ml_mlip_reset E f w).polls = w.polls := rfl

@[simp] theorem scratch_enqueue_trace (E : ml_env) (p : Nat) (w : ml_world) :
    (roc_ml_scratch_enqueue E p w).trace = w.trace ++ [hw_event.scratch_enqueue p] := rfl

@[simp] theorem scratch_enqueue_regs (E : ml_env) (p : Nat) (w : ml_world) :
    (roc_ml_scratch_enqueue E p w).regs = E.scratch_enqueue_regs p w.regs := rfl

@[simp] theorem scratch_enqueue_mldev (E : ml_env) (p : Nat) (w : ml_world) :
    (roc_ml_scratch_enqueue E p w).mldev = w.mldev := rfl

@[simp] theorem scratch_enqueue_req (E : ml_env) (p : Nat) (w : ml_world) :
    (roc_ml_scratch_enqueue E p w).req = w.req := rfl

@[simp] theorem scratch_enqueue_polls (E : ml_env) (p : Nat) (w : ml_world) :
    (roc_ml_scratch_enqueue E p w).polls = w.polls := rfl

@[simp] theorem log_event_trace (e : hw_event) (w : ml_world) :
    (log_event e w).trace = w.trace ++ [e] := rfl

@[simp] theorem log_event_regs (e : hw_event) (w : ml_world) :
    (log_event e w).regs = w.regs := rfl

@[simp] theorem log_event_mldev (e : hw_event) (w : ml_world) :
    (log_event e w).mldev = w.mldev := rfl

@[simp] theorem log_event_req (e : hw_event) (w : ml_world) :
    (log_event e w).req = w.req := rfl

@[simp] theorem log_event_polls (e : hw_event) (w : ml_world) :
    (log_event e w).polls = w.polls := rfl

@[simp] theorem tsc_cycles_trace (E : ml_env) (w : ml_world) :
    (plt_tsc_cycles E w).2.trace = w.trace := rfl

@[simp] theorem tsc_cycles_regs (E : ml_env) (w : ml_world) :
    (plt_tsc_cycles E w).2.regs = w.regs := rfl

@[simp] theorem tsc_cycles_mldev (E : ml_env) (w : ml_world) :
    (plt_tsc_cycles E w).2.mldev = w.mldev := rfl

@[simp] theorem tsc_cycles_req (E : ml_env) (w : ml_world) :
    (plt_tsc_cycles E w).2.req = w.req := rfl

@[simp] theorem tsc_cycles_polls (E : ml_env) (w : ml_world) :
    (plt_tsc_cycles E w).2.polls = w.polls := rfl

@[simp] theorem read64_value (r : ml_reg) (w : ml_world) :
    roc_ml_reg_read64 r w = w.regs r := rfl

@[simp] theorem read32_value (r : ml_reg) (w : ml_world) :
    roc_ml_reg_read32 r w = w.regs r % 2 ^ 32 := rfl

/-! ## Firmware load: what the loops over the ANB units do -/

@[simp] theorem backp_disable_loop_mldev (E : ml_env) (n i : Nat) (w : ml_world) :
    (backp_disable_loop E n i w).mldev = w.mldev := by
  induction n generalizing i w with
  | zero => rfl
  | succ n ih => simp only [backp_disable_loop, ih, write64_mldev]

@[simp] theorem backp_disable_loop_polls (E : ml_env) (n i : Nat) (w : ml_world) :
    (backp_disable_loop E n i w).polls = w.polls := by
  induction n generalizing i w with
  | zero => rfl
  | succ n ih => simp only [backp_disable_loop, ih, write64_polls]

@[simp] theorem backp_disable_loop_req (E : ml_env) (n i : Nat) (w : ml_world) :
    (backp_disable_loop E n i w).req = w.req := by
  induction n generalizing i w with
  | zero => rfl
  | succ n ih => simp only [backp_disable_loop, ih, write64_req]

@[simp] theorem ncbi_ns_ovr_loop_mldev (E : ml_env) (n i : Nat) (w : ml_world) :
    (ncbi_ns_ovr_loop E n i w).mldev = w.mldev := by
  induction n generalizing i w with
  | zero => rfl
  | succ n ih => simp only [ncbi_ns_ovr_loop, ih, write64_mldev]

@[simp] theorem ncbi_ns_ovr_loop_polls (E : ml_env) (n i : Nat) (w : ml_world) :
    (ncbi_ns_ovr_loop E n i w).polls = w.polls := by
  induction n generalizing i w with
  | zero => rfl
  | succ n ih => simp only [ncbi_ns_ovr_loop, ih, write64_polls]

@[simp] theorem ncbi_ns_ovr_loop_req (E : ml_env) (n i : Nat) (w : ml_world) :
    (ncbi_ns_ovr_loop E n i w).req = w.req := by
  induction n generalizing i w with
  | zero => rfl
  | succ n ih => simp only [ncbi_ns_ovr_loop, ih, write64_req]

@[simp] theorem ncbi_ro_ovr_loop_mldev (E : ml_env) (n i : Nat) (w : ml_world) :
    (ncbi_ro_ovr_loop E n i w).mldev = w.mldev := by
  induction n generalizing i w with
  | zero => rfl
  | succ n ih => simp only [ncbi_ro_ovr_loop, ih, write64_mldev]

@[simp] theorem ncbi_ro_ovr_loop_polls (E : ml_env) (n i : Nat) (w : ml_world) :
    (ncbi_ro_ovr_loop E n i w).polls = w.polls := by
  induction n generalizing i w with
  | zero => rfl
  | succ n ih => simp only [ncbi_ro_ovr_loop, ih, write64_polls]

theorem backp_disable_loop_regs (E : ml_env) (n i : Nat) (w : ml_world) (q : ml_reg)
    (hq : ∀ a, q ≠ ml_reg.ML_ANBX_BACKP_DISABLE a) :
    (backp_disable_loop E n i w).regs q = w.regs q := by
  induction n generalizing i w with
  | zero => rfl
  | succ n ih =>
    simp only [backp_disable_loop, ih, write64_regs]
    exact Function.update_noteq (hq i) _ _

theorem ncbi_ns_ovr_loop_regs (E : ml_env) (n i : Nat) (w : ml_world) (q : ml_reg)
    (hp : ∀ a, q ≠ ml_reg.ML_ANBX_NCBI_P_OVR a)
    (hnp : ∀ a, q ≠ ml_reg.ML_ANBX_NCBI_NP_OVR a) :
    (ncbi_ns_ovr_loop E n i w).regs q = w.regs q := by
  induction n generalizing i w with
  | zero => rfl
  | succ n ih =>
    simp only [ncbi_ns_ovr_loop, ih, write64_regs]
    rw [Function.update_noteq (hnp i), Function.update_noteq (hp i)]

theorem ncbi_ro_ovr_loop_regs (E : ml_env) (n i : Nat) (w : ml_world) (q : ml_reg)
    (hp : ∀ a, q ≠ ml_reg.ML_ANBX_NCBI_P_OVR a) :
    (ncbi_ro_ovr_loop E n i w).regs q = w.regs q := by
  induction n generalizing i w with
  | zero => rfl
  | succ n ih =>
    simp only [ncbi_ro_ovr_loop, ih, write64_regs]
    exact Function.update_noteq (hp i) _ _

theorem backp_disable_loop_trace (E : ml_env) (n i : Nat) (w : ml_world) :
    ∃ l, (backp_disable_loop E n i w).trace = w.trace ++ l ∧ l.all is_anb_write = true := by
  induction n generalizing i w with
  | zero => exact ⟨[], by simp [backp_disable_loop], rfl⟩
  | succ n ih =>
    obtain ⟨l, h1, h2⟩ := ih (i + 1) (roc_ml_reg_write64
      (E.ROC_ML_ANBX_BACKP_DISABLE_EXTMSTR_B_BACKP_DISABLE |||
        E.ROC_ML_ANBX_BACKP_DISABLE_EXTMSTR_R_BACKP_DISABLE)
      (ml_reg.ML_ANBX_BACKP_DISABLE i) w)
    refine ⟨hw_event.reg_write64
      (E.ROC_ML_ANBX_BACKP_DISABLE_EXTMSTR_B_BACKP_DISABLE |||
        E.ROC_ML_ANBX_BACKP_DISABLE_EXTMSTR_R_BACKP_DISABLE)
      (ml_reg.ML_ANBX_BACKP_DISABLE i) :: l, ?_, ?_⟩
    · simp only [backp_disable_loop, h1, write64_trace, List.append_assoc, List.singleton_append]
    · simp only [List.all_cons, h2, is_anb_write, Bool.and_self]

theorem ncbi_ns_ovr_loop_trace (E : ml_env) (n i : Nat) (w : ml_world) :
    ∃ l, (ncbi_ns_ovr_loop E n i w).trace = w.trace ++ l ∧ l.all is_anb_write = true := by
  induction n generalizing i w with
  | zero => exact ⟨[], by simp [ncbi_ns_ovr_loop], rfl⟩
  | succ n ih =>
    simp only [ncbi_ns_ovr_loop]
    obtain ⟨l, h1, h2⟩ := ih (i + 1) (roc_ml_reg_write64
      (E.ML_ANBX_NCBI_P_OVR_ANB_NCBI_P_NS_OVR ||| E.ML_ANBX_NCBI_P_OVR_ANB_NCBI_P_NS_OVR_VLD |||
        (E.ML_ANBX_NCBI_NP_OVR_ANB_NCBI_NP_NS_OVR |||
          E.ML_ANBX_NCBI_NP_OVR_ANB_NCBI_NP_NS_OVR_VLD))
      (ml_reg.ML_ANBX_NCBI_NP_OVR i)
      (roc_ml_reg_write64
        (E.ML_ANBX_NCBI_P_OVR_ANB_NCBI_P_NS_OVR ||| E.ML_ANBX_NCBI_P_OVR_ANB_NCBI_P_NS_OVR_VLD)
        (ml_reg.ML_ANBX_NCBI_P_OVR i) w))
    refine ⟨hw_event.reg_write64
        (E.ML_ANBX_NCBI_P_OVR_ANB_NCBI_P_NS_OVR ||| E.ML_ANBX_NCBI_P_OVR_ANB_NCBI_P_NS_OVR_VLD)
        (ml_reg.ML_ANBX_NCBI_P_OVR i) ::
      hw_event.reg_write64
        (E.ML_ANBX_NCBI_P_OVR_ANB_NCBI_P_NS_OVR ||| E.ML_ANBX_NCBI_P_OVR_ANB_NCBI_P_NS_OVR_VLD |||
          (E.ML_ANBX_NCBI_NP_OVR_ANB_NCBI_NP_NS_OVR |||
            E.ML_ANBX_NCBI_NP_OVR_ANB_NCBI_NP_NS_OVR_VLD))
        (ml_reg.ML_ANBX_NCBI_NP_OVR i) :: l, ?_, ?_⟩
    · rw [h1]
      simp only [write64_trace, read64_value, List.append_assoc, List.singleton_append,
        List.cons_append, List.nil_append]
    · simp only [List.all_cons, h2, is_anb_write, Bool.and_self]

theorem ncbi_ro_ovr_loop_trace (E : ml_env) (n i : Nat) (w : ml_world) :
    ∃ l, (ncbi_ro_ovr_loop E n i w).trace = w.trace ++ l ∧ l.all is_anb_write = true := by
  induction n generalizing i w with
  | zero => exact ⟨[], by simp [ncbi_ro_ovr_loop], rfl⟩
  | succ n ih =>
    simp only [ncbi_ro_ovr_loop]
    obtain ⟨l, h1, h2⟩ := ih (i + 1) (roc_ml_reg_write64
      (roc_ml_reg_read64 (ml_reg.ML_ANBX_NCBI_P_OVR i) w |||
        (E.ML_ANBX_NCBI_P_OVR_ANB_NCBI_P_RO_OVR ||| E.ML_ANBX_NCBI_P_OVR_ANB_NCBI_P_RO_OVR_VLD))
      (ml_reg.ML_ANBX_NCBI_P_OVR i) w)
    refine ⟨hw_event.reg_write64
      (w.regs (ml_reg.ML_ANBX_NCBI_P_OVR i) |||
        (E.ML_ANBX_NCBI_P_OVR_ANB_NCBI_P_RO_OVR ||| E.ML_ANBX_NCBI_P_OVR_ANB_NCBI_P_RO_OVR_VLD))
      (ml_reg.ML_ANBX_NCBI_P_OVR i) :: l, ?_, ?_⟩
    · rw [h1]
      simp only [write64_trace, read64_value, List.append_assoc, List.singleton_append,
        List.cons_append, List.nil_append]
    · simp only [List.all_cons, h2, is_anb_write, Bool.and_self]

theorem appended_of_trace (w w' : ml_world) (l : List hw_event)
    (h : w'.trace = w.trace ++ l) : appended w w' = l := by
  simp only [appended, h, List.drop_left]

theorem backp_disable_loop_appended (E : ml_env) (n i : Nat) (w : ml_world) :
    (backp_disable_loop E n i w).trace = w.trace ++ appended w (backp_disable_loop E n i w) ∧
    (appended w (backp_disable_loop E n i w)).all is_anb_write = true := by
  obtain ⟨l, h1, h2⟩ := backp_disable_loop_trace E n i w
  rw [appended_of_trace w _ l h1]
  exact ⟨h1, h2⟩

theorem ncbi_ns_ovr_loop_appended (E : ml_env) (n i : Nat) (w : ml_world) :
    (ncbi_ns_ovr_loop E n i w).trace = w.trace ++ appended w (ncbi_ns_ovr_loop E n i w) ∧
    (appended w (ncbi_ns_ovr_loop E n i w)).all is_anb_write = true := by
  obtain ⟨l, h1, h2⟩ := ncbi_ns_ovr_loop_trace E n i w
  rw [appended_of_trace w _ l h1]
  exact ⟨h1, h2⟩

theorem ncbi_ro_ovr_loop_appended (E : ml_env) (n i : Nat) (w : ml_world) :
    (ncbi_ro_ovr_loop E n i w).trace = w.trace ++ appended w (ncbi_ro_ovr_loop E n i w) ∧
    (appended w (ncbi_ro_ovr_loop E n i w)).all is_anb_write = true := by
  obtain ⟨l, h1, h2⟩ := ncbi_ro_ovr_loop_trace E n i w
  rw [appended_of_trace w _ l h1]
  exact ⟨h1, h2⟩

/-! ## Firmware load: facts about traces -/

theorem all_imp (p q : hw_event → Bool) (l : List hw_event)
    (hpq : ∀ e, p e = true → q e = true) (h : l.all p = true) : l.all q = true := by
  rw [List.all_eq_true] at h ⊢
  exact fun e he => hpq e (h e he)

theorem anb_not_milestone (e : hw_event) (h : is_anb_write e = true) :
    (!is_milestone e) = true := by
  cases e with
  | reg_write64 v r => cases r <;> first | rfl | exact Bool.noConfusion h
  | _ => exact Bool.noConfusion h

theorem anb_written_value (reg : ml_reg) (hb : ∀ a, reg ≠ ml_reg.ML_ANBX_BACKP_DISABLE a)
    (hp : ∀ a, reg ≠ ml_reg.ML_ANBX_NCBI_P_OVR a)
    (hnp : ∀ a, reg ≠ ml_reg.ML_ANBX_NCBI_NP_OVR a)
    (e : hw_event) (h : is_anb_write e = true) : written_value reg e = none := by
  cases e with
  | reg_write64 v r =>
    cases r with
    | ML_ANBX_BACKP_DISABLE a => simp only [written_value, if_neg (Ne.symm (hb a))]
    | ML_ANBX_NCBI_P_OVR a => simp only [written_value, if_neg (Ne.symm (hp a))]
    | ML_ANBX_NCBI_NP_OVR a => simp only [written_value, if_neg (Ne.symm (hnp a))]
    | _ => exact Bool.noConfusion h
  | _ => exact Bool.noConfusion h

theorem last_write_append_none (reg : ml_reg) (tr l : List hw_event)
    (h : ∀ e ∈ l, written_value reg e = none) :
    last_write reg (tr ++ l) = last_write reg tr := by
  have hl : l.filterMap (written_value reg) = [] := by
    rw [List.filterMap_eq_nil_iff]
    exact h
  simp only [last_write, List.filterMap_append, hl, List.append_nil]

theorem last_write_concat (reg : ml_reg) (tr : List hw_event) (v : Nat) :
    last_write reg (tr ++ [hw_event.reg_write64 v reg]) = some v := by
  simp [last_write, List.filterMap_append, written_value]

theorem last_write_anb (reg : ml_reg) (hb : ∀ a, reg ≠ ml_reg.ML_ANBX_BACKP_DISABLE a)
    (hp : ∀ a, reg ≠ ml_reg.ML_ANBX_NCBI_P_OVR a)
    (hnp : ∀ a, reg ≠ ml_reg.ML_ANBX_NCBI_NP_OVR a)
    (tr l : List hw_event) (h : l.all is_anb_write = true) :
    last_write reg (tr ++ l) = last_write reg tr := by
  rw [List.all_eq_true] at h
  exact last_write_append_none reg tr l
    (fun e he => anb_written_value reg hb hp hnp e (h e he))

/-! ## Firmware load: the stages of the two variants -/

theorem asim_poll_fields (E : ml_env) (T fuel : Nat) (w : ml_world) (t : Bool) (w' : ml_world)
    (h : asim_poll E T fuel w = some (t, w')) :
    w'.mldev = w.mldev ∧ w'.regs = w.regs ∧ w'.memzones = w.memzones ∧ w'.req = w.req ∧
    w'.trace = w.trace := by
  have h1 := (asim_poll_spec E T fuel w t w' h).1
  exact ⟨by rw [h1], by rw [h1], by rw [h1], by rw [h1], by rw [h1]⟩

theorem asim_poll_polls_le (E : ml_env) (T fuel : Nat) (w : ml_world) (t : Bool) (w' : ml_world)
    (h : asim_poll E T fuel w = some (t, w')) : w'.polls ≤ w.polls + fuel := by
  induction fuel generalizing w with
  | zero => simp [asim_poll] at h
  | succ n ih =>
    simp only [asim_poll] at h
    split at h
    · simp only [Option.some.injEq, Prod.mk.injEq] at h
      rw [← h.2]
      exact Nat.add_le_add_left (Nat.succ_le_succ (Nat.zero_le n)) _
    · split at h
      · have := ih _ h
        simp only [tsc_cycles_polls] at this
        omega
      · simp only [Option.some.injEq, Prod.mk.injEq] at h
        rw [← h.2]
        simp only [tsc_cycles_polls]
        omega

/-- The job handshake of the real-hardware variant is that of the simulator
variant. -/
theorem cn10ka_handshake_eq (E : ml_env) (fuel : Nat) (w : ml_world) :
    cn10ka_handshake E fuel w = asim_handshake E fuel w := by
  simp only [cn10ka_handshake, asim_handshake, cn10ka_poll_eq_asim_poll]

theorem cn10ka_failure_eq (E : ml_env) (t : Bool) (w : ml_world) :
    cn10ka_failure E t w = asim_failure E t w := rfl

/-- What a handshake that ends has done. -/
theorem asim_handshake_spec (E : ml_env) (fuel : Nat) (w : ml_world) (t : Bool)
    (wp : ml_world) (h : asim_handshake E fuel w = some (t, wp)) :
    wp.mldev = w.mldev ∧ wp.memzones = w.memzones ∧
    wp.req = { jd_hdr_jce_w1 := w.mldev.fw.req + E.offsetof_status
               jd_hdr_job_type := E.ML_CN10K_JOB_TYPE_FIRMWARE_LOAD
               jd_hdr_result := E.roc_ml_addr_ap2mlip (w.mldev.fw.req + E.offsetof_result)
               jd_fw_load_flags := cn10k_ml_fw_flags_get w.mldev.fw
               status := E.ML_CN10K_POLL_JOB_START } ∧
    wp.regs = E.scratch_enqueue_regs (w.mldev.fw.req + E.offsetof_jd) w.regs ∧
    wp.trace = w.trace ++ [hw_event.wmb,
      hw_event.scratch_enqueue (w.mldev.fw.req + E.offsetof_jd), hw_event.rmb] ∧
    w.polls < wp.polls ∧ w.tsc_reads < wp.tsc_reads ∧
    (t = false ↔ completion_observed E w.polls wp.polls) ∧
    (t = true → ¬E.plt_tsc_cycles (wp.tsc_reads - 1) < fw_load_deadline E w.tsc_reads) := by
  simp only [asim_handshake] at h
  obtain ⟨f1, f2, f3, f4, f5⟩ := asim_poll_fields E _ fuel _ t wp h
  obtain ⟨_, p2, p3, p4, p5⟩ := asim_poll_spec E _ fuel _ t wp h
  simp only [log_event_polls, scratch_enqueue_polls, tsc_cycles_polls, log_event_tsc_reads,
    scratch_enqueue_tsc_reads, tsc_cycles_tsc_reads, tsc_cycles_value] at p2 p3 p4 p5
  refine ⟨f1, f3, f4, f2, ?_, p2, Nat.lt_of_lt_of_le (Nat.lt_succ_self _) p3, p4,
    fun ht => (p5 ht).2⟩
  rw [f5]
  simp only [log_event_trace, scratch_enqueue_trace, tsc_cycles_trace, tsc_cycles_mldev,
    log_event_mldev, List.append_assoc, List.singleton_append, List.cons_append,
    List.nil_append]

/-- What the failure path leaves: three register writes, the code, and
`ML_CFG` holding `JD_SIZE | MLIP_ENA`. -/
theorem asim_failure_spec (E : ml_env) (t : Bool) (w : ml_world) :
    (asim_failure E t w).1 = (if t then -ETIME else -1) ∧
    (asim_failure E t w).2.trace = w.trace ++
      [hw_event.reg_write64 (E.ROC_ML_CFG_JD_SIZE ||| E.ROC_ML_CFG_MLIP_ENA) ml_reg.ML_CFG,
       hw_event.reg_write64 0 ml_reg.ML_SCRATCH_WORK_PTR,
       hw_event.reg_write64 0 ml_reg.ML_SCRATCH_FW_CTRL] ∧
    (asim_failure E t w).2.regs ml_reg.ML_CFG =
      (E.ROC_ML_CFG_JD_SIZE ||| E.ROC_ML_CFG_MLIP_ENA) ∧
    (asim_failure E t w).2.memzones = w.memzones ∧
    (asim_failure E t w).2.polls = w.polls ∧
    (asim_failure E t w).2.mldev = w.mldev := by
  cases t <;>
    simp [asim_failure, List.append_assoc, Function.update_apply]

/-- What the simulator variant does after a successful handshake. -/
theorem asim_finish_spec (E : ml_env) (w : ml_world) :
    (asim_finish E w).trace = w.trace ++
      [hw_event.reg_write64 0 ml_reg.ML_SCRATCH_FW_CTRL,
       hw_event.reg_write64 0 ml_reg.ML_SCRATCH_WORK_PTR,
       hw_event.reg_write64 (w.regs ml_reg.ML_CFG &&& not64 E.ROC_ML_CFG_ENA) ml_reg.ML_CFG] ∧
    (asim_finish E w).regs ml_reg.ML_CFG = (w.regs ml_reg.ML_CFG &&& not64 E.ROC_ML_CFG_ENA) ∧
    (asim_finish E w).memzones = w.memzones ∧
    (asim_finish E w).polls = w.polls ∧
    (asim_finish E w).mldev = w.mldev := by
  simp [asim_finish, List.append_assoc, Function.update_apply]

theorem cn10ka_steps_13_15_spec (E : ml_env) (w : ml_world) :
    (cn10ka_steps_13_15 E w).trace = w.trace ++
      [hw_event.reg_write64 (w.regs ml_reg.ML_JOB_MGR_CTRL |||
         E.ROC_ML_JOB_MGR_CTRL_STALL_ON_IDLE) ml_reg.ML_JOB_MGR_CTRL,
       hw_event.reg_write64 (w.regs ml_reg.ML_CFG &&& not64 E.ROC_ML_CFG_MLIP_CLK_FORCE)
         ml_reg.ML_CFG,
       hw_event.reg_write64 (w.regs ml_reg.ML_CFG &&& not64 E.ROC_ML_CFG_MLIP_CLK_FORCE |||
         E.ROC_ML_CFG_ENA) ml_reg.ML_CFG,
       hw_event.reg_write64 0 ml_reg.ML_SCRATCH_FW_CTRL,
       hw_event.reg_write64 0 ml_reg.ML_SCRATCH_WORK_PTR,
       hw_event.reg_write64 ((w.regs ml_reg.ML_CFG &&& not64 E.ROC_ML_CFG_MLIP_CLK_FORCE |||
         E.ROC_ML_CFG_ENA) &&& not64 E.ROC_ML_CFG_ENA) ml_reg.ML_CFG] ∧
    (cn10ka_steps_13_15 E w).regs ml_reg.ML_CFG =
      ((w.regs ml_reg.ML_CFG &&& not64 E.ROC_ML_CFG_MLIP_CLK_FORCE ||| E.ROC_ML_CFG_ENA) &&&
        not64 E.ROC_ML_CFG_ENA) ∧
    (cn10ka_steps_13_15 E w).memzones = w.memzones ∧
    (cn10ka_steps_13_15 E w).polls = w.polls ∧
    (cn10ka_steps_13_15 E w).mldev = w.mldev := by
  simp [cn10ka_steps_13_15, List.append_assoc, Function.update_apply]

/-- What the real-hardware variant does after a successful handshake: six
writes whose last one is the `ML_CFG` write with ENA cleared, then the writes
of the loop over the ANB units. -/
theorem cn10ka_finish_spec (E : ml_env) (w : ml_world) :
    ∃ x l, l.all is_anb_write = true ∧
    (cn10ka_finish E w).trace = w.trace ++
      [hw_event.reg_write64 (w.regs ml_reg.ML_JOB_MGR_CTRL |||
         E.ROC_ML_JOB_MGR_CTRL_STALL_ON_IDLE) ml_reg.ML_JOB_MGR_CTRL,
       hw_event.reg_write64 (w.regs ml_reg.ML_CFG &&& not64 E.ROC_ML_CFG_MLIP_CLK_FORCE)
         ml_reg.ML_CFG,
       hw_event.reg_write64 (w.regs ml_reg.ML_CFG &&& not64 E.ROC_ML_CFG_MLIP_CLK_FORCE |||
         E.ROC_ML_CFG_ENA) ml_reg.ML_CFG,
       hw_event.reg_write64 0 ml_reg.ML_SCRATCH_FW_CTRL,
       hw_event.reg_write64 0 ml_reg.ML_SCRATCH_WORK_PTR,
       hw_event.reg_write64 (x &&& not64 E.ROC_ML_CFG_ENA) ml_reg.ML_CFG] ++ l ∧
    (cn10ka_finish E w).regs ml_reg.ML_CFG = (x &&& not64 E.ROC_ML_CFG_ENA) ∧
    (cn10ka_finish E w).memzones = w.memzones ∧
    (cn10ka_finish E w).polls = w.polls ∧
    (cn10ka_finish E w).mldev = w.mldev := by
  obtain ⟨s1, s2, s3, s4, s5⟩ := cn10ka_steps_13_15_spec E w
  obtain ⟨l1, l2⟩ := ncbi_ro_ovr_loop_appended E E.ML_ANBX_NR 0 (cn10ka_steps_13_15 E w)
  refine ⟨w.regs ml_reg.ML_CFG &&& not64 E.ROC_ML_CFG_MLIP_CLK_FORCE ||| E.ROC_ML_CFG_ENA,
    _, l2, ?_, ?_, ?_, ?_, ?_⟩
  · rw [cn10ka_finish, l1, s1]
  · rw [cn10ka_finish, ncbi_ro_ovr_loop_regs E _ _ _ _ (fun a => by simp), s2]
  · rw [cn10ka_finish, ncbi_ro_ovr_loop_memzones, s3]
  · rw [cn10ka_finish, ncbi_ro_ovr_loop_polls, s4]
  · rw [cn10ka_finish, ncbi_ro_ovr_loop_mldev, s5]

/-! ## Firmware load: the two variants as a whole -/

theorem reset_debug_pointers_trace (w : ml_world) :
    (reset_debug_pointers w).trace = w.trace ++
      [hw_event.reg_write64 0 ml_reg.ML_SCRATCH_DBG_BUFFER_HEAD_C0,
       hw_event.reg_write64 0 ml_reg.ML_SCRATCH_DBG_BUFFER_TAIL_C0,
       hw_event.reg_write64 0 ml_reg.ML_SCRATCH_DBG_BUFFER_HEAD_C1,
       hw_event.reg_write64 0 ml_reg.ML_SCRATCH_DBG_BUFFER_TAIL_C1,
       hw_event.reg_write64 0 ml_reg.ML_SCRATCH_EXCEPTION_SP_C0,
       hw_event.reg_write64 0 ml_reg.ML_SCRATCH_EXCEPTION_SP_C1] := by
  simp [reset_debug_pointers, List.append_assoc]

@[simp] theorem reset_debug_pointers_mldev (w : ml_world) :
    (reset_debug_pointers w).mldev = w.mldev := rfl

@[simp] theorem reset_debug_pointers_polls (w : ml_world) :
    (reset_debug_pointers w).polls = w.polls := rfl

@[simp] theorem reset_debug_pointers_req (w : ml_world) :
    (reset_debug_pointers w).req = w.req := rfl

/-- What the simulator variant does before the handshake. -/
theorem asim_prepare_spec (E : ml_env) (w : ml_world) :
    (asim_prepare E w).trace = w.trace ++
      [hw_event.reg_write64 0 ml_reg.ML_SCRATCH_DBG_BUFFER_HEAD_C0,
       hw_event.reg_write64 0 ml_reg.ML_SCRATCH_DBG_BUFFER_TAIL_C0,
       hw_event.reg_write64 0 ml_reg.ML_SCRATCH_DBG_BUFFER_HEAD_C1,
       hw_event.reg_write64 0 ml_reg.ML_SCRATCH_DBG_BUFFER_TAIL_C1,
       hw_event.reg_write64 0 ml_reg.ML_SCRATCH_EXCEPTION_SP_C0,
       hw_event.reg_write64 0 ml_reg.ML_SCRATCH_EXCEPTION_SP_C1,
       hw_event.reg_write64 E.rte_eal_get_baseaddr ml_reg.ML_MLR_BASE,
       hw_event.reg_save ml_reg.ML_MLR_BASE] ∧
    (asim_prepare E w).memzones = w.memzones ∧
    (asim_prepare E w).polls = w.polls ∧
    (asim_prepare E w).tsc_reads = w.tsc_reads ∧
    (asim_prepare E w).mldev = w.mldev := by
  simp [asim_prepare, reset_debug_pointers_trace, List.append_assoc]

theorem cn10ka_steps_1_3_spec (E : ml_env) (size : Nat) (w : ml_world) :
    (cn10ka_steps_1_3 E size w).trace = w.trace ++
      [hw_event.reg_write64 0 ml_reg.ML_SCRATCH_DBG_BUFFER_HEAD_C0,
       hw_event.reg_write64 0 ml_reg.ML_SCRATCH_DBG_BUFFER_TAIL_C0,
       hw_event.reg_write64 0 ml_reg.ML_SCRATCH_DBG_BUFFER_HEAD_C1,
       hw_event.reg_write64 0 ml_reg.ML_SCRATCH_DBG_BUFFER_TAIL_C1,
       hw_event.reg_write64 0 ml_reg.ML_SCRATCH_EXCEPTION_SP_C0,
       hw_event.reg_write64 0 ml_reg.ML_SCRATCH_EXCEPTION_SP_C1,
       hw_event.memcpy (w.mldev.fw.data + FW_LINKER_OFFSET) size,
       hw_event.reg_write64 (sub64 w.mldev.fw.data E.rte_eal_get_baseaddr) ml_reg.ML_MLR_BASE,
       hw_event.reg_save ml_reg.ML_MLR_BASE,
       hw_event.reg_write64 (E.ROC_ML_AXI_BRIDGE_CTRL_AXI_RESP_CTRL |||
         E.ROC_ML_AXI_BRIDGE_CTRL_BRIDGE_CTRL_MODE ||| E.ROC_ML_AXI_BRIDGE_CTRL_NCB_WR_BLK |||
         E.ROC_ML_AXI_BRIDGE_CTRL_FORCE_WRESP_OK ||| E.ROC_ML_AXI_BRIDGE_CTRL_FORCE_RRESP_OK)
         (ml_reg.ML_AXI_BRIDGE_CTRL 1)] ∧
    (cn10ka_steps_1_3 E size w).memzones = w.memzones ∧
    (cn10ka_steps_1_3 E size w).polls = w.polls ∧
    (cn10ka_steps_1_3 E size w).tsc_reads = w.tsc_reads ∧
    (cn10ka_steps_1_3 E size w).mldev = w.mldev := by
  simp [cn10ka_steps_1_3, reset_debug_pointers_trace, List.append_assoc]

theorem cn10ka_steps_1_5_spec (E : ml_env) (size : Nat) (w : ml_world) :
    ∃ l, l.all is_anb_write = true ∧
    (cn10ka_steps_1_5 E size w).trace = (cn10ka_steps_1_3 E size w).trace ++ l ∧
    (cn10ka_steps_1_5 E size w).memzones = w.memzones ∧
    (cn10ka_steps_1_5 E size w).polls = w.polls ∧
    (cn10ka_steps_1_5 E size w).tsc_reads = w.tsc_reads ∧
    (cn10ka_steps_1_5 E size w).mldev = w.mldev := by
  obtain ⟨_, s2, s3, s4, s5⟩ := cn10ka_steps_1_3_spec E size w
  obtain ⟨a1, a2⟩ := backp_disable_loop_appended E E.ML_ANBX_NR 0 (cn10ka_steps_1_3 E size w)
  obtain ⟨b1, b2⟩ := ncbi_ns_ovr_loop_appended E E.ML_ANBX_NR 0
    (cn10ka_step_4 E (cn10ka_steps_1_3 E size w))
  refine ⟨appended (cn10ka_steps_1_3 E size w)
      (backp_disable_loop E E.ML_ANBX_NR 0 (cn10ka_steps_1_3 E size w)) ++
    appended (cn10ka_step_4 E (cn10ka_steps_1_3 E size w))
      (ncbi_ns_ovr_loop E E.ML_ANBX_NR 0 (cn10ka_step_4 E (cn10ka_steps_1_3 E size w))),
    ?_, ?_, ?_, ?_, ?_, ?_⟩
  · rw [List.all_append, a2, b2]
    rfl
  · rw [cn10ka_steps_1_5, cn10ka_step_5, b1, cn10ka_step_4, a1, List.append_assoc]
  · rw [cn10ka_steps_1_5, cn10ka_step_5, ncbi_ns_ovr_loop_memzones, cn10ka_step_4,
      backp_disable_loop_memzones, s2]
  · rw [cn10ka_steps_1_5, cn10ka_step_5, ncbi_ns_ovr_loop_polls, cn10ka_step_4,
      backp_disable_loop_polls, s3]
  · rw [cn10ka_steps_1_5, cn10ka_step_5, ncbi_ns_ovr_loop_tsc_reads, cn10ka_step_4,
      backp_disable_loop_tsc_reads, s4]
  · rw [cn10ka_steps_1_5, cn10ka_step_5, ncbi_ns_ovr_loop_mldev, cn10ka_step_4,
      backp_disable_loop_mldev, s5]

/-- Steps (6) to (11): the events, with the values of steps (8) and (11) in
the shape the source computes them. -/
theorem cn10ka_steps_6_11_spec (E : ml_env) (w : ml_world) :
    ∃ x y a,
    (cn10ka_steps_6_11 E w).trace = w.trace ++
      [hw_event.reg_write64 (w.regs ml_reg.ML_CFG ||| E.ROC_ML_CFG_MLIP_CLK_FORCE)
         ml_reg.ML_CFG,
       hw_event.reg_write64 (w.regs ml_reg.ML_JOB_MGR_CTRL &&&
         not64 E.ROC_ML_JOB_MGR_CTRL_STALL_ON_IDLE) ml_reg.ML_JOB_MGR_CTRL,
       hw_event.reg_write64 ((x ||| E.ROC_ML_CFG_MLIP_ENA) &&& not64 E.ROC_ML_CFG_ENA)
         ml_reg.ML_CFG,
       hw_event.delay_us FW_WAIT_CYCLES,
       hw_event.reg_write32 (a % 2 ^ 32) (ml_reg.ML_A35_0_RST_VECTOR_BASE_W 0),
       hw_event.reg_write32 (a / 2 ^ 32 % 2 ^ 32) (ml_reg.ML_A35_0_RST_VECTOR_BASE_W 1),
       hw_event.reg_write32 (a % 2 ^ 32) (ml_reg.ML_A35_1_RST_VECTOR_BASE_W 0),
       hw_event.reg_write32 (a / 2 ^ 32 % 2 ^ 32) (ml_reg.ML_A35_1_RST_VECTOR_BASE_W 1),
       hw_event.reg_write32 ((y &&& not64 E.ROC_ML_SW_RST_CTRL_ACC_RST) % 2 ^ 32)
         ml_reg.ML_SW_RST_CTRL] ∧
    x = (w.regs ml_reg.ML_CFG ||| E.ROC_ML_CFG_MLIP_CLK_FORCE) ∧
    y = w.regs ml_reg.ML_SW_RST_CTRL % 2 ^ 32 ∧
    a = add64 (add64 w.mldev.fw.data (sub64 FW_LINKER_OFFSET (w.regs ml_reg.ML_MLR_BASE)))
      E.ML_AXI_START_ADDR / 4 ∧
    (cn10ka_steps_6_11 E w).memzones = w.memzones ∧
    (cn10ka_steps_6_11 E w).polls = w.polls ∧
    (cn10ka_steps_6_11 E w).tsc_reads = w.tsc_reads ∧
    (cn10ka_steps_6_11 E w).mldev = w.mldev := by
  refine ⟨_, _, _, ?_, rfl, rfl, rfl, ?_, ?_, ?_, ?_⟩
  · simp [cn10ka_steps_6_11, List.append_assoc, Function.update_apply]
  · simp [cn10ka_steps_6_11]
  · simp [cn10ka_steps_6_11]
  · simp [cn10ka_steps_6_11]
  · simp [cn10ka_steps_6_11]

/-! ## Firmware load: the result of a bring-up -/

/-- The value the sequencer returns, from the variable `timeout` and the
error code. -/
theorem asim_load_cases (E : ml_env) (fuel : Nat) (w : ml_world) (ret : Int) (w' : ml_world)
    (h : cn10k_ml_fw_load_asim E fuel w = some (ret, w')) :
    ∃ t wp, asim_handshake E fuel (asim_prepare E w) = some (t, wp) ∧
      ((t = false ∧ E.result_error_code = 0 ∧ ret = 0 ∧ w' = asim_finish E wp) ∨
       ((t = true ∨ E.result_error_code ≠ 0) ∧ ret = (if t then -ETIME else -1) ∧
         w' = (asim_failure E t wp).2)) := by
  rw [asim_stages] at h
  split at h
  · exact absurd h (by simp)
  · rename_i t wp hh
    refine ⟨t, wp, hh, ?_⟩
    split at h
    · rename_i hc
      simp only [Bool.and_eq_true, Bool.not_eq_true', beq_iff_eq] at hc
      simp only [Option.some.injEq, Prod.mk.injEq] at h
      exact Or.inl ⟨hc.1, hc.2, h.1.symm, h.2.symm⟩
    · rename_i hc
      simp only [Bool.and_eq_true, Bool.not_eq_true', beq_iff_eq] at hc
      simp only [Option.some.injEq] at h
      refine Or.inr ⟨?_, ?_, ?_⟩
      · cases t
        · exact Or.inr (fun he => hc ⟨rfl, he⟩)
        · exact Or.inl rfl
      · exact (congrArg Prod.fst h).symm.trans (asim_failure_spec E t wp).1
      · exact (congrArg Prod.snd h).symm

theorem cn10ka_load_cases (E : ml_env) (fuel : Nat) (b : Option (List Nat)) (size : Nat)
    (w : ml_world) (ret : Int) (w' : ml_world)
    (h : cn10k_ml_fw_load_cn10ka E fuel b size w = some (ret, w')) :
    ∃ t wp, asim_handshake E fuel (cn10ka_prepare E size w) = some (t, wp) ∧
      ((t = false ∧ E.result_error_code = 0 ∧ ret = 0 ∧ w' = cn10ka_finish E wp) ∨
       ((t = true ∨ E.result_error_code ≠ 0) ∧ ret = (if t then -ETIME else -1) ∧
         w' = (asim_failure E t wp).2)) := by
  rw [cn10ka_stages, cn10ka_handshake_eq] at h
  split at h
  · exact absurd h (by simp)
  · rename_i t wp hh
    refine ⟨t, wp, hh, ?_⟩
    split at h
    · rename_i hc
      simp only [Bool.and_eq_true, Bool.not_eq_true', beq_iff_eq] at hc
      simp only [Option.some.injEq, Prod.mk.injEq] at h
      exact Or.inl ⟨hc.1, hc.2, h.1.symm, h.2.symm⟩
    · rename_i hc
      simp only [Bool.and_eq_true, Bool.not_eq_true', beq_iff_eq] at hc
      simp only [Option.some.injEq] at h
      refine Or.inr ⟨?_, ?_, ?_⟩
      · cases t
        · exact Or.inr (fun he => hc ⟨rfl, he⟩)
        · exact Or.inl rfl
      · rw [cn10ka_failure_eq] at h
        exact (congrArg Prod.fst h).symm.trans (asim_failure_spec E t wp).1
      · rw [cn10ka_failure_eq] at h
        exact (congrArg Prod.snd h).symm

theorem cn10ka_prepare_fields (E : ml_env) (size : Nat) (w : ml_world) :
    (cn10ka_prepare E size w).memzones = w.memzones ∧
    (cn10ka_prepare E size w).polls = w.polls ∧
    (cn10ka_prepare E size w).tsc_reads = w.tsc_reads ∧
    (cn10ka_prepare E size w).mldev = w.mldev := by
  obtain ⟨_, _, _, h2, h3, h4, h5⟩ := cn10ka_steps_1_5_spec E size w
  obtain ⟨_, _, _, _, _, _, _, g2, g3, g4, g5⟩ :=
    cn10ka_steps_6_11_spec E (cn10ka_steps_1_5 E size w)
  exact ⟨by rw [cn10ka_prepare, g2, h2], by rw [cn10ka_prepare, g3, h3],
    by rw [cn10ka_prepare, g4, h4], by rw [cn10ka_prepare, g5, h5]⟩

/-- The three results of a bring-up that went through a handshake from the
world `wq` and left the world `w'` with the counters of the handshake. -/
theorem outcome_spec (E : ml_env) (fuel : Nat) (wq : ml_world) (t : Bool) (wp : ml_world)
    (ret : Int) (hh : asim_handshake E fuel wq = some (t, wp))
    (hc : (t = false ∧ E.result_error_code = 0 ∧ ret = 0) ∨
      ((t = true ∨ E.result_error_code ≠ 0) ∧ ret = (if t then -ETIME else -1))) :
    (ret = 0 ↔ completion_observed E wq.polls wp.polls ∧ E.result_error_code = 0) ∧
    (ret = -ETIME ↔ ¬completion_observed E wq.polls wp.polls) ∧
    (ret = -1 ↔ completion_observed E wq.polls wp.polls ∧ E.result_error_code ≠ 0) ∧
    (ret = -ETIME →
      ¬E.plt_tsc_cycles (wp.tsc_reads - 1) < fw_load_deadline E wq.tsc_reads) := by
  obtain ⟨_, _, _, _, _, _, _, hiff, hclock⟩ := asim_handshake_spec E fuel wq t wp hh
  rw [← hiff]
  rcases hc with ⟨h1, h2, h3⟩ | ⟨h1, h3⟩
  · subst h1
    subst h3
    refine ⟨⟨fun _ => ⟨rfl, h2⟩, fun _ => rfl⟩, ?_, ?_, ?_⟩
    · exact ⟨fun h => absurd h (by decide), fun h => absurd rfl h⟩
    · exact ⟨fun h => absurd h (by decide), fun h => absurd h2 h.2⟩
    · exact fun h => absurd h (by decide)
  · cases t
    · simp only [Bool.false_eq_true, if_false] at h3
      subst h3
      have he : E.result_error_code ≠ 0 := by
        rcases h1 with h | h
        · exact absurd h (by decide)
        · exact h
      refine ⟨?_, ?_, ⟨fun _ => ⟨rfl, he⟩, fun _ => rfl⟩, ?_⟩
      · exact ⟨fun h => absurd h (by decide), fun h => absurd h.2 he⟩
      · exact ⟨fun h => absurd h (by decide), fun h => absurd rfl h⟩
      · exact fun h => absurd h (by decide)
    · simp only [if_true] at h3
      subst h3
      refine ⟨?_, ⟨fun _ => (by decide), fun _ => rfl⟩, ?_, fun _ => hclock rfl⟩
      · exact ⟨fun h => absurd h (by decide), fun h => absurd h.1 (by decide)⟩
      · exact ⟨fun h => absurd h (by decide), fun h => absurd h.1 (by decide)⟩

/-! ## The handshake and the poll loop: C12, C17, C18, C19 -/

theorem asim_handshake_ends (E : ml_env)
    (hmono : ∀ k, E.plt_tsc_cycles k < E.plt_tsc_cycles (k + 1)) (wq : ml_world) :
    ∃ t wp, ∀ fuel, fw_load_deadline E wq.tsc_reads + 1 ≤ fuel →
      asim_handshake E fuel wq = some (t, wp) :=
  asim_poll_ends E hmono _ _

theorem asim_load_ends (E : ml_env)
    (hmono : ∀ k, E.plt_tsc_cycles k < E.plt_tsc_cycles (k + 1)) (w : ml_world) :
    ∃ ret w', ∀ fuel, fw_load_deadline E w.tsc_reads + 1 ≤ fuel →
      cn10k_ml_fw_load_asim E fuel w = some (ret, w') := by
  obtain ⟨t, wp, h⟩ := asim_handshake_ends E hmono (asim_prepare E w)
  rw [(asim_prepare_spec E w).2.2.2.1] at h
  by_cases hc : (!t && E.result_error_code == 0) = true
  · refine ⟨0, asim_finish E wp, fun fuel hf => ?_⟩
    rw [asim_stages, h fuel hf]
    simp only [hc, if_true]
  · refine ⟨(asim_failure E t wp).1, (asim_failure E t wp).2, fun fuel hf => ?_⟩
    rw [asim_stages, h fuel hf]
    simp only [hc, if_false]
    rfl

theorem cn10ka_load_ends (E : ml_env)
    (hmono : ∀ k, E.plt_tsc_cycles k < E.plt_tsc_cycles (k + 1)) (b : Option (List Nat))
    (size : Nat) (w : ml_world) :
    ∃ ret w', ∀ fuel, fw_load_deadline E w.tsc_reads + 1 ≤ fuel →
      cn10k_ml_fw_load_cn10ka E fuel b size w = some (ret, w') := by
  obtain ⟨t, wp, h⟩ := asim_handshake_ends E hmono (cn10ka_prepare E size w)
  rw [(cn10ka_prepare_fields E size w).2.2.1] at h
  by_cases hc : (!t && E.result_error_code == 0) = true
  · refine ⟨0, cn10ka_finish E wp, fun fuel hf => ?_⟩
    rw [cn10ka_stages, cn10ka_handshake_eq, h fuel hf]
    simp only [hc, if_true]
  · refine ⟨(asim_failure E t wp).1, (asim_failure E t wp).2, fun fuel hf => ?_⟩
    rw [cn10ka_stages, cn10ka_handshake_eq, h fuel hf]
    simp only [hc, if_false]
    rfl

/-- C17. The job handshake of the real-hardware variant is that of the
simulator variant: from the same world both fill the descriptor with the
address of the status word, the job type FirmwareLoad, the translated address
of the result and the flags of `cn10k_ml_fw_flags_get`, set the status word to
the job-start sentinel, read the cycle counter once, enqueue the descriptor
and poll against the deadline `now + ML_CN10K_CMD_TIMEOUT * plt_tsc_hz()`; the
outcome of the handshake (no return, or the variable `timeout` and the world)
is the same, and so are the three writes and the code of the failure path.
The two handshakes are the lines 487-507 and 678-698 of the two functions,
and the failure paths their lines 513-529 and 704-720: each function is its
preparation, then this handshake, then its success or failure path. -/
theorem handshake_identical (E : ml_env) (fuel : Nat) (w : ml_world) :
    cn10ka_handshake E fuel w = asim_handshake E fuel w ∧
    (∀ t, cn10ka_failure E t w = asim_failure E t w) ∧
    (∃ ws, asim_handshake E fuel w = asim_poll E (fw_load_deadline E w.tsc_reads) fuel ws ∧
      cn10ka_handshake E fuel w = cn10ka_poll E (fw_load_deadline E w.tsc_reads) fuel ws ∧
      cn10ka_poll E (fw_load_deadline E w.tsc_reads) fuel ws =
        asim_poll E (fw_load_deadline E w.tsc_reads) fuel ws ∧
      ws.req = { jd_hdr_jce_w1 := w.mldev.fw.req + E.offsetof_status
                 jd_hdr_job_type := E.ML_CN10K_JOB_TYPE_FIRMWARE_LOAD
                 jd_hdr_result := E.roc_ml_addr_ap2mlip (w.mldev.fw.req + E.offsetof_result)
                 jd_fw_load_flags := cn10k_ml_fw_flags_get w.mldev.fw
                 status := E.ML_CN10K_POLL_JOB_START } ∧
      ws.trace = w.trace ++ [hw_event.wmb,
        hw_event.scratch_enqueue (w.mldev.fw.req + E.offsetof_jd), hw_event.rmb] ∧
      ws.tsc_reads = w.tsc_reads + 1 ∧ ws.polls = w.polls) ∧
    (∀ t, (cn10ka_failure E t w).1 = (if t then -ETIME else -1) ∧
      (cn10ka_failure E t w).2.trace = w.trace ++
        [hw_event.reg_write64 (E.ROC_ML_CFG_JD_SIZE ||| E.ROC_ML_CFG_MLIP_ENA) ml_reg.ML_CFG,
         hw_event.reg_write64 0 ml_reg.ML_SCRATCH_WORK_PTR,
         hw_event.reg_write64 0 ml_reg.ML_SCRATCH_FW_CTRL]) ∧
    (cn10k_ml_fw_load_asim E fuel w =
      match asim_handshake E fuel (asim_prepare E w) with
      | none => none
      | some (timeout, wp) =>
        if (!timeout && E.result_error_code == 0) = true then some (0, asim_finish E wp)
        else some (asim_failure E timeout wp)) ∧
    (∀ b size, cn10k_ml_fw_load_cn10ka E fuel b size w =
      match cn10ka_handshake E fuel (cn10ka_prepare E size w) with
      | none => none
      | some (timeout, wp) =>
        if (!timeout && E.result_error_code == 0) = true then some (0, cn10ka_finish E wp)
        else some (cn10ka_failure E timeout wp)) := by
  refine ⟨cn10ka_handshake_eq E fuel w, fun t => cn10ka_failure_eq E t w, ?_, ?_,
    asim_stages E fuel w, fun b size => cn10ka_stages E fuel b size w⟩
  · refine ⟨_, rfl, rfl, cn10ka_poll_eq_asim_poll E _ fuel _, rfl, ?_, rfl, rfl⟩
    simp only [log_event_trace, scratch_enqueue_trace, tsc_cycles_trace, tsc_cycles_mldev,
      log_event_mldev, List.append_assoc, List.singleton_append, List.cons_append,
      List.nil_append]
  · intro t
    rw [cn10ka_failure_eq]
    exact ⟨(asim_failure_spec E t w).1, (asim_failure_spec E t w).2.1⟩

/-- C18. A poll loop that ends (the loop of either variant: they return the
same) has made at least one completion check, and it reports completion,
`timeout = false`, exactly when one of the checks it made saw the done bit set
and the status word equal to the finish sentinel in that same check; it
reports the timeout exactly when every check it made missed one of the two.
When the first check sees both, the loop ends with `timeout = false` after
that one check, for every deadline, one that has already passed included. -/
theorem poll_completion_iff (E : ml_env) (T fuel : Nat) (w : ml_world) (t : Bool)
    (w' : ml_world) (h : asim_poll E T fuel w = some (t, w')) :
    cn10ka_poll E T fuel w = some (t, w') ∧
    w.polls < w'.polls ∧
    (t = false ↔ completion_observed E w.polls w'.polls) ∧
    (t = true ↔ ∀ k, w.polls ≤ k → k < w'.polls →
      ¬(E.scratch_is_done_bit_set k = true ∧ E.req_status k = E.ML_CN10K_POLL_JOB_FINISH)) ∧
    (E.scratch_is_done_bit_set w.polls = true →
      E.req_status w.polls = E.ML_CN10K_POLL_JOB_FINISH →
      t = false ∧ w'.polls = w.polls + 1 ∧
      ∀ T2 n, asim_poll E T2 (n + 1) w = some (false, { w with polls := w.polls + 1 }) ∧
        cn10ka_poll E T2 (n + 1) w = some (false, { w with polls := w.polls + 1 })) := by
  obtain ⟨_, p2, _, p4, _⟩ := asim_poll_spec E T fuel w t w' h
  refine ⟨by rw [cn10ka_poll_eq_asim_poll, h], p2, p4, ?_, fun hd hs => ?_⟩
  · constructor
    · intro ht k hk1 hk2 hk
      have hf : t = false := p4.mpr ⟨k, hk1, hk2, hk.1, hk.2⟩
      rw [ht] at hf
      exact absurd hf (by decide)
    · intro hall
      cases t
      · obtain ⟨k, hk1, hk2, hk3, hk4⟩ := p4.mp rfl
        exact absurd ⟨hk3, hk4⟩ (hall k hk1 hk2)
      · rfl
  · have hall : ∀ T2 n, asim_poll E T2 (n + 1) w =
        some (false, { w with polls := w.polls + 1 }) :=
      fun T2 n => asim_poll_first_check E T2 n w hd hs
    cases fuel with
    | zero => simp [asim_poll] at h
    | succ n =>
      rw [hall T n] at h
      simp only [Option.some.injEq, Prod.mk.injEq] at h
      refine ⟨h.1.symm, by rw [← h.2], fun T2 m => ⟨hall T2 m, ?_⟩⟩
      rw [cn10ka_poll_eq_asim_poll]
      exact hall T2 m

/-- C18 on the real-hardware sample platform, where the firmware has answered
at the first check: with the deadline 0, which has passed, the loop reports
completion after one check. -/
theorem poll_completion_iff_witness :
    cn10ka_poll sample_env_hw 0 1 sample_world =
      some (false, { sample_world with polls := 1 }) ∧
    completion_observed sample_env_hw 0 1 :=
  have h := poll_completion_iff sample_env_hw 0 1 sample_world false
    { sample_world with polls := 1 } rfl
  ⟨h.1, h.2.2.1.mp rfl⟩

/-- C19. With a cycle counter that strictly increases from one read to the
next, the poll loop of either variant ends for every deadline `T`: with any
fuel of at least `T + 1` iterations it returns one and the same result, after
at most `T + 1` completion checks, and the result is the timeout when
completion is never signalled. Both bring-up functions, which compute the
deadline as the counter at submission plus `ML_CN10K_CMD_TIMEOUT *
plt_tsc_hz()`, therefore return, and they return -ETIME when completion is
never signalled. -/
theorem poll_terminates (E : ml_env)
    (hmono : ∀ k, E.plt_tsc_cycles k < E.plt_tsc_cycles (k + 1)) (w : ml_world) :
    (∀ T, ∃ t w', (∀ fuel, T + 1 ≤ fuel →
        asim_poll E T fuel w = some (t, w') ∧ cn10ka_poll E T fuel w = some (t, w')) ∧
      w'.polls ≤ w.polls + (T + 1) ∧ (never_completes E → t = true)) ∧
    (∃ ret w', (∀ fuel, fw_load_deadline E w.tsc_reads + 1 ≤ fuel →
        cn10k_ml_fw_load_asim E fuel w = some (ret, w')) ∧
      (never_completes E → ret = -ETIME)) ∧
    (∀ b size, ∃ ret w', (∀ fuel, fw_load_deadline E w.tsc_reads + 1 ≤ fuel →
        cn10k_ml_fw_load_cn10ka E fuel b size w = some (ret, w')) ∧
      (never_completes E → ret = -ETIME)) := by
  refine ⟨fun T => ?_, ?_, fun b size => ?_⟩
  · obtain ⟨t, w', h⟩ := asim_poll_ends E hmono T w
    have h0 := h (T + 1) (Nat.le_refl _)
    refine ⟨t, w', fun fuel hf => ⟨h fuel hf, ?_⟩, asim_poll_polls_le E T (T + 1) w t w' h0,
      (asim_poll_frame E T (T + 1) w t w' h0).2⟩
    rw [cn10ka_poll_eq_asim_poll]
    exact h fuel hf
  · obtain ⟨ret, w', h⟩ := asim_load_ends E hmono w
    exact ⟨ret, w', h, (asim_result E _ w ret w' (h _ (Nat.le_refl _))).2.2⟩
  · obtain ⟨ret, w', h⟩ := cn10ka_load_ends E hmono b size w
    exact ⟨ret, w', h, (cn10ka_result E _ b size w ret w' (h _ (Nat.le_refl _))).2.2⟩

/-- C19 on the sample simulator platform, whose counter advances by 1000 per
read and whose firmware never answers: the simulator variant returns. -/
theorem poll_terminates_witness :
    ∃ ret w', (∀ fuel, fw_load_deadline sample_env sample_world.tsc_reads + 1 ≤ fuel →
        cn10k_ml_fw_load_asim sample_env fuel sample_world = some (ret, w')) ∧
      (never_completes sample_env → ret = -ETIME) :=
  (poll_terminates sample_env (fun k => Nat.mul_lt_mul_of_pos_left (Nat.lt_succ_self k)
    (by decide)) sample_world).2.1

/-! ## Bits of a 64-bit register value -/

theorem testBit_not64 (m i : Nat) (hi : i < 64) :
    (not64 m).testBit i = !m.testBit i := by
  simp only [not64, Nat.testBit_xor, Nat.testBit_two_pow_sub_one, hi, decide_True,
    Bool.true_xor]

theorem testBit_of_lt_two_pow_64 (m i : Nat) (hm : m < 2 ^ 64) (hi : 64 ≤ i) :
    m.testBit i = false :=
  Nat.testBit_eq_false_of_lt (Nat.lt_of_lt_of_le hm (Nat.pow_le_pow_right (by decide) hi))

/-- Clearing a mask with `&= ~m` leaves no bit of the mask set. -/
theorem and_not64_and_self (x m : Nat) (hm : m < 2 ^ 64) : (x &&& not64 m) &&& m = 0 := by
  apply Nat.eq_of_testBit_eq
  intro i
  simp only [Nat.testBit_and, Nat.zero_testBit]
  by_cases hi : i < 64
  · rw [testBit_not64 m i hi]
    cases m.testBit i <;> simp
  · rw [testBit_of_lt_two_pow_64 m i hm (Nat.le_of_not_lt hi)]
    simp

/-- Clearing a mask with `&= ~m` keeps every bit below bit 64 that is not in
the mask. -/
theorem and_not64_testBit (x m i : Nat) (hi : i < 64) (hb : m.testBit i = false) :
    (x &&& not64 m).testBit i = x.testBit i := by
  rw [Nat.testBit_and, testBit_not64 m i hi, hb]
  simp

theorem or_not64_and_self (x m k : Nat) (hm : m < 2 ^ 64) (hmk : m &&& k = 0) :
    ((x ||| m) &&& not64 k) &&& m = m := by
  apply Nat.eq_of_testBit_eq
  intro i
  have h := congrArg (fun n => n.testBit i) hmk
  simp only [Nat.testBit_and, Nat.zero_testBit] at h
  simp only [Nat.testBit_and, Nat.testBit_or]
  by_cases hi : i < 64
  · rw [testBit_not64 k i hi]
    cases hx : x.testBit i <;> cases hm : m.testBit i <;> cases hkk : k.testBit i <;>
      simp_all
  · rw [testBit_of_lt_two_pow_64 m i hm (Nat.le_of_not_lt hi)]
    simp

/-- The 32-bit value written with ACC_RST cleared has no bit of the mask. -/
theorem and_not64_mod_and_self (y m : Nat) : ((y &&& not64 m) % 2 ^ 32) &&& m = 0 := by
  apply Nat.eq_of_testBit_eq
  intro i
  simp only [Nat.testBit_and, Nat.testBit_mod_two_pow, Nat.zero_testBit]
  by_cases hi : i < 32
  · rw [testBit_not64 m i (Nat.lt_trans hi (by decide))]
    cases m.testBit i <;> simp
  · simp [hi]

/-! ## The set-up of `cn10k_ml_fw_load` -/

/-- Function `fw_load_setup` is the read of lines 779-793 followed by the
reservation of lines 795-810. -/
theorem fw_load_setup_eq (E : ml_env) (w : ml_world) :
    fw_load_setup E w =
      if (E.roc_env_is_emulator || E.roc_env_is_hw) = true then
        if (E.rte_firmware_read w.mldev.fw.path).ret < 0 then
          Except.error ((E.rte_firmware_read w.mldev.fw.path).ret,
            log_event (hw_event.firmware_read w.mldev.fw.path) w)
        else
          fw_load_reserve E (log_event (hw_event.firmware_read w.mldev.fw.path) w)
            (E.rte_firmware_read w.mldev.fw.path).fw_buffer
            (E.rte_firmware_read w.mldev.fw.path).fw_size
            (add64 (add64 (add64 (add64 E.sizeof_cn10k_ml_req
              (E.rte_firmware_read w.mldev.fw.path).fw_size) FW_STACK_BUFFER_SIZE)
              FW_DEBUG_BUFFER_SIZE) FW_EXCEPTION_BUFFER_SIZE)
      else if E.roc_env_is_asim = true then fw_load_reserve E w none 0 E.sizeof_cn10k_ml_req
      else fw_load_reserve E w none 0 0 := by
  by_cases hA : (E.roc_env_is_emulator || E.roc_env_is_hw) = true
  · by_cases hr : (E.rte_firmware_read w.mldev.fw.path).ret < 0
    · simp only [fw_load_setup, hA, hr, if_true]
    · simp only [fw_load_setup, fw_load_reserve, hA, hr, if_true, if_false]
  · by_cases hB : E.roc_env_is_asim = true
    · simp only [fw_load_setup, fw_load_reserve, hA, hB, if_true, if_false,
        Bool.false_eq_true]
    · simp only [fw_load_setup, fw_load_reserve, hA, hB, if_false, Bool.false_eq_true]

/-- The sum of the sizes of lines 789-790 in `uint64_t`. -/
theorem mz_size_eq (s f : Nat) :
    add64 (add64 (add64 (add64 s f) FW_STACK_BUFFER_SIZE) FW_DEBUG_BUFFER_SIZE)
      FW_EXCEPTION_BUFFER_SIZE = (s + f + 525312) % 2 ^ 64 := by
  simp only [add64, FW_STACK_BUFFER_SIZE, FW_DEBUG_BUFFER_SIZE, FW_EXCEPTION_BUFFER_SIZE]
  omega

theorem reserve_spec (E : ml_env) (name : String) (len align : Nat) (w : ml_world) :
    (plt_memzone_reserve_aligned E name len align w).2.trace =
      w.trace ++ [hw_event.memzone_reserve name len align] ∧
    (plt_memzone_reserve_aligned E name len align w).2.regs = w.regs ∧
    (plt_memzone_reserve_aligned E name len align w).2.polls = w.polls ∧
    (plt_memzone_reserve_aligned E name len align w).2.tsc_reads = w.tsc_reads ∧
    (plt_memzone_reserve_aligned E name len align w).2.mldev = w.mldev ∧
    (plt_memzone_reserve_aligned E name len align w).2.req = w.req ∧
    ((plt_memzone_reserve_aligned E name len align w).1 = none →
      (plt_memzone_reserve_aligned E name len align w).2.memzones = w.memzones) ∧
    (∀ mz, (plt_memzone_reserve_aligned E name len align w).1 = some mz → mz.len = len) := by
  simp only [plt_memzone_reserve_aligned]
  split
  · simp
  · split
    · simp
    · simp

/-- What the reservation step leaves when it fails, and what it hands over
when it succeeds. -/
theorem fw_load_reserve_spec (E : ml_env) (w : ml_world) (b : Option (List Nat))
    (fs sz : Nat) :
    (∀ e, fw_load_reserve E w b fs sz = Except.error e →
      e.1 = -ENOMEM ∧
      e.2.trace = w.trace ++
        (hw_event.memzone_reserve FW_MEMZONE_NAME sz E.ML_CN10K_ALIGN_SIZE ::
          (if b.isSome then [hw_event.free_fw_buffer] else [])) ∧
      e.2.regs = w.regs ∧ e.2.memzones = w.memzones ∧ e.2.polls = w.polls ∧
      e.2.tsc_reads = w.tsc_reads) ∧
    (∀ r, fw_load_reserve E w b fs sz = Except.ok r →
      r.mz.len = sz ∧ r.fw_buffer = b ∧ r.fw_size = fs ∧
      r.world.trace = w.trace ++
        (hw_event.memzone_reserve FW_MEMZONE_NAME sz E.ML_CN10K_ALIGN_SIZE ::
          (if E.roc_ml_mlip_is_enabled w.regs then [hw_event.mlip_reset true] else [])) ∧
      r.world.polls = w.polls ∧ r.world.tsc_reads = w.tsc_reads) := by
  obtain ⟨h1, h2, h3, h4, h5, h6, h7, h8⟩ :=
    reserve_spec E FW_MEMZONE_NAME sz E.ML_CN10K_ALIGN_SIZE w
  constructor
  · intro e he
    simp only [fw_load_reserve] at he
    split at he
    · rename_i w2 hres
      have hw2 : (plt_memzone_reserve_aligned E FW_MEMZONE_NAME sz E.ML_CN10K_ALIGN_SIZE w).2
          = w2 := by rw [hres]
      have hn : (plt_memzone_reserve_aligned E FW_MEMZONE_NAME sz E.ML_CN10K_ALIGN_SIZE w).1
          = none := by rw [hres]
      rw [hw2] at h1 h2 h3 h4 h7
      simp only [Except.error.injEq] at he
      rw [← he]
      cases b <;>
        simp [h1, h2, h3, h4, h7 hn]
    · simp at he
  · intro r hr
    simp only [fw_load_reserve] at hr
    split at hr
    · simp at hr
    · rename_i mz w2 hres
      have hw2 : (plt_memzone_reserve_aligned E FW_MEMZONE_NAME sz E.ML_CN10K_ALIGN_SIZE w).2
          = w2 := by rw [hres]
      have hs : (plt_memzone_reserve_aligned E FW_MEMZONE_NAME sz E.ML_CN10K_ALIGN_SIZE w).1
          = some mz := by rw [hres]
      rw [hw2] at h1 h2 h3 h4
      simp only [Except.ok.injEq] at hr
      rw [← hr]
      refine ⟨h8 mz hs, rfl, rfl, ?_, ?_, ?_⟩
      · simp only [h2]
        split <;> simp [h1, roc_ml_mlip_reset]
      · simp only
        split <;> simp [h3, roc_ml_mlip_reset]
      · simp only
        split <;> simp [h4, roc_ml_mlip_reset]

/-! ## Firmware load: a summary of a bring-up and of the load step -/

theorem anb_bringup_action (e : hw_event) (h : is_anb_write e = true) :
    is_bringup_action e = true := by
  cases e with
  | reg_write64 v r => rfl
  | _ => exact Bool.noConfusion h

theorem bringup_not_teardown (e : hw_event) (h : is_bringup_action e = true) :
    (!is_teardown e) = true := by
  cases e <;> first | rfl | exact Bool.noConfusion h

theorem bringup_not_reserve (e : hw_event) (h : is_bringup_action e = true) :
    (!is_reserve e) = true := by
  cases e <;> first | rfl | exact Bool.noConfusion h

theorem trace_ext (P : hw_event → Bool) (tr tr1 tr2 l2 : List hw_event)
    (h1 : ∃ l, tr1 = tr ++ l ∧ l.all P = true) (h2 : tr2 = tr1 ++ l2)
    (p2 : l2.all P = true) : ∃ l, tr2 = tr ++ l ∧ l.all P = true := by
  obtain ⟨l1, e1, p1⟩ := h1
  refine ⟨l1 ++ l2, by rw [h2, e1, List.append_assoc], ?_⟩
  rw [List.all_append, p1, p2]
  rfl

theorem trace_ext2 (P : hw_event → Bool) (tr tr1 tr2 l2 l3 : List hw_event)
    (h1 : ∃ l, tr1 = tr ++ l ∧ l.all P = true) (h2 : tr2 = tr1 ++ l2 ++ l3)
    (p2 : l2.all P = true) (p3 : l3.all P = true) : ∃ l, tr2 = tr ++ l ∧ l.all P = true :=
  trace_ext P tr (tr1 ++ l2) tr2 l3 (trace_ext P tr tr1 (tr1 ++ l2) l2 h1 rfl p2) h2 p3

theorem last_write_cfg (tr pre l : List hw_event) (v : Nat)
    (hl : l.all is_anb_write = true) :
    last_write ml_reg.ML_CFG (tr ++ (pre ++ [hw_event.reg_write64 v ml_reg.ML_CFG] ++ l)) =
      some v := by
  rw [← List.append_assoc, ← List.append_assoc,
    last_write_anb ml_reg.ML_CFG (fun a => by simp) (fun a => by simp) (fun a => by simp) _ l hl,
    last_write_concat]

theorem variant_key (E : ml_env) (fuel : Nat) (b : Option (List Nat)) (size : Nat)
    (w : ml_world) (ret : Int) (w' : ml_world)
    (h : cn10k_ml_fw_load_asim E fuel w = some (ret, w') ∨
      cn10k_ml_fw_load_cn10ka E fuel b size w = some (ret, w')) :
    ∃ wq t wp, asim_handshake E fuel wq = some (t, wp) ∧
      wq.polls = w.polls ∧ wq.tsc_reads = w.tsc_reads ∧ wq.memzones = w.memzones ∧
      (∃ l, wq.trace = w.trace ++ l ∧ l.all is_bringup_action = true) ∧
      ((t = false ∧ E.result_error_code = 0 ∧ ret = 0 ∧
          (w' = asim_finish E wp ∨ w' = cn10ka_finish E wp)) ∨
        ((t = true ∨ E.result_error_code ≠ 0) ∧ ret = (if t then -ETIME else -1) ∧
          w' = (asim_failure E t wp).2)) := by
  rcases h with h | h
  · obtain ⟨t, wp, hh, hc⟩ := asim_load_cases E fuel w ret w' h
    obtain ⟨p1, p2, p3, p4, _⟩ := asim_prepare_spec E w
    refine ⟨asim_prepare E w, t, wp, hh, p3, p4, p2, ⟨_, p1, rfl⟩, ?_⟩
    rcases hc with ⟨h1, h2, h3, hw⟩ | hc
    · exact Or.inl ⟨h1, h2, h3, Or.inl hw⟩
    · exact Or.inr hc
  · obtain ⟨t, wp, hh, hc⟩ := cn10ka_load_cases E fuel b size w ret w' h
    obtain ⟨q1, q2, q3, _⟩ := cn10ka_prepare_fields E size w
    refine ⟨cn10ka_prepare E size w, t, wp, hh, q2, q3, q1, ?_, ?_⟩
    · obtain ⟨l, hl, ht, _⟩ := cn10ka_steps_1_5_spec E size w
      obtain ⟨x, y, a, hs, _⟩ := cn10ka_steps_6_11_spec E (cn10ka_steps_1_5 E size w)
      exact trace_ext _ _ _ _ _
        (trace_ext _ _ _ _ l ⟨_, (cn10ka_steps_1_3_spec E size w).1, rfl⟩ ht
          (all_imp _ _ l anb_bringup_action hl)) hs rfl
    · rcases hc with ⟨h1, h2, h3, hw⟩ | hc
      · exact Or.inl ⟨h1, h2, h3, Or.inr hw⟩
      · exact Or.inr hc

/-- What a bring-up of either variant that returns has done. -/
theorem variant_summary (E : ml_env) (fuel : Nat) (b : Option (List Nat)) (size : Nat)
    (w : ml_world) (ret : Int) (w' : ml_world)
    (h : cn10k_ml_fw_load_asim E fuel w = some (ret, w') ∨
      cn10k_ml_fw_load_cn10ka E fuel b size w = some (ret, w')) :
    w'.memzones = w.memzones ∧
    (∃ l, w'.trace = w.trace ++ l ∧ l.all is_bringup_action = true) ∧
    (ret = 0 ↔ completion_observed E w.polls w'.polls ∧ E.result_error_code = 0) ∧
    (ret = 0 → ∃ x, last_write ml_reg.ML_CFG w'.trace = some (x &&& not64 E.ROC_ML_CFG_ENA) ∧
      w'.regs ml_reg.ML_CFG = (x &&& not64 E.ROC_ML_CFG_ENA)) ∧
    (ret ≠ 0 → (ret = -ETIME ∨ ret = -1) ∧
      w'.regs ml_reg.ML_CFG = (E.ROC_ML_CFG_JD_SIZE ||| E.ROC_ML_CFG_MLIP_ENA) ∧
      last_write ml_reg.ML_CFG w'.trace =
        some (E.ROC_ML_CFG_JD_SIZE ||| E.ROC_ML_CFG_MLIP_ENA)) := by
  obtain ⟨wq, t, wp, hh, kp, kt, km, ⟨l0, kl, kb⟩, hc⟩ := variant_key E fuel b size w ret w' h
  obtain ⟨s1, s2, _, _, s5, _, _, _, _⟩ := asim_handshake_spec E fuel wq t wp hh
  have hwp : ∃ l, wp.trace = w.trace ++ l ∧ l.all is_bringup_action = true :=
    trace_ext _ _ _ _ _ ⟨l0, kl, kb⟩ s5 rfl
  have hc2 : (t = false ∧ E.result_error_code = 0 ∧ ret = 0) ∨
      ((t = true ∨ E.result_error_code ≠ 0) ∧ ret = (if t then -ETIME else -1)) := by
    rcases hc with ⟨h1, h2, h3, _⟩ | ⟨h1, h2, _⟩
    · exact Or.inl ⟨h1, h2, h3⟩
    · exact Or.inr ⟨h1, h2⟩
  obtain ⟨o1, _, _, _⟩ := outcome_spec E fuel wq t wp ret hh hc2
  rw [kp] at o1
  rcases hc with ⟨_, _, h0, hw | hw⟩ | ⟨_, hr, hw⟩
  · obtain ⟨f1, f2, f3, f4, _⟩ := asim_finish_spec E wp
    rw [← hw] at f1 f2 f3 f4
    refine ⟨by rw [f3, s2, km], trace_ext _ _ _ _ _ hwp f1 rfl,
      by rw [f4]; exact o1, fun _ => ⟨wp.regs ml_reg.ML_CFG, ?_, f2⟩,
      fun hne => absurd h0 hne⟩
    · rw [f1]
      exact last_write_cfg wp.trace
        [hw_event.reg_write64 0 ml_reg.ML_SCRATCH_FW_CTRL,
         hw_event.reg_write64 0 ml_reg.ML_SCRATCH_WORK_PTR] [] _ rfl
  · obtain ⟨x, l, hl, f1, f2, f3, f4, _⟩ := cn10ka_finish_spec E wp
    rw [← hw] at f1 f2 f3 f4
    refine ⟨by rw [f3, s2, km],
      trace_ext2 _ _ _ _ _ l hwp f1 rfl (all_imp _ _ l anb_bringup_action hl),
      by rw [f4]; exact o1, fun _ => ⟨x, ?_, f2⟩, fun hne => absurd h0 hne⟩
    · rw [f1, List.append_assoc]
      exact last_write_cfg wp.trace
        [hw_event.reg_write64 (wp.regs ml_reg.ML_JOB_MGR_CTRL |||
           E.ROC_ML_JOB_MGR_CTRL_STALL_ON_IDLE) ml_reg.ML_JOB_MGR_CTRL,
         hw_event.reg_write64 (wp.regs ml_reg.ML_CFG &&& not64 E.ROC_ML_CFG_MLIP_CLK_FORCE)
           ml_reg.ML_CFG,
         hw_event.reg_write64 (wp.regs ml_reg.ML_CFG &&& not64 E.ROC_ML_CFG_MLIP_CLK_FORCE |||
           E.ROC_ML_CFG_ENA) ml_reg.ML_CFG,
         hw_event.reg_write64 0 ml_reg.ML_SCRATCH_FW_CTRL,
         hw_event.reg_write64 0 ml_reg.ML_SCRATCH_WORK_PTR] l _ hl
  · obtain ⟨_, g2, g3, g4, g5, _⟩ := asim_failure_spec E t wp
    rw [← hw] at g2 g3 g4 g5
    have hne : ret ≠ 0 := by
      rw [hr]
      cases t <;> decide
    refine ⟨by rw [g4, s2, km], trace_ext _ _ _ _ _ hwp g2 rfl,
      by rw [g5]; exact o1, fun h0 => absurd h0 hne, fun _ => ⟨?_, g3, ?_⟩⟩
    · rw [hr]
      cases t
      · exact Or.inr rfl
      · exact Or.inl rfl
    · rw [g2]
      have e : wp.trace ++
          [hw_event.reg_write64 (E.ROC_ML_CFG_JD_SIZE ||| E.ROC_ML_CFG_MLIP_ENA) ml_reg.ML_CFG,
           hw_event.reg_write64 0 ml_reg.ML_SCRATCH_WORK_PTR,
           hw_event.reg_write64 0 ml_reg.ML_SCRATCH_FW_CTRL] =
          wp.trace ++ ([] ++
            [hw_event.reg_write64 (E.ROC_ML_CFG_JD_SIZE ||| E.ROC_ML_CFG_MLIP_ENA)
              ml_reg.ML_CFG]) ++
          [hw_event.reg_write64 0 ml_reg.ML_SCRATCH_WORK_PTR,
           hw_event.reg_write64 0 ml_reg.ML_SCRATCH_FW_CTRL] := by
        simp
      rw [e, last_write_append_none _ _ _ (by simp [written_value]), List.nil_append,
        last_write_concat]

/-! ## Firmware load: the load step, the unload and the whole call -/

/-- What a load step that returns has done. -/
theorem run_summary (E : ml_env) (fuel : Nat) (r : fw_load_ready) (ret : Int) (ws : ml_world)
    (hrun : fw_load_run E fuel r = some (ret, ws)) :
    ws.memzones = r.world.memzones ∧
    (∃ l, ws.trace = r.world.trace ++ l ∧ l.all is_bringup_action = true) ∧
    ((E.roc_env_is_emulator || E.roc_env_is_hw || E.roc_env_is_asim) = true →
      (ret = 0 ↔ completion_observed E r.world.polls ws.polls ∧ E.result_error_code = 0) ∧
      (ret = 0 → ∃ x, last_write ml_reg.ML_CFG ws.trace = some (x &&& not64 E.ROC_ML_CFG_ENA) ∧
        ws.regs ml_reg.ML_CFG = (x &&& not64 E.ROC_ML_CFG_ENA)) ∧
      (ret ≠ 0 → (ret = -ETIME ∨ ret = -1) ∧
        ws.regs ml_reg.ML_CFG = (E.ROC_ML_CFG_JD_SIZE ||| E.ROC_ML_CFG_MLIP_ENA) ∧
        last_write ml_reg.ML_CFG ws.trace =
          some (E.ROC_ML_CFG_JD_SIZE ||| E.ROC_ML_CFG_MLIP_ENA))) := by
  simp only [fw_load_run] at hrun
  split at hrun
  · split at hrun
    · simp at hrun
    · rename_i ret' w' hc
      obtain ⟨v1, v2, v3, v4, v5⟩ := variant_summary E fuel r.fw_buffer r.fw_size _ ret' w'
        (Or.inr hc)
      simp only [Option.some.injEq, Prod.mk.injEq] at hrun
      obtain ⟨hret, hws⟩ := hrun
      subst hret
      cases hb : r.fw_buffer.isSome
      · rw [hb] at hws
        simp only [Bool.false_eq_true, if_false] at hws
        subst hws
        exact ⟨v1, v2, fun _ => ⟨v3, v4, v5⟩⟩
      · rw [hb] at hws
        simp only [if_true] at hws
        subst hws
        refine ⟨v1, trace_ext _ _ _ _ _ v2 rfl rfl, fun _ => ⟨v3, ?_, ?_⟩⟩
        · intro h0
          obtain ⟨x, hx1, hx2⟩ := v4 h0
          refine ⟨x, ?_, hx2⟩
          rw [log_event_trace, last_write_append_none _ _ _ (by simp [written_value])]
          exact hx1
        · intro hne
          obtain ⟨a1, a2, a3⟩ := v5 hne
          refine ⟨a1, a2, ?_⟩
          rw [log_event_trace, last_write_append_none _ _ _ (by simp [written_value])]
          exact a3
  · rename_i hA
    split at hrun
    · obtain ⟨v1, v2, v3, v4, v5⟩ := variant_summary E fuel none 0 _ ret ws (Or.inl hrun)
      exact ⟨v1, v2, fun _ => ⟨v3, v4, v5⟩⟩
    · rename_i hB
      simp only [Option.some.injEq, Prod.mk.injEq] at hrun
      rw [← hrun.2]
      refine ⟨rfl, ⟨[], by simp, rfl⟩, fun he => ?_⟩
      simp only [Bool.or_eq_true] at he hA
      exact absurd he (by tauto)

/-- The actions of `cn10k_ml_fw_unload`, and the memzone table it leaves. -/
theorem unload_spec (E : ml_env) (w : ml_world) :
    (cn10k_ml_fw_unload E w).trace = w.trace ++
      ([hw_event.reg_write64 (w.regs ml_reg.ML_CFG &&& not64 E.ROC_ML_CFG_MLIP_ENA)
          ml_reg.ML_CFG, hw_event.mlip_reset true] ++
        (if (w.memzones FW_MEMZONE_NAME).isSome then [hw_event.memzone_free FW_MEMZONE_NAME]
         else [])) ∧
    (cn10k_ml_fw_unload E w).memzones FW_MEMZONE_NAME = none ∧
    (∀ name, name ≠ FW_MEMZONE_NAME →
      (cn10k_ml_fw_unload E w).memzones name = w.memzones name) ∧
    (w.memzones FW_MEMZONE_NAME = none → (cn10k_ml_fw_unload E w).memzones = w.memzones) := by
  simp only [cn10k_ml_fw_unload, plt_memzone_lookup, mlip_reset_memzones, write64_memzones]
  cases h : w.memzones FW_MEMZONE_NAME with
  | none =>
    simp [h, List.append_assoc]
  | some mz =>
    refine ⟨by simp [plt_memzone_free, List.append_assoc], by simp [plt_memzone_free],
      fun name hn => ?_, fun hc => by simp at hc⟩
    simp [plt_memzone_free, Function.update_apply, hn]

/-- The ways `cn10k_ml_fw_load` returns. -/
theorem fw_load_cases (E : ml_env) (fuel : Nat) (w : ml_world) (ret : Int) (w' : ml_world)
    (h : cn10k_ml_fw_load E fuel w = some (ret, w')) :
    fw_load_setup E w = Except.error (ret, w') ∨
    ∃ r ws, fw_load_setup E w = Except.ok r ∧ fw_load_run E fuel r = some (ret, ws) ∧
      ((ret < 0 ∧ w' = cn10k_ml_fw_unload E ws) ∨ (¬ret < 0 ∧ w' = ws)) := by
  simp only [cn10k_ml_fw_load] at h
  split at h
  · rename_i e he
    simp only [Option.some.injEq] at h
    rw [h] at he
    exact Or.inl he
  · rename_i r hr
    split at h
    · simp at h
    · rename_i ret' ws hrun
      refine Or.inr ⟨r, ws, hr, ?_⟩
      split at h
      · rename_i hneg
        simp only [Option.some.injEq, Prod.mk.injEq] at h
        rw [← h.1]
        exact ⟨hrun, Or.inl ⟨hneg, h.2.symm⟩⟩
      · rename_i hneg
        simp only [Option.some.injEq, Prod.mk.injEq] at h
        rw [← h.1]
        exact ⟨hrun, Or.inr ⟨hneg, h.2.symm⟩⟩

/-! ## Firmware load: a completion that is signalled at the first check -/

theorem handshake_first_check (E : ml_env) (n : Nat) (wq : ml_world)
    (hd : E.scratch_is_done_bit_set wq.polls = true)
    (hs : E.req_status wq.polls = E.ML_CN10K_POLL_JOB_FINISH) :
    ∃ wp, asim_handshake E (n + 1) wq = some (false, wp) :=
  ⟨_, asim_poll_first_check E _ n _ hd hs⟩

theorem run_first_check (E : ml_env) (n : Nat) (r : fw_load_ready)
    (hd : E.scratch_is_done_bit_set r.world.polls = true)
    (hs : E.req_status r.world.polls = E.ML_CN10K_POLL_JOB_FINISH)
    (herr : E.result_error_code = 0) :
    ∃ ws, fw_load_run E (n + 1) r = some (0, ws) := by
  simp only [fw_load_run]
  split
  · obtain ⟨wp, hh⟩ := handshake_first_check E n
      (cn10ka_prepare E r.fw_size { r.world with mldev := { r.world.mldev with
        fw := { r.world.mldev.fw with data := r.mz.addr + E.sizeof_cn10k_ml_req } } })
      (by rw [(cn10ka_prepare_fields E _ _).2.1]; exact hd)
      (by rw [(cn10ka_prepare_fields E _ _).2.1]; exact hs)
    rw [cn10ka_stages, cn10ka_handshake_eq, hh]
    simp only [herr, Bool.not_false, beq_self_eq_true, Bool.and_self, if_true]
    exact ⟨_, rfl⟩
  · split
    · obtain ⟨wp, hh⟩ := handshake_first_check E n
        (asim_prepare E { r.world with mldev := { r.world.mldev with
          fw := { r.world.mldev.fw with data := 0 } } })
        (by rw [(asim_prepare_spec E _).2.2.1]; exact hd)
        (by rw [(asim_prepare_spec E _).2.2.1]; exact hs)
      rw [asim_stages, hh]
      simp only [herr, Bool.not_false, beq_self_eq_true, Bool.and_self, if_true]
      exact ⟨_, rfl⟩
    · exact ⟨_, rfl⟩

/-! ## Firmware load: the trace of a whole call -/

theorem unload_events_not_reserve (v : Nat) (c : Bool) :
    ([hw_event.reg_write64 v ml_reg.ML_CFG, hw_event.mlip_reset true] ++
      (if c then [hw_event.memzone_free FW_MEMZONE_NAME] else [])).all
        (fun e => !is_reserve e) = true := by
  cases c <;> rfl

/-- When the set-up is the reservation of `sz` bytes from the world `w1`, the
trace of the call goes on from that of `w1` with this reservation and with no
other one. -/
theorem fw_load_trace (E : ml_env) (fuel : Nat) (w : ml_world) (ret : Int) (w' : ml_world)
    (h : cn10k_ml_fw_load E fuel w = some (ret, w')) (w1 : ml_world) (b : Option (List Nat))
    (fs sz : Nat) (hs : fw_load_setup E w = fw_load_reserve E w1 b fs sz) :
    (∃ rest, w'.trace = w1.trace ++
        (hw_event.memzone_reserve FW_MEMZONE_NAME sz E.ML_CN10K_ALIGN_SIZE :: rest) ∧
      rest.all (fun e => !is_reserve e) = true) ∧
    (∀ r, fw_load_setup E w = Except.ok r → r.mz.len = sz ∧ r.fw_size = fs) := by
  obtain ⟨he, hk⟩ := fw_load_reserve_spec E w1 b fs sz
  constructor
  · rcases fw_load_cases E fuel w ret w' h with hc | ⟨r, ws, hr, hrun, hc⟩
    · rw [hs] at hc
      obtain ⟨_, e2, _⟩ := he _ hc
      refine ⟨_, e2, ?_⟩
      cases b.isSome <;> rfl
    · rw [hs] at hr
      obtain ⟨_, _, _, k4, _⟩ := hk r hr
      obtain ⟨_, ⟨l, hl, hb⟩, _⟩ := run_summary E fuel r ret ws hrun
      have hl2 : (l.all fun e => !is_reserve e) = true := all_imp _ _ l bringup_not_reserve hb
      have hws : ∃ rest, ws.trace = w1.trace ++
          (hw_event.memzone_reserve FW_MEMZONE_NAME sz E.ML_CN10K_ALIGN_SIZE :: rest) ∧
          rest.all (fun e => !is_reserve e) = true := by
        refine ⟨(if E.roc_ml_mlip_is_enabled w1.regs then [hw_event.mlip_reset true] else [])
          ++ l, ?_, ?_⟩
        · rw [hl, k4, List.append_assoc, List.cons_append]
        · rw [List.all_append, hl2]
          cases E.roc_ml_mlip_is_enabled w1.regs <;> rfl
      rcases hc with ⟨_, hw'⟩ | ⟨_, hw'⟩
      · obtain ⟨rest, h1, h2⟩ := hws
        refine ⟨rest ++ ([hw_event.reg_write64
            (ws.regs ml_reg.ML_CFG &&& not64 E.ROC_ML_CFG_MLIP_ENA) ml_reg.ML_CFG,
          hw_event.mlip_reset true] ++
          (if (ws.memzones FW_MEMZONE_NAME).isSome then
            [hw_event.memzone_free FW_MEMZONE_NAME] else [])), ?_, ?_⟩
        · rw [hw', (unload_spec E ws).1, h1, List.append_assoc, List.cons_append]
        · rw [List.all_append, h2, unload_events_not_reserve]
          rfl
      · rw [hw']
        exact hws
  · intro r hr
    rw [hs] at hr
    obtain ⟨k1, _, k3, _⟩ := hk r hr
    exact ⟨k1, k3⟩

/-! ## The whole load and the unload: C11, C13, C14, C15, C16, C20 -/

theorem cfg_after_unload (jd m k : Nat) (hm : m < 2 ^ 64) (hjk : jd &&& k = 0) :
    ((jd ||| m) &&& not64 m) &&& k = 0 := by
  apply Nat.eq_of_testBit_eq
  intro i
  have h := congrArg (fun n => n.testBit i) hjk
  simp only [Nat.testBit_and, Nat.zero_testBit] at h
  simp only [Nat.testBit_and, Nat.testBit_or, Nat.zero_testBit]
  by_cases hi : i < 64
  · rw [testBit_not64 m i hi]
    cases hj : jd.testBit i <;> cases hmi : m.testBit i <;> cases hk : k.testBit i <;>
      simp_all
  · have hmi := testBit_of_lt_two_pow_64 m i hm (Nat.le_of_not_lt hi)
    simp only [not64, Nat.testBit_xor, Nat.testBit_two_pow_sub_one, hi, decide_False, hmi,
      Bool.false_xor, Bool.and_false, Bool.false_and]

/-- C11. Take a call of `cn10k_ml_fw_load` on a platform of one of the two
bring-up variants whose set-up succeeded and whose load step returned, and in
which a completion check of the run saw the done bit and the finish sentinel
together, with result error code zero. Then the load step returns 0 and so
does the call, with the world of the load step unchanged: the unload is not
run. The last value written to `ML_CFG` has the ENA bit clear, and `ML_CFG`
holds that value on return. The memzone `ml_cn10k_fw_mz` is still reserved,
and no action after the set-up is a device reset or the release of a memzone.
With a completion signalled at the first check the call does return 0, for
every positive fuel. -/
theorem fw_load_success (E : ml_env) (fuel : Nat) (w : ml_world) (r : fw_load_ready)
    (ret : Int) (ws : ml_world)
    (hsetup : fw_load_setup E w = Except.ok r)
    (hvar : (E.roc_env_is_emulator || E.roc_env_is_hw || E.roc_env_is_asim) = true)
    (hena : E.ROC_ML_CFG_ENA < 2 ^ 64)
    (hrun : fw_load_run E fuel r = some (ret, ws))
    (hdone : completion_observed E r.world.polls ws.polls)
    (herr : E.result_error_code = 0) :
    ret = 0 ∧ cn10k_ml_fw_load E fuel w = some (0, ws) ∧
    (∃ v, last_write ml_reg.ML_CFG ws.trace = some v ∧ v &&& E.ROC_ML_CFG_ENA = 0 ∧
      ws.regs ml_reg.ML_CFG = v) ∧
    ws.memzones "ml_cn10k_fw_mz" = some r.mz ∧
    (∃ l, ws.trace = r.world.trace ++ l ∧ l.all (fun e => !is_teardown e) = true) ∧
    (E.scratch_is_done_bit_set r.world.polls = true →
      E.req_status r.world.polls = E.ML_CN10K_POLL_JOB_FINISH →
      ∀ n, ∃ ws', fw_load_run E (n + 1) r = some (0, ws') ∧
        cn10k_ml_fw_load E (n + 1) w = some (0, ws')) := by
  obtain ⟨hm, ⟨l, hl, hb⟩, hrest⟩ := run_summary E fuel r ret ws hrun
  obtain ⟨h0, hcfg, _⟩ := hrest hvar
  have hret : ret = 0 := h0.mpr ⟨hdone, herr⟩
  subst hret
  obtain ⟨x, hx1, hx2⟩ := hcfg rfl
  refine ⟨rfl, ?_, ⟨_, hx1, and_not64_and_self x _ hena, hx2⟩, ?_,
    ⟨l, hl, all_imp _ _ l bringup_not_teardown hb⟩, fun hd hs n => ?_⟩
  · simp only [cn10k_ml_fw_load, hsetup, hrun]
    rfl
  · rw [hm]
    exact setup_memzone E w r hsetup
  · obtain ⟨ws', hrun'⟩ := run_first_check E n r hd hs herr
    refine ⟨ws', hrun', ?_⟩
    simp only [cn10k_ml_fw_load, hsetup, hrun']
    rfl

/-- C11 on the real-hardware sample platform, whose firmware answers at the
first check with error code zero: the load returns 0 and the memzone stays
reserved. -/
theorem fw_load_success_witness :
    cn10k_ml_fw_load sample_env_hw 1 sample_world = some (0, sample_after_run_hw) ∧
    sample_after_run_hw.memzones "ml_cn10k_fw_mz" = some sample_ready_hw.mz :=
  have h := fw_load_success sample_env_hw 1 sample_world sample_ready_hw 0
    sample_after_run_hw rfl rfl (by decide) rfl
    ⟨0, Nat.le_refl 0, Nat.lt_succ_self 0, rfl, rfl⟩ rfl
  ⟨h.2.1, h.2.2.2.1⟩

/-- C13. For every device state, `cn10k_ml_fw_unload` writes `ML_CFG` with
the value it read and the MLIP_ENA bit cleared (every other bit below bit 64
is unchanged), then forces a reset, and only then releases the memzone
`ml_cn10k_fw_mz` when the table has it; afterwards the name is not reserved
and every other entry of the table is as before. A second call in a row makes
the same write and reset and no release, and leaves the table as the first
call left it. -/
theorem unload_idempotent (E : ml_env) (w : ml_world)
    (hm : E.ROC_ML_CFG_MLIP_ENA < 2 ^ 64) :
    (cn10k_ml_fw_unload E w).memzones "ml_cn10k_fw_mz" = none ∧
    (∀ name, name ≠ "ml_cn10k_fw_mz" →
      (cn10k_ml_fw_unload E w).memzones name = w.memzones name) ∧
    (cn10k_ml_fw_unload E w).trace = w.trace ++
      ([hw_event.reg_write64 (w.regs ml_reg.ML_CFG &&& not64 E.ROC_ML_CFG_MLIP_ENA)
          ml_reg.ML_CFG, hw_event.mlip_reset true] ++
        (if (w.memzones "ml_cn10k_fw_mz").isSome then [hw_event.memzone_free "ml_cn10k_fw_mz"]
         else [])) ∧
    (w.regs ml_reg.ML_CFG &&& not64 E.ROC_ML_CFG_MLIP_ENA) &&& E.ROC_ML_CFG_MLIP_ENA = 0 ∧
    (∀ i, i < 64 → E.ROC_ML_CFG_MLIP_ENA.testBit i = false →
      (w.regs ml_reg.ML_CFG &&& not64 E.ROC_ML_CFG_MLIP_ENA).testBit i =
        (w.regs ml_reg.ML_CFG).testBit i) ∧
    (cn10k_ml_fw_unload E (cn10k_ml_fw_unload E w)).memzones =
      (cn10k_ml_fw_unload E w).memzones ∧
    (cn10k_ml_fw_unload E (cn10k_ml_fw_unload E w)).trace =
      (cn10k_ml_fw_unload E w).trace ++
        [hw_event.reg_write64
          ((cn10k_ml_fw_unload E w).regs ml_reg.ML_CFG &&& not64 E.ROC_ML_CFG_MLIP_ENA)
          ml_reg.ML_CFG, hw_event.mlip_reset true] := by
  obtain ⟨u1, u2, u3, _⟩ := unload_spec E w
  obtain ⟨v1, _, _, v4⟩ := unload_spec E (cn10k_ml_fw_unload E w)
  refine ⟨u2, u3, u1, and_not64_and_self _ _ hm,
    fun i hi hb => and_not64_testBit _ _ i hi hb, v4 u2, ?_⟩
  rw [v1]
  have hn : (cn10k_ml_fw_unload E w).memzones FW_MEMZONE_NAME = none := u2
  rw [hn]
  rfl

/-- C13 on the sample platform: after one unload of the sample device the
memzone is not reserved, and the second unload leaves the table alone. -/
theorem unload_idempotent_witness :
    (cn10k_ml_fw_unload sample_env sample_world).memzones "ml_cn10k_fw_mz" = none ∧
    (cn10k_ml_fw_unload sample_env (cn10k_ml_fw_unload sample_env sample_world)).memzones =
      (cn10k_ml_fw_unload sample_env sample_world).memzones :=
  have h := unload_idempotent sample_env sample_world (by decide)
  ⟨h.1, h.2.2.2.2.2.1⟩

/-- C14. Take a call of `cn10k_ml_fw_load` whose set-up succeeded and whose
load step, of either variant, returned a nonzero value (-ETIME after a
timeout, -1 after a nonzero error code), on a platform where MLIP_ENA is a
bit mask of the 64-bit register and JD_SIZE has no bit in common with ENA.
The call then ends with the three actions of the unload: the write to
`ML_CFG` of `(JD_SIZE | MLIP_ENA) & ~MLIP_ENA`, the forced reset and the
release of the memzone. That write is the last write to `ML_CFG` of the call,
its value has the MLIP_ENA bit and the ENA bit clear, and the reset comes
after it. -/
theorem failed_load_disabled (E : ml_env) (fuel : Nat) (w : ml_world) (r : fw_load_ready)
    (ret : Int) (ws : ml_world)
    (hsetup : fw_load_setup E w = Except.ok r)
    (hrun : fw_load_run E fuel r = some (ret, ws))
    (hfail : ret ≠ 0)
    (hmlip : E.ROC_ML_CFG_MLIP_ENA < 2 ^ 64)
    (hjd : E.ROC_ML_CFG_JD_SIZE &&& E.ROC_ML_CFG_ENA = 0) :
    (ret = -ETIME ∨ ret = -1) ∧
    cn10k_ml_fw_load E fuel w = some (ret, cn10k_ml_fw_unload E ws) ∧
    (cn10k_ml_fw_unload E ws).trace = ws.trace ++
      [hw_event.reg_write64
        ((E.ROC_ML_CFG_JD_SIZE ||| E.ROC_ML_CFG_MLIP_ENA) &&& not64 E.ROC_ML_CFG_MLIP_ENA)
        ml_reg.ML_CFG,
       hw_event.mlip_reset true,
       hw_event.memzone_free "ml_cn10k_fw_mz"] ∧
    last_write ml_reg.ML_CFG (cn10k_ml_fw_unload E ws).trace =
      some ((E.ROC_ML_CFG_JD_SIZE ||| E.ROC_ML_CFG_MLIP_ENA) &&&
        not64 E.ROC_ML_CFG_MLIP_ENA) ∧
    ((E.ROC_ML_CFG_JD_SIZE ||| E.ROC_ML_CFG_MLIP_ENA) &&& not64 E.ROC_ML_CFG_MLIP_ENA) &&&
      E.ROC_ML_CFG_MLIP_ENA = 0 ∧
    ((E.ROC_ML_CFG_JD_SIZE ||| E.ROC_ML_CFG_MLIP_ENA) &&& not64 E.ROC_ML_CFG_MLIP_ENA) &&&
      E.ROC_ML_CFG_ENA = 0 := by
  obtain ⟨hm, _, hrest⟩ := run_summary E fuel r ret ws hrun
  have hvar : (E.roc_env_is_emulator || E.roc_env_is_hw || E.roc_env_is_asim) = true := by
    cases hv : (E.roc_env_is_emulator || E.roc_env_is_hw || E.roc_env_is_asim)
    · simp only [Bool.or_eq_false_iff] at hv
      simp only [fw_load_run, hv.1.1, hv.1.2, hv.2, Bool.or_self, Bool.false_eq_true, if_false,
        Option.some.injEq, Prod.mk.injEq] at hrun
      exact absurd hrun.1.symm hfail
    · rfl
  obtain ⟨_, _, hf⟩ := hrest hvar
  obtain ⟨hcode, hreg, _⟩ := hf hfail
  have hneg : ret < 0 := by
    rcases hcode with h | h <;> rw [h] <;> decide
  have hz : ws.memzones FW_MEMZONE_NAME = some r.mz := by
    rw [hm]
    exact setup_memzone E w r hsetup
  have htr : (cn10k_ml_fw_unload E ws).trace = ws.trace ++
      [hw_event.reg_write64
        ((E.ROC_ML_CFG_JD_SIZE ||| E.ROC_ML_CFG_MLIP_ENA) &&& not64 E.ROC_ML_CFG_MLIP_ENA)
        ml_reg.ML_CFG,
       hw_event.mlip_reset true,
       hw_event.memzone_free "ml_cn10k_fw_mz"] := by
    rw [(unload_spec E ws).1, hz, hreg]
    rfl
  refine ⟨hcode, ?_, htr, ?_, and_not64_and_self _ _ hmlip, cfg_after_unload _ _ _ hmlip hjd⟩
  · simp only [cn10k_ml_fw_load, hsetup, hrun, hneg, if_true]
  · rw [htr]
    have e : ws.trace ++
        [hw_event.reg_write64
          ((E.ROC_ML_CFG_JD_SIZE ||| E.ROC_ML_CFG_MLIP_ENA) &&& not64 E.ROC_ML_CFG_MLIP_ENA)
          ml_reg.ML_CFG,
         hw_event.mlip_reset true,
         hw_event.memzone_free "ml_cn10k_fw_mz"] =
        ws.trace ++ [hw_event.reg_write64
          ((E.ROC_ML_CFG_JD_SIZE ||| E.ROC_ML_CFG_MLIP_ENA) &&& not64 E.ROC_ML_CFG_MLIP_ENA)
          ml_reg.ML_CFG] ++
        [hw_event.mlip_reset true, hw_event.memzone_free "ml_cn10k_fw_mz"] := by
      simp
    rw [e, last_write_append_none _ _ _ (by simp [written_value]), last_write_concat]

/-- C14 on the sample simulator platform, whose firmware never answers: the
load times out and ends with the unload, whose `ML_CFG` value has both bits
clear. -/
theorem failed_load_disabled_witness :
    cn10k_ml_fw_load sample_env 8 sample_world =
      some (-ETIME, cn10k_ml_fw_unload sample_env sample_after_run) ∧
    last_write ml_reg.ML_CFG (cn10k_ml_fw_unload sample_env sample_after_run).trace =
      some ((sample_env.ROC_ML_CFG_JD_SIZE ||| sample_env.ROC_ML_CFG_MLIP_ENA) &&&
        not64 sample_env.ROC_ML_CFG_MLIP_ENA) :=
  have h := failed_load_disabled sample_env 8 sample_world sample_ready (-ETIME)
    sample_after_run rfl rfl (by decide) (by decide) (by decide)
  ⟨h.2.1, h.2.2.2.1⟩

/-! ## The size of the memzone, the early failures and the order of the steps -/

/-- C15. In every call of `cn10k_ml_fw_load` that returns, the memzone is
requested once, under the name `ml_cn10k_fw_mz` and with the alignment
`ML_CN10K_ALIGN_SIZE`. On the real-hardware or emulator path, after the
firmware was read with size `fw_size`, the requested length is
`sizeof(struct cn10k_ml_req) + fw_size + 256 KiB + 256 KiB + 1 KiB` computed
in `uint64_t`, which is `(sizeof + fw_size + 525312) mod 2^64` for every
`fw_size` and is `sizeof + fw_size + 525312` itself whenever that sum is below
`2^64`; on the simulator path it is `sizeof(struct cn10k_ml_req)`. A memzone
that was reserved has the requested length. -/
theorem scratch_region_size (E : ml_env) (fuel : Nat) (w : ml_world) (ret : Int)
    (w' : ml_world) (h : cn10k_ml_fw_load E fuel w = some (ret, w')) :
    (FW_STACK_BUFFER_SIZE = 256 * 1024 ∧ FW_DEBUG_BUFFER_SIZE = 256 * 1024 ∧
      FW_EXCEPTION_BUFFER_SIZE = 1024) ∧
    ((E.roc_env_is_emulator || E.roc_env_is_hw) = true →
      ¬(E.rte_firmware_read w.mldev.fw.path).ret < 0 →
      (∃ rest, w'.trace = w.trace ++
          [hw_event.firmware_read w.mldev.fw.path,
           hw_event.memzone_reserve "ml_cn10k_fw_mz"
             ((E.sizeof_cn10k_ml_req + (E.rte_firmware_read w.mldev.fw.path).fw_size + 525312)
               % 2 ^ 64) E.ML_CN10K_ALIGN_SIZE] ++ rest ∧
        rest.all (fun e => !is_reserve e) = true) ∧
      (E.sizeof_cn10k_ml_req + (E.rte_firmware_read w.mldev.fw.path).fw_size + 525312
          < 2 ^ 64 →
        ∃ rest, w'.trace = w.trace ++
          [hw_event.firmware_read w.mldev.fw.path,
           hw_event.memzone_reserve "ml_cn10k_fw_mz"
             (E.sizeof_cn10k_ml_req + (E.rte_firmware_read w.mldev.fw.path).fw_size + 525312)
             E.ML_CN10K_ALIGN_SIZE] ++ rest) ∧
      (∀ r, fw_load_setup E w = Except.ok r →
        r.mz.len = (E.sizeof_cn10k_ml_req + (E.rte_firmware_read w.mldev.fw.path).fw_size +
          525312) % 2 ^ 64 ∧
        r.fw_size = (E.rte_firmware_read w.mldev.fw.path).fw_size)) ∧
    ((E.roc_env_is_emulator || E.roc_env_is_hw) = false → E.roc_env_is_asim = true →
      (∃ rest, w'.trace = w.trace ++
          [hw_event.memzone_reserve "ml_cn10k_fw_mz" E.sizeof_cn10k_ml_req
            E.ML_CN10K_ALIGN_SIZE] ++ rest ∧
        rest.all (fun e => !is_reserve e) = true) ∧
      (∀ r, fw_load_setup E w = Except.ok r → r.mz.len = E.sizeof_cn10k_ml_req)) := by
  refine ⟨⟨rfl, rfl, rfl⟩, fun hA hread => ?_, fun hA hB => ?_⟩
  · have hs := fw_load_setup_eq E w
    rw [if_pos hA, if_neg hread, mz_size_eq] at hs
    obtain ⟨⟨rest, t1, t2⟩, t3⟩ := fw_load_trace E fuel w ret w' h _ _ _ _ hs
    have t1' : w'.trace = w.trace ++
        [hw_event.firmware_read w.mldev.fw.path,
         hw_event.memzone_reserve "ml_cn10k_fw_mz"
           ((E.sizeof_cn10k_ml_req + (E.rte_firmware_read w.mldev.fw.path).fw_size + 525312)
             % 2 ^ 64) E.ML_CN10K_ALIGN_SIZE] ++ rest := by
      rw [t1, log_event_trace]
      simp [FW_MEMZONE_NAME]
    refine ⟨⟨rest, t1', t2⟩, fun hlt => ⟨rest, ?_⟩, t3⟩
    rw [t1', Nat.mod_eq_of_lt hlt]
  · have hs := fw_load_setup_eq E w
    rw [hA, if_neg (by decide), if_pos hB] at hs
    obtain ⟨⟨rest, t1, t2⟩, t3⟩ := fw_load_trace E fuel w ret w' h _ _ _ _ hs
    refine ⟨⟨rest, ?_, t2⟩, fun r hr => (t3 r hr).1⟩
    rw [t1]
    simp [FW_MEMZONE_NAME]

/-- C15 on the real-hardware sample platform, whose firmware image has four
bytes and whose request structure has 512: the memzone is requested with
525828 bytes. -/
theorem scratch_region_size_witness :
    ∃ rest, sample_load_hw.2.trace = sample_world.trace ++
      [hw_event.firmware_read sample_world.mldev.fw.path,
       hw_event.memzone_reserve "ml_cn10k_fw_mz" (512 + 4 + 525312) 128] ++ rest :=
  (scratch_region_size sample_env_hw 1 sample_world sample_load_hw.1 sample_load_hw.2
    rfl).2.1 rfl (by decide) |>.2.1 (by decide)

/-- C16. When the set-up of `cn10k_ml_fw_load` fails, the call returns the
value and the world of the set-up for every fuel, so the load step is not
run; the registers, the memzone table and the counters of clock reads and
completion checks are as before the call, and none of the actions of the call
is a register write or save, a reset, an enqueue or a copy into the ML
region. Either the platform is of the real-hardware or emulator kind and the
reader returned a negative value: the call returns that value and its only
action is the read of the firmware file, with no reservation; or the
reservation failed: the call returns -ENOMEM, and its actions are the read of
the firmware file (on that kind of platform), the reservation, and the
release of the firmware buffer when the reader had handed one over. A
negative value of the reader on the real-hardware or emulator path always
ends the call in the first way. -/
theorem early_failure_frame (E : ml_env) (fuel : Nat) (w : ml_world) (e : Int × ml_world)
    (h : fw_load_setup E w = Except.error e) :
    cn10k_ml_fw_load E fuel w = some e ∧
    e.2.regs = w.regs ∧ e.2.memzones = w.memzones ∧ e.2.polls = w.polls ∧
    e.2.tsc_reads = w.tsc_reads ∧
    (∃ l, e.2.trace = w.trace ++ l ∧ l.all (fun ev => !touches_device ev) = true) ∧
    (((E.roc_env_is_emulator || E.roc_env_is_hw) = true ∧
        (E.rte_firmware_read w.mldev.fw.path).ret < 0 ∧
        e.1 = (E.rte_firmware_read w.mldev.fw.path).ret ∧
        e.2.trace = w.trace ++ [hw_event.firmware_read w.mldev.fw.path]) ∨
      (¬((E.roc_env_is_emulator || E.roc_env_is_hw) = true ∧
          (E.rte_firmware_read w.mldev.fw.path).ret < 0) ∧
        e.1 = -ENOMEM ∧
        ∃ sz, e.2.trace = w.trace ++
          (if (E.roc_env_is_emulator || E.roc_env_is_hw) = true then
            [hw_event.firmware_read w.mldev.fw.path] else []) ++
          [hw_event.memzone_reserve "ml_cn10k_fw_mz" sz E.ML_CN10K_ALIGN_SIZE] ++
          (if (E.roc_env_is_emulator || E.roc_env_is_hw) = true ∧
              (E.rte_firmware_read w.mldev.fw.path).fw_buffer.isSome = true then
            [hw_event.free_fw_buffer] else []))) ∧
    ((E.roc_env_is_emulator || E.roc_env_is_hw) = true →
      (E.rte_firmware_read w.mldev.fw.path).ret < 0 →
      e = ((E.rte_firmware_read w.mldev.fw.path).ret,
        log_event (hw_event.firmware_read w.mldev.fw.path) w)) := by
  have hcall : cn10k_ml_fw_load E fuel w = some e := by
    simp only [cn10k_ml_fw_load, h]
  have hs := fw_load_setup_eq E w
  rw [h] at hs
  by_cases hA : (E.roc_env_is_emulator || E.roc_env_is_hw) = true
  · by_cases hr : (E.rte_firmware_read w.mldev.fw.path).ret < 0
    · rw [if_pos hA, if_pos hr] at hs
      simp only [Except.error.injEq] at hs
      subst hs
      exact ⟨hcall, rfl, rfl, rfl, rfl, ⟨_, rfl, rfl⟩, Or.inl ⟨hA, hr, rfl, rfl⟩,
        fun _ _ => rfl⟩
    · rw [if_pos hA, if_neg hr] at hs
      obtain ⟨e1, e2, e3, e4, e5, e6⟩ := (fw_load_reserve_spec E _ _ _ _).1 e hs.symm
      refine ⟨hcall, e3, e4, e5, e6, ?_, Or.inr ⟨fun hc => hr hc.2, e1,
        add64 (add64 (add64 (add64 E.sizeof_cn10k_ml_req
          (E.rte_firmware_read w.mldev.fw.path).fw_size) FW_STACK_BUFFER_SIZE)
          FW_DEBUG_BUFFER_SIZE) FW_EXCEPTION_BUFFER_SIZE, ?_⟩,
        fun _ hc => absurd hc hr⟩
      · refine ⟨[hw_event.firmware_read w.mldev.fw.path] ++
          (hw_event.memzone_reserve FW_MEMZONE_NAME
            (add64 (add64 (add64 (add64 E.sizeof_cn10k_ml_req
              (E.rte_firmware_read w.mldev.fw.path).fw_size) FW_STACK_BUFFER_SIZE)
              FW_DEBUG_BUFFER_SIZE) FW_EXCEPTION_BUFFER_SIZE) E.ML_CN10K_ALIGN_SIZE ::
            (if (E.rte_firmware_read w.mldev.fw.path).fw_buffer.isSome then
              [hw_event.free_fw_buffer] else [])),
          by rw [e2, log_event_trace, List.append_assoc], ?_⟩
        cases (E.rte_firmware_read w.mldev.fw.path).fw_buffer.isSome <;> rfl
      · rw [e2, log_event_trace]
        simp [hA, FW_MEMZONE_NAME]
  · have hnot : ¬((E.roc_env_is_emulator || E.roc_env_is_hw) = true ∧
        (E.rte_firmware_read w.mldev.fw.path).ret < 0) := fun hc => hA hc.1
    by_cases hB : E.roc_env_is_asim = true
    · rw [if_neg hA, if_pos hB] at hs
      obtain ⟨e1, e2, e3, e4, e5, e6⟩ := (fw_load_reserve_spec E _ _ _ _).1 e hs.symm
      refine ⟨hcall, e3, e4, e5, e6, ⟨_, e2, rfl⟩,
        Or.inr ⟨hnot, e1, E.sizeof_cn10k_ml_req, ?_⟩,
        fun hc => absurd hc hA⟩
      rw [e2]
      simp [hA, FW_MEMZONE_NAME]
    · rw [if_neg hA, if_neg hB] at hs
      obtain ⟨e1, e2, e3, e4, e5, e6⟩ := (fw_load_reserve_spec E _ _ _ _).1 e hs.symm
      refine ⟨hcall, e3, e4, e5, e6, ⟨_, e2, rfl⟩, Or.inr ⟨hnot, e1, 0, ?_⟩,
        fun hc => absurd hc hA⟩
      rw [e2]
      simp [hA, FW_MEMZONE_NAME]

/-- C16 on the real-hardware sample platform whose firmware file cannot be
read: the call returns the -2 of the reader, and its only action is the read
of the file. -/
theorem early_failure_frame_witness :
    cn10k_ml_fw_load sample_env_no_file 0 sample_world =
      some (-2, log_event (hw_event.firmware_read sample_world.mldev.fw.path) sample_world) ∧
    (log_event (hw_event.firmware_read sample_world.mldev.fw.path) sample_world).regs =
      sample_world.regs :=
  have h := early_failure_frame sample_env_no_file 0 sample_world
    (-2, log_event (hw_event.firmware_read sample_world.mldev.fw.path) sample_world) rfl
  ⟨h.1, h.2.1⟩

/-- C20. The actions of every run of `cn10k_ml_fw_load_cn10ka` that returns
are, in this order: actions `pre`; the copy of the firmware image into the ML
region; the write of `ML_MLR_BASE`; actions `mid`; the write to `ML_CFG` of
step (8), whose value is a value with MLIP_ENA set and ENA then cleared; the
delay of step (9); the four writes of the reset-vector half-registers of step
(10); the write to `ML_SW_RST_CTRL` of step (11), whose value has no ACC_RST
bit; the write barrier, the enqueue of the job descriptor through the scratch
mailbox and the read barrier; actions `tail`. None of `pre`, `mid` and `tail`
is a copy, an enqueue, or a write to `ML_MLR_BASE`, to a reset-vector
half-register or to `ML_SW_RST_CTRL`: each of these happens once, at the place
shown, so the cores are not released from reset before their reset vectors
are written. -/
theorem cn10ka_order (E : ml_env) (fuel : Nat) (b : Option (List Nat)) (size : Nat)
    (w : ml_world) (ret : Int) (w' : ml_world)
    (h : cn10k_ml_fw_load_cn10ka E fuel b size w = some (ret, w')) :
    ∃ pre mid tail x y a,
      w'.trace = w.trace ++ pre ++
        [hw_event.memcpy (w.mldev.fw.data + FW_LINKER_OFFSET) size,
         hw_event.reg_write64 (sub64 w.mldev.fw.data E.rte_eal_get_baseaddr)
           ml_reg.ML_MLR_BASE] ++ mid ++
        [hw_event.reg_write64 ((x ||| E.ROC_ML_CFG_MLIP_ENA) &&& not64 E.ROC_ML_CFG_ENA)
           ml_reg.ML_CFG,
         hw_event.delay_us FW_WAIT_CYCLES,
         hw_event.reg_write32 (a % 2 ^ 32) (ml_reg.ML_A35_0_RST_VECTOR_BASE_W 0),
         hw_event.reg_write32 (a / 2 ^ 32 % 2 ^ 32) (ml_reg.ML_A35_0_RST_VECTOR_BASE_W 1),
         hw_event.reg_write32 (a % 2 ^ 32) (ml_reg.ML_A35_1_RST_VECTOR_BASE_W 0),
         hw_event.reg_write32 (a / 2 ^ 32 % 2 ^ 32) (ml_reg.ML_A35_1_RST_VECTOR_BASE_W 1),
         hw_event.reg_write32 ((y &&& not64 E.ROC_ML_SW_RST_CTRL_ACC_RST) % 2 ^ 32)
           ml_reg.ML_SW_RST_CTRL,
         hw_event.wmb,
         hw_event.scratch_enqueue (w.mldev.fw.req + E.offsetof_jd),
         hw_event.rmb] ++ tail ∧
      pre.all (fun e => !is_milestone e) = true ∧
      mid.all (fun e => !is_milestone e) = true ∧
      tail.all (fun e => !is_milestone e) = true ∧
      ((y &&& not64 E.ROC_ML_SW_RST_CTRL_ACC_RST) % 2 ^ 32) &&&
        E.ROC_ML_SW_RST_CTRL_ACC_RST = 0 ∧
      (E.ROC_ML_CFG_ENA < 2 ^ 64 →
        ((x ||| E.ROC_ML_CFG_MLIP_ENA) &&& not64 E.ROC_ML_CFG_ENA) &&& E.ROC_ML_CFG_ENA = 0) ∧
      (E.ROC_ML_CFG_MLIP_ENA < 2 ^ 64 → E.ROC_ML_CFG_MLIP_ENA &&& E.ROC_ML_CFG_ENA = 0 →
        ((x ||| E.ROC_ML_CFG_MLIP_ENA) &&& not64 E.ROC_ML_CFG_ENA) &&&
          E.ROC_ML_CFG_MLIP_ENA = E.ROC_ML_CFG_MLIP_ENA) := by
  obtain ⟨t, wp, hh, hc⟩ := cn10ka_load_cases E fuel b size w ret w' h
  obtain ⟨l, hl, ht, _⟩ := cn10ka_steps_1_5_spec E size w
  obtain ⟨x, y, a, hs, _⟩ := cn10ka_steps_6_11_spec E (cn10ka_steps_1_5 E size w)
  obtain ⟨_, _, _, _, s5, _⟩ := asim_handshake_spec E fuel _ t wp hh
  rw [(cn10ka_steps_1_3_spec E size w).1] at ht
  rw [(cn10ka_prepare_fields E size w).2.2.2, cn10ka_prepare, hs, ht] at s5
  have htail : ∃ tail, w'.trace = wp.trace ++ tail ∧
      tail.all (fun e => !is_milestone e) = true := by
    rcases hc with ⟨_, _, _, hw⟩ | ⟨_, _, hw⟩
    · obtain ⟨x', l', hl', f1, _⟩ := cn10ka_finish_spec E wp
      rw [← hw] at f1
      refine ⟨[hw_event.reg_write64 (wp.regs ml_reg.ML_JOB_MGR_CTRL |||
           E.ROC_ML_JOB_MGR_CTRL_STALL_ON_IDLE) ml_reg.ML_JOB_MGR_CTRL,
         hw_event.reg_write64 (wp.regs ml_reg.ML_CFG &&& not64 E.ROC_ML_CFG_MLIP_CLK_FORCE)
           ml_reg.ML_CFG,
         hw_event.reg_write64 (wp.regs ml_reg.ML_CFG &&& not64 E.ROC_ML_CFG_MLIP_CLK_FORCE |||
           E.ROC_ML_CFG_ENA) ml_reg.ML_CFG,
         hw_event.reg_write64 0 ml_reg.ML_SCRATCH_FW_CTRL,
         hw_event.reg_write64 0 ml_reg.ML_SCRATCH_WORK_PTR,
         hw_event.reg_write64 (x' &&& not64 E.ROC_ML_CFG_ENA) ml_reg.ML_CFG] ++ l', ?_, ?_⟩
      · rw [f1, List.append_assoc]
      · rw [List.all_append, all_imp _ _ l' anb_not_milestone hl']
        rfl
    · obtain ⟨_, g2, _⟩ := asim_failure_spec E t wp
      rw [← hw] at g2
      exact ⟨_, g2, rfl⟩
  obtain ⟨tail, ht1, ht2⟩ := htail
  refine ⟨[hw_event.reg_write64 0 ml_reg.ML_SCRATCH_DBG_BUFFER_HEAD_C0,
      hw_event.reg_write64 0 ml_reg.ML_SCRATCH_DBG_BUFFER_TAIL_C0,
      hw_event.reg_write64 0 ml_reg.ML_SCRATCH_DBG_BUFFER_HEAD_C1,
      hw_event.reg_write64 0 ml_reg.ML_SCRATCH_DBG_BUFFER_TAIL_C1,
      hw_event.reg_write64 0 ml_reg.ML_SCRATCH_EXCEPTION_SP_C0,
      hw_event.reg_write64 0 ml_reg.ML_SCRATCH_EXCEPTION_SP_C1],
    [hw_event.reg_save ml_reg.ML_MLR_BASE,
      hw_event.reg_write64 (E.ROC_ML_AXI_BRIDGE_CTRL_AXI_RESP_CTRL |||
        E.ROC_ML_AXI_BRIDGE_CTRL_BRIDGE_CTRL_MODE ||| E.ROC_ML_AXI_BRIDGE_CTRL_NCB_WR_BLK |||
        E.ROC_ML_AXI_BRIDGE_CTRL_FORCE_WRESP_OK ||| E.ROC_ML_AXI_BRIDGE_CTRL_FORCE_RRESP_OK)
        (ml_reg.ML_AXI_BRIDGE_CTRL 1)] ++ l ++
      [hw_event.reg_write64 ((cn10ka_steps_1_5 E size w).regs ml_reg.ML_CFG |||
          E.ROC_ML_CFG_MLIP_CLK_FORCE) ml_reg.ML_CFG,
       hw_event.reg_write64 ((cn10ka_steps_1_5 E size w).regs ml_reg.ML_JOB_MGR_CTRL &&&
          not64 E.ROC_ML_JOB_MGR_CTRL_STALL_ON_IDLE) ml_reg.ML_JOB_MGR_CTRL],
    tail, x, y, a, ?_, rfl, ?_, ht2, and_not64_mod_and_self y _,
    fun hena => and_not64_and_self _ _ hena,
    fun hm hme => or_not64_and_self x _ _ hm hme⟩
  · rw [ht1, s5]
    simp only [List.append_assoc, List.cons_append, List.nil_append, List.singleton_append]
  · rw [List.all_append, List.all_append, all_imp _ _ l anb_not_milestone hl]
    rfl

/-- C20 on the real-hardware sample platform: the run returns 0 and the job
is enqueued once, after the write that releases the cores from reset. -/
theorem cn10ka_order_witness :
    sample_cn10ka_result.1 = 0 ∧
    ∃ pre tail y, sample_cn10ka_result.2.trace = pre ++
      [hw_event.reg_write32 ((y &&& not64 sample_env_hw.ROC_ML_SW_RST_CTRL_ACC_RST) % 2 ^ 32)
         ml_reg.ML_SW_RST_CTRL,
       hw_event.wmb,
       hw_event.scratch_enqueue (sample_world.mldev.fw.req + sample_env_hw.offsetof_jd),
       hw_event.rmb] ++ tail ∧
      tail.all (fun e => !is_milestone e) = true := by
  obtain ⟨pre, mid, tail, x, y, a, h1, _, _, h4, _⟩ :=
    cn10ka_order sample_env_hw 1 (some [0, 1, 2, 3]) 4 sample_world sample_cn10ka_result.1
      sample_cn10ka_result.2 rfl
  refine ⟨rfl, sample_world.trace ++ pre ++
      [hw_event.memcpy (sample_world.mldev.fw.data + FW_LINKER_OFFSET) 4,
       hw_event.reg_write64 (sub64 sample_world.mldev.fw.data sample_env_hw.rte_eal_get_baseaddr)
         ml_reg.ML_MLR_BASE] ++ mid ++
      [hw_event.reg_write64
         ((x ||| sample_env_hw.ROC_ML_CFG_MLIP_ENA) &&& not64 sample_env_hw.ROC_ML_CFG_ENA)
         ml_reg.ML_CFG,
       hw_event.delay_us FW_WAIT_CYCLES,
       hw_event.reg_write32 (a % 2 ^ 32) (ml_reg.ML_A35_0_RST_VECTOR_BASE_W 0),
       hw_event.reg_write32 (a / 2 ^ 32 % 2 ^ 32) (ml_reg.ML_A35_0_RST_VECTOR_BASE_W 1),
       hw_event.reg_write32 (a % 2 ^ 32) (ml_reg.ML_A35_1_RST_VECTOR_BASE_W 0),
       hw_event.reg_write32 (a / 2 ^ 32 % 2 ^ 32) (ml_reg.ML_A35_1_RST_VECTOR_BASE_W 1)],
    tail, y, ?_, h4⟩
  rw [h1]
  simp only [List.append_assoc, List.cons_append, List.nil_append, List.singleton_append]

/-! ## A platform of no known kind: C24 -/

/-- C24. On a platform that is none of emulator, real hardware and simulator
`cn10k_ml_fw_load` returns for every fuel, with one result. Its first action
is the request of the memzone `ml_cn10k_fw_mz` with length 0, and at most one
action follows it: it makes no completion check and no read of the cycle
counter, so neither bring-up variant runs and no job is enqueued. When the
reservation succeeds the call returns 0, the memzone is in the table, and the
only other action is the forced reset, made exactly when the device was
enabled; the registers are otherwise as before. When the reservation fails
the call returns -ENOMEM and touches nothing. -/
theorem fw_load_no_platform (E : ml_env) (w : ml_world)
    (hemu : E.roc_env_is_emulator = false) (hhw : E.roc_env_is_hw = false)
    (hasim : E.roc_env_is_asim = false) :
    ∃ ret w', (∀ fuel, cn10k_ml_fw_load E fuel w = some (ret, w')) ∧
      (∃ rest, w'.trace = w.trace ++
          (hw_event.memzone_reserve "ml_cn10k_fw_mz" 0 E.ML_CN10K_ALIGN_SIZE :: rest) ∧
        (rest = [] ∨ rest = [hw_event.mlip_reset true])) ∧
      w'.polls = w.polls ∧ w'.tsc_reads = w.tsc_reads ∧
      (∀ mz, (plt_memzone_reserve_aligned E "ml_cn10k_fw_mz" 0 E.ML_CN10K_ALIGN_SIZE w).1 =
          some mz →
        ret = 0 ∧ mz.len = 0 ∧ w'.memzones "ml_cn10k_fw_mz" = some mz ∧
        w'.trace = w.trace ++
          (hw_event.memzone_reserve "ml_cn10k_fw_mz" 0 E.ML_CN10K_ALIGN_SIZE ::
            (if E.roc_ml_mlip_is_enabled w.regs then [hw_event.mlip_reset true] else [])) ∧
        w'.regs = (if E.roc_ml_mlip_is_enabled w.regs then E.mlip_reset_regs true w.regs
          else w.regs)) ∧
      ((plt_memzone_reserve_aligned E "ml_cn10k_fw_mz" 0 E.ML_CN10K_ALIGN_SIZE w).1 = none →
        ret = -ENOMEM ∧ w'.regs = w.regs ∧ w'.memzones = w.memzones ∧
        w'.trace = w.trace ++
          [hw_event.memzone_reserve "ml_cn10k_fw_mz" 0 E.ML_CN10K_ALIGN_SIZE]) := by
  have hs := fw_load_setup_eq E w
  simp only [hemu, hhw, hasim, Bool.or_self, Bool.false_eq_true, if_false] at hs
  obtain ⟨r1, r2, r3, r4, _, _, r7, r8⟩ :=
    reserve_spec E FW_MEMZONE_NAME 0 E.ML_CN10K_ALIGN_SIZE w
  cases hres : plt_memzone_reserve_aligned E FW_MEMZONE_NAME 0 E.ML_CN10K_ALIGN_SIZE w with
  | mk o w2 =>
    have ho : (plt_memzone_reserve_aligned E "ml_cn10k_fw_mz" 0 E.ML_CN10K_ALIGN_SIZE w).1 = o :=
      by rw [show ("ml_cn10k_fw_mz" : String) = FW_MEMZONE_NAME from rfl, hres]
    rw [hres] at r1 r2 r3 r4 r7 r8
    simp only at r1 r2 r3 r4 r7 r8
    cases o with
    | none =>
      have hset : fw_load_setup E w = Except.error (-ENOMEM, w2) := by
        rw [hs]
        simp only [fw_load_reserve, hres, Option.isSome_none, Bool.false_eq_true, if_false]
      refine ⟨-ENOMEM, w2, fun fuel => by simp only [cn10k_ml_fw_load, hset],
        ⟨[], r1, Or.inl rfl⟩, r3, r4, fun mz hmz => ?_, fun _ => ⟨rfl, r2, r7 rfl, r1⟩⟩
      rw [ho] at hmz
      exact absurd hmz (by simp)
    | some mz =>
      have hz := reserve_some E _ _ _ _ _ _ hres
      cases hen : E.roc_ml_mlip_is_enabled w.regs
      · have hset : fw_load_setup E w = Except.ok
            { world := { w2 with
                mldev := { w2.mldev with fw := { w2.mldev.fw with req := mz.addr } }
                req := { w2.req with jd_hdr_jce_w1 := 0, jd_hdr_job_type := 0,
                                     jd_hdr_result := 0, jd_fw_load_flags := 0 } }
              mz := mz, fw_buffer := none, fw_size := 0 } := by
          rw [hs]
          simp only [fw_load_reserve, hres, r2, hen, Bool.false_eq_true, if_false]
        refine ⟨0, { w2 with
            mldev := { w2.mldev with fw := { w2.mldev.fw with req := mz.addr } }
            req := { w2.req with jd_hdr_jce_w1 := 0, jd_hdr_job_type := 0,
                                 jd_hdr_result := 0, jd_fw_load_flags := 0 } },
          fun fuel => ?_, ⟨[], r1, Or.inl rfl⟩, r3, r4, fun mz' hmz => ?_, fun hn => ?_⟩
        · simp only [cn10k_ml_fw_load, hset, fw_load_run, hemu, hhw, hasim, Bool.or_self,
            Bool.false_eq_true, if_false]
          rfl
        · rw [ho] at hmz
          simp only [Option.some.injEq] at hmz
          subst hmz
          exact ⟨rfl, r8 mz rfl, hz, by simpa using r1, by simpa using r2⟩
        · rw [ho] at hn
          exact absurd hn (by simp)
      · have hset : fw_load_setup E w = Except.ok
            { world := roc_ml_mlip_reset E true { w2 with
                mldev := { w2.mldev with fw := { w2.mldev.fw with req := mz.addr } }
                req := { w2.req with jd_hdr_jce_w1 := 0, jd_hdr_job_type := 0,
                                     jd_hdr_result := 0, jd_fw_load_flags := 0 } }
              mz := mz, fw_buffer := none, fw_size := 0 } := by
          rw [hs]
          simp only [fw_load_reserve, hres, r2, hen, if_true]
        refine ⟨0, roc_ml_mlip_reset E true { w2 with
            mldev := { w2.mldev with fw := { w2.mldev.fw with req := mz.addr } }
            req := { w2.req with jd_hdr_jce_w1 := 0, jd_hdr_job_type := 0,
                                 jd_hdr_result := 0, jd_fw_load_flags := 0 } },
          fun fuel => ?_, ⟨[hw_event.mlip_reset true], ?_, Or.inr rfl⟩, r3, r4,
          fun mz' hmz => ?_, fun hn => ?_⟩
        · simp only [cn10k_ml_fw_load, hset, fw_load_run, hemu, hhw, hasim, Bool.or_self,
            Bool.false_eq_true, if_false]
          rfl
        · simp [roc_ml_mlip_reset, r1, FW_MEMZONE_NAME]
        · rw [ho] at hmz
          simp only [Option.some.injEq] at hmz
          subst hmz
          exact ⟨rfl, r8 mz rfl, hz, by simp [roc_ml_mlip_reset, r1, FW_MEMZONE_NAME],
            by simp [roc_ml_mlip_reset, r2]⟩
        · rw [ho] at hn
          exact absurd hn (by simp)

/-- C24 on the sample platform of no known kind: the call returns 0 for every
fuel and its only action is the request of a memzone of length 0. -/
theorem fw_load_no_platform_witness :
    ∃ w', (∀ fuel, cn10k_ml_fw_load sample_env_none fuel sample_world = some (0, w')) ∧
      w'.trace = [hw_event.memzone_reserve "ml_cn10k_fw_mz" 0 128] := by
  obtain ⟨ret, w', h1, _, _, _, h5, _⟩ :=
    fw_load_no_platform sample_env_none sample_world rfl rfl rfl
  obtain ⟨h0, _, _, ht, _⟩ := h5 { addr := 0x140000000, len := 0 } rfl
  subst h0
  exact ⟨w', h1, ht⟩

/-! ## The registers after the steps of the real-hardware variant -/

theorem p_ovr_ne (i j : Nat) (h : j ≠ i) :
    ml_reg.ML_ANBX_NCBI_P_OVR j ≠ ml_reg.ML_ANBX_NCBI_P_OVR i := by
  intro he
  injection he with he
  exact h he

theorem ncbi_ns_ovr_loop_regs_out (E : ml_env) (n i : Nat) (w : ml_world) (j : Nat)
    (hj : j < i) :
    (ncbi_ns_ovr_loop E n i w).regs (ml_reg.ML_ANBX_NCBI_P_OVR j) =
      w.regs (ml_reg.ML_ANBX_NCBI_P_OVR j) := by
  induction n generalizing i w with
  | zero => rfl
  | succ n ih =>
    simp only [ncbi_ns_ovr_loop]
    rw [ih (i + 1) _ (Nat.lt_succ_of_lt hj)]
    simp only [write64_regs]
    rw [Function.update_noteq (by simp), Function.update_noteq (p_ovr_ne i j (Nat.ne_of_lt hj))]

/-- Step (5) leaves `NS_OVR | NS_OVR_VLD` in the posted-override register of
every unit the loop went over. -/
theorem ncbi_ns_ovr_loop_regs_in (E : ml_env) (n i : Nat) (w : ml_world) (j : Nat)
    (h1 : i ≤ j) (h2 : j < i + n) :
    (ncbi_ns_ovr_loop E n i w).regs (ml_reg.ML_ANBX_NCBI_P_OVR j) =
      (E.ML_ANBX_NCBI_P_OVR_ANB_NCBI_P_NS_OVR ||| E.ML_ANBX_NCBI_P_OVR_ANB_NCBI_P_NS_OVR_VLD) := by
  induction n generalizing i w with
  | zero => exact absurd h2 (Nat.not_lt.mpr h1)
  | succ n ih =>
    simp only [ncbi_ns_ovr_loop]
    by_cases hji : j = i
    · subst hji
      rw [ncbi_ns_ovr_loop_regs_out E n (j + 1) _ j (Nat.lt_succ_self j)]
      simp only [write64_regs]
      rw [Function.update_noteq (by simp), Function.update_same]
    · exact ih (i + 1) _ (Nat.succ_le_of_lt (Nat.lt_of_le_of_ne h1 (Ne.symm hji)))
        (by omega)

theorem ncbi_ro_ovr_loop_regs_out (E : ml_env) (n i : Nat) (w : ml_world) (j : Nat)
    (hj : j < i) :
    (ncbi_ro_ovr_loop E n i w).regs (ml_reg.ML_ANBX_NCBI_P_OVR j) =
      w.regs (ml_reg.ML_ANBX_NCBI_P_OVR j) := by
  induction n generalizing i w with
  | zero => rfl
  | succ n ih =>
    simp only [ncbi_ro_ovr_loop]
    rw [ih (i + 1) _ (Nat.lt_succ_of_lt hj)]
    simp only [write64_regs]
    rw [Function.update_noteq (p_ovr_ne i j (Nat.ne_of_lt hj))]

/-- The loop of lines 756-761 adds `RO_OVR | RO_OVR_VLD` to what the
posted-override register of every unit it went over held. -/
theorem ncbi_ro_ovr_loop_regs_in (E : ml_env) (n i : Nat) (w : ml_world) (j : Nat)
    (h1 : i ≤ j) (h2 : j < i + n) :
    (ncbi_ro_ovr_loop E n i w).regs (ml_reg.ML_ANBX_NCBI_P_OVR j) =
      (w.regs (ml_reg.ML_ANBX_NCBI_P_OVR j) |||
        (E.ML_ANBX_NCBI_P_OVR_ANB_NCBI_P_RO_OVR |||
          E.ML_ANBX_NCBI_P_OVR_ANB_NCBI_P_RO_OVR_VLD)) := by
  induction n generalizing i w with
  | zero => exact absurd h2 (Nat.not_lt.mpr h1)
  | succ n ih =>
    simp only [ncbi_ro_ovr_loop]
    by_cases hji : j = i
    · subst hji
      rw [ncbi_ro_ovr_loop_regs_out E n (j + 1) _ j (Nat.lt_succ_self j)]
      simp only [write64_regs, read64_value, Function.update_same]
    · rw [ih (i + 1) _ (Nat.succ_le_of_lt (Nat.lt_of_le_of_ne h1 (Ne.symm hji))) (by omega)]
      simp only [write64_regs]
      rw [Function.update_noteq (p_ovr_ne i j hji)]

/-- The registers the later steps read, after the debug pointers and steps
(1) to (5). -/
theorem cn10ka_steps_1_5_regs (E : ml_env) (size : Nat) (w : ml_world) :
    (cn10ka_steps_1_5 E size w).regs ml_reg.ML_MLR_BASE =
      sub64 w.mldev.fw.data E.rte_eal_get_baseaddr ∧
    (cn10ka_steps_1_5 E size w).regs ml_reg.ML_CFG = w.regs ml_reg.ML_CFG ∧
    (cn10ka_steps_1_5 E size w).regs ml_reg.ML_JOB_MGR_CTRL = w.regs ml_reg.ML_JOB_MGR_CTRL ∧
    (cn10ka_steps_1_5 E size w).regs ml_reg.ML_SW_RST_CTRL = w.regs ml_reg.ML_SW_RST_CTRL ∧
    (∀ j, j < E.ML_ANBX_NR →
      (cn10ka_steps_1_5 E size w).regs (ml_reg.ML_ANBX_NCBI_P_OVR j) =
        (E.ML_ANBX_NCBI_P_OVR_ANB_NCBI_P_NS_OVR |||
          E.ML_ANBX_NCBI_P_OVR_ANB_NCBI_P_NS_OVR_VLD)) := by
  have h13 : ∀ q, q = ml_reg.ML_CFG ∨ q = ml_reg.ML_JOB_MGR_CTRL ∨ q = ml_reg.ML_SW_RST_CTRL →
      (cn10ka_steps_1_5 E size w).regs q = w.regs q := by
    intro q hq
    rw [cn10ka_steps_1_5, cn10ka_step_5,
      ncbi_ns_ovr_loop_regs E _ _ _ q (by rcases hq with h | h | h <;> simp [h])
        (by rcases hq with h | h | h <;> simp [h]),
      cn10ka_step_4,
      backp_disable_loop_regs E _ _ _ q (by rcases hq with h | h | h <;> simp [h])]
    rcases hq with h | h | h <;>
      simp [h, cn10ka_steps_1_3, reset_debug_pointers, Function.update_apply]
  refine ⟨?_, h13 _ (Or.inl rfl), h13 _ (Or.inr (Or.inl rfl)), h13 _ (Or.inr (Or.inr rfl)),
    fun j hj => ?_⟩
  · rw [cn10ka_steps_1_5, cn10ka_step_5,
      ncbi_ns_ovr_loop_regs E _ _ _ _ (by simp) (by simp), cn10ka_step_4,
      backp_disable_loop_regs E _ _ _ _ (by simp)]
    simp [cn10ka_steps_1_3, reset_debug_pointers, Function.update_apply]
  · rw [cn10ka_steps_1_5, cn10ka_step_5]
    exact ncbi_ns_ovr_loop_regs_in E _ 0 _ j (Nat.zero_le j) (by omega)

/-- The registers after steps (6) to (11). -/
theorem cn10ka_steps_6_11_regs (E : ml_env) (w : ml_world) :
    (cn10ka_steps_6_11 E w).regs ml_reg.ML_CFG =
      ((w.regs ml_reg.ML_CFG ||| E.ROC_ML_CFG_MLIP_CLK_FORCE ||| E.ROC_ML_CFG_MLIP_ENA) &&&
        not64 E.ROC_ML_CFG_ENA) ∧
    (cn10ka_steps_6_11 E w).regs ml_reg.ML_JOB_MGR_CTRL =
      (w.regs ml_reg.ML_JOB_MGR_CTRL &&& not64 E.ROC_ML_JOB_MGR_CTRL_STALL_ON_IDLE) ∧
    (∀ j, (cn10ka_steps_6_11 E w).regs (ml_reg.ML_ANBX_NCBI_P_OVR j) =
      w.regs (ml_reg.ML_ANBX_NCBI_P_OVR j)) := by
  refine ⟨?_, ?_, fun j => ?_⟩ <;>
    simp [cn10ka_steps_6_11, Function.update_apply]

/-- The registers after the steps that follow a successful handshake. -/
theorem cn10ka_finish_regs (E : ml_env) (w : ml_world) :
    (cn10ka_finish E w).regs ml_reg.ML_JOB_MGR_CTRL =
      (w.regs ml_reg.ML_JOB_MGR_CTRL ||| E.ROC_ML_JOB_MGR_CTRL_STALL_ON_IDLE) ∧
    (cn10ka_finish E w).regs ml_reg.ML_CFG =
      ((w.regs ml_reg.ML_CFG &&& not64 E.ROC_ML_CFG_MLIP_CLK_FORCE ||| E.ROC_ML_CFG_ENA) &&&
        not64 E.ROC_ML_CFG_ENA) ∧
    (cn10ka_finish E w).regs ml_reg.ML_SCRATCH_WORK_PTR = 0 ∧
    (cn10ka_finish E w).regs ml_reg.ML_SCRATCH_FW_CTRL = 0 ∧
    (∀ j, j < E.ML_ANBX_NR →
      (cn10ka_finish E w).regs (ml_reg.ML_ANBX_NCBI_P_OVR j) =
        (w.regs (ml_reg.ML_ANBX_NCBI_P_OVR j) |||
          (E.ML_ANBX_NCBI_P_OVR_ANB_NCBI_P_RO_OVR |||
            E.ML_ANBX_NCBI_P_OVR_ANB_NCBI_P_RO_OVR_VLD))) := by
  refine ⟨?_, ?_, ?_, ?_, fun j hj => ?_⟩
  · rw [cn10ka_finish, ncbi_ro_ovr_loop_regs E _ _ _ _ (by simp)]
    simp [cn10ka_steps_13_15, Function.update_apply]
  · rw [cn10ka_finish, ncbi_ro_ovr_loop_regs E _ _ _ _ (by simp)]
    simp [cn10ka_steps_13_15, Function.update_apply]
  · rw [cn10ka_finish, ncbi_ro_ovr_loop_regs E _ _ _ _ (by simp)]
    simp [cn10ka_steps_13_15, Function.update_apply]
  · rw [cn10ka_finish, ncbi_ro_ovr_loop_regs E _ _ _ _ (by simp)]
    simp [cn10ka_steps_13_15, Function.update_apply]
  · rw [cn10ka_finish, ncbi_ro_ovr_loop_regs_in E _ 0 _ j (Nat.zero_le j) (by omega)]
    simp [cn10ka_steps_13_15, Function.update_apply]

/-- The registers the failure path leaves alone. -/
theorem asim_failure_regs (E : ml_env) (t : Bool) (w : ml_world) :
    (asim_failure E t w).2.regs ml_reg.ML_JOB_MGR_CTRL = w.regs ml_reg.ML_JOB_MGR_CTRL ∧
    (∀ j, (asim_failure E t w).2.regs (ml_reg.ML_ANBX_NCBI_P_OVR j) =
      w.regs (ml_reg.ML_ANBX_NCBI_P_OVR j)) := by
  cases t <;> simp [asim_failure, Function.update_apply]

/-! ## The whole trace of the real-hardware variant -/

theorem anb_not_memcpy (e : hw_event) (h : is_anb_write e = true) :
    (!is_memcpy e) = true := by
  cases e with
  | reg_write64 v r => rfl
  | _ => exact Bool.noConfusion h

theorem not_milestone_not_memcpy (e : hw_event) (h : (!is_milestone e) = true) :
    (!is_memcpy e) = true := by
  cases e <;> first | rfl | exact Bool.noConfusion h

/-- The offset of step (10) does not depend on the place of the ML region:
with `ML_MLR_BASE` holding `fw->data - baseaddr` it is `baseaddr + 0x80000`
in `uint64_t`. -/
theorem rst_vector_offset (data base : Nat) :
    add64 data (sub64 FW_LINKER_OFFSET (sub64 data base)) = (base + 0x80000) % 2 ^ 64 := by
  simp only [add64, sub64, FW_LINKER_OFFSET]
  omega

/-- The actions of a run of the real-hardware variant that returns, with the
value of the reset-vector registers computed from the base address. -/
theorem cn10ka_trace (E : ml_env) (fuel : Nat) (b : Option (List Nat)) (size : Nat)
    (w : ml_world) (ret : Int) (w' : ml_world)
    (h : cn10k_ml_fw_load_cn10ka E fuel b size w = some (ret, w')) :
    ∃ l tail x y,
      l.all is_anb_write = true ∧ tail.all (fun e => !is_milestone e) = true ∧
      w'.trace = w.trace ++
        [hw_event.reg_write64 0 ml_reg.ML_SCRATCH_DBG_BUFFER_HEAD_C0,
         hw_event.reg_write64 0 ml_reg.ML_SCRATCH_DBG_BUFFER_TAIL_C0,
         hw_event.reg_write64 0 ml_reg.ML_SCRATCH_DBG_BUFFER_HEAD_C1,
         hw_event.reg_write64 0 ml_reg.ML_SCRATCH_DBG_BUFFER_TAIL_C1,
         hw_event.reg_write64 0 ml_reg.ML_SCRATCH_EXCEPTION_SP_C0,
         hw_event.reg_write64 0 ml_reg.ML_SCRATCH_EXCEPTION_SP_C1] ++
        [hw_event.memcpy (w.mldev.fw.data + FW_LINKER_OFFSET) size] ++
        ([hw_event.reg_write64 (sub64 w.mldev.fw.data E.rte_eal_get_baseaddr)
            ml_reg.ML_MLR_BASE,
          hw_event.reg_save ml_reg.ML_MLR_BASE,
          hw_event.reg_write64 (E.ROC_ML_AXI_BRIDGE_CTRL_AXI_RESP_CTRL |||
            E.ROC_ML_AXI_BRIDGE_CTRL_BRIDGE_CTRL_MODE ||| E.ROC_ML_AXI_BRIDGE_CTRL_NCB_WR_BLK |||
            E.ROC_ML_AXI_BRIDGE_CTRL_FORCE_WRESP_OK ||| E.ROC_ML_AXI_BRIDGE_CTRL_FORCE_RRESP_OK)
            (ml_reg.ML_AXI_BRIDGE_CTRL 1)] ++ l ++
         [hw_event.reg_write64 x ml_reg.ML_CFG,
          hw_event.reg_write64 y ml_reg.ML_JOB_MGR_CTRL,
          hw_event.reg_write64 ((x ||| E.ROC_ML_CFG_MLIP_ENA) &&& not64 E.ROC_ML_CFG_ENA)
            ml_reg.ML_CFG,
          hw_event.delay_us FW_WAIT_CYCLES]) ++
        [hw_event.reg_write32
           ((((E.rte_eal_get_baseaddr + 0x80000) % 2 ^ 64 + E.ML_AXI_START_ADDR) % 2 ^ 64 / 4)
             % 2 ^ 32) (ml_reg.ML_A35_0_RST_VECTOR_BASE_W 0),
         hw_event.reg_write32
           ((((E.rte_eal_get_baseaddr + 0x80000) % 2 ^ 64 + E.ML_AXI_START_ADDR) % 2 ^ 64 / 4)
             / 2 ^ 32 % 2 ^ 32) (ml_reg.ML_A35_0_RST_VECTOR_BASE_W 1),
         hw_event.reg_write32
           ((((E.rte_eal_get_baseaddr + 0x80000) % 2 ^ 64 + E.ML_AXI_START_ADDR) % 2 ^ 64 / 4)
             % 2 ^ 32) (ml_reg.ML_A35_1_RST_VECTOR_BASE_W 0),
         hw_event.reg_write32
           ((((E.rte_eal_get_baseaddr + 0x80000) % 2 ^ 64 + E.ML_AXI_START_ADDR) % 2 ^ 64 / 4)
             / 2 ^ 32 % 2 ^ 32) (ml_reg.ML_A35_1_RST_VECTOR_BASE_W 1)] ++
        (hw_event.reg_write32
           ((w.regs ml_reg.ML_SW_RST_CTRL % 2 ^ 32 &&& not64 E.ROC_ML_SW_RST_CTRL_ACC_RST)
             % 2 ^ 32) ml_reg.ML_SW_RST_CTRL ::
         hw_event.wmb ::
         hw_event.scratch_enqueue (w.mldev.fw.req + E.offsetof_jd) ::
         hw_event.rmb :: tail) := by
  obtain ⟨t, wp, hh, hc⟩ := cn10ka_load_cases E fuel b size w ret w' h
  obtain ⟨l, hl, ht, _, _, _, hmd⟩ := cn10ka_steps_1_5_spec E size w
  obtain ⟨hr1, hr2, hr3, hr4, _⟩ := cn10ka_steps_1_5_regs E size w
  obtain ⟨x, y, a, hs, hx, hy, ha, _⟩ := cn10ka_steps_6_11_spec E (cn10ka_steps_1_5 E size w)
  obtain ⟨_, _, _, _, s5, _⟩ := asim_handshake_spec E fuel _ t wp hh
  rw [hmd, hr1, rst_vector_offset] at ha
  rw [hr4] at hy
  have ha' : a = ((E.rte_eal_get_baseaddr + 0x80000) % 2 ^ 64 + E.ML_AXI_START_ADDR) % 2 ^ 64
      / 4 := ha
  subst ha'
  subst hy
  rw [(cn10ka_steps_1_3_spec E size w).1] at ht
  rw [(cn10ka_prepare_fields E size w).2.2.2, cn10ka_prepare, hs, ht] at s5
  have htail : ∃ tail, w'.trace = wp.trace ++ tail ∧
      tail.all (fun e => !is_milestone e) = true := by
    rcases hc with ⟨_, _, _, hw⟩ | ⟨_, _, hw⟩
    · obtain ⟨x', l', hl', f1, _⟩ := cn10ka_finish_spec E wp
      rw [← hw] at f1
      refine ⟨[hw_event.reg_write64 (wp.regs ml_reg.ML_JOB_MGR_CTRL |||
           E.ROC_ML_JOB_MGR_CTRL_STALL_ON_IDLE) ml_reg.ML_JOB_MGR_CTRL,
         hw_event.reg_write64 (wp.regs ml_reg.ML_CFG &&& not64 E.ROC_ML_CFG_MLIP_CLK_FORCE)
           ml_reg.ML_CFG,
         hw_event.reg_write64 (wp.regs ml_reg.ML_CFG &&& not64 E.ROC_ML_CFG_MLIP_CLK_FORCE |||
           E.ROC_ML_CFG_ENA) ml_reg.ML_CFG,
         hw_event.reg_write64 0 ml_reg.ML_SCRATCH_FW_CTRL,
         hw_event.reg_write64 0 ml_reg.ML_SCRATCH_WORK_PTR,
         hw_event.reg_write64 (x' &&& not64 E.ROC_ML_CFG_ENA) ml_reg.ML_CFG] ++ l', ?_, ?_⟩
      · rw [f1, List.append_assoc]
      · rw [List.all_append, all_imp _ _ l' anb_not_milestone hl']
        rfl
    · obtain ⟨_, g2, _⟩ := asim_failure_spec E t wp
      rw [← hw] at g2
      exact ⟨_, g2, rfl⟩
  obtain ⟨tail, ht1, ht2⟩ := htail
  refine ⟨l, tail, (cn10ka_steps_1_5 E size w).regs ml_reg.ML_CFG ||| E.ROC_ML_CFG_MLIP_CLK_FORCE,
    (cn10ka_steps_1_5 E size w).regs ml_reg.ML_JOB_MGR_CTRL &&&
      not64 E.ROC_ML_JOB_MGR_CTRL_STALL_ON_IDLE, hl, ht2, ?_⟩
  rw [ht1, s5, hx]
  simp only [List.append_assoc, List.cons_append, List.nil_append, List.singleton_append]

/-! ## The real-hardware variant in detail: C21, C22, C23 -/

/-- A mask that is set with `|= m` is set. -/
theorem or_and_self (x m : Nat) : (x ||| m) &&& m = m := by
  apply Nat.eq_of_testBit_eq
  intro i
  simp only [Nat.testBit_and, Nat.testBit_or]
  cases x.testBit i <;> cases m.testBit i <;> rfl

theorem or_and_left (x m : Nat) : (x ||| m) &&& x = x := by
  apply Nat.eq_of_testBit_eq
  intro i
  simp only [Nat.testBit_and, Nat.testBit_or]
  cases x.testBit i <;> cases m.testBit i <;> rfl

/-- The bits of `ML_CFG` after steps (6), (8), (14), (15) and the last write
that disables job execution. -/
theorem cfg_final_bits (c clk mlip ena : Nat) :
    (clk < 2 ^ 64 →
      ((((c ||| clk ||| mlip) &&& not64 ena) &&& not64 clk ||| ena) &&& not64 ena) &&& clk
        = 0) ∧
    (mlip < 2 ^ 64 → mlip &&& ena = 0 → mlip &&& clk = 0 →
      ((((c ||| clk ||| mlip) &&& not64 ena) &&& not64 clk ||| ena) &&& not64 ena) &&& mlip
        = mlip) := by
  constructor
  · intro hclk
    apply Nat.eq_of_testBit_eq
    intro i
    simp only [Nat.testBit_and, Nat.testBit_or, Nat.zero_testBit]
    by_cases hi : i < 64
    · rw [testBit_not64 ena i hi, testBit_not64 clk i hi]
      cases c.testBit i <;> cases clk.testBit i <;> cases mlip.testBit i <;>
        cases ena.testBit i <;> rfl
    · rw [testBit_of_lt_two_pow_64 clk i hclk (Nat.le_of_not_lt hi)]
      simp
  · intro hm hme hmc
    apply Nat.eq_of_testBit_eq
    intro i
    have h1 := congrArg (fun n => n.testBit i) hme
    have h2 := congrArg (fun n => n.testBit i) hmc
    simp only [Nat.testBit_and, Nat.zero_testBit] at h1 h2
    simp only [Nat.testBit_and, Nat.testBit_or]
    by_cases hi : i < 64
    · rw [testBit_not64 ena i hi, testBit_not64 clk i hi]
      cases hc : c.testBit i <;> cases hk : clk.testBit i <;> cases hmm : mlip.testBit i <;>
        cases he : ena.testBit i <;> simp_all
    · rw [testBit_of_lt_two_pow_64 mlip i hm (Nat.le_of_not_lt hi)]
      simp

/-- C21. Take a run of `cn10k_ml_fw_load_cn10ka` that returns, over a
register file in which a read returns the last value written (the enqueue
through the scratch mailbox changes no register but the two scratch
registers) and with MLIP_CLK_FORCE, ENA and MLIP_ENA masks of the 64-bit
register of which MLIP_ENA shares no bit with the other two. When the run
returns 0: `ML_JOB_MGR_CTRL` holds what step (7) wrote with STALL_ON_IDLE set
again; `ML_CFG` has MLIP_CLK_FORCE and ENA clear and MLIP_ENA set; the two
scratch registers hold 0; and for every unit `j` below `ML_ANBX_NR` the
register `ML_ANBX_NCBI_P_OVR(j)` holds the non-secure bits of step (5)
together with the relaxed-ordering bits. When the run returns a nonzero
value none of these writes was made: after the read barrier of the handshake
the only actions are the three writes of the failure path,
`ML_JOB_MGR_CTRL` still holds what step (7) wrote, and
`ML_ANBX_NCBI_P_OVR(j)` what step (5) wrote. -/
theorem cn10ka_success_registers (E : ml_env) (fuel : Nat) (b : Option (List Nat))
    (size : Nat) (w : ml_world) (ret : Int) (w' : ml_world)
    (h : cn10k_ml_fw_load_cn10ka E fuel b size w = some (ret, w'))
    (henq : ∀ p regs q, q ≠ ml_reg.ML_SCRATCH_WORK_PTR → q ≠ ml_reg.ML_SCRATCH_FW_CTRL →
      E.scratch_enqueue_regs p regs q = regs q)
    (hclk : E.ROC_ML_CFG_MLIP_CLK_FORCE < 2 ^ 64) (hena : E.ROC_ML_CFG_ENA < 2 ^ 64)
    (hmlip : E.ROC_ML_CFG_MLIP_ENA < 2 ^ 64)
    (hme : E.ROC_ML_CFG_MLIP_ENA &&& E.ROC_ML_CFG_ENA = 0)
    (hmc : E.ROC_ML_CFG_MLIP_ENA &&& E.ROC_ML_CFG_MLIP_CLK_FORCE = 0) :
    (ret = 0 →
      w'.regs ml_reg.ML_JOB_MGR_CTRL =
        (w.regs ml_reg.ML_JOB_MGR_CTRL &&& not64 E.ROC_ML_JOB_MGR_CTRL_STALL_ON_IDLE |||
          E.ROC_ML_JOB_MGR_CTRL_STALL_ON_IDLE) ∧
      w'.regs ml_reg.ML_JOB_MGR_CTRL &&& E.ROC_ML_JOB_MGR_CTRL_STALL_ON_IDLE =
        E.ROC_ML_JOB_MGR_CTRL_STALL_ON_IDLE ∧
      w'.regs ml_reg.ML_CFG &&& E.ROC_ML_CFG_MLIP_CLK_FORCE = 0 ∧
      w'.regs ml_reg.ML_CFG &&& E.ROC_ML_CFG_ENA = 0 ∧
      w'.regs ml_reg.ML_CFG &&& E.ROC_ML_CFG_MLIP_ENA = E.ROC_ML_CFG_MLIP_ENA ∧
      w'.regs ml_reg.ML_SCRATCH_WORK_PTR = 0 ∧
      w'.regs ml_reg.ML_SCRATCH_FW_CTRL = 0 ∧
      ∀ j, j < E.ML_ANBX_NR →
        w'.regs (ml_reg.ML_ANBX_NCBI_P_OVR j) =
          (E.ML_ANBX_NCBI_P_OVR_ANB_NCBI_P_NS_OVR |||
            E.ML_ANBX_NCBI_P_OVR_ANB_NCBI_P_NS_OVR_VLD |||
            (E.ML_ANBX_NCBI_P_OVR_ANB_NCBI_P_RO_OVR |||
              E.ML_ANBX_NCBI_P_OVR_ANB_NCBI_P_RO_OVR_VLD)) ∧
        w'.regs (ml_reg.ML_ANBX_NCBI_P_OVR j) &&&
            (E.ML_ANBX_NCBI_P_OVR_ANB_NCBI_P_NS_OVR |||
              E.ML_ANBX_NCBI_P_OVR_ANB_NCBI_P_NS_OVR_VLD) =
          (E.ML_ANBX_NCBI_P_OVR_ANB_NCBI_P_NS_OVR |||
            E.ML_ANBX_NCBI_P_OVR_ANB_NCBI_P_NS_OVR_VLD) ∧
        w'.regs (ml_reg.ML_ANBX_NCBI_P_OVR j) &&&
            (E.ML_ANBX_NCBI_P_OVR_ANB_NCBI_P_RO_OVR |||
              E.ML_ANBX_NCBI_P_OVR_ANB_NCBI_P_RO_OVR_VLD) =
          (E.ML_ANBX_NCBI_P_OVR_ANB_NCBI_P_RO_OVR |||
            E.ML_ANBX_NCBI_P_OVR_ANB_NCBI_P_RO_OVR_VLD)) ∧
    (ret ≠ 0 →
      w'.regs ml_reg.ML_JOB_MGR_CTRL =
        (w.regs ml_reg.ML_JOB_MGR_CTRL &&& not64 E.ROC_ML_JOB_MGR_CTRL_STALL_ON_IDLE) ∧
      (E.ROC_ML_JOB_MGR_CTRL_STALL_ON_IDLE < 2 ^ 64 →
        w'.regs ml_reg.ML_JOB_MGR_CTRL &&& E.ROC_ML_JOB_MGR_CTRL_STALL_ON_IDLE = 0) ∧
      w'.regs ml_reg.ML_CFG = (E.ROC_ML_CFG_JD_SIZE ||| E.ROC_ML_CFG_MLIP_ENA) ∧
      (∀ j, j < E.ML_ANBX_NR →
        w'.regs (ml_reg.ML_ANBX_NCBI_P_OVR j) =
          (E.ML_ANBX_NCBI_P_OVR_ANB_NCBI_P_NS_OVR |||
            E.ML_ANBX_NCBI_P_OVR_ANB_NCBI_P_NS_OVR_VLD)) ∧
      ∃ tr, w'.trace = tr ++
        [hw_event.rmb,
         hw_event.reg_write64 (E.ROC_ML_CFG_JD_SIZE ||| E.ROC_ML_CFG_MLIP_ENA) ml_reg.ML_CFG,
         hw_event.reg_write64 0 ml_reg.ML_SCRATCH_WORK_PTR,
         hw_event.reg_write64 0 ml_reg.ML_SCRATCH_FW_CTRL]) := by
  obtain ⟨t, wp, hh, hc⟩ := cn10ka_load_cases E fuel b size w ret w' h
  obtain ⟨_, _, _, s4, s5, _⟩ := asim_handshake_spec E fuel _ t wp hh
  obtain ⟨_, a2, a3, _, a5⟩ := cn10ka_steps_1_5_regs E size w
  obtain ⟨b1, b2, b3⟩ := cn10ka_steps_6_11_regs E (cn10ka_steps_1_5 E size w)
  have hcfg : wp.regs ml_reg.ML_CFG =
      ((w.regs ml_reg.ML_CFG ||| E.ROC_ML_CFG_MLIP_CLK_FORCE ||| E.ROC_ML_CFG_MLIP_ENA) &&&
        not64 E.ROC_ML_CFG_ENA) := by
    rw [s4, henq _ _ _ (by simp) (by simp), cn10ka_prepare, b1, a2]
  have hjm : wp.regs ml_reg.ML_JOB_MGR_CTRL =
      (w.regs ml_reg.ML_JOB_MGR_CTRL &&& not64 E.ROC_ML_JOB_MGR_CTRL_STALL_ON_IDLE) := by
    rw [s4, henq _ _ _ (by simp) (by simp), cn10ka_prepare, b2, a3]
  have hp : ∀ j, j < E.ML_ANBX_NR → wp.regs (ml_reg.ML_ANBX_NCBI_P_OVR j) =
      (E.ML_ANBX_NCBI_P_OVR_ANB_NCBI_P_NS_OVR |||
        E.ML_ANBX_NCBI_P_OVR_ANB_NCBI_P_NS_OVR_VLD) := by
    intro j hj
    rw [s4, henq _ _ _ (by simp) (by simp), cn10ka_prepare, b3, a5 j hj]
  constructor
  · intro h0
    rcases hc with ⟨_, _, _, hw⟩ | ⟨_, hr, _⟩
    · obtain ⟨f1, f2, f3, f4, f5⟩ := cn10ka_finish_regs E wp
      rw [← hw, hjm] at f1
      rw [← hw, hcfg] at f2
      rw [← hw] at f3 f4 f5
      have hbits := cfg_final_bits (w.regs ml_reg.ML_CFG) E.ROC_ML_CFG_MLIP_CLK_FORCE
        E.ROC_ML_CFG_MLIP_ENA E.ROC_ML_CFG_ENA
      refine ⟨f1, by rw [f1]; exact or_and_self _ _, by rw [f2]; exact hbits.1 hclk,
        by rw [f2]; exact and_not64_and_self _ _ hena, by rw [f2]; exact hbits.2 hmlip hme hmc,
        f3, f4, fun j hj => ?_⟩
      have hv := f5 j hj
      rw [hp j hj] at hv
      exact ⟨hv, by rw [hv]; exact or_and_left _ _, by rw [hv]; exact or_and_self _ _⟩
    · rw [h0] at hr
      cases t <;> exact absurd hr (by decide)
  · intro hne
    rcases hc with ⟨_, _, h0, _⟩ | ⟨_, _, hw⟩
    · exact absurd h0 hne
    · obtain ⟨_, g2, g3, _⟩ := asim_failure_spec E t wp
      obtain ⟨g5, g6⟩ := asim_failure_regs E t wp
      rw [← hw] at g2 g3 g5 g6
      refine ⟨by rw [g5, hjm], fun hst => by rw [g5, hjm]; exact and_not64_and_self _ _ hst,
        g3, fun j hj => by rw [g6, hp j hj], ?_⟩
      refine ⟨(cn10ka_prepare E size w).trace ++ [hw_event.wmb,
        hw_event.scratch_enqueue ((cn10ka_prepare E size w).mldev.fw.req + E.offsetof_jd)], ?_⟩
      rw [g2, s5]
      simp only [List.append_assoc, List.cons_append, List.nil_append, List.singleton_append]

/-- C21 on the real-hardware sample platform, whose run returns 0: `ML_CFG`
ends with ENA clear and MLIP_ENA set, and the posted-override register of
unit 0 holds the non-secure bits and the relaxed-ordering bits. -/
theorem cn10ka_success_registers_witness :
    sample_cn10ka_result.2.regs ml_reg.ML_CFG &&& sample_env_hw.ROC_ML_CFG_ENA = 0 ∧
    sample_cn10ka_result.2.regs ml_reg.ML_CFG &&& sample_env_hw.ROC_ML_CFG_MLIP_ENA =
      sample_env_hw.ROC_ML_CFG_MLIP_ENA ∧
    sample_cn10ka_result.2.regs (ml_reg.ML_ANBX_NCBI_P_OVR 0) =
      (BIT 13 ||| BIT 12 ||| (BIT 17 ||| BIT 16)) :=
  have h := (cn10ka_success_registers sample_env_hw 1 (some [0, 1, 2, 3]) 4 sample_world
    sample_cn10ka_result.1 sample_cn10ka_result.2 rfl (fun _ _ _ _ _ => rfl)
    (by decide) (by decide) (by decide) (by decide) (by decide)).1 rfl
  ⟨h.2.2.2.1, h.2.2.2.2.1, (h.2.2.2.2.2.2.2 0 (by decide)).1⟩

theorem append_regroup (t d m mid four post : List hw_event) :
    t ++ d ++ m ++ mid ++ four ++ post = t ++ (d ++ m ++ mid) ++ four ++ post := by
  simp only [List.append_assoc]

/-- C22. Take a call of `cn10k_ml_fw_load` on the real-hardware or emulator
path whose set-up succeeded and whose load step returned, with a firmware
size for which the sum `sizeof(struct cn10k_ml_req) + fw_size + 0x80400` is
below `2^64`. The reserved memzone has that length. The load step copies the
image once: to the address of the memzone plus
`sizeof(struct cn10k_ml_req) + 0x80000`, with length `fw_size`. The copy
starts inside the memzone and its end is `0x400` bytes before the end of the
memzone. -/
theorem fw_copy_in_bounds (E : ml_env) (fuel : Nat) (w : ml_world) (r : fw_load_ready)
    (ret : Int) (ws : ml_world)
    (hsetup : fw_load_setup E w = Except.ok r)
    (hA : (E.roc_env_is_emulator || E.roc_env_is_hw) = true)
    (hrun : fw_load_run E fuel r = some (ret, ws))
    (hsum : E.sizeof_cn10k_ml_req + r.fw_size + 0x80400 < 2 ^ 64) :
    r.mz.len = E.sizeof_cn10k_ml_req + r.fw_size + 0x80400 ∧
    (∃ pre post, ws.trace = r.world.trace ++ pre ++
        [hw_event.memcpy (r.mz.addr + E.sizeof_cn10k_ml_req + 0x80000) r.fw_size] ++ post ∧
      pre.all (fun e => !is_memcpy e) = true ∧ post.all (fun e => !is_memcpy e) = true) ∧
    r.mz.addr ≤ r.mz.addr + E.sizeof_cn10k_ml_req + 0x80000 ∧
    r.mz.addr + E.sizeof_cn10k_ml_req + 0x80000 + r.fw_size + 0x400 = r.mz.addr + r.mz.len ∧
    r.mz.addr + E.sizeof_cn10k_ml_req + 0x80000 + r.fw_size ≤ r.mz.addr + r.mz.len := by
  have hlen : r.mz.len = E.sizeof_cn10k_ml_req + r.fw_size + 0x80400 := by
    have hs := fw_load_setup_eq E w
    rw [hsetup, if_pos hA] at hs
    by_cases hr : (E.rte_firmware_read w.mldev.fw.path).ret < 0
    · rw [if_pos hr] at hs
      exact absurd hs (by simp)
    · rw [if_neg hr, mz_size_eq] at hs
      obtain ⟨k1, _, k3, _⟩ := (fw_load_reserve_spec E _ _ _ _).2 r hs.symm
      rw [k1, ← k3]
      exact Nat.mod_eq_of_lt hsum
  refine ⟨hlen, ?_, by omega, by rw [hlen]; omega, by rw [hlen]; omega⟩
  simp only [fw_load_run, hA, if_true] at hrun
  split at hrun
  · simp at hrun
  · rename_i ret' w' hc
    obtain ⟨l, tail, x, y, hl, htl, htr⟩ := cn10ka_trace E fuel r.fw_buffer r.fw_size _ ret' w' hc
    simp only [Option.some.injEq, Prod.mk.injEq] at hrun
    have hpost : ∀ extra : List hw_event, extra.all (fun e => !is_memcpy e) = true →
        (([hw_event.reg_write64 (sub64 (r.mz.addr + E.sizeof_cn10k_ml_req)
              E.rte_eal_get_baseaddr) ml_reg.ML_MLR_BASE,
            hw_event.reg_save ml_reg.ML_MLR_BASE,
            hw_event.reg_write64 (E.ROC_ML_AXI_BRIDGE_CTRL_AXI_RESP_CTRL |||
              E.ROC_ML_AXI_BRIDGE_CTRL_BRIDGE_CTRL_MODE |||
              E.ROC_ML_AXI_BRIDGE_CTRL_NCB_WR_BLK |||
              E.ROC_ML_AXI_BRIDGE_CTRL_FORCE_WRESP_OK |||
              E.ROC_ML_AXI_BRIDGE_CTRL_FORCE_RRESP_OK)
              (ml_reg.ML_AXI_BRIDGE_CTRL 1)] ++ l ++
           [hw_event.reg_write64 x ml_reg.ML_CFG,
            hw_event.reg_write64 y ml_reg.ML_JOB_MGR_CTRL,
            hw_event.reg_write64 ((x ||| E.ROC_ML_CFG_MLIP_ENA) &&& not64 E.ROC_ML_CFG_ENA)
              ml_reg.ML_CFG,
            hw_event.delay_us FW_WAIT_CYCLES]) ++
          [hw_event.reg_write32
             ((((E.rte_eal_get_baseaddr + 0x80000) % 2 ^ 64 + E.ML_AXI_START_ADDR) % 2 ^ 64
               / 4) % 2 ^ 32) (ml_reg.ML_A35_0_RST_VECTOR_BASE_W 0),
           hw_event.reg_write32
             ((((E.rte_eal_get_baseaddr + 0x80000) % 2 ^ 64 + E.ML_AXI_START_ADDR) % 2 ^ 64
               / 4) / 2 ^ 32 % 2 ^ 32) (ml_reg.ML_A35_0_RST_VECTOR_BASE_W 1),
           hw_event.reg_write32
             ((((E.rte_eal_get_baseaddr + 0x80000) % 2 ^ 64 + E.ML_AXI_START_ADDR) % 2 ^ 64
               / 4) % 2 ^ 32) (ml_reg.ML_A35_1_RST_VECTOR_BASE_W 0),
           hw_event.reg_write32
             ((((E.rte_eal_get_baseaddr + 0x80000) % 2 ^ 64 + E.ML_AXI_START_ADDR) % 2 ^ 64
               / 4) / 2 ^ 32 % 2 ^ 32) (ml_reg.ML_A35_1_RST_VECTOR_BASE_W 1)] ++
          (hw_event.reg_write32
             ((r.world.regs ml_reg.ML_SW_RST_CTRL % 2 ^ 32 &&&
               not64 E.ROC_ML_SW_RST_CTRL_ACC_RST) % 2 ^ 32) ml_reg.ML_SW_RST_CTRL ::
           hw_event.wmb ::
           hw_event.scratch_enqueue (r.world.mldev.fw.req + E.offsetof_jd) ::
           hw_event.rmb :: tail) ++ extra).all (fun e => !is_memcpy e) = true := by
      intro extra hex
      have h1 := all_imp _ (fun e => !is_memcpy e) l anb_not_memcpy hl
      have h2 := all_imp _ (fun e => !is_memcpy e) tail not_milestone_not_memcpy htl
      simp only [List.all_append, List.all_cons, List.all_nil, h1, h2, hex, Bool.and_true,
        Bool.true_and]
      rfl
    cases hb : r.fw_buffer.isSome
    · rw [hb] at hrun
      simp only [Bool.false_eq_true, if_false] at hrun
      rw [← hrun.2]
      refine ⟨[hw_event.reg_write64 0 ml_reg.ML_SCRATCH_DBG_BUFFER_HEAD_C0,
         hw_event.reg_write64 0 ml_reg.ML_SCRATCH_DBG_BUFFER_TAIL_C0,
         hw_event.reg_write64 0 ml_reg.ML_SCRATCH_DBG_BUFFER_HEAD_C1,
         hw_event.reg_write64 0 ml_reg.ML_SCRATCH_DBG_BUFFER_TAIL_C1,
         hw_event.reg_write64 0 ml_reg.ML_SCRATCH_EXCEPTION_SP_C0,
         hw_event.reg_write64 0 ml_reg.ML_SCRATCH_EXCEPTION_SP_C1],
        _, ?_, rfl, hpost [] rfl⟩
      rw [htr]
      simp only [FW_LINKER_OFFSET, List.append_assoc, List.cons_append, List.nil_append,
        List.singleton_append, List.append_nil]
    · rw [hb] at hrun
      simp only [if_true] at hrun
      rw [← hrun.2]
      refine ⟨[hw_event.reg_write64 0 ml_reg.ML_SCRATCH_DBG_BUFFER_HEAD_C0,
         hw_event.reg_write64 0 ml_reg.ML_SCRATCH_DBG_BUFFER_TAIL_C0,
         hw_event.reg_write64 0 ml_reg.ML_SCRATCH_DBG_BUFFER_HEAD_C1,
         hw_event.reg_write64 0 ml_reg.ML_SCRATCH_DBG_BUFFER_TAIL_C1,
         hw_event.reg_write64 0 ml_reg.ML_SCRATCH_EXCEPTION_SP_C0,
         hw_event.reg_write64 0 ml_reg.ML_SCRATCH_EXCEPTION_SP_C1],
        _, ?_, rfl, hpost [hw_event.free_fw_buffer] rfl⟩
      rw [log_event_trace, htr]
      simp only [FW_LINKER_OFFSET, List.append_assoc, List.cons_append, List.nil_append,
        List.singleton_append, List.append_nil]

/-- C22 on the real-hardware sample platform: the image of four bytes is
copied to offset `512 + 0x80000` of the memzone, which has
`512 + 4 + 0x80400` bytes. -/
theorem fw_copy_in_bounds_witness :
    sample_ready_hw.mz.len = 512 + 4 + 0x80400 ∧
    sample_ready_hw.mz.addr + 512 + 0x80000 + 4 + 0x400 =
      sample_ready_hw.mz.addr + sample_ready_hw.mz.len :=
  have h := fw_copy_in_bounds sample_env_hw 1 sample_world sample_ready_hw 0
    sample_after_run_hw rfl rfl rfl (by decide)
  ⟨h.1, h.2.2.2.1⟩

/-- C23. In every run of `cn10k_ml_fw_load_cn10ka` that returns, the offset
of step (10), `fw->data + (FW_LINKER_OFFSET - ML_MLR_BASE)` with `ML_MLR_BASE`
read back as the `fw->data - baseaddr` of step (2), is `baseaddr + 0x80000`
in `uint64_t`, whatever `fw->data` is. The value `a` written for core 0 and
for core 1 is the same, `(offset + ML_AXI_START_ADDR) / 4`: its low 32 bits go
to the half-register `W(0)` and its next 32 bits to `W(1)` of each core, and
the two halves make up `a`. The same holds for steps (6) to (11) from any
world in which `ML_MLR_BASE` holds `fw->data - baseaddr`. -/
theorem reset_vector_address (E : ml_env) (fuel : Nat) (b : Option (List Nat)) (size : Nat)
    (w : ml_world) (ret : Int) (w' : ml_world)
    (h : cn10k_ml_fw_load_cn10ka E fuel b size w = some (ret, w')) :
    (∀ data, add64 data (sub64 FW_LINKER_OFFSET (sub64 data E.rte_eal_get_baseaddr)) =
      (E.rte_eal_get_baseaddr + 0x80000) % 2 ^ 64) ∧
    ∃ a, a = ((E.rte_eal_get_baseaddr + 0x80000) % 2 ^ 64 + E.ML_AXI_START_ADDR) % 2 ^ 64 / 4 ∧
      a % 2 ^ 32 + 2 ^ 32 * (a / 2 ^ 32 % 2 ^ 32) = a ∧
      (∃ pre post, w'.trace = w.trace ++ pre ++
        [hw_event.reg_write32 (a % 2 ^ 32) (ml_reg.ML_A35_0_RST_VECTOR_BASE_W 0),
         hw_event.reg_write32 (a / 2 ^ 32 % 2 ^ 32) (ml_reg.ML_A35_0_RST_VECTOR_BASE_W 1),
         hw_event.reg_write32 (a % 2 ^ 32) (ml_reg.ML_A35_1_RST_VECTOR_BASE_W 0),
         hw_event.reg_write32 (a / 2 ^ 32 % 2 ^ 32) (ml_reg.ML_A35_1_RST_VECTOR_BASE_W 1)] ++
        post) ∧
      (∀ w0 : ml_world,
        w0.regs ml_reg.ML_MLR_BASE = sub64 w0.mldev.fw.data E.rte_eal_get_baseaddr →
        ∃ pre post, (cn10ka_steps_6_11 E w0).trace = w0.trace ++ pre ++
          [hw_event.reg_write32 (a % 2 ^ 32) (ml_reg.ML_A35_0_RST_VECTOR_BASE_W 0),
           hw_event.reg_write32 (a / 2 ^ 32 % 2 ^ 32) (ml_reg.ML_A35_0_RST_VECTOR_BASE_W 1),
           hw_event.reg_write32 (a % 2 ^ 32) (ml_reg.ML_A35_1_RST_VECTOR_BASE_W 0),
           hw_event.reg_write32 (a / 2 ^ 32 % 2 ^ 32) (ml_reg.ML_A35_1_RST_VECTOR_BASE_W 1)] ++
          post) := by
  refine ⟨fun data => rst_vector_offset data _, _, rfl, by omega, ?_, fun w0 h0 => ?_⟩
  · obtain ⟨l, tail, x, y, _, _, htr⟩ := cn10ka_trace E fuel b size w ret w' h
    exact ⟨_, _, htr.trans (append_regroup _ _ _ _ _ _)⟩
  · obtain ⟨x, y, a, hs, _, _, ha, _⟩ := cn10ka_steps_6_11_spec E w0
    rw [h0, rst_vector_offset] at ha
    have ha' : a = ((E.rte_eal_get_baseaddr + 0x80000) % 2 ^ 64 + E.ML_AXI_START_ADDR)
        % 2 ^ 64 / 4 := ha
    subst ha'
    refine ⟨[hw_event.reg_write64 (w0.regs ml_reg.ML_CFG ||| E.ROC_ML_CFG_MLIP_CLK_FORCE)
        ml_reg.ML_CFG,
      hw_event.reg_write64 (w0.regs ml_reg.ML_JOB_MGR_CTRL &&&
        not64 E.ROC_ML_JOB_MGR_CTRL_STALL_ON_IDLE) ml_reg.ML_JOB_MGR_CTRL,
      hw_event.reg_write64 ((x ||| E.ROC_ML_CFG_MLIP_ENA) &&& not64 E.ROC_ML_CFG_ENA)
        ml_reg.ML_CFG,
      hw_event.delay_us FW_WAIT_CYCLES],
      [hw_event.reg_write32 ((y &&& not64 E.ROC_ML_SW_RST_CTRL_ACC_RST) % 2 ^ 32)
        ml_reg.ML_SW_RST_CTRL], ?_⟩
    rw [hs]
    simp only [List.append_assoc, List.cons_append, List.nil_append, List.singleton_append]

/-- C23 on the real-hardware sample platform, with base address
`0x100000000` and AXI start address `0x800000000`: both cores get
`0x240020000`, as the halves `0x40020000` and `0x2`. -/
theorem reset_vector_address_witness :
    ∃ pre post, sample_cn10ka_result.2.trace = sample_world.trace ++ pre ++
      [hw_event.reg_write32 0x40020000 (ml_reg.ML_A35_0_RST_VECTOR_BASE_W 0),
       hw_event.reg_write32 0x2 (ml_reg.ML_A35_0_RST_VECTOR_BASE_W 1),
       hw_event.reg_write32 0x40020000 (ml_reg.ML_A35_1_RST_VECTOR_BASE_W 0),
       hw_event.reg_write32 0x2 (ml_reg.ML_A35_1_RST_VECTOR_BASE_W 1)] ++ post := by
  obtain ⟨_, a, ha, _, htr, _⟩ := reset_vector_address sample_env_hw 1 (some [0, 1, 2, 3]) 4
    sample_world sample_cn10ka_result.1 sample_cn10ka_result.2 rfl
  subst ha
  exact htr

end Cn10kMl
